import Mathlib

/-! Timer store (package `timers`, file `timers/timer_store.go`)

A shallow embedding of the persistent timer store: the bucketed time index,
the two-record (alarm + context) linkage, the row/column scan iterator and
the span bookkeeping, followed by theorems about them.

Conventions of the embedding.

* `int64` values are `Int`; every addition, subtraction and multiplication
  the Go code performs is wrapped with `wrap64` (two's complement, 64 bit).
  `uint64` statistics counters are `Nat` wrapped with `addUint64`.
* Go's `/` and `%` truncate toward zero: `Int.tdiv` and `Int.tmod`.
* `time.Now().Unix()` is an explicit argument of every operation reading it.
* Loops that Go writes with `for` carry a fuel argument; `none` means that
  the fuel ran out before the loop left.
* The KV client (`Pool(connstr)` and its `Must*` operations) and the
  RIPEMD-160 digest are not part of this file's source: the KV operations are
  modelled from the specification's table of the client interface, the digest
  is a parameter.
-/

namespace Timers

/-! ## Machine integers -/

/-- Smallest `int64`. -/
def MinInt64 : Int := -9223372036854775808

/-- Largest `int64`. -/
def MaxInt64 : Int := 9223372036854775807

/-- Two's complement wrap-around of a mathematical integer into `int64`. -/
def wrap64 (x : Int) : Int :=
  (x + 9223372036854775808) % 18446744073709551616 - 9223372036854775808

/-- The value is representable as an `int64`. -/
def InInt64 (x : Int) : Prop := MinInt64 ≤ x ∧ x ≤ MaxInt64

instance (x : Int) : Decidable (InInt64 x) := by
  unfold InInt64; exact inferInstance

/-- Wrapping `uint64` addition, as done by `atomic.AddUint64`. -/
def addUint64 (c : Nat) (delta : Nat) : Nat := (c + delta) % 18446744073709551616

/-! ## Constants -/

/-- Bucket width in seconds. -/
def Resolution : Int := 7

/-- First sequence number handed out in a bucket. -/
def init_seq : Int := 128

/-- Alphabet of the digest re-encoding. -/
def dict : List Char :=
  "ABCDEFGHIJKLMNOPQRSTUVWXYZabcdefghijklmnopqrstuvwxyz0123456789*&".toList

/-- Base of the time encoding inside keys. -/
def encode_base : Nat := 36

/-! ## Rounding to the bucket grid -/

/-- Translation of `roundUp`. -/
def roundUp (val : Int) : Int :=
  let q := Int.tdiv val Resolution
  let r := Int.tmod val Resolution
  let q := if r > 0 then wrap64 (q + 1) else q
  wrap64 (q * Resolution)

/-- Translation of `roundDown`. -/
def roundDown (val : Int) : Int :=
  let q := Int.tdiv val Resolution
  wrap64 (q * Resolution)

/-! ## Integer formatting (`strconv.FormatInt`, `%v` on integers) -/

/-- Digits used by `strconv.FormatInt`. -/
def digitChars : List Char := "0123456789abcdefghijklmnopqrstuvwxyz".toList

/-- The digit loop of `strconv.FormatInt`: least significant digit first,
written right to left in front of `acc`. -/
def formatBits : Nat → Nat → Nat → List Char → List Char
  | 0, _, _, acc => acc
  | fuel + 1, base, u, acc =>
    if u < base then digitChars.getD u '0' :: acc
    else formatBits fuel base (u / base) (digitChars.getD (u % base) '0' :: acc)

/-- Model of `strconv.FormatInt i base`: an optional minus sign followed by
the digits of the magnitude. -/
def FormatInt (i : Int) (base : Nat) : String :=
  if i < 0 then String.mk ('-' :: formatBits (i.natAbs + 1) base i.natAbs [])
  else String.mk (formatBits (i.natAbs + 1) base i.natAbs [])

/-- Translation of `formatInt`. -/
def formatInt (tm : Int) : String := FormatInt tm encode_base

/-! ## Digest re-encoding -/

/-- The RIPEMD-160 digest of a string, as a list of byte values. It comes
from `golang.org/x/crypto/ripemd160` and is a parameter of the embedding. -/
abbrev Digest := String → List Nat

/-- One pass of the bit loop of `hash` at bit position `pos`: the state is
the output buffer and the symbol under construction. -/
def hashStep (sum : List Nat) (st : List Char × Nat) (pos : Nat) : List Char × Nat :=
  let bit := ((sum.getD (pos / 8) 0) >>> (pos % 8)) &&& 1
  let char := ((st.2 <<< 1) % 256) ||| bit
  if pos % 6 = 5 then (st.1.set (pos / 6) (dict.getD char 'A'), 0)
  else (st.1, char)

/-- Translation of `hash`, over the digest function `ripemd160`. -/
def hash (ripemd160 : Digest) (val : String) : String :=
  let sum := ripemd160 val
  let st := (List.range 160).foldl (hashStep sum) (List.replicate 27 (Char.ofNat 0), 0)
  String.mk (st.1.set 26 (dict.getD st.2 'A'))

/-! ## Records -/

/-- CAS token of the KV store (`gocb.Cas`). -/
abbrev Cas := Nat

/-- Go struct `AlarmRecord`. -/
structure AlarmRecord where
  AlarmDue : Int
  ContextRef : String
  deriving DecidableEq, Repr

/-- Go struct `ContextRecord`; the opaque user context is its JSON text. -/
structure ContextRecord where
  Context : String
  AlarmRef : String
  deriving DecidableEq, Repr

/-- Go struct `TimerEntry`. -/
structure TimerEntry extends AlarmRecord, ContextRecord where
  alarmSeq : Int
  ctxCas : Cas
  topCas : Cas
  deriving DecidableEq, Repr

/-- Go struct `rowIter`. -/
structure rowIter where
  start : Int
  stop : Int
  current : Int
  deriving DecidableEq, Repr

/-- Go struct `colIter`. -/
structure colIter where
  stop : Int
  current : Int
  topCas : Cas
  deriving DecidableEq, Repr

/-- Go struct `Span`. -/
structure Span where
  Start : Int
  Stop : Int
  deriving DecidableEq, Repr

/-- Go struct `storeSpan` (the mutex is not modelled). -/
structure storeSpan extends Span where
  empty : Bool
  dirty : Bool
  spanCas : Cas
  deriving DecidableEq, Repr

/-- Go struct `timerStats`. -/
structure timerStats where
  cancelCounter : Nat := 0
  cancelSuccessCounter : Nat := 0
  delCounter : Nat := 0
  delSuccessCounter : Nat := 0
  setCounter : Nat := 0
  setSuccessCounter : Nat := 0
  timerInPastCounter : Nat := 0
  timerInFutureFiredCounter : Nat := 0
  alarmMissingCounter : Nat := 0
  contextMissingCounter : Nat := 0
  cancelAlarmMissingCounter : Nat := 0
  cancelContextMissingCounter : Nat := 0
  scanDueCounter : Nat := 0
  scanRowCounter : Nat := 0
  scanRowLookupCounter : Nat := 0
  scanColumnCounter : Nat := 0
  scanColumnLookupCounter : Nat := 0
  syncSpanCounter : Nat := 0
  externalSpanChangeCounter : Nat := 0
  spanStartChangeCounter : Nat := 0
  spanStopChangeCounter : Nat := 0
  spanCasMismatchCounter : Nat := 0
  deriving DecidableEq, Repr

/-- Go struct `TimerStore` (the `log` prefix, used only for logging, is left out). -/
structure TimerStore where
  connstr : String
  bucket : String
  uid : String
  partn : Int
  span : storeSpan
  stats : timerStats
  deriving DecidableEq, Repr

/-- Go struct `TimerIter`; the `store` pointer is passed alongside the
iterator by every operation. -/
structure TimerIter where
  row : rowIter
  col : Option colIter
  entry : Option TimerEntry
  deriving DecidableEq, Repr

/-! ## Statistics counters -/

/-- The statistics after `atomic.AddUint64(&stats.cancelCounter, 1)`. -/
def timerStats.addCancelCounter (s : timerStats) : timerStats :=
  { s with cancelCounter := addUint64 s.cancelCounter 1 }

/-- The statistics after `atomic.AddUint64(&stats.cancelSuccessCounter, 1)`. -/
def timerStats.addCancelSuccessCounter (s : timerStats) : timerStats :=
  { s with cancelSuccessCounter := addUint64 s.cancelSuccessCounter 1 }

/-- The statistics after `atomic.AddUint64(&stats.delCounter, 1)`. -/
def timerStats.addDelCounter (s : timerStats) : timerStats :=
  { s with delCounter := addUint64 s.delCounter 1 }

/-- The statistics after `atomic.AddUint64(&stats.delSuccessCounter, 1)`. -/
def timerStats.addDelSuccessCounter (s : timerStats) : timerStats :=
  { s with delSuccessCounter := addUint64 s.delSuccessCounter 1 }

/-- The statistics after `atomic.AddUint64(&stats.setCounter, 1)`. -/
def timerStats.addSetCounter (s : timerStats) : timerStats :=
  { s with setCounter := addUint64 s.setCounter 1 }

/-- The statistics after `atomic.AddUint64(&stats.setSuccessCounter, 1)`. -/
def timerStats.addSetSuccessCounter (s : timerStats) : timerStats :=
  { s with setSuccessCounter := addUint64 s.setSuccessCounter 1 }

/-- The statistics after `atomic.AddUint64(&stats.timerInPastCounter, 1)`. -/
def timerStats.addTimerInPastCounter (s : timerStats) : timerStats :=
  { s with timerInPastCounter := addUint64 s.timerInPastCounter 1 }

/-- The statistics after `atomic.AddUint64(&stats.timerInFutureFiredCounter, 1)`. -/
def timerStats.addTimerInFutureFiredCounter (s : timerStats) : timerStats :=
  { s with timerInFutureFiredCounter := addUint64 s.timerInFutureFiredCounter 1 }

/-- The statistics after `atomic.AddUint64(&stats.alarmMissingCounter, 1)`. -/
def timerStats.addAlarmMissingCounter (s : timerStats) : timerStats :=
  { s with alarmMissingCounter := addUint64 s.alarmMissingCounter 1 }

/-- The statistics after `atomic.AddUint64(&stats.contextMissingCounter, 1)`. -/
def timerStats.addContextMissingCounter (s : timerStats) : timerStats :=
  { s with contextMissingCounter := addUint64 s.contextMissingCounter 1 }

/-- The statistics after `atomic.AddUint64(&stats.cancelAlarmMissingCounter, 1)`. -/
def timerStats.addCancelAlarmMissingCounter (s : timerStats) : timerStats :=
  { s with cancelAlarmMissingCounter := addUint64 s.cancelAlarmMissingCounter 1 }

/-- The statistics after `atomic.AddUint64(&stats.cancelContextMissingCounter, 1)`. -/
def timerStats.addCancelContextMissingCounter (s : timerStats) : timerStats :=
  { s with cancelContextMissingCounter := addUint64 s.cancelContextMissingCounter 1 }

/-- The statistics after `atomic.AddUint64(&stats.scanDueCounter, 1)`. -/
def timerStats.addScanDueCounter (s : timerStats) : timerStats :=
  { s with scanDueCounter := addUint64 s.scanDueCounter 1 }

/-- The statistics after `atomic.AddUint64(&stats.scanRowCounter, 1)`. -/
def timerStats.addScanRowCounter (s : timerStats) : timerStats :=
  { s with scanRowCounter := addUint64 s.scanRowCounter 1 }

/-- The statistics after `atomic.AddUint64(&stats.scanRowLookupCounter, 1)`. -/
def timerStats.addScanRowLookupCounter (s : timerStats) : timerStats :=
  { s with scanRowLookupCounter := addUint64 s.scanRowLookupCounter 1 }

/-- The statistics after `atomic.AddUint64(&stats.scanColumnCounter, 1)`. -/
def timerStats.addScanColumnCounter (s : timerStats) : timerStats :=
  { s with scanColumnCounter := addUint64 s.scanColumnCounter 1 }

/-- The statistics after `atomic.AddUint64(&stats.scanColumnLookupCounter, 1)`. -/
def timerStats.addScanColumnLookupCounter (s : timerStats) : timerStats :=
  { s with scanColumnLookupCounter := addUint64 s.scanColumnLookupCounter 1 }

/-- The statistics after `atomic.AddUint64(&stats.syncSpanCounter, 1)`. -/
def timerStats.addSyncSpanCounter (s : timerStats) : timerStats :=
  { s with syncSpanCounter := addUint64 s.syncSpanCounter 1 }

/-- The statistics after `atomic.AddUint64(&stats.externalSpanChangeCounter, 1)`. -/
def timerStats.addExternalSpanChangeCounter (s : timerStats) : timerStats :=
  { s with externalSpanChangeCounter := addUint64 s.externalSpanChangeCounter 1 }

/-- The statistics after `atomic.AddUint64(&stats.spanStartChangeCounter, 1)`. -/
def timerStats.addSpanStartChangeCounter (s : timerStats) : timerStats :=
  { s with spanStartChangeCounter := addUint64 s.spanStartChangeCounter 1 }

/-- The statistics after `atomic.AddUint64(&stats.spanStopChangeCounter, 1)`. -/
def timerStats.addSpanStopChangeCounter (s : timerStats) : timerStats :=
  { s with spanStopChangeCounter := addUint64 s.spanStopChangeCounter 1 }

/-- The statistics after `atomic.AddUint64(&stats.spanCasMismatchCounter, 1)`. -/
def timerStats.addSpanCasMismatchCounter (s : timerStats) : timerStats :=
  { s with spanCasMismatchCounter := addUint64 s.spanCasMismatchCounter 1 }

/-- The store after one of its statistics counters was advanced by `upd`. -/
def TimerStore.addStat (r : TimerStore) (upd : timerStats → timerStats) : TimerStore :=
  { r with stats := upd r.stats }

/-! ## Key layout -/

/-- Translation of `kvLocatorRoot`. -/
def TimerStore.kvLocatorRoot (r : TimerStore) (due : Int) : String :=
  r.uid ++ ":tm:" ++ FormatInt r.partn 10 ++ ":rt:" ++ formatInt due

/-- Translation of `kvLocatorAlarm`. -/
def TimerStore.kvLocatorAlarm (r : TimerStore) (due : Int) (seq : Int) : String :=
  r.uid ++ ":tm:" ++ FormatInt r.partn 10 ++ ":al:" ++ formatInt due ++ ":" ++ FormatInt seq 10

/-- Translation of `kvLocatorContext`. -/
def TimerStore.kvLocatorContext (r : TimerStore) (ripemd160 : Digest) (ref : String) : String :=
  r.uid ++ ":tm:" ++ FormatInt r.partn 10 ++ ":cx:" ++ hash ripemd160 ref

/-- Translation of `kvLocatorSpan`. -/
def TimerStore.kvLocatorSpan (r : TimerStore) : String :=
  r.uid ++ ":tm:" ++ FormatInt r.partn 10 ++ ":sp"

/-- Translation of `mapLocator`. -/
def mapLocator (uid : String) (partn : Int) : String :=
  uid ++ ":" ++ FormatInt partn 10

/-! ## The KV client -/

/-- The one error the KV client reports (`common.ErrRetryTimeout`). -/
inductive Error
  | ErrRetryTimeout
  deriving DecidableEq, Repr

/-- A stored document: the JSON values the store writes. -/
inductive Doc
  | counter (v : Int)
  | alarm (a : AlarmRecord)
  | context (c : ContextRecord)
  | span (s : Span)
  deriving DecidableEq, Repr

/-- Decoding a document into an `int64` out-parameter. -/
def Doc.asCounter : Doc → Option Int
  | .counter v => some v
  | _ => none

/-- Decoding a document into an `AlarmRecord` out-parameter. -/
def Doc.asAlarm : Doc → Option AlarmRecord
  | .alarm a => some a
  | _ => none

/-- Decoding a document into a `ContextRecord` out-parameter. -/
def Doc.asContext : Doc → Option ContextRecord
  | .context c => some c
  | _ => none

/-- Decoding a document into a `Span` out-parameter. -/
def Doc.asSpan : Doc → Option Span
  | .span s => some s
  | _ => none

/-- Modelled from the spec: the state of the KV bucket a store is bound to
(the client pool behind `Pool(connstr)` is not among the sources). `docs`
maps a key to its document and CAS, `nextCas` generates fresh CAS values, and
`faults` is the schedule of retry exhaustion: each operation consumes its
head, and `true` makes that operation return `ErrRetryTimeout` without
effect. An empty schedule is an error-free KV. -/
structure KV where
  docs : String → Option (Doc × Cas)
  nextCas : Cas
  faults : List Bool

/-- Modelled from the spec: whether the next KV operation exhausts its retries. -/
def KV.fault (kv : KV) : Bool := kv.faults.headD false

/-- Modelled from the spec: the KV after one operation consumed its slot of
the fault schedule. -/
def KV.advance (kv : KV) : KV :=
  match kv.faults with
  | [] => kv
  | _ :: fs => { kv with faults := fs }

/-- Modelled from the spec: the KV after writing `doc` at `key` under a fresh,
non-zero CAS. -/
def KV.write (kv : KV) (key : String) (doc : Doc) : KV :=
  { kv with
    docs := fun k => if k = key then some (doc, kv.nextCas + 1) else kv.docs k
    nextCas := kv.nextCas + 1 }

/-- Modelled from the spec: the KV after removing the document at `key`. -/
def KV.erase (kv : KV) (key : String) : KV :=
  { kv with docs := fun k => if k = key then none else kv.docs k }

/-- Modelled from the spec: `MustGet(bucket, key, out)` returning
`(CAS, absent, err)` and the new value of the out-parameter, which is
overwritten only by a successful read. A document that does not decode into
the out-parameter's type is reported as the client's only error. -/
def MustGet {α : Type} (dec : Doc → Option α) (kv : KV) (key : String) (out : α) :
    Cas × Bool × Option Error × α × KV :=
  if kv.fault then (0, false, some Error.ErrRetryTimeout, out, kv.advance)
  else
    match kv.docs key with
    | none => (0, true, none, out, kv.advance)
    | some (d, cas) =>
      match dec d with
      | some v => (cas, false, none, v, kv.advance)
      | none => (0, false, some Error.ErrRetryTimeout, out, kv.advance)

/-- Modelled from the spec: `MustCounter(bucket, key, delta, init, expiry)`
returning `(newValue, CAS, err)`: an absent key is created with the initial
value, a counter is advanced by `delta`. -/
def MustCounter (kv : KV) (key : String) (delta : Int) (init : Int) :
    Int × Cas × Option Error × KV :=
  if kv.fault then (0, 0, some Error.ErrRetryTimeout, kv.advance)
  else
    match kv.docs key with
    | none => (init, kv.nextCas + 1, none, kv.advance.write key (Doc.counter init))
    | some (Doc.counter v, _) =>
      (wrap64 (v + delta), kv.nextCas + 1, none,
        kv.advance.write key (Doc.counter (wrap64 (v + delta))))
    | some (_, _) => (0, 0, some Error.ErrRetryTimeout, kv.advance)

/-- Modelled from the spec: `MustUpsert(bucket, key, value, expiry)` returning
`(CAS, err)`: an unconditional write. -/
def MustUpsert (kv : KV) (key : String) (value : Doc) : Cas × Option Error × KV :=
  if kv.fault then (0, some Error.ErrRetryTimeout, kv.advance)
  else (kv.nextCas + 1, none, kv.advance.write key value)

/-- Modelled from the spec: `MustInsert(bucket, key, value, expiry)` returning
`(CAS, mismatch, err)`: the write happens only when the key is absent. -/
def MustInsert (kv : KV) (key : String) (value : Doc) : Cas × Bool × Option Error × KV :=
  if kv.fault then (0, false, some Error.ErrRetryTimeout, kv.advance)
  else
    match kv.docs key with
    | none => (kv.nextCas + 1, false, none, kv.advance.write key value)
    | some _ => (0, true, none, kv.advance)

/-- Modelled from the spec: `MustReplace(bucket, key, value, CAS, expiry)`
returning `(CAS, absent, mismatch, err)`; CAS 0 means no precondition. -/
def MustReplace (kv : KV) (key : String) (value : Doc) (cas : Cas) :
    Cas × Bool × Bool × Option Error × KV :=
  if kv.fault then (0, false, false, some Error.ErrRetryTimeout, kv.advance)
  else
    match kv.docs key with
    | none => (0, true, false, none, kv.advance)
    | some (_, c) =>
      if cas = 0 ∨ cas = c then (kv.nextCas + 1, false, false, none, kv.advance.write key value)
      else (0, false, true, none, kv.advance)

/-- Modelled from the spec: `MustRemove(bucket, key, CAS)` returning
`(CAS, absent, mismatch, err)`; CAS 0 means no precondition. -/
def MustRemove (kv : KV) (key : String) (cas : Cas) :
    Cas × Bool × Bool × Option Error × KV :=
  if kv.fault then (0, false, false, some Error.ErrRetryTimeout, kv.advance)
  else
    match kv.docs key with
    | none => (0, true, false, none, kv.advance)
    | some (_, c) =>
      if cas = 0 ∨ cas = c then (c, false, false, none, kv.advance.erase key)
      else (0, false, true, none, kv.advance)

/-! ## Span bookkeeping -/

/-- Translation of `readSpan`. -/
def TimerStore.readSpan (r : TimerStore) : Span := r.span.toSpan

/-- Translation of `expandSpan`. -/
def TimerStore.expandSpan (r : TimerStore) (point : Int) : TimerStore :=
  let r := if r.span.Start > point then
      { r with span := { r.span with Start := point, dirty := true } }
    else r
  if r.span.Stop < point then
    { r with span := { r.span with Stop := point, dirty := true } }
  else r

/-- Translation of `shrinkSpan`. -/
def TimerStore.shrinkSpan (r : TimerStore) (start : Int) : TimerStore :=
  if r.span.Start < start then
    { r with span := { r.span with Start := start, dirty := true } }
  else r

/-! ## Set, Delete, Cancel -/

/-- Translation of `TimerStore.Set`; `now` is `time.Now().Unix()`. The result
is the returned error together with the store and the KV afterwards. -/
def TimerStore.Set (r : TimerStore) (ripemd160 : Digest) (kv : KV) (now : Int) (due : Int)
    (ref : String) (context : String) : Option Error × TimerStore × KV :=
  let r := r.addStat timerStats.addSetCounter
  let past : Bool := decide (wrap64 (due - now) ≤ Resolution)
  let r := if past then
      r.addStat timerStats.addTimerInPastCounter
    else r
  let due := if past then wrap64 (now + Resolution) else due
  let due := roundUp due
  let pos := r.kvLocatorRoot due
  match MustCounter kv pos 1 init_seq with
  | (seq, _, err, kv) =>
    match err with
    | some e => (some e, r, kv)
    | none =>
      let akey := r.kvLocatorAlarm due seq
      let ckey := r.kvLocatorContext ripemd160 ref
      let arecord : AlarmRecord := { AlarmDue := due, ContextRef := ckey }
      match MustUpsert kv akey (Doc.alarm arecord) with
      | (_, err, kv) =>
        match err with
        | some e => (some e, r, kv)
        | none =>
          let crecord : ContextRecord := { Context := context, AlarmRef := akey }
          match MustUpsert kv ckey (Doc.context crecord) with
          | (_, err, kv) =>
            match err with
            | some e => (some e, r, kv)
            | none =>
              let r := r.expandSpan due
              let r := r.addStat timerStats.addSetSuccessCounter
              (none, r, kv)

/-- Translation of `TimerStore.Delete`. -/
def TimerStore.Delete (r : TimerStore) (kv : KV) (entry : TimerEntry) :
    Option Error × TimerStore × KV :=
  let r := r.addStat timerStats.addDelCounter
  match MustRemove kv entry.AlarmRef 0 with
  | (_, _, _, err, kv) =>
    match err with
    | some e => (some e, r, kv)
    | none =>
      match MustRemove kv entry.ContextRef entry.ctxCas with
      | (_, absent, mismatch, err, kv) =>
        match err with
        | some e => (some e, r, kv)
        | none =>
          let r := if absent then
              r.addStat timerStats.addContextMissingCounter
            else r
          if mismatch then (none, r, kv)
          else if entry.topCas = 0 then (none, r, kv)
          else
            let pos := r.kvLocatorRoot entry.AlarmDue
            match MustRemove kv pos entry.topCas with
            | (_, absent, mismatch, err, kv) =>
              match err with
              | some e => (some e, r, kv)
              | none =>
                let r := if absent || mismatch then
                    r.addStat timerStats.addAlarmMissingCounter
                  else r
                let r := r.shrinkSpan entry.AlarmDue
                let r := r.addStat timerStats.addDelSuccessCounter
                (none, r, kv)

/-- Translation of `TimerStore.Cancel`. -/
def TimerStore.Cancel (r : TimerStore) (ripemd160 : Digest) (kv : KV) (ref : String) :
    Option Error × TimerStore × KV :=
  let r := r.addStat timerStats.addCancelCounter
  let cref := r.kvLocatorContext ripemd160 ref
  let crecord : ContextRecord := { Context := "", AlarmRef := "" }
  match MustGet Doc.asContext kv cref crecord with
  | (_, absent, err, crecord, kv) =>
    match err with
    | some _ => (none, r, kv)
    | none =>
      if absent then
        (none, r.addStat timerStats.addCancelContextMissingCounter, kv)
      else
        match MustRemove kv crecord.AlarmRef 0 with
        | (_, absent, _, err, kv) =>
          match err with
          | some _ => (none, r, kv)
          | none =>
            if absent then
              (none, r.addStat timerStats.addCancelAlarmMissingCounter, kv)
            else
              match MustRemove kv cref 0 with
              | (_, _, _, err, kv) =>
                match err with
                | some _ => (none, r, kv)
                | none =>
                  (none, r.addStat timerStats.addCancelSuccessCounter, kv)

/-! ## The scan iterator -/

/-- Translation of `TimerStore.ScanDue`; `tnow` is `time.Now().Unix()`. A nil
iterator is `none`. -/
def TimerStore.ScanDue (r : TimerStore) (tnow : Int) : Option TimerIter × TimerStore :=
  let span := r.readSpan
  let now := roundDown tnow
  let r := r.addStat timerStats.addScanDueCounter
  if span.Start > now then (none, r)
  else
    let stop := if now > span.Stop then span.Stop else now
    (some { row := { start := span.Start, current := span.Start, stop := stop },
            col := none, entry := none }, r)

/-- The `for` loop of `nextRow`; `col` is the local column iterator whose
`stop` field is the out-parameter of the root read. -/
def TimerIter.nextRowLoop :
    Nat → TimerIter → colIter → TimerStore → KV →
      Option (Bool × Option Error × TimerIter × TimerStore × KV)
  | 0, _, _, _, _ => none
  | fuel + 1, it, col, r, kv =>
    if it.row.current < it.row.stop then
      let it := { it with row := { it.row with current := wrap64 (it.row.current + Resolution) } }
      let pos := r.kvLocatorRoot it.row.current
      let r := r.addStat timerStats.addScanRowLookupCounter
      match MustGet Doc.asCounter kv pos col.stop with
      | (cas, absent, err, stop, kv) =>
        let col := { col with stop := stop }
        match err with
        | some e => some (false, some e, it, r, kv)
        | none =>
          if !absent then
            let col := { col with topCas := cas }
            some (true, none, { it with col := some col }, r, kv)
          else TimerIter.nextRowLoop fuel it col r kv
    else
      let r := r.shrinkSpan (wrap64 (it.row.stop - Resolution))
      some (false, none, it, r, kv)

/-- Translation of `TimerIter.nextRow`. -/
def TimerIter.nextRow (it : TimerIter) (fuel : Nat) (r : TimerStore) (kv : KV) :
    Option (Bool × Option Error × TimerIter × TimerStore × KV) :=
  let r := r.addStat timerStats.addScanRowCounter
  let it := { it with col := none, entry := none }
  let col : colIter := { current := init_seq, topCas := 0, stop := 0 }
  TimerIter.nextRowLoop fuel it col r kv

/-- The `for` loop of `nextColumn`; `col` is the column iterator `r.col`
points to, `alarm` and `context` are the two out-parameters. -/
def TimerIter.nextColumnLoop :
    Nat → TimerIter → colIter → AlarmRecord → ContextRecord → TimerStore → KV →
      Option (Bool × Option Error × TimerIter × TimerStore × KV)
  | 0, _, _, _, _, _, _ => none
  | fuel + 1, it, col, alarm, context, r, kv =>
    if col.current ≤ col.stop then
      let current := col.current
      let col := { col with current := wrap64 (col.current + 1) }
      let key := r.kvLocatorAlarm it.row.current current
      let r := r.addStat timerStats.addScanColumnLookupCounter
      match MustGet Doc.asAlarm kv key alarm with
      | (_, absent, err, alarm, kv) =>
        match err with
        | some e => some (false, some e, { it with col := some col }, r, kv)
        | none =>
          if absent then TimerIter.nextColumnLoop fuel it col alarm context r kv
          else
            let r := r.addStat timerStats.addScanColumnLookupCounter
            match MustGet Doc.asContext kv alarm.ContextRef context with
            | (cas, absent, err, context, kv) =>
              match err with
              | some e => some (false, some e, { it with col := some col }, r, kv)
              | none =>
                if absent || context.AlarmRef != key then
                  TimerIter.nextColumnLoop fuel it col alarm context r kv
                else
                  let entry : TimerEntry :=
                    { toAlarmRecord := alarm, toContextRecord := context,
                      alarmSeq := current, topCas := 0, ctxCas := cas }
                  let entry := if current = col.stop then { entry with topCas := col.topCas }
                    else entry
                  some (true, none, { it with col := some col, entry := some entry }, r, kv)
    else some (false, none, { it with col := some col }, r, kv)

/-- Translation of `TimerIter.nextColumn`. -/
def TimerIter.nextColumn (it : TimerIter) (fuel : Nat) (r : TimerStore) (kv : KV) :
    Option (Bool × Option Error × TimerIter × TimerStore × KV) :=
  let r := r.addStat timerStats.addScanColumnCounter
  let it := { it with entry := none }
  match it.col with
  | none => some (false, none, it, r, kv)
  | some col =>
    TimerIter.nextColumnLoop fuel it col { AlarmDue := 0, ContextRef := "" }
      { Context := "", AlarmRef := "" } r kv

/-- The `for` loop of `ScanNext` on a non-nil iterator; `now` is the
`time.Now().Unix()` read when an entry is found. -/
def TimerIter.scanLoop (now : Int) :
    Nat → TimerIter → TimerStore → KV →
      Option (Option TimerEntry × Option Error × TimerIter × TimerStore × KV)
  | 0, _, _, _ => none
  | fuel + 1, it, r, kv =>
    match it.nextColumn fuel r kv with
    | none => none
    | some (found, err, it, r, kv) =>
      match err with
      | some e => some (none, some e, it, r, kv)
      | none =>
        if found then
          match it.entry with
          | some entry =>
            let r := if entry.AlarmDue > now then
                r.addStat timerStats.addTimerInFutureFiredCounter
              else r
            some (some entry, none, it, r, kv)
          | none => some (none, none, it, r, kv)
        else
          match it.nextRow fuel r kv with
          | none => none
          | some (found, err, it, r, kv) =>
            if !found || err.isSome then some (none, err, it, r, kv)
            else TimerIter.scanLoop now fuel it r kv

/-- Translation of `TimerIter.ScanNext`, whose receiver may be nil. -/
def ScanNext (it : Option TimerIter) (fuel : Nat) (now : Int) (r : TimerStore) (kv : KV) :
    Option (Option TimerEntry × Option Error × Option TimerIter × TimerStore × KV) :=
  match it with
  | none => some (none, none, none, r, kv)
  | some it =>
    match it.scanLoop now fuel r kv with
    | none => none
    | some (e, err, it, r, kv) => some (e, err, some it, r, kv)

/-- How a drained scan came to its end. -/
inductive ScanEnd
  | exhausted
  | failed (e : Error)
  | outOfFuel
  deriving DecidableEq, Repr

/-- The row an iterator stands on (0 for the nil iterator). -/
def rowOf (it : Option TimerIter) : Int :=
  match it with
  | some i => i.row.current
  | none => 0

/-- The caller's drain loop: `ScanNext` is called until it returns a nil
entry. The result lists every yielded entry with the row bucket it was read
from; `clk k` is the wall clock of the call made with `k` calls of fuel left. -/
def scanAll (clk : Nat → Int) :
    Nat → Option TimerIter → TimerStore → KV →
      List (Int × TimerEntry) × ScanEnd × Option TimerIter × TimerStore × KV
  | 0, it, r, kv => ([], ScanEnd.outOfFuel, it, r, kv)
  | fuel + 1, it, r, kv =>
    match ScanNext it fuel (clk fuel) r kv with
    | none => ([], ScanEnd.outOfFuel, it, r, kv)
    | some (none, none, it, r, kv) => ([], ScanEnd.exhausted, it, r, kv)
    | some (none, some e, it, r, kv) => ([], ScanEnd.failed e, it, r, kv)
    | some (some entry, _, it, r, kv) =>
      match scanAll clk fuel it r kv with
      | (es, fin) => ((rowOf it, entry) :: es, fin)

/-! ## Span synchronisation -/

/-- Translation of `syncSpan`; `now` is the `time.Now().Unix()` read by the
fresh initialisation. The bucket is shared with other nodes: `mid` is what
other writers do to it between the read and the write of this call, the
identity on a sequential KV. -/
def TimerStore.syncSpan (r : TimerStore) (kv : KV) (now : Int) (mid : KV → KV) :
    Option Error × TimerStore × KV :=
  let r := r.addStat timerStats.addSyncSpanCounter
  if !r.span.dirty && !r.span.empty then (none, r, kv)
  else
    let r := { r with span := { r.span with dirty := false } }
    let pos := r.kvLocatorSpan
    match MustGet Doc.asSpan kv pos { Start := 0, Stop := 0 } with
    | (rcas, absent, err, extspan, kv) =>
      match err with
      | some e => (some e, r, kv)
      | none =>
        if absent && r.span.empty then
          let r := { r with span := { r.span with Start := roundDown now, Stop := roundUp now } }
          match MustInsert (mid kv) pos (Doc.span r.span.toSpan) with
          | (wcas, mismatch, err, kv) =>
            if err.isSome || mismatch then (err, r, kv)
            else (none, { r with span := { r.span with spanCas := wcas, empty := false } }, kv)
        else if absent && !r.span.empty then
          match MustInsert (mid kv) pos (Doc.span r.span.toSpan) with
          | (wcas, mismatch, err, kv) =>
            if err.isSome || mismatch then (err, r, kv)
            else (none, { r with span := { r.span with spanCas := wcas } }, kv)
        else if r.span.empty then
          (none, { r with span := { r.span with
                                    empty := false, toSpan := extspan, spanCas := rcas } }, kv)
        else if r.span.spanCas = rcas ∧ r.span.toSpan = extspan then (none, r, kv)
        else if r.span.spanCas = rcas then
          match MustReplace (mid kv) pos (Doc.span r.span.toSpan) rcas with
          | (wcas, absent, mismatch, err, kv) =>
            if err.isSome || absent || mismatch then (err, r, kv)
            else (none, { r with span := { r.span with spanCas := wcas } }, kv)
        else
          let r := r.addStat timerStats.addSpanCasMismatchCounter
          let r := if r.span.Start > extspan.Start then
              { r.addStat timerStats.addSpanStartChangeCounter with
                span := { r.span with Start := extspan.Start } }
            else r
          let r := if r.span.Stop < extspan.Stop then
              { r.addStat timerStats.addSpanStopChangeCounter with
                span := { r.span with Stop := extspan.Stop } }
            else r
          match MustReplace (mid kv) pos (Doc.span r.span.toSpan) rcas with
          | (wcas, absent, mismatch, err, kv) =>
            if err.isSome || absent || mismatch then (err, r, kv)
            else (none, { r with span := { r.span with spanCas := wcas } }, kv)

/-! ## Definitions used by the statements and proofs -/

/-- The part of every key that names the store. -/
def keyPrefix (r : TimerStore) : List Char :=
  (r.uid ++ ":tm:" ++ FormatInt r.partn 10).data

/-- Value of a digit of `strconv.FormatInt`. -/
def digitVal (c : Char) : Nat := digitChars.indexOf c

/-- Value of a digit string in a base, most significant digit first. -/
def digitsVal (base : Nat) (n : Nat) (l : List Char) : Nat :=
  l.foldl (fun n c => n * base + digitVal c) n

/-- The due time `Set` stores for a request `due` made at `now`: the first
lines of `Set`, promotion of a too close timer followed by rounding. -/
def setDue (now due : Int) : Int :=
  roundUp (if wrap64 (due - now) ≤ Resolution then wrap64 (now + Resolution) else due)

/-- An alive timer at row `b`, column `s`: an alarm record and a context
record that point at each other. -/
def Alive (r : TimerStore) (docs : String → Option (Doc × Cas)) (b s : Int) : Prop :=
  ∃ a acas c ccas, docs (r.kvLocatorAlarm b s) = some (Doc.alarm a, acas) ∧
    docs a.ContextRef = some (Doc.context c, ccas) ∧ c.AlarmRef = r.kvLocatorAlarm b s

/-- The entry `e` was built at row `b` from the alarm record stored under the
key of `(b, e.alarmSeq)` and from the context record stored under that
alarm's `ContextRef`, and the two are cross-linked. -/
def Yielded (r : TimerStore) (docs : String → Option (Doc × Cas)) (b : Int)
    (e : TimerEntry) : Prop :=
  (∃ acas, docs (r.kvLocatorAlarm b e.alarmSeq) = some (Doc.alarm e.toAlarmRecord, acas)) ∧
  docs e.ContextRef = some (Doc.context e.toContextRecord, e.ctxCas) ∧
  e.AlarmRef = r.kvLocatorAlarm b e.alarmSeq

/-- A document on the path of the column scan at `(b, s)` that does not
decode: the alarm key holds something else than an alarm, or the alarm points
at something else than a context. -/
def BadColumn (r : TimerStore) (docs : String → Option (Doc × Cas)) (b s : Int) : Prop :=
  (∃ d cas, docs (r.kvLocatorAlarm b s) = some (d, cas) ∧ d.asAlarm = none) ∨
  (∃ a acas d cas, docs (r.kvLocatorAlarm b s) = some (Doc.alarm a, acas) ∧
    docs a.ContextRef = some (d, cas) ∧ d.asContext = none)

/-- What a return of the column loop started on `col` says about its result. -/
def ColPost (r : TimerStore) (kv : KV) (it : TimerIter) (col : colIter) (found : Bool)
    (err : Option Error) (it' : TimerIter) (r' : TimerStore) (kv' : KV) : Prop :=
  kv'.docs = kv.docs ∧ (kv.faults = [] → kv' = kv) ∧
  r'.uid = r.uid ∧ r'.partn = r.partn ∧ r'.span = r.span ∧
  it'.row = it.row ∧
  (∃ col', it'.col = some col' ∧ col'.stop = col.stop ∧ col'.topCas = col.topCas ∧
    (found = true → ∃ e, it'.entry = some e ∧ col'.current = wrap64 (e.alarmSeq + 1) ∧
      (InInt64 col.current → col.stop < MaxInt64 → col.current ≤ e.alarmSeq ∧
        ∀ s, col.current ≤ s → s < e.alarmSeq → ¬ Alive r kv.docs it.row.current s)) ∧
    (found = false → err = none → InInt64 col.current → col.stop < MaxInt64 →
      col.stop < col'.current ∧ InInt64 col'.current ∧
        ∀ s, col.current ≤ s → s ≤ col.stop → ¬ Alive r kv.docs it.row.current s)) ∧
  (found = true → err = none ∧ ∃ e, it'.entry = some e ∧ Yielded r kv.docs it.row.current e ∧
    e.alarmSeq ≤ col.stop ∧ e.topCas = (if e.alarmSeq = col.stop then col.topCas else 0)) ∧
  (found = false → it'.entry = it.entry) ∧
  (∀ e, err = some e → found = false ∧
    (kv.faults = [] → ∃ s, s ≤ col.stop ∧ BadColumn r kv.docs it.row.current s))

/-- What a return of the row loop says about its result; `col` is the local
column iterator the loop was started with. -/
def RowPost (r : TimerStore) (kv : KV) (it : TimerIter) (col : colIter) (found : Bool)
    (err : Option Error) (it' : TimerIter) (r' : TimerStore) (kv' : KV) : Prop :=
  kv'.docs = kv.docs ∧ (kv.faults = [] → kv' = kv) ∧
  r'.uid = r.uid ∧ r'.partn = r.partn ∧
  it'.row.stop = it.row.stop ∧ it'.row.start = it.row.start ∧ it'.entry = it.entry ∧
  (InInt64 it.row.current → InInt64 it'.row.current) ∧
  (found = true → err = none ∧ r'.span = r.span ∧
    (∃ v cas, kv.docs (r.kvLocatorRoot it'.row.current) = some (Doc.counter v, cas) ∧
      it'.col = some { stop := v, current := col.current, topCas := cas }) ∧
    (InInt64 it.row.current → ∃ c0, InInt64 c0 ∧ c0 < it.row.stop ∧
      it'.row.current = wrap64 (c0 + Resolution)) ∧
    (InInt64 it.row.current → it.row.stop ≤ MaxInt64 - Resolution →
      ∃ k : Nat, 1 ≤ k ∧ it'.row.current = it.row.current + Resolution * k ∧
        it'.row.current - Resolution < it.row.stop ∧
        ∀ j : Nat, 1 ≤ j → j < k →
          kv.docs (r.kvLocatorRoot (it.row.current + Resolution * j)) = none)) ∧
  (found = false → it'.col = it.col ∧
    (err = none → r'.span = (r.shrinkSpan (wrap64 (it.row.stop - Resolution))).span ∧
      (InInt64 it.row.current → it.row.stop ≤ MaxInt64 - Resolution →
        ∃ k : Nat, it'.row.current = it.row.current + Resolution * k ∧
          it.row.stop ≤ it'.row.current ∧
          ∀ j : Nat, 1 ≤ j → j ≤ k →
            kv.docs (r.kvLocatorRoot (it.row.current + Resolution * j)) = none))) ∧
  (∀ e, err = some e → found = false ∧ r'.span = r.span ∧
    (kv.faults = [] → ∃ d doc cas, kv.docs (r.kvLocatorRoot d) = some (doc, cas) ∧
      doc.asCounter = none))

/-- No 64-bit wrap-around can happen while the iterator advances: the row
cursor is an `int64` with room for one more step below the largest value,
and no column bound, of the iterator or stored in a root counter, is the
largest `int64`. -/
def NoWrapIt (r : TimerStore) (docs : String → Option (Doc × Cas)) (it : TimerIter) : Prop :=
  InInt64 it.row.current ∧ it.row.stop ≤ MaxInt64 - Resolution ∧
  (∀ c, it.col = some c → InInt64 c.current ∧ c.stop < MaxInt64) ∧
  (∀ d v cas, docs (r.kvLocatorRoot d) = some (Doc.counter v, cas) → v < MaxInt64)

/-- Position `(b, s)` is not behind the iterator: in its row at or after the
column cursor, or in a later row. -/
def Ahead (it : TimerIter) (b s : Int) : Prop :=
  (b = it.row.current ∧ ∃ c, it.col = some c ∧ c.current ≤ s) ∨ it.row.current < b

/-- Position `(b, s)` is still to be probed by the iterator: a column of the
current row between the cursor and the bound, or a column between `init_seq`
and the root counter of a later row of the range. -/
def Pending (r : TimerStore) (docs : String → Option (Doc × Cas)) (it : TimerIter)
    (b s : Int) : Prop :=
  (b = it.row.current ∧ ∃ c, it.col = some c ∧ c.current ≤ s ∧ s ≤ c.stop) ∨
  (∃ k : Nat, 1 ≤ k ∧ b = it.row.current + Resolution * k ∧ b - Resolution < it.row.stop ∧
    ∃ v cas, docs (r.kvLocatorRoot b) = some (Doc.counter v, cas) ∧ init_seq ≤ s ∧ s ≤ v)

/-- A document on the scan's path that does not decode. -/
def BadDoc (r : TimerStore) (docs : String → Option (Doc × Cas)) : Prop :=
  (∃ b s, BadColumn r docs b s) ∨
  (∃ d doc cas, docs (r.kvLocatorRoot d) = some (doc, cas) ∧ doc.asCounter = none)

/-- What a return of `ScanNext` on a non-nil iterator says about its result. -/
def ScanPost (r : TimerStore) (kv : KV) (it : TimerIter) (res : Option TimerEntry)
    (err : Option Error) (it' : TimerIter) (r' : TimerStore) (kv' : KV) : Prop :=
  kv'.docs = kv.docs ∧ (kv.faults = [] → kv' = kv) ∧
  r'.uid = r.uid ∧ r'.partn = r.partn ∧
  it'.row.stop = it.row.stop ∧ it'.row.start = it.row.start ∧
  (InInt64 it.row.current → InInt64 it'.row.current) ∧
  (∀ e, res = some e → err = none ∧ it'.entry = some e ∧
    Yielded r kv.docs it'.row.current e ∧ r'.span = r.span ∧
    (∃ col', it'.col = some col' ∧ col'.current = wrap64 (e.alarmSeq + 1) ∧
      e.alarmSeq ≤ col'.stop ∧
      e.topCas = (if e.alarmSeq = col'.stop then col'.topCas else 0) ∧
      ((it'.row.current = it.row.current ∧
          ∃ c, it.col = some c ∧ col'.stop = c.stop ∧ col'.topCas = c.topCas) ∨
        (kv.docs (r.kvLocatorRoot it'.row.current) =
            some (Doc.counter col'.stop, col'.topCas) ∧
          (InInt64 it.row.current → ∃ c0, InInt64 c0 ∧ c0 < it.row.stop ∧
            it'.row.current = wrap64 (c0 + Resolution))))) ∧
    (NoWrapIt r kv.docs it → NoWrapIt r kv.docs it' ∧
      Ahead it it'.row.current e.alarmSeq ∧
      Pending r kv.docs it it'.row.current e.alarmSeq ∧
      (it'.row.current = it.row.current →
        ∃ c c', it.col = some c ∧ it'.col = some c' ∧ c'.stop = c.stop) ∧
      (∀ c, it'.col = some c → c.current = e.alarmSeq + 1) ∧
      ∀ b s, Pending r kv.docs it b s → Alive r kv.docs b s →
        (b = it'.row.current ∧ s = e.alarmSeq) ∨ Pending r kv.docs it' b s)) ∧
  (res = none → err = none → it'.col = none ∧
    r'.span = (r.shrinkSpan (wrap64 (it.row.stop - Resolution))).span ∧
    (NoWrapIt r kv.docs it → it.row.stop ≤ it'.row.current ∧
      ∀ b s, Pending r kv.docs it b s → ¬ Alive r kv.docs b s)) ∧
  (∀ e, err = some e → res = none ∧ (kv.faults = [] → BadDoc r kv.docs))

/-- Columns left in the current row of the iterator. -/
def colsRem (it : TimerIter) : Nat :=
  match it.col with
  | none => 0
  | some c => (c.stop + 1 - c.current).toNat

/-- A bound on the number of positions the iterator has still to probe: the
distance to the row stop, each row counted with the longest possible column,
plus the columns left in the current row. -/
def scanNeed (it : TimerIter) : Nat :=
  (it.row.stop - it.row.current).toNat * 18446744073709551616 + colsRem it

/-! ## Example data -/

/-- A digest function for the examples: the character codes of the input. -/
def exDigest : Digest := fun s => s.data.map Char.toNat

/-- Statistics with every counter at zero. -/
def exStats : timerStats := {}

/-- A store `u:0` whose span was initialised at time 1000. -/
def exStore : TimerStore :=
  { connstr := "", bucket := "", uid := "u", partn := 0,
    span := { Start := 994, Stop := 1001, empty := false, dirty := false, spanCas := 1 },
    stats := exStats }

/-- An empty, error-free KV. -/
def exKV : KV := { docs := fun _ => none, nextCas := 1, faults := [] }

/-- The result of `Set(due = 1001, "r1", "c1")` at time 1000 on the empty KV:
the timer is promoted to bucket 1008 and receives sequence number 128. -/
def exSet1 : Option Error × TimerStore × KV := exStore.Set exDigest exKV 1000 1001 "r1" "c1"

/-- The entry a scan yields for the timer of `exSet1`. -/
def exEntry1 : TimerEntry :=
  { AlarmDue := 1008, ContextRef := exStore.kvLocatorContext exDigest "r1",
    Context := "c1", AlarmRef := exStore.kvLocatorAlarm 1008 128,
    alarmSeq := 128, ctxCas := 4, topCas := 2 }

/-- The result of `Set(due = 1001, "r2", "c2")` at time 1000 on the empty KV. -/
def exSet2 : Option Error × TimerStore × KV := exStore.Set exDigest exKV 1000 1001 "r2" "c2"

/-- The entry a scan yields for the timer of `exSet2` while a later sequence
number exists in its bucket. -/
def exEntry2 : TimerEntry :=
  { AlarmDue := 1008, ContextRef := exStore.kvLocatorContext exDigest "r2",
    Context := "c2", AlarmRef := exStore.kvLocatorAlarm 1008 128,
    alarmSeq := 128, ctxCas := 4, topCas := 0 }

/-- A store `u:0` whose span was initialised at time -7 (before the epoch). -/
def exStoreNeg : TimerStore :=
  { connstr := "", bucket := "", uid := "u", partn := 0,
    span := { Start := -7, Stop := -7, empty := false, dirty := false, spanCas := 1 },
    stats := exStats }

/-- The result of `Set(due = -7, "r", "c")` at time -7 on the empty KV: the
timer lands in bucket 0. -/
def exSetNeg : Option Error × TimerStore × KV := exStoreNeg.Set exDigest exKV (-7) (-7) "r" "c"

/-- The entry a scan yields for the timer of `exSetNeg`. -/
def exEntryNeg : TimerEntry :=
  { AlarmDue := 0, ContextRef := exStore.kvLocatorContext exDigest "r",
    Context := "c", AlarmRef := exStore.kvLocatorAlarm 0 128,
    alarmSeq := 128, ctxCas := 4, topCas := 2 }

/-- The KV respects the key schema of store `r`: root keys hold counters with
values from `init_seq` up to (excluding) `hi`, alarm keys hold alarm records
whose `ContextRef` is a context key of the store, and context keys hold
context records. -/
def Schema (r : TimerStore) (docs : String → Option (Doc × Cas)) (hi : Int) : Prop :=
  (∀ d doc cas, docs (r.kvLocatorRoot d) = some (doc, cas) →
    ∃ v, doc = Doc.counter v ∧ init_seq ≤ v ∧ v < hi) ∧
  (∀ b s doc cas, docs (r.kvLocatorAlarm b s) = some (doc, cas) →
    ∃ a, doc = Doc.alarm a ∧
      ∃ h, a.ContextRef.data = keyPrefix r ++ ':' :: 'c' :: 'x' :: ':' :: h) ∧
  (∀ k h doc cas, k.data = keyPrefix r ++ ':' :: 'c' :: 'x' :: ':' :: h →
    docs k = some (doc, cas) → ∃ c, doc = Doc.context c)

/-- The result of `Set(due = 1001, "r1", "c1")` at time 1000 after `exSet2`:
bucket 1008 holds the sequence numbers 128 (`r2`) and 129 (`r1`). -/
def exSet21 : Option Error × TimerStore × KV :=
  exSet2.2.1.Set exDigest exSet2.2.2 1000 1001 "r1" "c1"

/-- The iterator `ScanDue` creates at time 1009 on the store of `exSet21`. -/
def exIter : TimerIter :=
  { row := { start := 994, stop := 1008, current := 994 }, col := none, entry := none }

/-- A KV whose row 1008 holds two alive timers, at the largest and at the
smallest `int64` sequence number. -/
def exKVWrap : KV :=
  { docs := fun k =>
      if k = exStore.kvLocatorAlarm 1008 MaxInt64 then
        some (Doc.alarm ⟨1008, exStore.kvLocatorContext exDigest "a"⟩, 2)
      else if k = exStore.kvLocatorContext exDigest "a" then
        some (Doc.context ⟨"a", exStore.kvLocatorAlarm 1008 MaxInt64⟩, 3)
      else if k = exStore.kvLocatorAlarm 1008 MinInt64 then
        some (Doc.alarm ⟨1008, exStore.kvLocatorContext exDigest "b"⟩, 4)
      else if k = exStore.kvLocatorContext exDigest "b" then
        some (Doc.context ⟨"b", exStore.kvLocatorAlarm 1008 MinInt64⟩, 5)
      else if k = exStore.kvLocatorRoot 1008 then some (Doc.counter MaxInt64, 6)
      else none
    nextCas := 6
    faults := [] }

/-- An iterator in row 1008 whose column cursor and column bound are both the
largest `int64`. -/
def exIterWrap : TimerIter :=
  { row := { start := 994, stop := 1008, current := 1008 },
    col := some { stop := MaxInt64, current := MaxInt64, topCas := 6 }, entry := none }

/-- The result of `Set(due = 1020, "r1", "c1b")` at time 1000 after `exSet1`:
the binding of `r1` moves to bucket 1022. -/
def exSet11 : Option Error × TimerStore × KV :=
  exSet1.2.1.Set exDigest exSet1.2.2 1000 1020 "r1" "c1b"

/-- The state is a fixed point of `Delete(entry)`: the alarm key is absent and
either the context removal meets a CAS mismatch, or the context key is absent
and the root step is skipped (`topCas = 0`) or finds the root counter absent or
under another CAS while the span already starts at or after `AlarmDue`. -/
def DeleteDone (r : TimerStore) (kv : KV) (entry : TimerEntry) : Prop :=
  kv.docs entry.AlarmRef = none ∧
  ((∃ d c, kv.docs entry.ContextRef = some (d, c) ∧ ¬ (entry.ctxCas = 0 ∨ entry.ctxCas = c)) ∨
    (kv.docs entry.ContextRef = none ∧
      (entry.topCas = 0 ∨
        ((kv.docs (r.kvLocatorRoot entry.AlarmDue) = none ∨
            ∃ d c, kv.docs (r.kvLocatorRoot entry.AlarmDue) = some (d, c) ∧
              ¬ (entry.topCas = 0 ∨ entry.topCas = c)) ∧
          ¬ r.span.Start < entry.AlarmDue))))

/-- The result of `Cancel("r1")` after `exSet21`: in bucket 1008 only the
timer `r2` at sequence number 128 is alive, the root counter holds 129. -/
def exCancel21 : Option Error × TimerStore × KV :=
  exSet21.2.1.Cancel exDigest exSet21.2.2 "r1"

/-- The scan at time 1009 after `exCancel21`, drained. -/
def exRun21 : List (Int × TimerEntry) × ScanEnd × Option TimerIter × TimerStore × KV :=
  scanAll (fun _ => 1009) 10 (exCancel21.2.1.ScanDue 1009).1 (exCancel21.2.1.ScanDue 1009).2
    exCancel21.2.2

/-- `Delete` of the entry that the scan `exRun21` yielded. -/
def exDelete21 : Option Error × TimerStore × KV :=
  exRun21.2.2.2.1.Delete exRun21.2.2.2.2 exEntry2

/-- A store `u:0` whose span starts off the bucket grid, at 995. -/
def exStoreOdd : TimerStore :=
  { connstr := "", bucket := "", uid := "u", partn := 0,
    span := { Start := 995, Stop := 1001, empty := false, dirty := false, spanCas := 1 },
    stats := exStats }

/-- The result of `Set(due = 1001, "r1", "c1")` at time 1000 on `exStoreOdd`. -/
def exSetOdd : Option Error × TimerStore × KV :=
  exStoreOdd.Set exDigest exKV 1000 1001 "r1" "c1"

/-- The result of `Set(due = MinInt64, "r1", "c1")` at time 1000 on the empty
KV. -/
def exSetMin : Option Error × TimerStore × KV :=
  exStore.Set exDigest exKV 1000 MinInt64 "r1" "c1"

/-- An error-free KV whose root counter of bucket 1008 holds 5, below
`init_seq`. -/
def exKVLow : KV :=
  { docs := fun k => if k = exStore.kvLocatorRoot 1008 then some (Doc.counter 5, 1) else none
    nextCas := 1
    faults := [] }

/-- The result of `Set(due = 1001, "r1", "c1")` at time 1000 on `exKVLow`. -/
def exSetLow : Option Error × TimerStore × KV :=
  exStore.Set exDigest exKVLow 1000 1001 "r1" "c1"

/-- A store `u:0` whose span `[1015, 1015]` lies after the time 1000 of the
next `Set`. -/
def exStoreLate : TimerStore :=
  { connstr := "", bucket := "", uid := "u", partn := 0,
    span := { Start := 1015, Stop := 1015, empty := false, dirty := false, spanCas := 1 },
    stats := exStats }

/-- The result of `Set(due = 1001, "r1", "c1")` at time 1000 on `exStoreLate`:
the timer lands in bucket 1008 and `expandSpan` lowers the span start to 1008. -/
def exSetLate : Option Error × TimerStore × KV :=
  exStoreLate.Set exDigest exKV 1000 1001 "r1" "c1"

/-- Modelled from the spec: the merge policy of `syncSpan` in the spec's
words, `Start = min(local.Start, external.Start)` and
`Stop = max(local.Stop, external.Stop)`. -/
def mergeSpan (loc ext : Span) : Span :=
  { Start := min loc.Start ext.Start, Stop := max loc.Stop ext.Stop }

/-- The span invariant: `Start <= Stop` and both on the bucket grid. -/
def SpanInv (s : Span) : Prop :=
  s.Start ≤ s.Stop ∧ s.Start % Resolution = 0 ∧ s.Stop % Resolution = 0

instance (s : Span) : Decidable (SpanInv s) := by
  unfold SpanInv; exact inferInstance

/-- A store `u:0` with the dirty, non-empty local span `{500, 1400}` recorded
under CAS 1. -/
def exStoreSync : TimerStore :=
  { connstr := "", bucket := "", uid := "u", partn := 0,
    span := { Start := 500, Stop := 1400, empty := false, dirty := true, spanCas := 1 },
    stats := exStats }

/-- An error-free KV whose persisted span of store `u:0` is `{700, 1800}`
under CAS 2. -/
def exKVSpan : KV :=
  { docs := fun k => if k = exStoreSync.kvLocatorSpan then some (Doc.span ⟨700, 1800⟩, 2)
      else none
    nextCas := 2
    faults := [] }

/-- Another node replaces the persisted span of store `u:0` by `{0, 2100}`. -/
def exMidWrite (kv : KV) : KV := kv.write exStoreSync.kvLocatorSpan (Doc.span ⟨0, 2100⟩)

/-- Another node removes the persisted span of store `u:0`. -/
def exMidErase (kv : KV) : KV := kv.erase exStoreSync.kvLocatorSpan

/-- The KV of `exSet1` with retry exhaustion scheduled for the next operation. -/
def exKVFault : KV := { exSet1.2.2 with faults := [true] }

/-- An error-free KV that holds a context record for `r1` whose alarm is
absent. -/
def exKVOrphan : KV :=
  { docs := fun k => if k = exStore.kvLocatorContext exDigest "r1" then
        some (Doc.context ⟨"c1", exStore.kvLocatorAlarm 1008 128⟩, 1)
      else none
    nextCas := 1
    faults := [] }

/-- The KV of `exSet2` (`r2` bound to bucket 1008 under sequence number 128)
on which the second operation to come exhausts its retries. -/
def exKVFault2 : KV := { exSet2.2.2 with faults := [false, true] }

/-- A store `u:0` with the span `{7, 14}`. -/
def exStoreSmall : TimerStore :=
  { connstr := "", bucket := "", uid := "u", partn := 0,
    span := { Start := 7, Stop := 14, empty := false, dirty := false, spanCas := 1 },
    stats := exStats }

/-- Bit `pos` of the digest, counted from the least significant bit of its
first byte, as `hash` reads it. -/
def bitAt (sum : List Nat) (pos : Nat) : Nat := ((sum.getD (pos / 8) 0) >>> (pos % 8)) &&& 1

/-- Modelled from the spec: the number encoded by the `k` digest bits from
position `start` on, the first bit being the most significant. -/
def accBits (sum : List Nat) (start : Nat) : Nat → Nat
  | 0 => 0
  | k + 1 => accBits sum start k * 2 + bitAt sum (start + k)

/-- The state of the bit loop of `hash` after the bits before `n`: the buffer
keeps its 27 places, the groups of six bits completed so far are encoded, and
the symbol under construction holds the bits of the group begun. -/
def HashInv (sum : List Nat) (n : Nat) (st : List Char × Nat) : Prop :=
  st.1.length = 27 ∧ st.2 = accBits sum (6 * (n / 6)) (n % 6) ∧
  ∀ i, i < n / 6 → st.1[i]? = some (dict.getD (accBits sum (6 * i) 6) 'A')

/-- An entry for `r1` in bucket 1008 whose alarm record is gone: the KV
`exKVOrphan` holds only its context record, under CAS 1. -/
def exEntryOrphan : TimerEntry :=
  { AlarmDue := 1008, ContextRef := exStore.kvLocatorContext exDigest "r1",
    Context := "c1", AlarmRef := exStore.kvLocatorAlarm 1008 128,
    alarmSeq := 128, ctxCas := 1, topCas := 0 }

/-- Modelled from the spec: a non-empty string of base-36 digits (`0-9`,
`a-z`) read as a natural number. -/
def parseDigits36 (ds : List Char) : Option Nat :=
  if !ds.isEmpty && ds.all (fun c => digitChars.contains c) then some (digitsVal 36 0 ds)
  else none

/-- Modelled from the spec: parsing a string as a base-36 integer that fits
an `int64`: an optional minus sign followed by base-36 digits. -/
def parseBase36 (s : String) : Option Int :=
  let v : Option Int :=
    match s.data with
    | '-' :: ds => (parseDigits36 ds).map (fun n => -(n : Int))
    | ds => (parseDigits36 ds).map (fun n => (n : Int))
  v.bind (fun x => if InInt64 x then some x else none)

/-- What a key of a store names: the root counter of a bucket, an alarm
record, the context record of a reference, or the span record. -/
inductive KeyArg
  | root (due : Int)
  | alarm (due seq : Int)
  | context (ref : String)
  | span
  deriving DecidableEq, Repr

/-- The key one of the four `kvLocator` functions derives. -/
def TimerStore.keyOf (r : TimerStore) (ripemd160 : Digest) : KeyArg → String
  | .root due => r.kvLocatorRoot due
  | .alarm due seq => r.kvLocatorAlarm due seq
  | .context ref => r.kvLocatorContext ripemd160 ref
  | .span => r.kvLocatorSpan

/-- Two key arguments are of the same kind and agree: same due for roots,
same due and sequence number for alarms, same hash for contexts. -/
def KeyArg.agree (ripemd160 : Digest) : KeyArg → KeyArg → Prop
  | .root d, .root d' => d = d'
  | .alarm d s, .alarm d' s' => d = d' ∧ s = s'
  | .context a, .context b => hash ripemd160 a = hash ripemd160 b
  | .span, .span => True
  | _, _ => False

/-- A head followed by colon-separated components, listed last first. -/
def glueR (u : List Char) : List (List Char) → List Char
  | [] => u
  | c :: rs => glueR u rs ++ ':' :: c

/-- The arguments of one call of `Set`, with the wall clock it reads. -/
structure SetReq where
  now : Int
  due : Int
  ref : String
  context : String

/-- A sequence of `Set` calls, one after the other, on a store and its KV; the
result lists the error each call returned. -/
def runSets (ripemd160 : Digest) :
    List SetReq → TimerStore → KV → List (Option Error) × TimerStore × KV
  | [], r, kv => ([], r, kv)
  | q :: qs, r, kv =>
    match r.Set ripemd160 kv q.now q.due q.ref q.context with
    | (err, r, kv) =>
      match runSets ripemd160 qs r kv with
      | (errs, fin) => (err :: errs, fin)

/-- The number of calls in the sequence that `Set` places in bucket `D`. -/
def bucketCount (D : Int) (reqs : List SetReq) : Nat :=
  (reqs.filter (fun q => decide (setDue q.now q.due = D))).length

/-- Three `Set` calls at time 1000 that land in bucket 1008. -/
def exReqs3 : List SetReq :=
  [⟨1000, 1001, "r1", "c1"⟩, ⟨1000, 1001, "r2", "c2"⟩, ⟨1000, 1001, "r3", "c3"⟩]

/-- The three calls of `exReqs3` on the empty KV, then `Cancel("r2")`. -/
def exCancel3 : Option Error × TimerStore × KV :=
  (runSets exDigest exReqs3 exStore exKV).2.1.Cancel exDigest
    (runSets exDigest exReqs3 exStore exKV).2.2 "r2"

/-- The scan at time 1009 after `exCancel3`, drained. -/
def exRun3 : List (Int × TimerEntry) × ScanEnd × Option TimerIter × TimerStore × KV :=
  scanAll (fun _ => 1009) 10 (exCancel3.2.1.ScanDue 1009).1 (exCancel3.2.1.ScanDue 1009).2
    exCancel3.2.2

/-- Two `Set` calls at time 1000: `r1` lands in bucket 1008, `r2` in bucket
1022. -/
def exReqs2 : List SetReq := [⟨1000, 1001, "r1", "c1"⟩, ⟨1000, 1020, "r2", "c2"⟩]

/-- The state after the two calls of `exReqs2` on the empty KV. -/
def exSets2 : List (Option Error) × TimerStore × KV := runSets exDigest exReqs2 exStore exKV

/-- The scan at time 1030 after `exSets2`, drained. -/
def exRun2 : List (Int × TimerEntry) × ScanEnd × Option TimerIter × TimerStore × KV :=
  scanAll (fun _ => 1030) 10 (exSets2.2.1.ScanDue 1030).1 (exSets2.2.1.ScanDue 1030).2
    exSets2.2.2

/-- The iterator has run past its last row and holds no column: the state in
which `nextRow` leaves it when the scan is exhausted. -/
def Drained (it : TimerIter) : Prop := it.col = none ∧ it.row.stop ≤ it.row.current

/-- A digest as `ripemd160` returns it: 20 bytes. -/
def IsDigest (sum : List Nat) : Prop := sum.length = 20 ∧ ∀ b ∈ sum, b < 256

/-- A digest function for the examples that returns 20 bytes: the character
codes of the input, cut or padded with zeros to 20 places. -/
def exDigest20 : Digest := fun s =>
  ((s.data.map (fun (c : Char) => c.toNat % 256)) ++ List.replicate 20 0).take 20

/-- An alive binding of the context key `key`: the context record stored
under `key` names an alarm record that points back at `key`. A scan yields an
entry with `ContextRef = key` only from such a pair. -/
def Linked (key : String) (docs : String → Option (Doc × Cas)) : Prop :=
  ∃ c ccas a acas, docs key = some (Doc.context c, ccas) ∧
    docs c.AlarmRef = some (Doc.alarm a, acas) ∧ a.ContextRef = key

/-- The documents `docs'` differ from `docs` only by removals and by writes
that neither store a context record under `key` nor store an alarm record
that points at `key`. -/
def Quiet (key : String) (docs docs' : String → Option (Doc × Cas)) : Prop :=
  ∀ k, docs' k = docs k ∨ docs' k = none ∨
    ∃ d c, docs' k = some (d, c) ∧ (k = key → ∀ x, d ≠ Doc.context x) ∧
      ∀ a, d = Doc.alarm a → a.ContextRef ≠ key

/-- The KV states that follow `kv` on a sequential KV: reached by any
sequence of `Set`, `Cancel`, `Delete`, `syncSpan` and drained scans, issued by
any store in any local state, with any schedule of retry exhaustion, where no
`Set` is for a ref whose context key is `key`. -/
inductive Later (ripemd160 : Digest) (key : String) (kv : KV) : KV → Prop
  | start : Later ripemd160 key kv kv
  | set {kv1 : KV} (r : TimerStore) (now due : Int) (ref context : String) :
      Later ripemd160 key kv kv1 → r.kvLocatorContext ripemd160 ref ≠ key →
      Later ripemd160 key kv (r.Set ripemd160 kv1 now due ref context).2.2
  | cancel {kv1 : KV} (r : TimerStore) (ref : String) :
      Later ripemd160 key kv kv1 → Later ripemd160 key kv (r.Cancel ripemd160 kv1 ref).2.2
  | delete {kv1 : KV} (r : TimerStore) (entry : TimerEntry) :
      Later ripemd160 key kv kv1 → Later ripemd160 key kv (r.Delete kv1 entry).2.2
  | sync {kv1 : KV} (r : TimerStore) (now : Int) :
      Later ripemd160 key kv kv1 → Later ripemd160 key kv (r.syncSpan kv1 now id).2.2
  | scan {kv1 : KV} (r : TimerStore) (t : Int) (clk : Nat → Int) (fuel : Nat) :
      Later ripemd160 key kv kv1 →
      Later ripemd160 key kv (scanAll clk fuel (r.ScanDue t).1 (r.ScanDue t).2 kv1).2.2.2.2
  | faults {kv1 : KV} (fs : List Bool) :
      Later ripemd160 key kv kv1 → Later ripemd160 key kv { kv1 with faults := fs }

/-- The state after `Set("r1")` and `Cancel("r1")` on the state of `exSet2`,
followed by `Set("r3")` into bucket 1008 and a span sync at time 1010. -/
def exLater21 : Option Error × TimerStore × KV :=
  (exCancel21.2.1.Set exDigest exCancel21.2.2 1000 1001 "r3" "c3").2.1.syncSpan
    (exCancel21.2.1.Set exDigest exCancel21.2.2 1000 1001 "r3" "c3").2.2 1010 id

/-- The scan at time 1009 after `exSet1`, drained: it yields `exEntry1`. -/
def exRun1 : List (Int × TimerEntry) × ScanEnd × Option TimerIter × TimerStore × KV :=
  scanAll (fun _ => 1009) 10 (exSet1.2.1.ScanDue 1009).1 (exSet1.2.1.ScanDue 1009).2 exSet1.2.2

/-- A `Set("r2")` into bucket 1008 that read its clock at time 1000 and
reaches the KV after the scan `exRun1` read the row. -/
def exLateSet : Option Error × TimerStore × KV :=
  exRun1.2.2.2.1.Set exDigest exRun1.2.2.2.2 1000 1001 "r2" "c2"

/-- `Delete` of the entry `exEntry1` that the scan `exRun1` yielded, after
`exLateSet`. -/
def exLateDelete : Option Error × TimerStore × KV :=
  exLateSet.2.1.Delete exLateSet.2.2 exEntry1

/-- The drained scan at time `t` on the state `exLateDelete` left. -/
def exLateScan (t : Int) :
    List (Int × TimerEntry) × ScanEnd × Option TimerIter × TimerStore × KV :=
  scanAll (fun _ => t) 10 (exLateDelete.2.1.ScanDue t).1 (exLateDelete.2.1.ScanDue t).2
    exLateDelete.2.2

/-- The drained scan at time 1016 on the KV `exLateDelete` left, from the
store as it was before that `Delete`. -/
def exLateScanKept :
    List (Int × TimerEntry) × ScanEnd × Option TimerIter × TimerStore × KV :=
  scanAll (fun _ => 1016) 10 (exLateSet.2.1.ScanDue 1016).1 (exLateSet.2.1.ScanDue 1016).2
    exLateDelete.2.2

/-! ## Machine integers and rounding -/

theorem wrap64_eq (x : Int) (h1 : -9223372036854775808 ≤ x) (h2 : x ≤ 9223372036854775807) :
    wrap64 x = x := by
  unfold wrap64; omega

theorem wrap64_range (x : Int) :
    -9223372036854775808 ≤ wrap64 x ∧ wrap64 x ≤ 9223372036854775807 := by
  unfold wrap64; omega

theorem roundUp_nonneg (x : Int) (h0 : 0 ≤ x) (h1 : x ≤ 9223372036854775807) :
    x ≤ roundUp x ∧ roundUp x < x + 7 ∧ roundUp x % 7 = 0 := by
  unfold roundUp
  simp only [Resolution]
  rw [Int.tdiv_eq_ediv h0 (by decide), Int.tmod_eq_emod h0 (by decide)]
  split_ifs with h
  · rw [wrap64_eq (x / 7 + 1) (by omega) (by omega), wrap64_eq _ (by omega) (by omega)]
    omega
  · rw [wrap64_eq _ (by omega) (by omega)]
    omega

theorem roundDown_nonneg (x : Int) (h0 : 0 ≤ x) (h1 : x ≤ 9223372036854775807) :
    roundDown x ≤ x ∧ x < roundDown x + 7 ∧ roundDown x % 7 = 0 := by
  unfold roundDown
  simp only [Resolution]
  rw [Int.tdiv_eq_ediv h0 (by decide)]
  rw [wrap64_eq _ (by omega) (by omega)]
  omega

/-! ## Keys -/

theorem kvLocatorRoot_data (r : TimerStore) (d : Int) :
    (r.kvLocatorRoot d).data = keyPrefix r ++ (':' :: 'r' :: 't' :: ':' :: (formatInt d).data) := by
  simp only [TimerStore.kvLocatorRoot, keyPrefix, String.data_append, List.append_assoc]
  rfl

theorem kvLocatorAlarm_data (r : TimerStore) (d s : Int) :
    (r.kvLocatorAlarm d s).data =
      keyPrefix r ++ (':' :: 'a' :: 'l' :: ':' :: ((formatInt d).data ++ ':' :: (FormatInt s 10).data)) := by
  simp only [TimerStore.kvLocatorAlarm, keyPrefix, String.data_append, List.append_assoc]
  rfl

theorem kvLocatorContext_data (r : TimerStore) (dg : Digest) (ref : String) :
    (r.kvLocatorContext dg ref).data =
      keyPrefix r ++ (':' :: 'c' :: 'x' :: ':' :: (hash dg ref).data) := by
  simp only [TimerStore.kvLocatorContext, keyPrefix, String.data_append, List.append_assoc]
  rfl

theorem kvLocatorRoot_ne_alarm (r : TimerStore) (d d' s : Int) :
    r.kvLocatorRoot d ≠ r.kvLocatorAlarm d' s := by
  intro h
  have h2 := congrArg String.data h
  rw [kvLocatorRoot_data, kvLocatorAlarm_data] at h2
  have h3 := List.append_cancel_left h2
  simp at h3

theorem kvLocatorRoot_ne_context (r : TimerStore) (dg : Digest) (d : Int) (ref : String) :
    r.kvLocatorRoot d ≠ r.kvLocatorContext dg ref := by
  intro h
  have h2 := congrArg String.data h
  rw [kvLocatorRoot_data, kvLocatorContext_data] at h2
  have h3 := List.append_cancel_left h2
  simp at h3

theorem kvLocatorAlarm_ne_context (r : TimerStore) (dg : Digest) (d s : Int) (ref : String) :
    r.kvLocatorAlarm d s ≠ r.kvLocatorContext dg ref := by
  intro h
  have h2 := congrArg String.data h
  rw [kvLocatorAlarm_data, kvLocatorContext_data] at h2
  have h3 := List.append_cancel_left h2
  simp at h3

theorem digitVal_getD : ∀ u, u < 36 → digitVal (digitChars.getD u '0') = u := by
  decide

theorem getD_mem_digitChars (u : Nat) : digitChars.getD u '0' ∈ digitChars := by
  by_cases h : u < 36
  · revert u; decide
  · have : digitChars.length ≤ u := by
      have : digitChars.length = 36 := by decide
      omega
    rw [List.getD_eq_default _ _ this]; decide

theorem formatBits_mem (fuel base : Nat) : ∀ (u : Nat) (acc : List Char) (c : Char),
    c ∈ formatBits fuel base u acc → c ∈ digitChars ∨ c ∈ acc := by
  induction fuel with
  | zero => intro u acc c h; exact Or.inr h
  | succ n ih =>
    intro u acc c h
    unfold formatBits at h
    split_ifs at h with hu
    · rcases List.mem_cons.1 h with h | h
      · left; rw [h]; exact getD_mem_digitChars u
      · exact Or.inr h
    · rcases ih _ _ _ h with h | h
      · exact Or.inl h
      · rcases List.mem_cons.1 h with h | h
        · left; rw [h]; exact getD_mem_digitChars _
        · exact Or.inr h

theorem formatBits_ne_nil (fuel base u : Nat) : formatBits (fuel + 1) base u [] ≠ [] := by
  induction fuel generalizing u with
  | zero =>
    unfold formatBits
    split_ifs <;> simp [formatBits]
  | succ n ih =>
    have key : ∀ (f : Nat) (v : Nat) (acc : List Char), acc ≠ [] → formatBits f base v acc ≠ [] := by
      intro f
      induction f with
      | zero => intro v acc h; simpa [formatBits] using h
      | succ m ihm =>
        intro v acc h
        unfold formatBits
        split_ifs
        · simp
        · exact ihm _ _ (by simp)
    unfold formatBits
    split_ifs
    · simp
    · exact key _ _ _ (by simp)

theorem digitsVal_formatBits (base : Nat) (hb : 2 ≤ base) (hb2 : base ≤ 36) (fuel : Nat) :
    ∀ (u : Nat) (acc : List Char), u < base ^ fuel →
      digitsVal base 0 (formatBits fuel base u acc) = digitsVal base u acc := by
  induction fuel with
  | zero =>
    intro u acc h
    have : u = 0 := by simpa using h
    subst this; rfl
  | succ n ih =>
    intro u acc h
    unfold formatBits
    split_ifs with hu
    · simp only [digitsVal, List.foldl_cons, Nat.zero_mul, Nat.zero_add]
      rw [digitVal_getD u (by omega)]
    · have hlt : u / base < base ^ n := by
        apply Nat.div_lt_of_lt_mul
        rw [pow_succ] at h
        rw [Nat.mul_comm]; exact h
      rw [ih _ _ hlt]
      simp only [digitsVal, List.foldl_cons]
      have hm : u % base < base := Nat.mod_lt _ (by omega)
      rw [digitVal_getD _ (by omega), Nat.div_add_mod' u base]

theorem formatBits_inj (base : Nat) (hb : 2 ≤ base) (hb2 : base ≤ 36) (u v : Nat)
    (h : formatBits (u + 1) base u [] = formatBits (v + 1) base v []) : u = v := by
  have hu := digitsVal_formatBits base hb hb2 (u + 1) u []
    (lt_of_lt_of_le (Nat.lt_pow_self (by omega) u) (Nat.pow_le_pow_right (by omega) (by omega)))
  have hv := digitsVal_formatBits base hb hb2 (v + 1) v []
    (lt_of_lt_of_le (Nat.lt_pow_self (by omega) v) (Nat.pow_le_pow_right (by omega) (by omega)))
  rw [h] at hu
  rw [hu] at hv
  simpa [digitsVal] using hv

theorem FormatInt_inj (base : Nat) (hb : 2 ≤ base) (hb2 : base ≤ 36) (i j : Int)
    (h : FormatInt i base = FormatInt j base) : i = j := by
  unfold FormatInt at h
  have hd : '-' ∉ digitChars := by decide
  have head : ∀ (u : Nat) (l : List Char), '-' :: l ≠ formatBits (u + 1) base u [] := by
    intro u l he
    have hm : '-' ∈ formatBits (u + 1) base u [] := by rw [← he]; simp
    rcases formatBits_mem _ _ _ _ _ hm with h1 | h1
    · exact hd h1
    · simp at h1
  split_ifs at h with hi hj hj
  · have h2 := congrArg String.data h
    simp only [List.cons.injEq, true_and] at h2
    have := formatBits_inj base hb hb2 _ _ h2
    omega
  · exact absurd (congrArg String.data h) (head _ _)
  · exact absurd (congrArg String.data h).symm (head _ _)
  · have h2 := congrArg String.data h
    have := formatBits_inj base hb hb2 _ _ h2
    omega

theorem FormatInt_no_colon (base : Nat) (i : Int) : ':' ∉ (FormatInt i base).data := by
  have hd : ':' ∉ digitChars := by decide
  intro h
  unfold FormatInt at h
  split_ifs at h
  · rcases List.mem_cons.1 h with h | h
    · exact absurd h (by decide)
    · rcases formatBits_mem _ _ _ _ _ h with h1 | h1
      · exact hd h1
      · simp at h1
  · rcases formatBits_mem _ _ _ _ _ h with h1 | h1
    · exact hd h1
    · simp at h1

theorem append_sep_inj (c : Char) : ∀ (l1 l2 m1 m2 : List Char), c ∉ l1 → c ∉ l2 →
    l1 ++ c :: m1 = l2 ++ c :: m2 → l1 = l2 ∧ m1 = m2 := by
  intro l1
  induction l1 with
  | nil =>
    intro l2 m1 m2 _ h2 h
    cases l2 with
    | nil => simpa using h
    | cons a t =>
      simp only [List.nil_append, List.cons_append, List.cons.injEq] at h
      exact absurd (h.1 ▸ List.mem_cons_self a t) h2
  | cons a t ih =>
    intro l2 m1 m2 h1 h2 h
    cases l2 with
    | nil =>
      simp only [List.nil_append, List.cons_append, List.cons.injEq] at h
      exact absurd (h.1 ▸ List.mem_cons_self a t) h1
    | cons b t2 =>
      simp only [List.cons_append, List.cons.injEq] at h
      have := ih t2 m1 m2 (fun hc => h1 (List.mem_cons_of_mem _ hc))
        (fun hc => h2 (List.mem_cons_of_mem _ hc)) h.2
      exact ⟨by rw [h.1, this.1], this.2⟩

theorem kvLocatorAlarm_inj (r : TimerStore) (d s d' s' : Int)
    (h : r.kvLocatorAlarm d s = r.kvLocatorAlarm d' s') : d = d' ∧ s = s' := by
  have h2 := congrArg String.data h
  rw [kvLocatorAlarm_data, kvLocatorAlarm_data] at h2
  have h3 := List.append_cancel_left h2
  simp only [List.cons.injEq, true_and] at h3
  have h4 := append_sep_inj ':' _ _ _ _ (FormatInt_no_colon _ _) (FormatInt_no_colon _ _) h3
  refine ⟨FormatInt_inj 36 (by omega) (by omega) _ _ (String.ext h4.1),
    FormatInt_inj 10 (by omega) (by omega) _ _ (String.ext h4.2)⟩

theorem kvLocatorRoot_inj (r : TimerStore) (d d' : Int)
    (h : r.kvLocatorRoot d = r.kvLocatorRoot d') : d = d' := by
  have h2 := congrArg String.data h
  rw [kvLocatorRoot_data, kvLocatorRoot_data] at h2
  have h3 := List.append_cancel_left h2
  simp only [List.cons.injEq, true_and] at h3
  exact FormatInt_inj 36 (by omega) (by omega) _ _ (String.ext h3)

/-! ## KV operations and Set -/

@[simp] theorem KV.advance_docs (kv : KV) : kv.advance.docs = kv.docs := by
  unfold KV.advance; split <;> rfl

@[simp] theorem KV.advance_nextCas (kv : KV) : kv.advance.nextCas = kv.nextCas := by
  unfold KV.advance; split <;> rfl

theorem KV.advance_faults (kv : KV) : kv.advance.faults = kv.faults.tail := by
  unfold KV.advance; split <;> simp_all

theorem KV.advance_of_nil (kv : KV) (h : kv.faults = []) : kv.advance = kv := by
  unfold KV.advance; split
  · rfl
  · simp_all

theorem KV.fault_of_nil (kv : KV) (h : kv.faults = []) : kv.fault = false := by
  simp [KV.fault, h]

theorem MustCounter_ok (kv : KV) (key : String) (delta init : Int)
    (h : (MustCounter kv key delta init).2.2.1 = none) :
    ∃ seq, MustCounter kv key delta init =
        (seq, kv.nextCas + 1, none, kv.advance.write key (Doc.counter seq)) ∧
      (kv.docs key = none ∧ seq = init ∨
        ∃ v c, kv.docs key = some (Doc.counter v, c) ∧ seq = wrap64 (v + delta)) := by
  unfold MustCounter at h ⊢
  by_cases hf : kv.fault = true
  · simp [hf] at h
  · simp only [hf] at h ⊢
    rcases hd : kv.docs key with _ | ⟨d, c⟩
    · exact ⟨init, by simp, Or.inl ⟨rfl, rfl⟩⟩
    · cases d with
      | counter v => exact ⟨wrap64 (v + delta), by simp, Or.inr ⟨v, c, rfl, rfl⟩⟩
      | alarm a => simp [hd] at h
      | context a => simp [hd] at h
      | span a => simp [hd] at h

theorem MustUpsert_ok (kv : KV) (key : String) (value : Doc)
    (h : (MustUpsert kv key value).2.1 = none) :
    MustUpsert kv key value = (kv.nextCas + 1, none, kv.advance.write key value) := by
  unfold MustUpsert at h ⊢
  split_ifs at h ⊢ with hf
  rfl

@[simp] theorem TimerStore.addStat_uid (r : TimerStore) (f : timerStats → timerStats) :
    (r.addStat f).uid = r.uid := rfl

@[simp] theorem TimerStore.addStat_partn (r : TimerStore) (f : timerStats → timerStats) :
    (r.addStat f).partn = r.partn := rfl

@[simp] theorem TimerStore.addStat_span (r : TimerStore) (f : timerStats → timerStats) :
    (r.addStat f).span = r.span := rfl

@[simp] theorem TimerStore.shrinkSpan_uid (r : TimerStore) (p : Int) :
    (r.shrinkSpan p).uid = r.uid := by
  unfold TimerStore.shrinkSpan; split <;> rfl

@[simp] theorem TimerStore.shrinkSpan_partn (r : TimerStore) (p : Int) :
    (r.shrinkSpan p).partn = r.partn := by
  unfold TimerStore.shrinkSpan; split <;> rfl

@[simp] theorem TimerStore.expandSpan_uid (r : TimerStore) (p : Int) :
    (r.expandSpan p).uid = r.uid := by
  unfold TimerStore.expandSpan; simp only []; split <;> split <;> rfl

@[simp] theorem TimerStore.expandSpan_partn (r : TimerStore) (p : Int) :
    (r.expandSpan p).partn = r.partn := by
  unfold TimerStore.expandSpan; simp only []; split <;> split <;> rfl

theorem kvLocatorRoot_congr (r r2 : TimerStore) (h1 : r2.uid = r.uid) (h2 : r2.partn = r.partn)
    (d : Int) : r2.kvLocatorRoot d = r.kvLocatorRoot d := by
  unfold TimerStore.kvLocatorRoot; rw [h1, h2]

theorem kvLocatorAlarm_congr (r r2 : TimerStore) (h1 : r2.uid = r.uid) (h2 : r2.partn = r.partn)
    (d s : Int) : r2.kvLocatorAlarm d s = r.kvLocatorAlarm d s := by
  unfold TimerStore.kvLocatorAlarm; rw [h1, h2]

theorem kvLocatorContext_congr (r r2 : TimerStore) (h1 : r2.uid = r.uid)
    (h2 : r2.partn = r.partn) (dg : Digest) (ref : String) :
    r2.kvLocatorContext dg ref = r.kvLocatorContext dg ref := by
  unfold TimerStore.kvLocatorContext; rw [h1, h2]

@[simp] theorem kvLocatorRoot_addStat (r : TimerStore) (f : timerStats → timerStats) (d : Int) :
    (r.addStat f).kvLocatorRoot d = r.kvLocatorRoot d := rfl

@[simp] theorem kvLocatorAlarm_addStat (r : TimerStore) (f : timerStats → timerStats)
    (d s : Int) : (r.addStat f).kvLocatorAlarm d s = r.kvLocatorAlarm d s := rfl

@[simp] theorem kvLocatorContext_addStat (r : TimerStore) (f : timerStats → timerStats)
    (dg : Digest) (ref : String) :
    (r.addStat f).kvLocatorContext dg ref = r.kvLocatorContext dg ref := rfl

theorem expandSpan_span_congr (r r1 : TimerStore) (h : r1.span = r.span) (p : Int) :
    (r1.expandSpan p).span = (r.expandSpan p).span := by
  unfold TimerStore.expandSpan
  simp only [h]
  split_ifs <;> simp_all

theorem Set_success (r : TimerStore) (dg : Digest) (kv : KV) (now due : Int) (ref ctx : String)
    (h : (r.Set dg kv now due ref ctx).1 = none) :
    ∃ (seq : Int) (c1 c2 c3 : Cas),
      (kv.docs (r.kvLocatorRoot (setDue now due)) = none ∧ seq = init_seq ∨
        ∃ v c, kv.docs (r.kvLocatorRoot (setDue now due)) = some (Doc.counter v, c) ∧
          seq = wrap64 (v + 1)) ∧
      (∀ k, (r.Set dg kv now due ref ctx).2.2.docs k =
        if k = r.kvLocatorContext dg ref then
          some (Doc.context ⟨ctx, r.kvLocatorAlarm (setDue now due) seq⟩, c3)
        else if k = r.kvLocatorAlarm (setDue now due) seq then
          some (Doc.alarm ⟨setDue now due, r.kvLocatorContext dg ref⟩, c2)
        else if k = r.kvLocatorRoot (setDue now due) then some (Doc.counter seq, c1)
        else kv.docs k) ∧
      c1 ≠ 0 ∧ c2 ≠ 0 ∧ c3 ≠ 0 ∧
      (r.Set dg kv now due ref ctx).2.2.faults = kv.faults.tail.tail.tail ∧
      (r.Set dg kv now due ref ctx).2.1.uid = r.uid ∧
      (r.Set dg kv now due ref ctx).2.1.partn = r.partn ∧
      (r.Set dg kv now due ref ctx).2.1.span.toSpan = (r.expandSpan (setDue now due)).span.toSpan := by
  generalize hS : r.Set dg kv now due ref ctx = res at h ⊢
  unfold TimerStore.Set at hS
  have hD : setDue now due = roundUp (if (decide (wrap64 (due - now) ≤ Resolution)) = true
      then wrap64 (now + Resolution) else due) := by
    unfold setDue; simp
  simp only [] at hS
  rw [← hD] at hS
  generalize hr1 : (if decide (wrap64 (due - now) ≤ Resolution) = true then
      (r.addStat timerStats.addSetCounter).addStat timerStats.addTimerInPastCounter
      else r.addStat timerStats.addSetCounter) = r1 at hS
  have hu : r1.uid = r.uid := by subst hr1; split <;> rfl
  have hp : r1.partn = r.partn := by subst hr1; split <;> rfl
  have hsp : r1.span = r.span := by subst hr1; split <;> rfl
  rw [kvLocatorRoot_congr r r1 hu hp, kvLocatorContext_congr r r1 hu hp] at hS
  simp only [kvLocatorAlarm_congr r r1 hu hp] at hS
  rcases hC : (MustCounter kv (r.kvLocatorRoot (setDue now due)) 1 init_seq).2.2.1 with _ | e
  swap
  · rw [hC] at hS; simp only [] at hS; rw [← hS] at h; simp at h
  obtain ⟨seq, hC2, hseq⟩ := MustCounter_ok _ _ _ _ hC
  rw [hC2] at hS
  simp only [] at hS
  rcases hU1 : (MustUpsert (kv.advance.write (r.kvLocatorRoot (setDue now due)) (Doc.counter seq))
      (r.kvLocatorAlarm (setDue now due) seq)
      (Doc.alarm ⟨setDue now due, r.kvLocatorContext dg ref⟩)).2.1 with _ | e
  swap
  · rw [hU1] at hS; simp only [] at hS; rw [← hS] at h; simp at h
  have hU1b := MustUpsert_ok _ _ _ hU1
  rw [hU1b] at hS
  simp only [] at hS
  rcases hU2 : (MustUpsert ((kv.advance.write (r.kvLocatorRoot (setDue now due))
      (Doc.counter seq)).advance.write (r.kvLocatorAlarm (setDue now due) seq)
      (Doc.alarm ⟨setDue now due, r.kvLocatorContext dg ref⟩))
      (r.kvLocatorContext dg ref)
      (Doc.context ⟨ctx, r.kvLocatorAlarm (setDue now due) seq⟩)).2.1 with _ | e
  swap
  · rw [hU2] at hS; simp only [] at hS; rw [← hS] at h; simp at h
  have hU2b := MustUpsert_ok _ _ _ hU2
  rw [hU2b] at hS
  simp only [] at hS
  subst hS
  refine ⟨seq, kv.nextCas + 1, kv.nextCas + 1 + 1, kv.nextCas + 1 + 1 + 1, hseq, ?_, Nat.succ_ne_zero _,
    Nat.succ_ne_zero _, Nat.succ_ne_zero _, ?_, ?_, ?_, ?_⟩
  · intro k
    simp only [KV.write, KV.advance_docs, KV.advance_nextCas]
  · simp only [KV.write, KV.advance_faults]
  · simp [hu]
  · simp [hp]
  · simp only [TimerStore.addStat_span]
    rw [expandSpan_span_congr r r1 hsp]

theorem MustGet_cases {α : Type} (dec : Doc → Option α) (kv : KV) (key : String) (out : α) :
    (kv.fault = true ∧
      MustGet dec kv key out = (0, false, some Error.ErrRetryTimeout, out, kv.advance)) ∨
    (kv.fault = false ∧ kv.docs key = none ∧
      MustGet dec kv key out = (0, true, none, out, kv.advance)) ∨
    (kv.fault = false ∧ ∃ d cas v, kv.docs key = some (d, cas) ∧ dec d = some v ∧
      MustGet dec kv key out = (cas, false, none, v, kv.advance)) ∨
    (kv.fault = false ∧ ∃ d cas, kv.docs key = some (d, cas) ∧ dec d = none ∧
      MustGet dec kv key out = (0, false, some Error.ErrRetryTimeout, out, kv.advance)) := by
  unfold MustGet
  by_cases hf : kv.fault = true
  · left; simp [hf]
  · right
    have hf2 : kv.fault = false := by simpa using hf
    rcases hd : kv.docs key with _ | ⟨d, cas⟩
    · left; simp [hf2]
    · right
      rcases hv : dec d with _ | v
      · right; exact ⟨hf2, d, cas, rfl, hv, by simp [hf2, hv]⟩
      · left; exact ⟨hf2, d, cas, v, rfl, hv, by simp [hf2, hv]⟩

theorem Doc.asAlarm_eq_some (d : Doc) (a : AlarmRecord) (h : d.asAlarm = some a) :
    d = Doc.alarm a := by
  cases d <;> simp [Doc.asAlarm] at h; rw [h]

theorem Doc.asContext_eq_some (d : Doc) (a : ContextRecord) (h : d.asContext = some a) :
    d = Doc.context a := by
  cases d <;> simp [Doc.asContext] at h; rw [h]

theorem Doc.asCounter_eq_some (d : Doc) (a : Int) (h : d.asCounter = some a) :
    d = Doc.counter a := by
  cases d <;> simp [Doc.asCounter] at h; rw [h]

theorem KV.fault_eq_true_faults (kv : KV) (h : kv.fault = true) : kv.faults ≠ [] := by
  intro h2; simp [KV.fault, h2] at h

theorem Alive_congr (r r1 : TimerStore) (h1 : r1.uid = r.uid) (h2 : r1.partn = r.partn)
    (docs : String → Option (Doc × Cas)) (b s : Int) : Alive r1 docs b s ↔ Alive r docs b s := by
  unfold Alive; rw [kvLocatorAlarm_congr r r1 h1 h2]

theorem Yielded_congr (r r1 : TimerStore) (h1 : r1.uid = r.uid) (h2 : r1.partn = r.partn)
    (docs : String → Option (Doc × Cas)) (b : Int) (e : TimerEntry) :
    Yielded r1 docs b e ↔ Yielded r docs b e := by
  unfold Yielded; rw [kvLocatorAlarm_congr r r1 h1 h2]

theorem BadColumn_congr (r r1 : TimerStore) (h1 : r1.uid = r.uid) (h2 : r1.partn = r.partn)
    (docs : String → Option (Doc × Cas)) (b s : Int) :
    BadColumn r1 docs b s ↔ BadColumn r docs b s := by
  unfold BadColumn; rw [kvLocatorAlarm_congr r r1 h1 h2]

/-- One skipped column in front of a run of the column loop. -/
theorem ColPost_step (r r1 : TimerStore) (kv kv1 : KV) (it : TimerIter) (col : colIter)
    (found : Bool) (err : Option Error) (it' : TimerIter) (r' : TimerStore) (kv' : KV)
    (h1 : r1.uid = r.uid) (h2 : r1.partn = r.partn) (h3 : r1.span = r.span)
    (hd : kv1.docs = kv.docs) (hk : kv.faults = [] → kv1 = kv)
    (hle : col.current ≤ col.stop) (hdead : ¬ Alive r kv.docs it.row.current col.current)
    (h : ColPost r1 kv1 it { col with current := wrap64 (col.current + 1) } found err it' r' kv') :
    ColPost r kv it col found err it' r' kv' := by
  obtain ⟨p1, p2, p3, p4, p5, p6, ⟨col', q1, q2, q3, q4, q5⟩, p7, p8, p9⟩ := h
  have hw : InInt64 col.current → col.stop < MaxInt64 →
      wrap64 (col.current + 1) = col.current + 1 ∧ InInt64 (col.current + 1) := by
    intro ha hb
    unfold InInt64 MinInt64 MaxInt64 at *
    exact ⟨wrap64_eq _ (by omega) (by omega), by omega, by omega⟩
  refine ⟨by rw [p1, hd], ?_, by rw [p3, h1], by rw [p4, h2], by rw [p5, h3], p6,
    ⟨col', q1, q2, q3, ?_, ?_⟩, ?_, p8, ?_⟩
  · intro hf
    have := hk hf
    subst this
    exact p2 hf
  · intro hfound
    obtain ⟨e, e1, e2, e3⟩ := q4 hfound
    refine ⟨e, e1, e2, ?_⟩
    intro ha hb
    have hw2 := (hw ha hb).1
    have := e3 (by simp only []; rw [hw2]; exact (hw ha hb).2) hb
    simp only [hw2] at this
    refine ⟨by omega, ?_⟩
    intro s hs1 hs2
    by_cases hs : s = col.current
    · rw [hs]; exact hdead
    · have := this.2 s (by omega) hs2
      rwa [hd, Alive_congr r r1 h1 h2] at this
  · intro hfound herr ha hb
    have hw2 := (hw ha hb).1
    have := q5 hfound herr (by simp only []; rw [hw2]; exact (hw ha hb).2) hb
    simp only [hw2] at this
    refine ⟨this.1, this.2.1, ?_⟩
    intro s hs1 hs2
    by_cases hs : s = col.current
    · rw [hs]; exact hdead
    · have := this.2.2 s (by omega) hs2
      rwa [hd, Alive_congr r r1 h1 h2] at this
  · intro hfound
    obtain ⟨e0, e, e1, e2, e3, e4⟩ := p7 hfound
    refine ⟨e0, e, e1, ?_, e3, e4⟩
    rwa [hd, Yielded_congr r r1 h1 h2] at e2
  · intro e he
    obtain ⟨e1, e2⟩ := p9 e he
    refine ⟨e1, ?_⟩
    intro hf
    have hkk := hk hf
    subst hkk
    obtain ⟨s, s1, s2⟩ := e2 hf
    exact ⟨s, s1, by rwa [BadColumn_congr r r1 h1 h2] at s2⟩

theorem nextColumnLoop_post : ∀ (fuel : Nat) (it : TimerIter) (col : colIter)
    (alarm : AlarmRecord) (context : ContextRecord) (r : TimerStore) (kv : KV) (found : Bool)
    (err : Option Error) (it' : TimerIter) (r' : TimerStore) (kv' : KV),
    TimerIter.nextColumnLoop fuel it col alarm context r kv = some (found, err, it', r', kv') →
    ColPost r kv it col found err it' r' kv' := by
  intro fuel
  induction fuel with
  | zero => intro it col alarm context r kv found err it' r' kv' h; simp [TimerIter.nextColumnLoop] at h
  | succ n ih =>
    intro it col alarm context r kv found err it' r' kv' h
    rw [TimerIter.nextColumnLoop] at h
    simp only [] at h
    by_cases hc : col.current ≤ col.stop
    swap
    · simp only [hc, if_false, Option.some.injEq, Prod.mk.injEq] at h
      obtain ⟨rfl, rfl, rfl, rfl, rfl⟩ := h
      refine ⟨rfl, fun _ => rfl, rfl, rfl, rfl, rfl, ⟨col, rfl, rfl, rfl, ?_, ?_⟩, ?_, ?_, ?_⟩
      · intro h; simp at h
      · intro _ _ ha hb
        exact ⟨by omega, ha, fun s h1 h2 => by omega⟩
      · intro h; simp at h
      · intro _; rfl
      · intro e h; simp at h
    simp only [hc, if_true] at h
    have hadv : kv.faults = [] → kv.advance = kv := KV.advance_of_nil kv
    rcases MustGet_cases Doc.asAlarm kv (r.kvLocatorAlarm it.row.current col.current) alarm with
      ⟨hf, hres⟩ | ⟨hf, hdoc, hres⟩ | ⟨hf, d, cas, a, hdoc, hdec, hres⟩ | ⟨hf, d, cas, hdoc, hdec, hres⟩
    · -- retry exhaustion on the alarm read
      rw [hres] at h
      simp only [Option.some.injEq, Prod.mk.injEq] at h
      obtain ⟨rfl, rfl, rfl, rfl, rfl⟩ := h
      refine ⟨KV.advance_docs kv, hadv, rfl, rfl, rfl, rfl, ⟨_, rfl, rfl, rfl, ?_, ?_⟩, ?_, ?_, ?_⟩
      · intro h; simp at h
      · intro _ h; simp at h
      · intro h; simp at h
      · intro _; rfl
      · intro e _
        exact ⟨rfl, fun hnil => absurd hnil (KV.fault_eq_true_faults kv hf)⟩
    · -- alarm absent: skip
      rw [hres] at h
      simp only [if_true] at h
      have hih := ih _ _ _ _ _ _ _ _ _ _ _ h
      refine ColPost_step r _ kv _ it col found err it' r' kv' rfl rfl rfl (KV.advance_docs kv)
        hadv hc ?_ hih
      rintro ⟨a, acas, c, ccas, h1, _⟩
      rw [hdoc] at h1; simp at h1
    · -- alarm read
      rw [hres] at h
      simp only [Bool.false_eq_true, if_false] at h
      have hda := Doc.asAlarm_eq_some d a hdec
      subst hda
      rcases MustGet_cases Doc.asContext kv.advance a.ContextRef context with
        ⟨hf2, hres2⟩ | ⟨hf2, hdoc2, hres2⟩ | ⟨hf2, d2, cas2, c, hdoc2, hdec2, hres2⟩ |
        ⟨hf2, d2, cas2, hdoc2, hdec2, hres2⟩
      · rw [hres2] at h
        simp only [Option.some.injEq, Prod.mk.injEq] at h
        obtain ⟨rfl, rfl, rfl, rfl, rfl⟩ := h
        refine ⟨by simp, fun hnil => by rw [hadv hnil, hadv hnil], rfl, rfl, rfl, rfl,
          ⟨_, rfl, rfl, rfl, ?_, ?_⟩, ?_, ?_, ?_⟩
        · intro h; simp at h
        · intro _ h; simp at h
        · intro h; simp at h
        · intro _; rfl
        · intro e _
          refine ⟨rfl, fun hnil => ?_⟩
          rw [hadv hnil] at hf2
          exact absurd hnil (KV.fault_eq_true_faults kv hf2)
      · -- context absent: skip
        rw [hres2] at h
        simp only [Bool.true_or, if_true] at h
        have hih := ih _ _ _ _ _ _ _ _ _ _ _ h
        refine ColPost_step r _ kv _ it col found err it' r' kv' rfl rfl rfl (by simp)
          (fun hnil => by rw [hadv hnil, hadv hnil]) hc ?_ hih
        rintro ⟨a', acas, c, ccas, h1, h2, _⟩
        rw [hdoc] at h1
        simp only [Option.some.injEq, Prod.mk.injEq, Doc.alarm.injEq] at h1
        rw [← h1.1] at h2
        rw [KV.advance_docs] at hdoc2
        rw [hdoc2] at h2; simp at h2
      · rw [hres2] at h
        have hdc := Doc.asContext_eq_some d2 c hdec2
        subst hdc
        rw [KV.advance_docs] at hdoc2
        by_cases hlink : c.AlarmRef = r.kvLocatorAlarm it.row.current col.current
        · -- cross-linked: yield
          simp only [Bool.false_or, bne_iff_ne, ne_eq, hlink, not_true_eq_false, if_false,
            Option.some.injEq, Prod.mk.injEq] at h
          obtain ⟨rfl, rfl, rfl, rfl, rfl⟩ := h
          refine ⟨by simp, fun hnil => by rw [hadv hnil, hadv hnil], rfl, rfl, rfl, rfl,
            ⟨_, rfl, rfl, rfl, ?_, ?_⟩, ?_, ?_, ?_⟩
          · intro _
            refine ⟨_, rfl, ?_, ?_⟩
            · split <;> rfl
            · intro _ _
              refine ⟨?_, fun s h1 h2 => ?_⟩
              · split <;> exact le_refl _
              · exfalso
                have : s < col.current := by
                  revert h2; split <;> exact id
                omega
          · intro h; simp at h
          · intro _
            refine ⟨rfl, _, rfl, ?_, ?_, ?_⟩
            · refine ⟨⟨cas, ?_⟩, ?_, ?_⟩
              · split <;> exact hdoc
              · split <;> exact hdoc2
              · split <;> exact hlink
            · split <;> exact hc
            · split <;> simp_all
          · intro h; simp at h
          · intro e h; simp at h
        · -- superseded: skip
          simp only [Bool.false_or, bne_iff_ne, ne_eq, hlink, not_false_eq_true, if_true] at h
          have hih := ih _ _ _ _ _ _ _ _ _ _ _ h
          refine ColPost_step r _ kv _ it col found err it' r' kv' rfl rfl rfl (by simp)
            (fun hnil => by rw [hadv hnil, hadv hnil]) hc ?_ hih
          rintro ⟨a', acas, c', ccas, h1, h2, h3⟩
          rw [hdoc] at h1
          simp only [Option.some.injEq, Prod.mk.injEq, Doc.alarm.injEq] at h1
          rw [← h1.1] at h2
          rw [hdoc2] at h2
          simp only [Option.some.injEq, Prod.mk.injEq, Doc.context.injEq] at h2
          rw [← h2.1] at h3
          exact hlink h3
      · -- context does not decode
        rw [hres2] at h
        simp only [Option.some.injEq, Prod.mk.injEq] at h
        obtain ⟨rfl, rfl, rfl, rfl, rfl⟩ := h
        refine ⟨by simp, fun hnil => by rw [hadv hnil, hadv hnil], rfl, rfl, rfl, rfl,
          ⟨_, rfl, rfl, rfl, ?_, ?_⟩, ?_, ?_, ?_⟩
        · intro h; simp at h
        · intro _ h; simp at h
        · intro h; simp at h
        · intro _; rfl
        · intro e _
          refine ⟨rfl, fun _ => ⟨col.current, hc, Or.inr ⟨a, cas, d2, cas2, hdoc, ?_, hdec2⟩⟩⟩
          rwa [KV.advance_docs] at hdoc2
    · -- alarm key does not decode
      rw [hres] at h
      simp only [Option.some.injEq, Prod.mk.injEq] at h
      obtain ⟨rfl, rfl, rfl, rfl, rfl⟩ := h
      refine ⟨KV.advance_docs kv, hadv, rfl, rfl, rfl, rfl, ⟨_, rfl, rfl, rfl, ?_, ?_⟩, ?_, ?_, ?_⟩
      · intro h; simp at h
      · intro _ h; simp at h
      · intro h; simp at h
      · intro _; rfl
      · intro e _
        exact ⟨rfl, fun _ => ⟨col.current, hc, Or.inl ⟨d, cas, hdoc, hdec⟩⟩⟩

theorem shrinkSpan_span_congr (r r1 : TimerStore) (h : r1.span = r.span) (p : Int) :
    (r1.shrinkSpan p).span = (r.shrinkSpan p).span := by
  unfold TimerStore.shrinkSpan
  simp only [h]
  split_ifs <;> simp_all

/-- One absent row in front of a run of the row loop. -/
theorem RowPost_step (r r1 : TimerStore) (kv kv1 : KV) (it : TimerIter) (col : colIter)
    (found : Bool) (err : Option Error) (it' : TimerIter) (r' : TimerStore) (kv' : KV)
    (h1 : r1.uid = r.uid) (h2 : r1.partn = r.partn) (h3 : r1.span = r.span)
    (hd : kv1.docs = kv.docs) (hk : kv.faults = [] → kv1 = kv)
    (hlt : it.row.current < it.row.stop)
    (habs : kv.docs (r.kvLocatorRoot (wrap64 (it.row.current + Resolution))) = none)
    (h : RowPost r1 kv1
      { it with row := { it.row with current := wrap64 (it.row.current + Resolution) } }
      col found err it' r' kv') :
    RowPost r kv it col found err it' r' kv' := by
  obtain ⟨p1, p2, p3, p4, p5, p6, p7, p8, p9, p10, p11⟩ := h
  simp only [] at p5 p6 p7 p8 p9 p10 p11
  have hin : InInt64 (wrap64 (it.row.current + Resolution)) := by
    have := wrap64_range (it.row.current + Resolution)
    unfold InInt64 MinInt64 MaxInt64; exact this
  have hw : InInt64 it.row.current → it.row.stop ≤ MaxInt64 - Resolution →
      wrap64 (it.row.current + Resolution) = it.row.current + Resolution := by
    intro ha hb
    unfold InInt64 MinInt64 MaxInt64 Resolution at *
    exact wrap64_eq _ (by omega) (by omega)
  have hroot : ∀ d, r1.kvLocatorRoot d = r.kvLocatorRoot d := kvLocatorRoot_congr r r1 h1 h2
  refine ⟨by rw [p1, hd], ?_, by rw [p3, h1], by rw [p4, h2], p5, p6, p7, fun _ => p8 hin,
    ?_, ?_, ?_⟩
  · intro hf
    have := hk hf
    subst this
    exact p2 hf
  · intro hfound
    obtain ⟨e1, e2, ⟨v, cas, e3, e4⟩, e5, e6⟩ := p9 hfound
    refine ⟨e1, by rw [e2, h3], ⟨v, cas, by rw [← hd, ← hroot]; exact e3, e4⟩, ?_, ?_⟩
    · intro ha
      obtain ⟨c0, c1, c2, c3⟩ := e5 hin
      exact ⟨c0, c1, c2, c3⟩
    · intro ha hb
      have hw2 := hw ha hb
      obtain ⟨k, k1, k2, k3, k4⟩ := e6 hin hb
      rw [hw2] at k2
      refine ⟨k + 1, by omega, ?_, k3, ?_⟩
      · rw [k2]; push_cast; ring
      · intro j j1 j2
        by_cases hj : j = 1
        · subst hj
          rw [hw2] at habs
          simpa using habs
        · have := k4 (j - 1) (by omega) (by omega)
          rw [hd, hroot, hw2] at this
          have he : it.row.current + Resolution + Resolution * ((j - 1 : Nat) : Int)
              = it.row.current + Resolution * (j : Int) := by
            have : ((j - 1 : Nat) : Int) = (j : Int) - 1 := by omega
            rw [this]; ring
          rwa [he] at this
  · intro hfound
    obtain ⟨e1, e2⟩ := p10 hfound
    refine ⟨e1, ?_⟩
    intro herr
    obtain ⟨e3, e4⟩ := e2 herr
    refine ⟨?_, ?_⟩
    · rw [e3]
      exact shrinkSpan_span_congr r r1 h3 _
    · intro ha hb
      have hw2 := hw ha hb
      obtain ⟨k, k2, k3, k4⟩ := e4 hin hb
      rw [hw2] at k2
      refine ⟨k + 1, ?_, k3, ?_⟩
      · rw [k2]; push_cast; ring
      · intro j j1 j2
        by_cases hj : j = 1
        · subst hj
          rw [hw2] at habs
          simpa using habs
        · have := k4 (j - 1) (by omega) (by omega)
          rw [hd, hroot, hw2] at this
          have he : it.row.current + Resolution + Resolution * ((j - 1 : Nat) : Int)
              = it.row.current + Resolution * (j : Int) := by
            have : ((j - 1 : Nat) : Int) = (j : Int) - 1 := by omega
            rw [this]; ring
          rwa [he] at this
  · intro e he
    obtain ⟨e1, e2, e3⟩ := p11 e he
    refine ⟨e1, by rw [e2, h3], ?_⟩
    intro hf
    have hkk := hk hf
    subst hkk
    obtain ⟨d, doc, cas, q1, q2⟩ := e3 hf
    exact ⟨d, doc, cas, by rwa [hroot] at q1, q2⟩

theorem nextRowLoop_post : ∀ (fuel : Nat) (it : TimerIter) (col : colIter)
    (r : TimerStore) (kv : KV) (found : Bool)
    (err : Option Error) (it' : TimerIter) (r' : TimerStore) (kv' : KV),
    TimerIter.nextRowLoop fuel it col r kv = some (found, err, it', r', kv') →
    RowPost r kv it col found err it' r' kv' := by
  intro fuel
  induction fuel with
  | zero => intro it col r kv found err it' r' kv' h; simp [TimerIter.nextRowLoop] at h
  | succ n ih =>
    intro it col r kv found err it' r' kv' h
    rw [TimerIter.nextRowLoop] at h
    simp only [] at h
    by_cases hc : it.row.current < it.row.stop
    swap
    · simp only [hc, if_false, Option.some.injEq, Prod.mk.injEq] at h
      obtain ⟨rfl, rfl, rfl, rfl, rfl⟩ := h
      refine ⟨rfl, fun _ => rfl, by simp, by simp, rfl, rfl, rfl, id, ?_, ?_, ?_⟩
      · intro h; simp at h
      · intro _
        refine ⟨rfl, fun _ => ⟨rfl, fun _ _ => ⟨0, by simp, by omega, fun j j1 j2 => by omega⟩⟩⟩
      · intro e h; simp at h
    simp only [hc, if_true] at h
    have hadv : kv.faults = [] → kv.advance = kv := KV.advance_of_nil kv
    have hin : InInt64 (wrap64 (it.row.current + Resolution)) := by
      have := wrap64_range (it.row.current + Resolution)
      unfold InInt64 MinInt64 MaxInt64; exact this
    rcases MustGet_cases Doc.asCounter kv
        (r.kvLocatorRoot (wrap64 (it.row.current + Resolution))) col.stop with
      ⟨hf, hres⟩ | ⟨hf, hdoc, hres⟩ | ⟨hf, d, cas, v, hdoc, hdec, hres⟩ | ⟨hf, d, cas, hdoc, hdec, hres⟩
    · rw [hres] at h
      simp only [Option.some.injEq, Prod.mk.injEq] at h
      obtain ⟨rfl, rfl, rfl, rfl, rfl⟩ := h
      refine ⟨KV.advance_docs kv, hadv, rfl, rfl, rfl, rfl, rfl, fun _ => hin, ?_, ?_, ?_⟩
      · intro h; simp at h
      · intro _; exact ⟨rfl, fun h => by simp at h⟩
      · intro e _
        exact ⟨rfl, rfl, fun hnil => absurd hnil (KV.fault_eq_true_faults kv hf)⟩
    · rw [hres] at h
      simp only [Bool.not_true, Bool.false_eq_true, if_false] at h
      have hih := ih _ _ _ _ _ _ _ _ _ h
      exact RowPost_step r (r.addStat timerStats.addScanRowLookupCounter) kv kv.advance it col
        found err it' r' kv' rfl rfl rfl (KV.advance_docs kv) hadv hc hdoc hih
    · rw [hres] at h
      have hdv := Doc.asCounter_eq_some d v hdec
      subst hdv
      simp only [Bool.not_false, if_true, Option.some.injEq, Prod.mk.injEq] at h
      obtain ⟨rfl, rfl, rfl, rfl, rfl⟩ := h
      refine ⟨KV.advance_docs kv, hadv, rfl, rfl, rfl, rfl, rfl, fun _ => hin, ?_, ?_, ?_⟩
      · intro _
        refine ⟨rfl, rfl, ⟨v, cas, hdoc, rfl⟩, ?_, ?_⟩
        · intro ha; exact ⟨it.row.current, ha, hc, rfl⟩
        · intro ha hb
          have hw : wrap64 (it.row.current + Resolution) = it.row.current + Resolution := by
            unfold InInt64 MinInt64 MaxInt64 Resolution at *
            exact wrap64_eq _ (by omega) (by omega)
          refine ⟨1, le_refl _, ?_, ?_, fun j j1 j2 => by omega⟩
          · simp only [hw]; simp
          · simp only [hw]; unfold Resolution; omega
      · intro h; simp at h
      · intro e h; simp at h
    · rw [hres] at h
      simp only [Option.some.injEq, Prod.mk.injEq] at h
      obtain ⟨rfl, rfl, rfl, rfl, rfl⟩ := h
      refine ⟨KV.advance_docs kv, hadv, rfl, rfl, rfl, rfl, rfl, fun _ => hin, ?_, ?_, ?_⟩
      · intro h; simp at h
      · intro _; exact ⟨rfl, fun h => by simp at h⟩
      · intro e _
        exact ⟨rfl, rfl, fun _ => ⟨_, d, cas, hdoc, hdec⟩⟩

theorem Pending_congr (r r1 : TimerStore) (h1 : r1.uid = r.uid) (h2 : r1.partn = r.partn)
    (docs : String → Option (Doc × Cas)) (it : TimerIter) (b s : Int) :
    Pending r1 docs it b s ↔ Pending r docs it b s := by
  unfold Pending; rw [kvLocatorRoot_congr r r1 h1 h2]

theorem NoWrapIt_congr (r r1 : TimerStore) (h1 : r1.uid = r.uid) (h2 : r1.partn = r.partn)
    (docs : String → Option (Doc × Cas)) (it : TimerIter) :
    NoWrapIt r1 docs it ↔ NoWrapIt r docs it := by
  unfold NoWrapIt; simp only [kvLocatorRoot_congr r r1 h1 h2]

theorem BadDoc_congr (r r1 : TimerStore) (h1 : r1.uid = r.uid) (h2 : r1.partn = r.partn)
    (docs : String → Option (Doc × Cas)) : BadDoc r1 docs ↔ BadDoc r docs := by
  unfold BadDoc BadColumn
  simp only [kvLocatorRoot_congr r r1 h1 h2, kvLocatorAlarm_congr r r1 h1 h2]

theorem nextColumn_post (it : TimerIter) (fuel : Nat) (r : TimerStore) (kv : KV) (found : Bool)
    (err : Option Error) (it' : TimerIter) (r' : TimerStore) (kv' : KV)
    (h : it.nextColumn fuel r kv = some (found, err, it', r', kv')) :
    (it.col = none ∧ found = false ∧ err = none ∧ it' = { it with entry := none } ∧
      r' = r.addStat timerStats.addScanColumnCounter ∧ kv' = kv) ∨
    (∃ col, it.col = some col ∧
      ColPost (r.addStat timerStats.addScanColumnCounter) kv { it with entry := none } col
        found err it' r' kv') := by
  unfold TimerIter.nextColumn at h
  simp only [] at h
  rcases hcol : it.col with _ | col
  · left
    rw [hcol] at h
    simp only [Option.some.injEq, Prod.mk.injEq] at h
    obtain ⟨rfl, rfl, rfl, rfl, rfl⟩ := h
    exact ⟨rfl, rfl, rfl, rfl, rfl, rfl⟩
  · right
    rw [hcol] at h
    simp only [] at h
    exact ⟨col, rfl, nextColumnLoop_post _ _ _ _ _ _ _ _ _ _ _ _ h⟩

/-- Alive pending positions survive a move to the next row that has a root
counter, when the columns left in the current row are dead. -/
theorem Pending_next_row (r : TimerStore) (docs : String → Option (Doc × Cas))
    (it it2 : TimerIter) (v : Int) (cas : Cas) (k : Nat)
    (hstop : it2.row.stop = it.row.stop)
    (hroot : docs (r.kvLocatorRoot it2.row.current) = some (Doc.counter v, cas))
    (hcol : it2.col = some { stop := v, current := init_seq, topCas := cas })
    (hk1 : 1 ≤ k) (hk2 : it2.row.current = it.row.current + Resolution * k)
    (hk4 : ∀ j : Nat, 1 ≤ j → j < k →
      docs (r.kvLocatorRoot (it.row.current + Resolution * j)) = none)
    (hdead : ∀ c, it.col = some c → ∀ s, c.current ≤ s → s ≤ c.stop →
      ¬ Alive r docs it.row.current s)
    (b s : Int) (hp : Pending r docs it b s) (ha : Alive r docs b s) :
    Pending r docs it2 b s := by
  rcases hp with ⟨hb, c, hc, hs1, hs2⟩ | ⟨k', k1, k2, k3, v', cas', hv, hs1, hs2⟩
  · subst hb
    exact absurd ha (hdead c hc s hs1 hs2)
  · rcases Nat.lt_trichotomy k' k with hlt | heq | hgt
    · have := hk4 k' k1 hlt
      rw [← k2, hv] at this
      simp at this
    · subst heq
      have hb : b = it2.row.current := by rw [k2, hk2]
      left
      refine ⟨hb, _, hcol, hs1, ?_⟩
      rw [hb, hroot] at hv
      simp only [Option.some.injEq, Prod.mk.injEq, Doc.counter.injEq] at hv
      simp only []
      omega
    · right
      refine ⟨k' - k, by omega, ?_, by rw [hstop]; exact k3, v', cas', hv, hs1, hs2⟩
      rw [k2, hk2]
      have : ((k' - k : Nat) : Int) = (k' : Int) - (k : Int) := by omega
      rw [this]; ring

/-- A result of `ScanNext` obtained after moving to a later row is a result
for the iterator before the move. -/
theorem ScanPost_lift (r r2 : TimerStore) (kv kv2 : KV) (it it2 : TimerIter)
    (res : Option TimerEntry) (err : Option Error) (it' : TimerIter) (r' : TimerStore)
    (kv' : KV)
    (h1 : r2.uid = r.uid) (h2 : r2.partn = r.partn) (h3 : r2.span = r.span)
    (hd : kv2.docs = kv.docs) (hk : kv.faults = [] → kv2 = kv)
    (hstop : it2.row.stop = it.row.stop) (hstart : it2.row.start = it.row.start)
    (hin : InInt64 it.row.current → InInt64 it2.row.current)
    (v : Int) (cas : Cas)
    (hroot : kv.docs (r.kvLocatorRoot it2.row.current) = some (Doc.counter v, cas))
    (hcol : it2.col = some { stop := v, current := init_seq, topCas := cas })
    (hc0 : InInt64 it.row.current → ∃ c0, InInt64 c0 ∧ c0 < it.row.stop ∧
      it2.row.current = wrap64 (c0 + Resolution))
    (hrows : InInt64 it.row.current → it.row.stop ≤ MaxInt64 - Resolution →
      ∃ k : Nat, 1 ≤ k ∧ it2.row.current = it.row.current + Resolution * k ∧
        it2.row.current - Resolution < it.row.stop ∧
        ∀ j : Nat, 1 ≤ j → j < k →
          kv.docs (r.kvLocatorRoot (it.row.current + Resolution * j)) = none)
    (hdead : NoWrapIt r kv.docs it → ∀ c, it.col = some c → ∀ s, c.current ≤ s → s ≤ c.stop →
      ¬ Alive r kv.docs it.row.current s)
    (h : ScanPost r2 kv2 it2 res err it' r' kv') : ScanPost r kv it res err it' r' kv' := by
  obtain ⟨p1, p2, p3, p4, p5, p6, p7, p8, p9, p10⟩ := h
  have hnw : NoWrapIt r kv.docs it → NoWrapIt r2 kv2.docs it2 := by
    intro hn
    rw [hd, NoWrapIt_congr r r2 h1 h2]
    obtain ⟨n1, n2, n3, n4⟩ := hn
    refine ⟨hin n1, by rw [hstop]; exact n2, ?_, n4⟩
    intro c hc
    rw [hcol] at hc
    simp only [Option.some.injEq] at hc
    subst hc
    refine ⟨?_, n4 _ _ _ hroot⟩
    unfold InInt64 MinInt64 MaxInt64 init_seq; simp
  have hmono : NoWrapIt r kv.docs it → ∀ b s, Pending r kv.docs it b s → Alive r kv.docs b s →
      Pending r kv.docs it2 b s := by
    intro hn b s hp ha
    obtain ⟨k, k1, k2, k3, k4⟩ := hrows hn.1 hn.2.1
    exact Pending_next_row r kv.docs it it2 v cas k hstop hroot hcol k1 k2 k4 (hdead hn) b s hp ha
  have hgt : NoWrapIt r kv.docs it → it.row.current < it2.row.current := by
    intro hn
    obtain ⟨k, k1, k2, k3, k4⟩ := hrows hn.1 hn.2.1
    rw [k2]; unfold Resolution
    have : (1 : Int) ≤ (k : Int) := by exact_mod_cast k1
    omega
  refine ⟨by rw [p1, hd], ?_, by rw [p3, h1], by rw [p4, h2], by rw [p5, hstop],
    by rw [p6, hstart], fun hi => p7 (hin hi), ?_, ?_, ?_⟩
  · intro hf
    have := hk hf
    subst this
    exact p2 hf
  · intro e he
    obtain ⟨e1, e2, e3, e4, ⟨col', c1, c2, c3, c4, c5⟩, e6⟩ := p8 e he
    refine ⟨e1, e2, ?_, by rw [e4, h3], ⟨col', c1, c2, c3, c4, Or.inr ?_⟩, ?_⟩
    · rwa [hd, Yielded_congr r r2 h1 h2] at e3
    · rcases c5 with ⟨hrow, c, hc, hs, ht⟩ | ⟨hdoc, hc0'⟩
      · rw [hcol] at hc
        simp only [Option.some.injEq] at hc
        subst hc
        simp only [] at hs ht
        refine ⟨?_, ?_⟩
        · rw [hrow, hs, ht]; exact hroot
        · intro hi
          rw [hrow]; exact hc0 hi
      · refine ⟨?_, ?_⟩
        · rwa [hd, kvLocatorRoot_congr r r2 h1 h2] at hdoc
        · intro hi
          obtain ⟨c0, q1, q2, q3⟩ := hc0' (hin hi)
          exact ⟨c0, q1, by rw [← hstop]; exact q2, q3⟩
    · intro hn
      obtain ⟨f1, f2, f2p, _, f2b, f3⟩ := e6 (hnw hn)
      rw [hd, NoWrapIt_congr r r2 h1 h2] at f1
      rw [hd, Pending_congr r r2 h1 h2] at f2p
      have hpend : Pending r kv.docs it it'.row.current e.alarmSeq := by
        obtain ⟨k, k1, k2, k3, _⟩ := hrows hn.1 hn.2.1
        rcases f2p with ⟨hb, c, hc, hs1, hs2⟩ | ⟨k', k1', k2', k3', hv'⟩
        · rw [hcol] at hc
          simp only [Option.some.injEq] at hc
          subst hc
          right
          exact ⟨k, k1, by rw [hb, k2], by rw [hb]; exact k3, v, cas, by rw [hb]; exact hroot,
            hs1, hs2⟩
        · right
          refine ⟨k + k', by omega, ?_, by rw [← hstop]; exact k3', hv'⟩
          rw [k2', k2]; push_cast; ring
      have hsame : it'.row.current = it.row.current →
          ∃ c c', it.col = some c ∧ it'.col = some c' ∧ c'.stop = c.stop := by
        intro heq
        have hlt := hgt hn
        rcases f2 with ⟨hb, _⟩ | hb <;> omega
      refine ⟨f1, ?_, hpend, hsame, f2b, ?_⟩
      · right
        have := hgt hn
        rcases f2 with ⟨f2, _⟩ | f2
        · rw [f2]; exact this
        · omega
      · intro b s hp ha
        have hp2 := hmono hn b s hp ha
        have := f3 b s (by rwa [hd, Pending_congr r r2 h1 h2]) (by rwa [hd, Alive_congr r r2 h1 h2])
        rcases this with h | h
        · exact Or.inl h
        · right; rwa [hd, Pending_congr r r2 h1 h2] at h
  · intro hres herr
    obtain ⟨e1, e2, e3⟩ := p9 hres herr
    refine ⟨e1, ?_, ?_⟩
    · rw [e2, hstop]; exact shrinkSpan_span_congr r r2 h3 _
    · intro hn
      obtain ⟨f1, f2⟩ := e3 (hnw hn)
      refine ⟨by rw [← hstop]; exact f1, ?_⟩
      intro b s hp ha
      have hp2 := hmono hn b s hp ha
      exact f2 b s (by rwa [hd, Pending_congr r r2 h1 h2]) (by rwa [hd, Alive_congr r r2 h1 h2])
  · intro e he
    obtain ⟨e1, e2⟩ := p10 e he
    refine ⟨e1, ?_⟩
    intro hf
    have hkk := hk hf
    subst hkk
    have := e2 hf
    rwa [BadDoc_congr r r2 h1 h2] at this

theorem scanLoop_post (now : Int) : ∀ (fuel : Nat) (it : TimerIter) (r : TimerStore) (kv : KV)
    (res : Option TimerEntry) (err : Option Error) (it' : TimerIter) (r' : TimerStore)
    (kv' : KV),
    TimerIter.scanLoop now fuel it r kv = some (res, err, it', r', kv') →
    ScanPost r kv it res err it' r' kv' := by
  intro fuel
  induction fuel with
  | zero => intro it r kv res err it' r' kv' h; simp [TimerIter.scanLoop] at h
  | succ n ih =>
    intro it r kv res err it' r' kv' h
    rw [TimerIter.scanLoop] at h
    rcases hnc : it.nextColumn n r kv with _ | ⟨found1, err1, it1, r1, kv1⟩
    · rw [hnc] at h; simp at h
    rw [hnc] at h
    simp only [] at h
    have hcp := nextColumn_post it n r kv found1 err1 it1 r1 kv1 hnc
    -- facts shared by both shapes of the column step
    have hframe : kv1.docs = kv.docs ∧ (kv.faults = [] → kv1 = kv) ∧ r1.uid = r.uid ∧
        r1.partn = r.partn ∧ r1.span = r.span ∧ it1.row = it.row := by
      rcases hcp with ⟨_, _, _, rfl, rfl, rfl⟩ | ⟨col, _, p1, p2, p3, p4, p5, p6, _⟩
      · exact ⟨rfl, fun _ => rfl, rfl, rfl, rfl, rfl⟩
      · exact ⟨p1, p2, p3, p4, p5, p6⟩
    obtain ⟨f1, f2, f3, f4, f5, f6⟩ := hframe
    rcases err1 with _ | e1
    swap
    · -- the column step failed
      simp only [Option.some.injEq, Prod.mk.injEq] at h
      obtain ⟨rfl, rfl, rfl, rfl, rfl⟩ := h
      refine ⟨f1, f2, f3, f4, by rw [f6], by rw [f6], fun hi => by rw [f6]; exact hi, ?_, ?_, ?_⟩
      · intro e h; simp at h
      · intro _ h; simp at h
      · intro e he
        refine ⟨rfl, fun hnil => ?_⟩
        rcases hcp with ⟨_, _, h3, _⟩ | ⟨col, _, _, _, _, _, _, _, _, _, _, p9⟩
        · simp at h3
        · obtain ⟨s, _, hb⟩ := (p9 e1 rfl).2 hnil
          exact Or.inl ⟨_, s, hb⟩
    simp only [] at h
    rcases found1 with _ | _
    swap
    · -- an entry in the current row
      simp only [if_true] at h
      rcases hcp with ⟨_, h2, _⟩ | ⟨col, hcol, p1, p2, p3, p4, p5, p6, ⟨col', q1, q2, q3, q4, q5⟩,
        p7, p8, p9⟩
      · simp at h2
      obtain ⟨_, e, he, hy, hs, ht⟩ := p7 rfl
      obtain ⟨e', he', hcur, hpos⟩ := q4 rfl
      rw [he] at he'
      simp only [Option.some.injEq] at he'
      subst he'
      rw [he] at h
      simp only [Option.some.injEq, Prod.mk.injEq] at h
      obtain ⟨rfl, rfl, rfl, hr', rfl⟩ := h
      have hr'u : r'.uid = r.uid := by rw [← hr']; split <;> simp [f3]
      have hr'p : r'.partn = r.partn := by rw [← hr']; split <;> simp [f4]
      have hr's : r'.span = r.span := by rw [← hr']; split <;> simp [f5]
      refine ⟨f1, f2, hr'u, hr'p, by rw [f6], by rw [f6], fun hi => by rw [f6]; exact hi,
        ?_, ?_, ?_⟩
      · intro e2 he2
        simp only [Option.some.injEq] at he2
        subst he2
        refine ⟨rfl, he, ?_, hr's, ⟨col', q1, hcur, by rw [q2]; exact hs, by rw [q2, q3]; exact ht,
          Or.inl ⟨by rw [f6], col, hcol, q2, q3⟩⟩, ?_⟩
        · rw [f6]; exact hy
        · intro hn
          obtain ⟨n1, n2, n3, n4⟩ := hn
          obtain ⟨c1, c2⟩ := n3 col hcol
          obtain ⟨g1, g2⟩ := hpos c1 c2
          have hw : wrap64 (e.alarmSeq + 1) = e.alarmSeq + 1 := by
            unfold InInt64 MinInt64 MaxInt64 at *
            exact wrap64_eq _ (by omega) (by omega)
          refine ⟨⟨by rw [f6]; exact n1, by rw [f6]; exact n2, ?_, n4⟩, ?_, ?_, ?_, ?_, ?_⟩
          · intro c hc
            rw [q1] at hc
            simp only [Option.some.injEq] at hc
            subst hc
            rw [hcur, hw, q2]
            unfold InInt64 MinInt64 MaxInt64 at *
            exact ⟨⟨by omega, by omega⟩, c2⟩
          · left; exact ⟨by rw [f6], col, hcol, g1⟩
          · left; exact ⟨by rw [f6], col, hcol, g1, hs⟩
          · intro _; exact ⟨col, col', hcol, q1, q2⟩
          · intro c hc
            rw [q1] at hc
            simp only [Option.some.injEq] at hc
            subst hc
            rw [hcur, hw]
          · intro b s hp ha
            rcases hp with ⟨hb, c, hc, hs1, hs2⟩ | ⟨k', k1, k2, k3, hv⟩
            · rw [hcol] at hc
              simp only [Option.some.injEq] at hc
              subst hc
              rcases lt_trichotomy s e.alarmSeq with hlt | heq | hgt
              · subst hb
                exact absurd ha (g2 s hs1 hlt)
              · left; exact ⟨by rw [f6]; exact hb, heq⟩
              · right; left
                refine ⟨by rw [f6]; exact hb, col', q1, ?_, by rw [q2]; exact hs2⟩
                rw [hcur, hw]; omega
            · right; right
              exact ⟨k', k1, by rw [f6]; exact k2, by rw [f6]; exact k3, hv⟩
      · intro h; simp at h
      · intro e h; simp at h
    -- no entry left in the current row: move to the next row
    simp only [Bool.false_eq_true, if_false] at h
    have hdead : NoWrapIt r kv.docs it → ∀ c, it.col = some c → ∀ s, c.current ≤ s →
        s ≤ c.stop → ¬ Alive r kv.docs it.row.current s := by
      intro hn c hc s hs1 hs2
      rcases hcp with ⟨h1, _⟩ | ⟨col, hcol, _, _, _, _, _, _, ⟨col', q1, q2, q3, q4, q5⟩, _⟩
      · rw [h1] at hc; simp at hc
      · rw [hcol] at hc
        simp only [Option.some.injEq] at hc
        subst hc
        obtain ⟨c1, c2⟩ := hn.2.2.1 col hcol
        exact (q5 rfl rfl c1 c2).2.2 s hs1 hs2
    rcases hnr : it1.nextRow n r1 kv1 with _ | ⟨found2, err2, it2, r2, kv2⟩
    · rw [hnr] at h; simp at h
    rw [hnr] at h
    simp only [] at h
    unfold TimerIter.nextRow at hnr
    simp only [] at hnr
    have hrp := nextRowLoop_post _ _ _ _ _ _ _ _ _ _ hnr
    obtain ⟨g1, g2, g3, g4, g5, g6, g7, g8, g9, g10, g11⟩ := hrp
    simp only [TimerStore.addStat_uid, TimerStore.addStat_partn, TimerStore.addStat_span,
      kvLocatorRoot_addStat] at g3 g4 g5 g6 g7 g8 g9 g10 g11
    rw [f6] at g5 g6 g8 g9 g10
    have hd2 : kv2.docs = kv.docs := by rw [g1, f1]
    have hk2 : kv.faults = [] → kv2 = kv := by
      intro hnil
      have := f2 hnil
      subst this
      exact g2 hnil
    have hroot1 : ∀ d, r1.kvLocatorRoot d = r.kvLocatorRoot d := kvLocatorRoot_congr r r1 f3 f4
    by_cases hgo : found2 = true ∧ err2 = none
    · -- a row with a root counter: scan it
      obtain ⟨rfl, rfl⟩ := hgo
      simp only [Bool.not_true, Option.isSome_none, Bool.or_self, Bool.false_eq_true,
        if_false] at h
      have hih := ih _ _ _ _ _ _ _ _ h
      obtain ⟨_, hsp, ⟨v, cas, hv, hc2⟩, hc0, hrows⟩ := g9 rfl
      rw [f1, hroot1] at hv
      refine ScanPost_lift r r2 kv kv2 it it2 res err it' r' kv' (by rw [g3, f3]) (by rw [g4, f4])
        (by rw [hsp, f5]) hd2 hk2 g5 g6 g8 v cas hv hc2 hc0 ?_ hdead hih
      intro hi hs
      obtain ⟨k, k1, k2, k3, k4⟩ := hrows hi hs
      refine ⟨k, k1, k2, k3, ?_⟩
      intro j j1 j2
      have := k4 j j1 j2
      rwa [f1, hroot1] at this
    · -- no further row, or the row step failed
      have hstop : (!found2 || err2.isSome) = true := by
        rcases found2 with _ | _
        · simp
        · rcases err2 with _ | e2
          · exact absurd ⟨rfl, rfl⟩ hgo
          · simp
      rw [hstop] at h
      simp only [if_true, Option.some.injEq, Prod.mk.injEq] at h
      obtain ⟨rfl, rfl, rfl, rfl, rfl⟩ := h
      have hf2 : found2 = false := by
        rcases found2 with _ | _
        · rfl
        · rcases err2 with _ | e2
          · exact absurd ⟨rfl, rfl⟩ hgo
          · exact (g11 e2 rfl).1
      subst hf2
      obtain ⟨hcol2, hrest⟩ := g10 rfl
      refine ⟨hd2, hk2, by rw [g3, f3], by rw [g4, f4], g5, g6, g8, ?_, ?_, ?_⟩
      · intro e h; simp at h
      · intro _ herr
        obtain ⟨hsp, hrows⟩ := hrest herr
        refine ⟨hcol2, ?_, ?_⟩
        · rw [hsp]
          exact shrinkSpan_span_congr r (r1.addStat timerStats.addScanRowCounter) f5 _
        · intro hn
          obtain ⟨k, k2, k3, k4⟩ := hrows hn.1 hn.2.1
          refine ⟨k3, ?_⟩
          intro b s hp ha
          rcases hp with ⟨hb, c, hc, hs1, hs2⟩ | ⟨k', k1', k2', k3', v', cas', hv', _⟩
          · subst hb
            exact hdead hn c hc s hs1 hs2 ha
          · have hle : k' ≤ k := by
              by_contra hcon
              have h7 : (k : Int) + 1 ≤ (k' : Int) := by omega
              rw [k2'] at k3'
              rw [k2] at k3
              unfold Resolution at k3 k3'
              omega
            have := k4 k' k1' hle
            rw [f1, hroot1, ← k2', hv'] at this
            simp at this
      · intro e he
        refine ⟨rfl, fun hnil => ?_⟩
        obtain ⟨_, _, hbad⟩ := g11 e he
        have hkk := f2 hnil
        subst hkk
        obtain ⟨d, doc, cas, q1, q2⟩ := hbad hnil
        exact Or.inr ⟨d, doc, cas, by rwa [hroot1] at q1, q2⟩

theorem ScanNext_some (it : TimerIter) (fuel : Nat) (now : Int) (r : TimerStore) (kv : KV)
    (res : Option TimerEntry) (err : Option Error) (it' : Option TimerIter) (r' : TimerStore)
    (kv' : KV) (h : ScanNext (some it) fuel now r kv = some (res, err, it', r', kv')) :
    ∃ i', it' = some i' ∧ TimerIter.scanLoop now fuel it r kv = some (res, err, i', r', kv') ∧
      ScanPost r kv it res err i' r' kv' := by
  unfold ScanNext at h
  simp only [] at h
  rcases hl : TimerIter.scanLoop now fuel it r kv with _ | ⟨a, b, c, d, e⟩
  · rw [hl] at h; simp at h
  · rw [hl] at h
    simp only [Option.some.injEq, Prod.mk.injEq] at h
    obtain ⟨rfl, rfl, rfl, rfl, rfl⟩ := h
    exact ⟨c, rfl, rfl, scanLoop_post now fuel it r kv _ _ _ _ _ hl⟩

theorem ScanNext_nil (fuel : Nat) (now : Int) (r : TimerStore) (kv : KV)
    (res : Option TimerEntry) (err : Option Error) (it' : Option TimerIter) (r' : TimerStore)
    (kv' : KV) (h : ScanNext none fuel now r kv = some (res, err, it', r', kv')) :
    res = none ∧ err = none ∧ it' = none ∧ r' = r ∧ kv' = kv := by
  unfold ScanNext at h
  simp only [Option.some.injEq, Prod.mk.injEq] at h
  obtain ⟨rfl, rfl, rfl, rfl, rfl⟩ := h
  exact ⟨rfl, rfl, rfl, rfl, rfl⟩

theorem scanAll_succ (clk : Nat → Int) (F : Nat) (it : Option TimerIter) (r : TimerStore)
    (kv : KV) :
    scanAll clk (F + 1) it r kv =
      match ScanNext it F (clk F) r kv with
      | none => ([], ScanEnd.outOfFuel, it, r, kv)
      | some (none, none, it, r, kv) => ([], ScanEnd.exhausted, it, r, kv)
      | some (none, some e, it, r, kv) => ([], ScanEnd.failed e, it, r, kv)
      | some (some entry, _, it, r, kv) =>
        ((rowOf it, entry) :: (scanAll clk F it r kv).1, (scanAll clk F it r kv).2) := by
  rw [scanAll]

/-- Invariant rule for the drain loop: a property of yielded entries that one
call of `ScanNext` establishes under an invariant it preserves holds for every
entry the drain loop lists. -/
theorem scanAll_forall (clk : Nat → Int) (I : Option TimerIter → TimerStore → KV → Prop)
    (P : Int → TimerEntry → Prop)
    (step : ∀ it r kv fuel now e err it' r' kv', I it r kv →
      ScanNext it fuel now r kv = some (some e, err, it', r', kv') →
      P (rowOf it') e ∧ I it' r' kv') :
    ∀ (F : Nat) (it : Option TimerIter) (r : TimerStore) (kv : KV), I it r kv →
      ∀ p ∈ (scanAll clk F it r kv).1, P p.1 p.2 := by
  intro F
  induction F with
  | zero => intro it r kv _ p hp; simp [scanAll] at hp
  | succ n ih =>
    intro it r kv hI p hp
    rw [scanAll_succ] at hp
    rcases hs : ScanNext it n (clk n) r kv with _ | ⟨res, err, it', r', kv'⟩
    · rw [hs] at hp; simp at hp
    · rw [hs] at hp
      rcases res with _ | e
      · rcases err with _ | e <;> simp at hp
      · simp only [List.mem_cons] at hp
        have := step it r kv n (clk n) e err it' r' kv' hI hs
        rcases hp with hp | hp
        · rw [hp]; exact this.1
        · exact ih it' r' kv' this.2 p hp

theorem setDue_eq (now due : Int) (hnow : 0 ≤ now) (hnow2 : now + Resolution ≤ MaxInt64)
    (hdue : MinInt64 + now ≤ due) (hdue2 : due ≤ MaxInt64) :
    setDue now due = roundUp (max due (now + Resolution)) ∧
      0 ≤ max due (now + Resolution) ∧ max due (now + Resolution) ≤ MaxInt64 := by
  unfold setDue
  unfold MinInt64 MaxInt64 Resolution at *
  rw [wrap64_eq (due - now) (by omega) (by omega), wrap64_eq (now + 7) (by omega) (by omega)]
  refine ⟨?_, by omega, by omega⟩
  congr 1
  split_ifs with h
  · rw [max_eq_right (by omega)]
  · rw [max_eq_left (by omega)]

/-- C5 (amended): when `due - now` and `now + Resolution` do not overflow, a
successful `Set(due, ref, ctx)` executed at time `now` records an alarm whose
`AlarmDue` is `roundUp(max(due, now + Resolution))`, cross-linked with the
context record of `ref`; hence `AlarmDue >= max(due, now + Resolution)` and
`AlarmDue - now >= Resolution`. -/
theorem C5_set_firing_time (r : TimerStore) (dg : Digest) (kv : KV) (now due : Int)
    (ref ctx : String) (hnow : 0 ≤ now) (hnow2 : now + Resolution ≤ MaxInt64)
    (hdue : MinInt64 + now ≤ due) (hdue2 : due ≤ MaxInt64)
    (h : (r.Set dg kv now due ref ctx).1 = none) :
    ∃ (seq : Int) (acas ccas : Cas),
      (r.Set dg kv now due ref ctx).2.2.docs
          (r.kvLocatorAlarm (roundUp (max due (now + Resolution))) seq) =
        some (Doc.alarm ⟨roundUp (max due (now + Resolution)), r.kvLocatorContext dg ref⟩,
          acas) ∧
      (r.Set dg kv now due ref ctx).2.2.docs (r.kvLocatorContext dg ref) =
        some (Doc.context
          ⟨ctx, r.kvLocatorAlarm (roundUp (max due (now + Resolution))) seq⟩, ccas) ∧
      max due (now + Resolution) ≤ roundUp (max due (now + Resolution)) ∧
      roundUp (max due (now + Resolution)) - now ≥ Resolution := by
  obtain ⟨seq, c1, c2, c3, _, hdocs, _⟩ := Set_success r dg kv now due ref ctx h
  obtain ⟨hD, hm0, hm1⟩ := setDue_eq now due hnow hnow2 hdue hdue2
  rw [hD] at hdocs
  have hr := roundUp_nonneg _ hm0 hm1
  refine ⟨seq, c2, c3, ?_, ?_, hr.1, ?_⟩
  · rw [hdocs, if_neg (kvLocatorAlarm_ne_context r dg _ _ ref), if_pos rfl]
  · rw [hdocs, if_pos rfl]
  · have := hr.1
    have h2 : now + Resolution ≤ max due (now + Resolution) := le_max_right _ _
    omega

/-- Witness for `C5_set_firing_time`: a request for the past made at time 1000
on an empty KV. -/
theorem C5_set_firing_time_witness :
    ∃ (seq : Int) (acas ccas : Cas),
      (exStore.Set exDigest exKV 1000 1001 "r1" "c1").2.2.docs
          (exStore.kvLocatorAlarm (roundUp (max 1001 (1000 + Resolution))) seq) =
        some (Doc.alarm ⟨roundUp (max 1001 (1000 + Resolution)),
          exStore.kvLocatorContext exDigest "r1"⟩, acas) ∧
      (exStore.Set exDigest exKV 1000 1001 "r1" "c1").2.2.docs
          (exStore.kvLocatorContext exDigest "r1") =
        some (Doc.context
          ⟨"c1", exStore.kvLocatorAlarm (roundUp (max 1001 (1000 + Resolution))) seq⟩, ccas) ∧
      max 1001 (1000 + Resolution) ≤ roundUp (max 1001 (1000 + Resolution)) ∧
      roundUp (max 1001 (1000 + Resolution)) - 1000 ≥ Resolution :=
  C5_set_firing_time exStore exDigest exKV 1000 1001 "r1" "c1" (by decide) (by decide)
    (by decide) (by decide) (by decide)

/-- C5 (counterexample): at `now = 1001` (so that `now + Resolution` is on the
bucket grid) `Set(due = 0)` succeeds and records `AlarmDue = 1008`, which is
below `roundUp(max(due, now + Resolution + 1)) = 1015` and only `Resolution`
after `now`; and at `now = 1000` the request `due = MinInt64` makes `due - now`
wrap around, is not promoted, and is recorded at `MinInt64 + 1`. -/
theorem C5_counterexample :
    ((exStore.Set exDigest exKV 1001 0 "r" "c").1 = none ∧
      (exStore.Set exDigest exKV 1001 0 "r" "c").2.2.docs (exStore.kvLocatorAlarm 1008 128) =
        some (Doc.alarm ⟨1008, exStore.kvLocatorContext exDigest "r"⟩, 3) ∧
      (exStore.Set exDigest exKV 1001 0 "r" "c").2.2.docs (exStore.kvLocatorContext exDigest "r") =
        some (Doc.context ⟨"c", exStore.kvLocatorAlarm 1008 128⟩, 4) ∧
      ¬ (1008 ≥ roundUp (max 0 (1001 + Resolution + 1))) ∧
      ¬ ((1008 : Int) - 1001 > Resolution)) ∧
    ((exStore.Set exDigest exKV 1000 MinInt64 "r" "c").1 = none ∧
      (exStore.Set exDigest exKV 1000 MinInt64 "r" "c").2.2.docs
          (exStore.kvLocatorAlarm (MinInt64 + 1) 128) =
        some (Doc.alarm ⟨MinInt64 + 1, exStore.kvLocatorContext exDigest "r"⟩, 3) ∧
      ¬ (MinInt64 + 1 ≥ roundUp (max MinInt64 (1000 + Resolution + 1)))) := by
  decide

/-- Every entry the drain loop lists was built from cross-linked records of
the KV it started on. -/
theorem scanAll_yielded (clk : Nat → Int) (F : Nat) (it : Option TimerIter) (r : TimerStore)
    (kv : KV) : ∀ p ∈ (scanAll clk F it r kv).1, Yielded r kv.docs p.1 p.2 := by
  refine scanAll_forall clk
    (fun _ r' kv' => r'.uid = r.uid ∧ r'.partn = r.partn ∧ kv'.docs = kv.docs)
    (fun b e => Yielded r kv.docs b e) ?_ F it r kv ⟨rfl, rfl, rfl⟩
  intro it1 r1 kv1 fuel now e err it' r' kv' ⟨h1, h2, h3⟩ h
  rcases it1 with _ | i1
  · have := ScanNext_nil fuel now r1 kv1 _ _ _ _ _ h
    simp at this
  · obtain ⟨i', rfl, _, hp⟩ := ScanNext_some i1 fuel now r1 kv1 _ _ _ _ _ h
    obtain ⟨p1, _, p3, p4, _, _, _, p8, _⟩ := hp
    obtain ⟨_, _, hy, _⟩ := p8 e rfl
    refine ⟨?_, by rw [p3, h1], by rw [p4, h2], by rw [p1, h3]⟩
    rw [h3, Yielded_congr r r1 h1 h2] at hy
    exact hy

/-- C7: every entry yielded by `ScanNext` (listed by the drain loop started on
any iterator, store and KV, together with the row it was read in) was built
from the alarm record read at `K = kvLocatorAlarm(row.current, alarmSeq)` and
from the context record read at that alarm's `ContextRef`, and has
`AlarmRef = K`; so the alarm stored at `K` has a context that is present and
whose `AlarmRef` is `K`. -/
theorem C7_cross_link (clk : Nat → Int) (F : Nat) (it : Option TimerIter) (r : TimerStore)
    (kv : KV) (p : Int × TimerEntry) (hp : p ∈ (scanAll clk F it r kv).1) :
    (∃ acas, kv.docs (r.kvLocatorAlarm p.1 p.2.alarmSeq) =
        some (Doc.alarm p.2.toAlarmRecord, acas)) ∧
    kv.docs p.2.ContextRef = some (Doc.context p.2.toContextRecord, p.2.ctxCas) ∧
    p.2.AlarmRef = r.kvLocatorAlarm p.1 p.2.alarmSeq ∧
    (∀ a acas, kv.docs (r.kvLocatorAlarm p.1 p.2.alarmSeq) = some (Doc.alarm a, acas) →
      kv.docs a.ContextRef ≠ none ∧
      ∀ c ccas, kv.docs a.ContextRef = some (Doc.context c, ccas) →
        c.AlarmRef = r.kvLocatorAlarm p.1 p.2.alarmSeq) := by
  obtain ⟨⟨acas, h1⟩, h2, h3⟩ := scanAll_yielded clk F it r kv p hp
  refine ⟨⟨acas, h1⟩, h2, h3, ?_⟩
  intro a acas' ha
  rw [h1] at ha
  simp only [Option.some.injEq, Prod.mk.injEq, Doc.alarm.injEq] at ha
  rw [← ha.1]
  refine ⟨by rw [h2]; simp, ?_⟩
  intro c ccas hc
  rw [h2] at hc
  simp only [Option.some.injEq, Prod.mk.injEq, Doc.context.injEq] at hc
  rw [← hc.1]; exact h3

/-- Witness for `C7_cross_link`: the scan at time 1009 after `exSet1` yields
`exEntry1` from row 1008. -/
theorem C7_cross_link_witness :
    (∃ acas, exSet1.2.2.docs (exStore.kvLocatorAlarm 1008 128) =
        some (Doc.alarm exEntry1.toAlarmRecord, acas)) ∧
    exSet1.2.2.docs exEntry1.ContextRef =
      some (Doc.context exEntry1.toContextRecord, exEntry1.ctxCas) ∧
    exEntry1.AlarmRef = exStore.kvLocatorAlarm 1008 128 ∧
    (∀ a acas, exSet1.2.2.docs (exStore.kvLocatorAlarm 1008 128) = some (Doc.alarm a, acas) →
      exSet1.2.2.docs a.ContextRef ≠ none ∧
      ∀ c ccas, exSet1.2.2.docs a.ContextRef = some (Doc.context c, ccas) →
        c.AlarmRef = exStore.kvLocatorAlarm 1008 128) :=
  C7_cross_link (fun _ => 1009) 10 (exSet1.2.1.ScanDue 1009).1 (exSet1.2.1.ScanDue 1009).2
    exSet1.2.2 (1008, exEntry1) (by decide)

theorem MustRemove_nocas (kv : KV) (key : String) (hf : kv.faults = []) :
    (kv.docs key = none ∧ MustRemove kv key 0 = (0, true, false, none, kv)) ∨
    (∃ d c, kv.docs key = some (d, c) ∧ MustRemove kv key 0 = (c, false, false, none, kv.erase key)) := by
  unfold MustRemove
  rw [KV.fault_of_nil kv hf, KV.advance_of_nil kv hf]
  rcases hd : kv.docs key with _ | ⟨d, c⟩
  · left; simp
  · right; exact ⟨d, c, rfl, by simp⟩

/-- After an error-free `Cancel(ref)` no alive timer is bound to `ref`: its
context key is absent, or holds a context whose alarm is absent, or holds a
document that is no context. -/
theorem Cancel_effect (r : TimerStore) (dg : Digest) (kv : KV) (ref : String)
    (hf : kv.faults = []) :
    (r.Cancel dg kv ref).1 = none ∧ (r.Cancel dg kv ref).2.2.faults = [] ∧
    (∀ k, (r.Cancel dg kv ref).2.2.docs k = none ∨ (r.Cancel dg kv ref).2.2.docs k = kv.docs k) ∧
    ((r.Cancel dg kv ref).2.2.docs (r.kvLocatorContext dg ref) = none ∨
      (∃ c ccas, (r.Cancel dg kv ref).2.2.docs (r.kvLocatorContext dg ref) =
          some (Doc.context c, ccas) ∧ (r.Cancel dg kv ref).2.2.docs c.AlarmRef = none) ∨
      (∃ d cas, (r.Cancel dg kv ref).2.2.docs (r.kvLocatorContext dg ref) = some (d, cas) ∧
          d.asContext = none)) := by
  unfold TimerStore.Cancel
  simp only [kvLocatorContext_addStat]
  rcases MustGet_cases Doc.asContext kv (r.kvLocatorContext dg ref) ⟨"", ""⟩ with
    ⟨hft, _⟩ | ⟨_, hdoc, hres⟩ | ⟨_, d, cas, c, hdoc, hdec, hres⟩ | ⟨_, d, cas, hdoc, hdec, hres⟩
  · exact absurd hf (KV.fault_eq_true_faults kv hft)
  · rw [hres, KV.advance_of_nil kv hf]
    simp only [if_true]
    exact ⟨trivial, hf, fun k => Or.inr trivial, Or.inl hdoc⟩
  · rw [hres, KV.advance_of_nil kv hf]
    have hdc := Doc.asContext_eq_some d c hdec
    subst hdc
    simp only [Bool.false_eq_true, if_false]
    rcases MustRemove_nocas kv c.AlarmRef hf with ⟨ha, hr1⟩ | ⟨d1, c1, ha, hr1⟩
    · rw [hr1]
      simp only [if_true]
      exact ⟨trivial, hf, fun k => Or.inr trivial, Or.inr (Or.inl ⟨c, cas, hdoc, ha⟩)⟩
    · rw [hr1]
      simp only [Bool.false_eq_true, if_false]
      have hf2 : (kv.erase c.AlarmRef).faults = [] := hf
      rcases MustRemove_nocas (kv.erase c.AlarmRef) (r.kvLocatorContext dg ref) hf2 with
        ⟨hb, hr2⟩ | ⟨d2, c2, hb, hr2⟩
      · rw [hr2]
        refine ⟨rfl, hf, ?_, Or.inl hb⟩
        intro k
        simp only [KV.erase]
        split <;> simp
      · rw [hr2]
        refine ⟨rfl, hf, ?_, Or.inl ?_⟩
        · intro k
          simp only [KV.erase]
          split
          · left; rfl
          · split <;> simp
        · simp [KV.erase]
  · rw [hres, KV.advance_of_nil kv hf]
    simp only []
    exact ⟨trivial, hf, fun k => Or.inr trivial, Or.inr (Or.inr ⟨d, cas, hdoc, hdec⟩)⟩

theorem MustCounter_faults_nil (kv : KV) (key : String) (delta init : Int)
    (hf : kv.faults = []) : (MustCounter kv key delta init).2.2.2.faults = [] := by
  unfold MustCounter
  rw [KV.fault_of_nil kv hf, KV.advance_of_nil kv hf]
  simp only [Bool.false_eq_true, if_false]
  split <;> exact hf

theorem MustUpsert_faults_nil (kv : KV) (key : String) (v : Doc)
    (hf : kv.faults = []) : (MustUpsert kv key v).2.2.faults = [] := by
  unfold MustUpsert
  rw [KV.fault_of_nil kv hf, KV.advance_of_nil kv hf]
  exact hf

theorem Set_faults_nil (r : TimerStore) (dg : Digest) (kv : KV) (now due : Int)
    (ref ctx : String) (hf : kv.faults = []) :
    (r.Set dg kv now due ref ctx).2.2.faults = [] := by
  unfold TimerStore.Set
  simp only []
  have h1 := MustCounter_faults_nil kv ((if decide (wrap64 (due - now) ≤ Resolution) = true then
      (r.addStat timerStats.addSetCounter).addStat timerStats.addTimerInPastCounter
      else r.addStat timerStats.addSetCounter).kvLocatorRoot (roundUp
        (if decide (wrap64 (due - now) ≤ Resolution) = true then wrap64 (now + Resolution)
          else due))) 1 init_seq hf
  split
  · exact h1
  · have h2 := MustUpsert_faults_nil _ ((if decide (wrap64 (due - now) ≤ Resolution) = true then
        (r.addStat timerStats.addSetCounter).addStat timerStats.addTimerInPastCounter
        else r.addStat timerStats.addSetCounter).kvLocatorAlarm (roundUp
          (if decide (wrap64 (due - now) ≤ Resolution) = true then wrap64 (now + Resolution)
            else due)) (MustCounter kv ((if decide (wrap64 (due - now) ≤ Resolution) = true then
      (r.addStat timerStats.addSetCounter).addStat timerStats.addTimerInPastCounter
      else r.addStat timerStats.addSetCounter).kvLocatorRoot (roundUp
        (if decide (wrap64 (due - now) ≤ Resolution) = true then wrap64 (now + Resolution)
          else due))) 1 init_seq).1)
      (Doc.alarm ⟨roundUp
          (if decide (wrap64 (due - now) ≤ Resolution) = true then wrap64 (now + Resolution)
            else due), (if decide (wrap64 (due - now) ≤ Resolution) = true then
        (r.addStat timerStats.addSetCounter).addStat timerStats.addTimerInPastCounter
        else r.addStat timerStats.addSetCounter).kvLocatorContext dg ref⟩) h1
    split
    · exact h2
    · split
      · exact MustUpsert_faults_nil _ _ _ h2
      · exact MustUpsert_faults_nil _ _ _ h2

theorem ScanDue_iter (r : TimerStore) (t : Int) :
    ((r.ScanDue t).1 = none ∨
      ∃ stop, (r.ScanDue t).1 = some ⟨⟨r.span.Start, stop, r.span.Start⟩, none, none⟩ ∧
        stop ≤ roundDown t ∧ stop ≤ r.span.Stop ∧ r.span.Start ≤ roundDown t ∧
        (stop = roundDown t ∨ stop = r.span.Stop)) ∧
    (r.ScanDue t).2.uid = r.uid ∧ (r.ScanDue t).2.partn = r.partn ∧
    (r.ScanDue t).2.span = r.span := by
  unfold TimerStore.ScanDue TimerStore.readSpan
  simp only []
  split
  · exact ⟨Or.inl rfl, rfl, rfl, rfl⟩
  · rename_i h
    refine ⟨Or.inr ⟨_, rfl, ?_⟩, rfl, rfl, rfl⟩
    split <;> omega

/-- C4 (amended): on a KV whose root counters exist only at bucket-aligned
dues, for every span and every time `t >= 0`, each entry yielded by an
iterator created by `ScanDue` at time `t` was read in a row bucket that is
bucket-aligned and `<= t`; hence no timer stored under the alarm key of a
bucket `D > t` is yielded. -/
theorem C4_no_early_firing (r : TimerStore) (kv : KV) (t : Int) (clk : Nat → Int) (F : Nat)
    (ht0 : 0 ≤ t) (ht1 : t ≤ MaxInt64) (hstart : InInt64 r.span.Start)
    (haligned : ∀ d doc cas, kv.docs (r.kvLocatorRoot d) = some (doc, cas) →
      d % Resolution = 0)
    (p : Int × TimerEntry)
    (hmem : p ∈ (scanAll clk F (r.ScanDue t).1 (r.ScanDue t).2 kv).1) :
    p.1 ≤ t ∧ p.1 % Resolution = 0 ∧ p.2.AlarmRef = r.kvLocatorAlarm p.1 p.2.alarmSeq ∧
    ∀ D s, t < D → p.2.AlarmRef ≠ r.kvLocatorAlarm D s := by
  obtain ⟨hit, hu, hp, _⟩ := ScanDue_iter r t
  have hrd := roundDown_nonneg t ht0 (by unfold MaxInt64 at ht1; exact ht1)
  have key : ∀ q ∈ (scanAll clk F (r.ScanDue t).1 (r.ScanDue t).2 kv).1,
      q.1 ≤ t ∧ q.1 % Resolution = 0 := by
    refine scanAll_forall clk
      (fun it r' kv' => r'.uid = r.uid ∧ r'.partn = r.partn ∧ kv'.docs = kv.docs ∧
        ∀ i, it = some i → InInt64 i.row.current ∧ i.row.stop ≤ roundDown t ∧
          (∀ c, i.col = some c → i.row.current ≤ t ∧ i.row.current % Resolution = 0))
      (fun b _ => b ≤ t ∧ b % Resolution = 0) ?_ F _ _ kv ⟨hu, hp, rfl, ?_⟩
    · intro it1 r1 kv1 fuel now e err it' r' kv' ⟨h1, h2, h3, h4⟩ h
      rcases it1 with _ | i1
      · have := ScanNext_nil fuel now r1 kv1 _ _ _ _ _ h
        simp at this
      · obtain ⟨i', rfl, _, hpost⟩ := ScanNext_some i1 fuel now r1 kv1 _ _ _ _ _ h
        obtain ⟨p1, _, p3, p4, p5, _, p7, p8, _⟩ := hpost
        obtain ⟨_, _, _, _, ⟨col', c1, _, _, _, c5⟩, _⟩ := p8 e rfl
        obtain ⟨i1in, i1stop, i1col⟩ := h4 i1 rfl
        have hrow : i'.row.current ≤ t ∧ i'.row.current % Resolution = 0 := by
          rcases c5 with ⟨hrow, c, hc, _⟩ | ⟨hdoc, hc0⟩
          · rw [hrow]; exact i1col c hc
          · obtain ⟨c0, q1, q2, q3⟩ := hc0 i1in
            rw [h3, kvLocatorRoot_congr r r1 h1 h2] at hdoc
            have hal := haligned _ _ _ hdoc
            refine ⟨?_, hal⟩
            rw [q3] at hal ⊢
            unfold InInt64 MinInt64 MaxInt64 at q1
            unfold Resolution wrap64 at *
            omega
        refine ⟨hrow, by rw [p3, h1], by rw [p4, h2], by rw [p1, h3], ?_⟩
        intro i hi
        simp only [Option.some.injEq] at hi
        subst hi
        exact ⟨p7 i1in, by rw [p5]; exact i1stop, fun _ _ => hrow⟩
    · intro i hi
      rcases hit with hnone | ⟨stop, hsome, hs1, _⟩
      · rw [hnone] at hi; simp at hi
      · rw [hsome] at hi
        simp only [Option.some.injEq] at hi
        subst hi
        exact ⟨hstart, hs1, fun c hc => by simp at hc⟩
  obtain ⟨k1, k2⟩ := key p hmem
  obtain ⟨_, _, h3⟩ := scanAll_yielded clk F _ _ kv p hmem
  rw [kvLocatorAlarm_congr r _ hu hp] at h3
  refine ⟨k1, k2, h3, ?_⟩
  intro D s hD heq
  rw [h3] at heq
  have := (kvLocatorAlarm_inj r _ _ _ _ heq).1
  omega

/-- A successful `Set` into a bucket-aligned due keeps root counters at
bucket-aligned dues only. -/
theorem Set_roots_aligned (r : TimerStore) (dg : Digest) (kv : KV) (now due : Int)
    (ref ctx : String)
    (hal : ∀ d doc cas, kv.docs (r.kvLocatorRoot d) = some (doc, cas) → d % Resolution = 0)
    (hD : setDue now due % Resolution = 0)
    (hok : (r.Set dg kv now due ref ctx).1 = none) :
    ∀ d doc cas, (r.Set dg kv now due ref ctx).2.2.docs
      ((r.Set dg kv now due ref ctx).2.1.kvLocatorRoot d) = some (doc, cas) →
      d % Resolution = 0 := by
  obtain ⟨seq, c1, c2, c3, _, hdocs, _, _, _, _, hu, hp, _⟩ := Set_success r dg kv now due ref ctx hok
  intro d doc cas h
  rw [kvLocatorRoot_congr r _ hu hp, hdocs, if_neg (kvLocatorRoot_ne_context r dg d ref),
    if_neg (kvLocatorRoot_ne_alarm r d _ _)] at h
  split at h
  · rename_i heq
    rw [kvLocatorRoot_inj r _ _ heq]; exact hD
  · exact hal d doc cas h

/-- Witness for `C4_no_early_firing`: the scan at time 1009 after `exSet1`
yields `exEntry1` from row 1008. -/
theorem C4_no_early_firing_witness :
    (1008 : Int) ≤ 1009 ∧ (1008 : Int) % Resolution = 0 ∧
    exEntry1.AlarmRef = exSet1.2.1.kvLocatorAlarm 1008 exEntry1.alarmSeq ∧
    ∀ D s, 1009 < D → exEntry1.AlarmRef ≠ exSet1.2.1.kvLocatorAlarm D s :=
  C4_no_early_firing exSet1.2.1 exSet1.2.2 1009 (fun _ => 1009) 10 (by decide) (by decide)
    (by decide)
    (Set_roots_aligned exStore exDigest exKV 1000 1001 "r1" "c1"
      (fun d doc cas h => by simp [exKV] at h) (by decide) (by decide))
    (1008, exEntry1) (by decide)

/-- C4 (counterexample): before the epoch `roundDown` rounds toward zero, so a
scan started at `t = -1` runs up to row 0. The KV of `exSetNeg` has its only
root counter at the bucket-aligned due 0, and the scan at time -1 yields the
timer stored in bucket 0, a bucket later than `t`. -/
theorem C4_counterexample :
    (∀ d doc cas, exSetNeg.2.2.docs (exSetNeg.2.1.kvLocatorRoot d) = some (doc, cas) →
      d % Resolution = 0) ∧
    (0, exEntryNeg) ∈ (scanAll (fun _ => -1) 10 (exSetNeg.2.1.ScanDue (-1)).1
      (exSetNeg.2.1.ScanDue (-1)).2 exSetNeg.2.2).1 ∧
    exEntryNeg.AlarmRef = exSetNeg.2.1.kvLocatorAlarm 0 128 ∧
    ¬ ((0 : Int) ≤ -1) :=
  ⟨Set_roots_aligned exStoreNeg exDigest exKV (-7) (-7) "r" "c"
      (fun d doc cas h => by simp [exKV] at h) (by decide) (by decide),
    by decide, by decide, by decide⟩

/-- Without wrap-around every entry the drain loop lists lies at a position
that is not behind the iterator the loop started on. -/
theorem scanAll_ahead (clk : Nat → Int) (F : Nat) (i0 : TimerIter) (r : TimerStore) (kv : KV)
    (hnw : NoWrapIt r kv.docs i0) :
    ∀ p ∈ (scanAll clk F (some i0) r kv).1, Ahead i0 p.1 p.2.alarmSeq := by
  refine scanAll_forall clk
    (fun it r' kv' => r'.uid = r.uid ∧ r'.partn = r.partn ∧ kv'.docs = kv.docs ∧
      ∃ i, it = some i ∧ NoWrapIt r kv.docs i ∧ ∀ b s, Ahead i b s → Ahead i0 b s)
    (fun b e => Ahead i0 b e.alarmSeq) ?_ F (some i0) r kv
    ⟨rfl, rfl, rfl, i0, rfl, hnw, fun _ _ h => h⟩
  intro it1 r1 kv1 fuel now e err it' r' kv' ⟨h1, h2, h3, i1, hi1, hn1, hsub⟩ h
  subst hi1
  obtain ⟨i', rfl, _, hpost⟩ := ScanNext_some i1 fuel now r1 kv1 _ _ _ _ _ h
  obtain ⟨p1, _, p3, p4, _, _, _, p8, _⟩ := hpost
  obtain ⟨_, _, _, _, _, hnp⟩ := p8 e rfl
  simp only [h3, NoWrapIt_congr r r1 h1 h2] at hnp
  obtain ⟨n1, n2, _, _, n3, _⟩ := hnp hn1
  refine ⟨hsub _ _ n2, by rw [p3, h1], by rw [p4, h2], by rw [p1, h3], i', rfl, n1, ?_⟩
  intro b s hah
  apply hsub
  rcases hah with ⟨hb, c, hc, hs⟩ | hlt
  · have hcur := n3 c hc
    rcases n2 with ⟨hrow, c1, hc1, hs1⟩ | hrow
    · left; exact ⟨by rw [hb, hrow], c1, hc1, by omega⟩
    · right; omega
  · rcases n2 with ⟨hrow, _⟩ | hrow
    · right; omega
    · right; omega

/-- Strict lexicographic order on (row bucket, alarmSeq). -/
theorem scanAll_sorted (clk : Nat → Int) : ∀ (F : Nat) (it : Option TimerIter)
    (r : TimerStore) (kv : KV), (∀ i, it = some i → NoWrapIt r kv.docs i) →
    List.Pairwise (fun a b : Int × TimerEntry =>
      a.1 < b.1 ∨ (a.1 = b.1 ∧ a.2.alarmSeq < b.2.alarmSeq)) (scanAll clk F it r kv).1 := by
  intro F
  induction F with
  | zero => intro it r kv _; simp [scanAll]
  | succ n ih =>
    intro it r kv hnw
    rw [scanAll_succ]
    rcases hs : ScanNext it n (clk n) r kv with _ | ⟨res, err, it', r', kv'⟩
    · simp
    · rcases res with _ | e
      · rcases err with _ | e <;> simp
      · simp only [List.pairwise_cons]
        rcases it with _ | i1
        · have := ScanNext_nil n (clk n) r kv _ _ _ _ _ hs
          simp at this
        obtain ⟨i', rfl, _, hpost⟩ := ScanNext_some i1 n (clk n) r kv _ _ _ _ _ hs
        obtain ⟨p1, _, p3, p4, _, _, _, p8, _⟩ := hpost
        obtain ⟨_, _, _, _, _, hnp⟩ := p8 e rfl
        obtain ⟨n1, n2, _, _, n3, _⟩ := hnp (hnw i1 rfl)
        have n1' : NoWrapIt r' kv'.docs i' := by
          rw [p1, NoWrapIt_congr r r' p3 p4]; exact n1
        refine ⟨?_, ih (some i') r' kv' (fun i hi => by
          simp only [Option.some.injEq] at hi; subst hi; exact n1')⟩
        intro q hq
        have := scanAll_ahead clk n i' r' kv' n1' q hq
        simp only [rowOf]
        rcases this with ⟨hb, c, hc, hs⟩ | hlt
        · right
          have := n3 c hc
          exact ⟨hb.symm, by omega⟩
        · left; exact hlt

/-- Entries listed in strictly increasing (row bucket, alarmSeq) order carry
pairwise distinct alarm keys. -/
theorem scanAll_distinct_refs (clk : Nat → Int) (F : Nat) (it : TimerIter) (r : TimerStore)
    (kv : KV) (hnw : NoWrapIt r kv.docs it) :
    List.Pairwise (fun a b : Int × TimerEntry => a.2.AlarmRef ≠ b.2.AlarmRef)
      (scanAll clk F (some it) r kv).1 := by
  have hs := scanAll_sorted clk F (some it) r kv (fun i hi => by
    simp only [Option.some.injEq] at hi; subst hi; exact hnw)
  refine List.Pairwise.imp_of_mem ?_ hs
  intro a b ha hb hlt heq
  obtain ⟨_, _, ha3⟩ := scanAll_yielded clk F (some it) r kv a ha
  obtain ⟨_, _, hb3⟩ := scanAll_yielded clk F (some it) r kv b hb
  rw [ha3, hb3] at heq
  obtain ⟨e1, e2⟩ := kvLocatorAlarm_inj r _ _ _ _ heq
  omega

/-- C6 (amended): for every iterator and KV state in which no 64-bit
wrap-around can occur (the row cursor is an `int64`,
`row.stop <= MaxInt64 - Resolution`, the column cursor is an `int64` and no
column bound, of the iterator or stored in a root counter, is `MaxInt64`), the
entries returned by successive `ScanNext` calls are strictly increasing in the lexicographic order
(row bucket, alarmSeq), and no alarm key is yielded twice. -/
theorem C6_scan_order (clk : Nat → Int) (F : Nat) (it : TimerIter) (r : TimerStore)
    (kv : KV) (hnw : NoWrapIt r kv.docs it) :
    List.Pairwise (fun a b : Int × TimerEntry =>
      a.1 < b.1 ∨ (a.1 = b.1 ∧ a.2.alarmSeq < b.2.alarmSeq))
      (scanAll clk F (some it) r kv).1 ∧
    List.Pairwise (fun a b : Int × TimerEntry => a.2.AlarmRef ≠ b.2.AlarmRef)
      (scanAll clk F (some it) r kv).1 := by
  exact ⟨scanAll_sorted clk F (some it) r kv (fun i hi => by
    simp only [Option.some.injEq] at hi; subst hi; exact hnw),
    scanAll_distinct_refs clk F it r kv hnw⟩

theorem Schema_congr (r r1 : TimerStore) (h1 : r1.uid = r.uid) (h2 : r1.partn = r.partn)
    (docs : String → Option (Doc × Cas)) (hi : Int) : Schema r1 docs hi ↔ Schema r docs hi := by
  unfold Schema keyPrefix
  simp only [kvLocatorRoot_congr r r1 h1 h2, kvLocatorAlarm_congr r r1 h1 h2, h1, h2]

/-- A successful `Set` keeps the key schema; the bound on the root counters
grows by one. -/
theorem Set_schema (r : TimerStore) (dg : Digest) (kv : KV) (now due : Int)
    (ref ctx : String) (hi : Int) (hs : Schema r kv.docs hi) (hlo : init_seq ≤ hi)
    (hhi : hi ≤ MaxInt64) (hok : (r.Set dg kv now due ref ctx).1 = none) :
    Schema r (r.Set dg kv now due ref ctx).2.2.docs (hi + 1) := by
  obtain ⟨seq, c1, c2, c3, hseq, hdocs, _⟩ := Set_success r dg kv now due ref ctx hok
  obtain ⟨s1, s2, s3⟩ := hs
  have hseq2 : init_seq ≤ seq ∧ seq < hi + 1 := by
    rcases hseq with ⟨_, h⟩ | ⟨v, c, hv, h⟩
    · rw [h]; omega
    · obtain ⟨v', hv', b1, b2⟩ := s1 _ _ _ hv
      simp only [Doc.counter.injEq] at hv'
      subst hv'
      rw [h, wrap64_eq _ (by unfold init_seq at b1; omega) (by unfold MaxInt64 at hhi; omega)]
      omega
  have hctxkey : ∀ (k : String) (h : List Char),
      k.data = keyPrefix r ++ ':' :: 'c' :: 'x' :: ':' :: h →
      (∀ b s, k ≠ r.kvLocatorAlarm b s) ∧ (∀ d, k ≠ r.kvLocatorRoot d) := by
    intro k h hk
    refine ⟨fun b s he => ?_, fun d he => ?_⟩
    · rw [he, kvLocatorAlarm_data] at hk
      have := List.append_cancel_left hk
      simp at this
    · rw [he, kvLocatorRoot_data] at hk
      have := List.append_cancel_left hk
      simp at this
  refine ⟨?_, ?_, ?_⟩
  · intro d doc cas h
    rw [hdocs, if_neg (kvLocatorRoot_ne_context r dg d ref),
      if_neg (kvLocatorRoot_ne_alarm r d _ _)] at h
    split at h
    · simp only [Option.some.injEq, Prod.mk.injEq] at h
      exact ⟨seq, h.1.symm, hseq2.1, hseq2.2⟩
    · obtain ⟨v, e1, e2, e3⟩ := s1 d doc cas h
      exact ⟨v, e1, e2, by omega⟩
  · intro b s doc cas h
    rw [hdocs, if_neg (kvLocatorAlarm_ne_context r dg b s ref)] at h
    split at h
    · simp only [Option.some.injEq, Prod.mk.injEq] at h
      exact ⟨_, h.1.symm, _, kvLocatorContext_data r dg ref⟩
    · rw [if_neg (fun he => kvLocatorRoot_ne_alarm r _ _ _ he.symm)] at h
      exact s2 b s doc cas h
  · intro k h doc cas hk hd
    obtain ⟨n1, n2⟩ := hctxkey k h hk
    rw [hdocs] at hd
    split at hd
    · simp only [Option.some.injEq, Prod.mk.injEq] at hd
      exact ⟨_, hd.1.symm⟩
    · rw [if_neg (n1 _ _), if_neg (n2 _)] at hd
      exact s3 k h doc cas hk hd

/-- Under the key schema no document on the scan's path fails to decode. -/
theorem Schema_no_bad (r : TimerStore) (docs : String → Option (Doc × Cas)) (hi : Int)
    (hs : Schema r docs hi) : ¬ BadDoc r docs := by
  obtain ⟨s1, s2, s3⟩ := hs
  rintro (⟨b, s, ⟨d, cas, h1, h2⟩ | ⟨a, acas, d, cas, h1, h2, h3⟩⟩ | ⟨d, doc, cas, h1, h2⟩)
  · obtain ⟨a, ha, _⟩ := s2 b s d cas h1
    rw [ha] at h2; simp [Doc.asAlarm] at h2
  · obtain ⟨a', ha, h', hk⟩ := s2 b s _ acas h1
    simp only [Doc.alarm.injEq] at ha
    subst ha
    obtain ⟨c, hc⟩ := s3 _ h' d cas hk h2
    rw [hc] at h3; simp [Doc.asContext] at h3
  · obtain ⟨v, hv, _⟩ := s1 d doc cas h1
    rw [hv] at h2; simp [Doc.asCounter] at h2

theorem Schema_empty (r : TimerStore) (hi : Int) : Schema r exKV.docs hi := by
  refine ⟨?_, ?_, ?_⟩
  · intro d doc cas h; simp [exKV] at h
  · intro b s doc cas h; simp [exKV] at h
  · intro k h doc cas _ hd; simp [exKV] at hd

theorem Schema_roots_bounded (r : TimerStore) (docs : String → Option (Doc × Cas)) (hi : Int)
    (hs : Schema r docs hi) (hhi : hi ≤ MaxInt64) :
    ∀ d v cas, docs (r.kvLocatorRoot d) = some (Doc.counter v, cas) → v < MaxInt64 := by
  intro d v cas h
  obtain ⟨v', hv, _, hlt⟩ := hs.1 d _ cas h
  simp only [Doc.counter.injEq] at hv
  omega

/-- The KV of `exSet21` respects the key schema. -/
theorem exSet21_schema : Schema exSet21.2.1 exSet21.2.2.docs 130 :=
  (Schema_congr exStore exSet21.2.1 rfl rfl _ _).2
    ((Schema_congr exSet2.2.1 exStore rfl rfl _ _).1
      (Set_schema exSet2.2.1 exDigest exSet2.2.2 1000 1001 "r1" "c1" 129
        ((Schema_congr exStore exSet2.2.1 rfl rfl _ _).2
          (Set_schema exStore exDigest exKV 1000 1001 "r2" "c2" 128 (Schema_empty exStore 128)
            (by decide) (by decide) (by decide)))
        (by decide) (by decide) (by decide)))

/-- Witness for `C6_scan_order`: the scan at time 1009 after `exSet21` yields
the sequence numbers 128 and 129 of row 1008. -/
theorem C6_scan_order_witness :
    List.Pairwise (fun a b : Int × TimerEntry =>
      a.1 < b.1 ∨ (a.1 = b.1 ∧ a.2.alarmSeq < b.2.alarmSeq))
      (scanAll (fun _ => 1009) 10 (some exIter) exSet21.2.1 exSet21.2.2).1 ∧
    List.Pairwise (fun a b : Int × TimerEntry => a.2.AlarmRef ≠ b.2.AlarmRef)
      (scanAll (fun _ => 1009) 10 (some exIter) exSet21.2.1 exSet21.2.2).1 :=
  C6_scan_order (fun _ => 1009) 10 exIter exSet21.2.1 exSet21.2.2
    ⟨by decide, by decide, fun c hc => by simp [exIter] at hc,
      Schema_roots_bounded _ _ 130 exSet21_schema (by decide)⟩

/-- C6 (counterexample): with the column cursor at the largest `int64` the
increment wraps around to the smallest one, which is still within the bound:
the iterator `exIterWrap` on `exKVWrap` yields sequence number `MaxInt64` and
then, in the same row, sequence number `MinInt64`. -/
theorem C6_counterexample :
    (scanAll (fun _ => 1009) 10 (some exIterWrap) exStore exKVWrap).1.map
        (fun p => (p.1, p.2.alarmSeq)) = [(1008, MaxInt64), (1008, MinInt64)] ∧
    ¬ List.Pairwise (fun a b : Int × TimerEntry =>
      a.1 < b.1 ∨ (a.1 = b.1 ∧ a.2.alarmSeq < b.2.alarmSeq))
      (scanAll (fun _ => 1009) 10 (some exIterWrap) exStore exKVWrap).1 := by
  decide

theorem roundDown_le (t : Int) (h1 : MinInt64 ≤ t) (h2 : t ≤ MaxInt64 - Resolution) :
    roundDown t ≤ MaxInt64 - Resolution ∧ MinInt64 ≤ roundDown t := by
  unfold MinInt64 MaxInt64 Resolution at *
  by_cases h0 : 0 ≤ t
  · have := roundDown_nonneg t h0 (by omega)
    omega
  · unfold roundDown
    simp only [Resolution]
    have ht : t = -(-t) := by omega
    rw [ht, Int.neg_tdiv, Int.tdiv_eq_ediv (by omega) (by decide)]
    rw [wrap64_eq _ (by omega) (by omega)]
    omega

/-- The iterator `ScanDue` creates cannot wrap around when the span start is
an `int64`, the time leaves room for one bucket below the largest `int64`,
and no root counter holds the largest `int64`. -/
theorem ScanDue_nowrap (r : TimerStore) (docs : String → Option (Doc × Cas)) (t : Int)
    (hs : InInt64 r.span.Start) (ht : InInt64 t) (ht2 : t ≤ MaxInt64 - Resolution)
    (hroots : ∀ d v cas, docs (r.kvLocatorRoot d) = some (Doc.counter v, cas) → v < MaxInt64) :
    ∀ i, (r.ScanDue t).1 = some i → NoWrapIt (r.ScanDue t).2 docs i := by
  intro i hi
  obtain ⟨hit, hu, hp, _⟩ := ScanDue_iter r t
  rw [NoWrapIt_congr r _ hu hp]
  rcases hit with hnone | ⟨stop, hsome, hs1, _⟩
  · rw [hnone] at hi; simp at hi
  · rw [hsome] at hi
    simp only [Option.some.injEq] at hi
    subst hi
    have := roundDown_le t ht.1 ht2
    exact ⟨hs, by simp only []; omega, fun c hc => by simp at hc, hroots⟩

/-- C3: after `Set(due1, ref, ctx1)` followed by a successful
`Set(due2, ref, ctx2)`, every entry for `ref` (`ContextRef` equal to
`kvLocatorContext(ref)`) yielded by a scan of the resulting KV carries
`Context = ctx2` and the `AlarmDue` stored by the second `Set`; and a single
scan started by `ScanDue` (span start and time within `int64`, the time at most
`MaxInt64 - Resolution`, no root counter at `MaxInt64`, so that the scan
cursors cannot overflow) yields at most one such entry, also when both dues
fall in the same bucket. -/
theorem C3_supersession (r : TimerStore) (dg : Digest) (kv : KV) (now1 due1 now2 due2 : Int)
    (ref ctx1 ctx2 : String)
    (hok : ((r.Set dg kv now1 due1 ref ctx1).2.1.Set dg (r.Set dg kv now1 due1 ref ctx1).2.2
      now2 due2 ref ctx2).1 = none)
    (r3 : TimerStore) (kv3 : KV) (t : Int) (clk : Nat → Int) (F : Nat)
    (hdocs : kv3.docs = ((r.Set dg kv now1 due1 ref ctx1).2.1.Set dg
      (r.Set dg kv now1 due1 ref ctx1).2.2 now2 due2 ref ctx2).2.2.docs)
    (hs : InInt64 r3.span.Start) (ht : InInt64 t) (ht2 : t ≤ MaxInt64 - Resolution)
    (hroots : ∀ d v cas, kv3.docs (r3.kvLocatorRoot d) = some (Doc.counter v, cas) →
      v < MaxInt64) :
    (∀ p ∈ (scanAll clk F (r3.ScanDue t).1 (r3.ScanDue t).2 kv3).1,
      p.2.ContextRef = r.kvLocatorContext dg ref →
        p.2.Context = ctx2 ∧ p.2.AlarmDue = setDue now2 due2) ∧
    ((scanAll clk F (r3.ScanDue t).1 (r3.ScanDue t).2 kv3).1.filter
      (fun p => decide (p.2.ContextRef = r.kvLocatorContext dg ref))).length ≤ 1 := by
  have hsu : (r.Set dg kv now1 due1 ref ctx1).2.1.uid = r.uid ∧
      (r.Set dg kv now1 due1 ref ctx1).2.1.partn = r.partn := by
    unfold TimerStore.Set
    simp only []
    split
    · split <;> exact ⟨rfl, rfl⟩
    · split
      · split <;> exact ⟨rfl, rfl⟩
      · split
        · split <;> exact ⟨rfl, rfl⟩
        · simp only [TimerStore.addStat_uid, TimerStore.addStat_partn,
            TimerStore.expandSpan_uid, TimerStore.expandSpan_partn]
          split <;> exact ⟨rfl, rfl⟩
  obtain ⟨seq, c1, c2, c3, _, hd, _⟩ := Set_success _ dg _ now2 due2 ref ctx2 hok
  rw [← hdocs] at hd
  simp only [kvLocatorContext_congr r _ hsu.1 hsu.2, kvLocatorAlarm_congr r _ hsu.1 hsu.2,
    kvLocatorRoot_congr r _ hsu.1 hsu.2] at hd
  have hctx : kv3.docs (r.kvLocatorContext dg ref) =
      some (Doc.context ⟨ctx2, r.kvLocatorAlarm (setDue now2 due2) seq⟩, c3) := by
    rw [hd, if_pos rfl]
  have halarm : kv3.docs (r.kvLocatorAlarm (setDue now2 due2) seq) =
      some (Doc.alarm ⟨setDue now2 due2, r.kvLocatorContext dg ref⟩, c2) := by
    rw [hd, if_neg (kvLocatorAlarm_ne_context r dg _ _ ref), if_pos rfl]
  have hent : ∀ p ∈ (scanAll clk F (r3.ScanDue t).1 (r3.ScanDue t).2 kv3).1,
      p.2.ContextRef = r.kvLocatorContext dg ref →
        p.2.Context = ctx2 ∧ p.2.AlarmDue = setDue now2 due2 ∧
        p.2.AlarmRef = r.kvLocatorAlarm (setDue now2 due2) seq := by
    intro p hmem hcx
    obtain ⟨⟨acas, h1⟩, h2, h3⟩ := scanAll_yielded clk F _ _ kv3 p hmem
    rw [hcx, hctx] at h2
    simp only [Option.some.injEq, Prod.mk.injEq, Doc.context.injEq] at h2
    have hc : p.2.Context = ctx2 := by
      have := congrArg ContextRecord.Context h2.1; exact this.symm
    have har : p.2.AlarmRef = r.kvLocatorAlarm (setDue now2 due2) seq := by
      have := congrArg ContextRecord.AlarmRef h2.1; exact this.symm
    rw [← h3, har, halarm] at h1
    simp only [Option.some.injEq, Prod.mk.injEq, Doc.alarm.injEq] at h1
    have hdue : p.2.AlarmDue = setDue now2 due2 := by
      have := congrArg AlarmRecord.AlarmDue h1.1; exact this.symm
    exact ⟨hc, hdue, har⟩
  refine ⟨fun p hmem hcx => ⟨(hent p hmem hcx).1, (hent p hmem hcx).2.1⟩, ?_⟩
  have hpw : List.Pairwise (fun a b : Int × TimerEntry => a.2.AlarmRef ≠ b.2.AlarmRef)
      (scanAll clk F (r3.ScanDue t).1 (r3.ScanDue t).2 kv3).1 := by
    rcases hsd : (r3.ScanDue t).1 with _ | i
    · cases F <;> simp [scanAll, ScanNext]
    · have hn := ScanDue_nowrap r3 kv3.docs t hs ht ht2 hroots i hsd
      exact scanAll_distinct_refs clk F i _ kv3 hn
  have hf := hpw.filter (fun p => decide (p.2.ContextRef = r.kvLocatorContext dg ref))
  rcases hl : (scanAll clk F (r3.ScanDue t).1 (r3.ScanDue t).2 kv3).1.filter
      (fun p => decide (p.2.ContextRef = r.kvLocatorContext dg ref)) with _ | ⟨a, _ | ⟨b, l⟩⟩
  · rw [hl]; simp
  · rw [hl]; simp
  · exfalso
    rw [hl] at hf
    have hab := (List.pairwise_cons.1 hf).1 b (List.mem_cons_self _ _)
    have hma : a ∈ (scanAll clk F (r3.ScanDue t).1 (r3.ScanDue t).2 kv3).1.filter
        (fun p => decide (p.2.ContextRef = r.kvLocatorContext dg ref)) := by rw [hl]; simp
    have hmb : b ∈ (scanAll clk F (r3.ScanDue t).1 (r3.ScanDue t).2 kv3).1.filter
        (fun p => decide (p.2.ContextRef = r.kvLocatorContext dg ref)) := by rw [hl]; simp
    rw [List.mem_filter] at hma hmb
    have ha := (hent a hma.1 (by simpa using hma.2)).2.2
    have hb := (hent b hmb.1 (by simpa using hmb.2)).2.2
    exact hab (by rw [ha, hb])

/-- The KV of `exSet11` respects the key schema. -/
theorem exSet11_schema : Schema exSet11.2.1 exSet11.2.2.docs 130 :=
  (Schema_congr exStore exSet11.2.1 rfl rfl _ _).2
    ((Schema_congr exSet1.2.1 exStore rfl rfl _ _).1
      (Set_schema exSet1.2.1 exDigest exSet1.2.2 1000 1020 "r1" "c1b" 129
        ((Schema_congr exStore exSet1.2.1 rfl rfl _ _).2
          (Set_schema exStore exDigest exKV 1000 1001 "r1" "c1" 128 (Schema_empty exStore 128)
            (by decide) (by decide) (by decide)))
        (by decide) (by decide) (by decide)))

/-- Witness for `C3_supersession`: `r1` is set for bucket 1008 and then for
bucket 1022; the scan at time 1030 yields one entry for `r1`, read in row
1022 and carrying the second context. -/
theorem C3_supersession_witness :
    ((∀ p ∈ (scanAll (fun _ => 1030) 10 (exSet11.2.1.ScanDue 1030).1
        (exSet11.2.1.ScanDue 1030).2 exSet11.2.2).1,
      p.2.ContextRef = exStore.kvLocatorContext exDigest "r1" →
        p.2.Context = "c1b" ∧ p.2.AlarmDue = setDue 1000 1020) ∧
    ((scanAll (fun _ => 1030) 10 (exSet11.2.1.ScanDue 1030).1
        (exSet11.2.1.ScanDue 1030).2 exSet11.2.2).1.filter
      (fun p => decide (p.2.ContextRef = exStore.kvLocatorContext exDigest "r1"))).length
        ≤ 1) ∧
    (scanAll (fun _ => 1030) 10 (exSet11.2.1.ScanDue 1030).1
        (exSet11.2.1.ScanDue 1030).2 exSet11.2.2).1.map
      (fun p => (p.1, p.2.ContextRef, p.2.Context, p.2.AlarmDue)) =
      [(1022, exStore.kvLocatorContext exDigest "r1", "c1b", 1022)] :=
  ⟨C3_supersession exStore exDigest exKV 1000 1001 1000 1020 "r1" "c1" "c1b" (by decide)
      exSet11.2.1 exSet11.2.2 1030 (fun _ => 1030) 10 rfl (by decide) (by decide) (by decide)
      (Schema_roots_bounded _ _ 130 exSet11_schema (by decide)),
    by decide⟩

theorem MustRemove_cases (kv : KV) (key : String) (cas : Cas) (hf : kv.faults = []) :
    (kv.docs key = none ∧ MustRemove kv key cas = (0, true, false, none, kv)) ∨
    (∃ d c, kv.docs key = some (d, c) ∧ (cas = 0 ∨ cas = c) ∧
      MustRemove kv key cas = (c, false, false, none, kv.erase key)) ∨
    (∃ d c, kv.docs key = some (d, c) ∧ ¬ (cas = 0 ∨ cas = c) ∧
      MustRemove kv key cas = (0, false, true, none, kv)) := by
  unfold MustRemove
  rw [KV.fault_of_nil kv hf, KV.advance_of_nil kv hf]
  rcases hd : kv.docs key with _ | ⟨d, c⟩
  · left; simp
  · right
    by_cases hc : cas = 0 ∨ cas = c
    · left; exact ⟨d, c, rfl, hc, by simp [hc]⟩
    · right; exact ⟨d, c, rfl, hc, by simp [hc]⟩

theorem KV.erase_docs_self (kv : KV) (key : String) : (kv.erase key).docs key = none := by
  simp [KV.erase]

theorem KV.erase_docs_none (kv : KV) (key k : String) (h : kv.docs k = none) :
    (kv.erase key).docs k = none := by
  simp only [KV.erase]; split
  · rfl
  · exact h

/-- `Delete` on a fixed point returns nil and changes neither the KV nor the span. -/
theorem Delete_fixed (r : TimerStore) (kv : KV) (entry : TimerEntry) (hf : kv.faults = [])
    (h : DeleteDone r kv entry) :
    (r.Delete kv entry).1 = none ∧ (r.Delete kv entry).2.2 = kv ∧
    (r.Delete kv entry).2.1.span = r.span ∧ (r.Delete kv entry).2.1.uid = r.uid ∧
    (r.Delete kv entry).2.1.partn = r.partn := by
  obtain ⟨hK1, hrest⟩ := h
  unfold TimerStore.Delete
  simp only [kvLocatorRoot_addStat]
  rcases MustRemove_cases kv entry.AlarmRef 0 hf with ⟨_, h1⟩ | ⟨d, c, hd, _⟩ | ⟨d, c, hd, _⟩
  · rw [h1]
    simp only []
    rcases hrest with ⟨d, c, hd, hm⟩ | ⟨hK2, hroot⟩
    · rcases MustRemove_cases kv entry.ContextRef entry.ctxCas hf with
        ⟨h0, _⟩ | ⟨d', c', hd', hc', _⟩ | ⟨d', c', hd', _, h2⟩
      · rw [h0] at hd; simp at hd
      · rw [hd] at hd'
        simp only [Option.some.injEq, Prod.mk.injEq] at hd'
        rw [hd'.2] at hm
        exact absurd hc' hm
      · rw [h2]
        simp only [Bool.false_eq_true, if_false, if_true]
        exact ⟨trivial, trivial, rfl, rfl, rfl⟩
    · rcases MustRemove_cases kv entry.ContextRef entry.ctxCas hf with
        ⟨_, h2⟩ | ⟨d', c', hd', _⟩ | ⟨d', c', hd', _⟩
      · rw [h2]
        simp only [if_true, Bool.false_eq_true, if_false]
        by_cases ht : entry.topCas = 0
        · simp only [ht, if_true]
          exact ⟨trivial, trivial, rfl, rfl, rfl⟩
        · simp only [ht, if_false, kvLocatorRoot_addStat]
          rcases hroot with h0 | ⟨hR, hsp⟩
          · exact absurd h0 ht
          have hshrink : ∀ r' : TimerStore, r'.span = r.span →
              (r'.shrinkSpan entry.AlarmDue).span = r.span := by
            intro r' hr'
            unfold TimerStore.shrinkSpan
            rw [hr', if_neg hsp]; exact hr'
          rcases MustRemove_cases kv (r.kvLocatorRoot entry.AlarmDue) entry.topCas hf with
            ⟨_, h3⟩ | ⟨d', c', hd', hc', _⟩ | ⟨d', c', hd', _, h3⟩
          · simp only [h3, Bool.or_false, if_true]
            refine ⟨trivial, trivial, ?_, ?_, ?_⟩
            · simp only [TimerStore.addStat_span]; exact hshrink _ rfl
            · simp
            · simp
          · rcases hR with h0 | ⟨d2, c2, hd2, hm2⟩
            · rw [h0] at hd'; simp at hd'
            · rw [hd2] at hd'
              simp only [Option.some.injEq, Prod.mk.injEq] at hd'
              rw [hd'.2] at hm2
              exact absurd hc' hm2
          · simp only [h3, Bool.or_true, if_true]
            refine ⟨trivial, trivial, ?_, ?_, ?_⟩
            · simp only [TimerStore.addStat_span]; exact hshrink _ rfl
            · simp
            · simp
      · rw [hK2] at hd'; simp at hd'
      · rw [hK2] at hd'; simp at hd'
  · rw [hK1] at hd; simp at hd
  · rw [hK1] at hd; simp at hd

theorem MustRemove_any (kv : KV) (key : String) (cas : Cas) (hf : kv.faults = []) :
    ∃ c ab mm kv', MustRemove kv key cas = (c, ab, mm, none, kv') ∧ kv'.faults = [] ∧
      (mm = true → kv' = kv ∧ ∃ d c', kv.docs key = some (d, c') ∧ ¬ (cas = 0 ∨ cas = c')) ∧
      (mm = false → kv'.docs key = none) ∧
      (∀ k, kv.docs k = none → kv'.docs k = none) := by
  rcases MustRemove_cases kv key cas hf with ⟨h0, h⟩ | ⟨d, c, hd, hc, h⟩ | ⟨d, c, hd, hc, h⟩
  · exact ⟨_, _, _, _, h, hf, fun hm => by simp at hm, fun _ => h0, fun k hk => hk⟩
  · exact ⟨_, _, _, _, h, hf, fun hm => by simp at hm, fun _ => KV.erase_docs_self kv key,
      fun k hk => KV.erase_docs_none kv key k hk⟩
  · exact ⟨_, _, _, _, h, hf, fun _ => ⟨rfl, d, c, hd, hc⟩, fun hm => by simp at hm,
      fun k hk => hk⟩

/-- An error-free `Delete` returns nil and leaves a fixed point behind. -/
theorem Delete_settles (r : TimerStore) (kv : KV) (entry : TimerEntry) (hf : kv.faults = []) :
    (r.Delete kv entry).1 = none ∧ (r.Delete kv entry).2.2.faults = [] ∧
    DeleteDone (r.Delete kv entry).2.1 (r.Delete kv entry).2.2 entry := by
  unfold TimerStore.Delete
  simp only [kvLocatorRoot_addStat]
  obtain ⟨c1, ab1, mm1, kv1, h1, hf1, m1, n1, p1⟩ := MustRemove_any kv entry.AlarmRef 0 hf
  have hmm1 : mm1 = false := by
    rcases mm1 with _ | _
    · rfl
    · obtain ⟨_, d, c', _, hc⟩ := m1 rfl
      exact absurd (Or.inl rfl) hc
  have hK1 := n1 hmm1
  simp only [h1]
  obtain ⟨c2, ab2, mm2, kv2, h2, hf2, m2, n2, p2⟩ :=
    MustRemove_any kv1 entry.ContextRef entry.ctxCas hf1
  simp only [h2]
  rcases mm2 with _ | _
  swap
  · -- CAS mismatch on the context
    obtain ⟨hk, hmis⟩ := m2 rfl
    subst hk
    simp only [if_true]
    exact ⟨trivial, hf1, hK1, Or.inl hmis⟩
  have hK2 := n2 rfl
  simp only [Bool.false_eq_true, if_false]
  by_cases ht : entry.topCas = 0
  · simp only [if_pos ht]
    exact ⟨trivial, hf2, p2 _ hK1, Or.inr ⟨hK2, Or.inl ht⟩⟩
  simp only [ht, if_false]
  have hroot : ∀ r' : TimerStore, r'.uid = r.uid → r'.partn = r.partn →
      r'.kvLocatorRoot entry.AlarmDue = r.kvLocatorRoot entry.AlarmDue :=
    fun r' a b => kvLocatorRoot_congr r r' a b _
  have hkr : (if ab2 = true then
      (r.addStat timerStats.addDelCounter).addStat timerStats.addContextMissingCounter
      else r.addStat timerStats.addDelCounter).kvLocatorRoot entry.AlarmDue =
      r.kvLocatorRoot entry.AlarmDue := by
    split <;> rfl
  simp only [hkr]
  obtain ⟨c3, ab3, mm3, kv3, h3, hf3, m3, n3, p3⟩ :=
    MustRemove_any kv2 (r.kvLocatorRoot entry.AlarmDue) entry.topCas hf2
  simp only [h3]
  have hsp : ∀ r' : TimerStore, ¬ (r'.shrinkSpan entry.AlarmDue).span.Start < entry.AlarmDue := by
    intro r'
    unfold TimerStore.shrinkSpan
    split
    · simp
    · assumption
  refine ⟨trivial, hf3, p3 _ (p2 _ hK1), Or.inr ⟨p3 _ hK2, Or.inr ⟨?_, ?_⟩⟩⟩
  · rw [kvLocatorRoot_congr r _ (by
      simp only [TimerStore.addStat_uid, TimerStore.shrinkSpan_uid]
      split <;> split <;> rfl) (by
      simp only [TimerStore.addStat_partn, TimerStore.shrinkSpan_partn]
      split <;> split <;> rfl)]
    rcases mm3 with _ | _
    · exact Or.inl (n3 rfl)
    · obtain ⟨hk, hmis⟩ := m3 rfl
      subst hk
      exact Or.inr hmis
  · simp only [TimerStore.addStat_span]
    exact hsp _

/-- C10: on an error-free KV, for every KV state, span state and entry,
`Delete(entry)` executed twice in a row returns nil both times, and the second
execution leaves the KV and the span exactly as the first one left them. -/
theorem C10_delete_idempotent (r : TimerStore) (kv : KV) (entry : TimerEntry)
    (hf : kv.faults = []) :
    (r.Delete kv entry).1 = none ∧
    ((r.Delete kv entry).2.1.Delete (r.Delete kv entry).2.2 entry).1 = none ∧
    ((r.Delete kv entry).2.1.Delete (r.Delete kv entry).2.2 entry).2.2 =
      (r.Delete kv entry).2.2 ∧
    ((r.Delete kv entry).2.1.Delete (r.Delete kv entry).2.2 entry).2.1.span =
      (r.Delete kv entry).2.1.span := by
  obtain ⟨h1, h2, h3⟩ := Delete_settles r kv entry hf
  obtain ⟨g1, g2, g3, _⟩ := Delete_fixed _ _ entry h2 h3
  exact ⟨h1, g1, g2, g3⟩

/-- Witness for `C10_delete_idempotent`: deleting the scanned entry `exEntry1`
twice after `exSet1`. -/
theorem C10_delete_idempotent_witness :
    (exSet1.2.1.Delete exSet1.2.2 exEntry1).1 = none ∧
    ((exSet1.2.1.Delete exSet1.2.2 exEntry1).2.1.Delete
      (exSet1.2.1.Delete exSet1.2.2 exEntry1).2.2 exEntry1).1 = none ∧
    ((exSet1.2.1.Delete exSet1.2.2 exEntry1).2.1.Delete
      (exSet1.2.1.Delete exSet1.2.2 exEntry1).2.2 exEntry1).2.2 =
      (exSet1.2.1.Delete exSet1.2.2 exEntry1).2.2 ∧
    ((exSet1.2.1.Delete exSet1.2.2 exEntry1).2.1.Delete
      (exSet1.2.1.Delete exSet1.2.2 exEntry1).2.2 exEntry1).2.1.span =
      (exSet1.2.1.Delete exSet1.2.2 exEntry1).2.1.span :=
  C10_delete_idempotent exSet1.2.1 exSet1.2.2 exEntry1 (by decide)

/-- Every entry yielded by a scan that `ScanDue` started was read in a row
whose root counter is present; its column is at most the counter's value, and
it carries the root's CAS exactly when it sits in the last column. -/
theorem scanAll_root (clk : Nat → Int) (F : Nat) (r : TimerStore) (kv : KV) (t : Int) :
    ∀ p ∈ (scanAll clk F (r.ScanDue t).1 (r.ScanDue t).2 kv).1,
      ∃ v cas, kv.docs (r.kvLocatorRoot p.1) = some (Doc.counter v, cas) ∧
        p.2.alarmSeq ≤ v ∧ p.2.topCas = (if p.2.alarmSeq = v then cas else 0) := by
  obtain ⟨hit, hu, hp, _⟩ := ScanDue_iter r t
  refine scanAll_forall clk
    (fun it r' kv' => r'.uid = r.uid ∧ r'.partn = r.partn ∧ kv'.docs = kv.docs ∧
      ∀ i, it = some i → ∀ c, i.col = some c →
        kv.docs (r.kvLocatorRoot i.row.current) = some (Doc.counter c.stop, c.topCas))
    (fun b e => ∃ v cas, kv.docs (r.kvLocatorRoot b) = some (Doc.counter v, cas) ∧
        e.alarmSeq ≤ v ∧ e.topCas = (if e.alarmSeq = v then cas else 0)) ?_ F _ _ kv
    ⟨hu, hp, rfl, ?_⟩
  · intro it1 r1 kv1 fuel now e err it' r' kv' ⟨h1, h2, h3, h4⟩ h
    rcases it1 with _ | i1
    · have := ScanNext_nil fuel now r1 kv1 _ _ _ _ _ h
      simp at this
    · obtain ⟨i', rfl, _, hpost⟩ := ScanNext_some i1 fuel now r1 kv1 _ _ _ _ _ h
      obtain ⟨p1, _, p3, p4, _, _, _, p8, _⟩ := hpost
      obtain ⟨_, _, _, _, ⟨col', c1, _, c3, c4, c5⟩, _⟩ := p8 e rfl
      have hroot : kv.docs (r.kvLocatorRoot i'.row.current) =
          some (Doc.counter col'.stop, col'.topCas) := by
        rcases c5 with ⟨hrow, c, hc, hs, ht⟩ | ⟨hdoc, _⟩
        · rw [hrow, hs, ht]; exact h4 i1 rfl c hc
        · rwa [h3, kvLocatorRoot_congr r r1 h1 h2] at hdoc
      refine ⟨⟨col'.stop, col'.topCas, hroot, c3, c4⟩, by rw [p3, h1], by rw [p4, h2],
        by rw [p1, h3], ?_⟩
      intro i hi c hc
      simp only [Option.some.injEq] at hi
      subst hi
      rw [c1] at hc
      simp only [Option.some.injEq] at hc
      subst hc
      exact hroot
  · intro i hi c hc
    rcases hit with hnone | ⟨stop, hsome, _⟩
    · rw [hnone] at hi; simp at hi
    · rw [hsome] at hi
      simp only [Option.some.injEq] at hi
      subst hi
      simp at hc

theorem MustRemove_hit (kv : KV) (key : String) (cas : Cas) (d : Doc) (c : Cas)
    (hf : kv.faults = []) (hd : kv.docs key = some (d, c)) (hc : cas = 0 ∨ cas = c) :
    MustRemove kv key cas = (c, false, false, none, kv.erase key) := by
  unfold MustRemove
  rw [KV.fault_of_nil kv hf, KV.advance_of_nil kv hf]
  simp [hd, hc]

theorem KV.erase_docs_ne (kv : KV) (key k : String) (h : k ≠ key) :
    (kv.erase key).docs k = kv.docs k := by
  simp [KV.erase, h]

/-- `Delete` of a scanned last-column entry removes the root counter. -/
theorem Delete_last_column (r : TimerStore) (kv : KV) (e : TimerEntry) (b v : Int)
    (hf : kv.faults = []) (hy : Yielded r kv.docs b e)
    (hroot : kv.docs (r.kvLocatorRoot b) = some (Doc.counter v, e.topCas))
    (htop : e.topCas ≠ 0) (hdue : e.AlarmDue = b) :
    (r.Delete kv e).1 = none ∧ (r.Delete kv e).2.2.docs (r.kvLocatorRoot b) = none ∧
    (r.Delete kv e).2.2.faults = [] := by
  obtain ⟨⟨acas, h1⟩, h2, h3⟩ := hy
  have hne1 : e.ContextRef ≠ e.AlarmRef := by
    intro he
    rw [he, h3, h1] at h2
    simp at h2
  have hne2 : r.kvLocatorRoot b ≠ e.AlarmRef := by
    rw [h3]; exact kvLocatorRoot_ne_alarm r b b e.alarmSeq
  have hne3 : r.kvLocatorRoot b ≠ e.ContextRef := by
    intro he
    rw [he, h2] at hroot
    simp at hroot
  unfold TimerStore.Delete
  simp only [kvLocatorRoot_addStat]
  rw [← h3] at h1
  rw [MustRemove_hit kv e.AlarmRef 0 _ acas hf h1 (Or.inl rfl)]
  simp only []
  have hf1 : (kv.erase e.AlarmRef).faults = [] := hf
  have h2' : (kv.erase e.AlarmRef).docs e.ContextRef =
      some (Doc.context e.toContextRecord, e.ctxCas) := by
    rw [KV.erase_docs_ne kv _ _ hne1]; exact h2
  rw [MustRemove_hit _ e.ContextRef e.ctxCas _ e.ctxCas hf1 h2' (Or.inr rfl)]
  simp only [Bool.false_eq_true, if_false, if_neg htop, kvLocatorRoot_addStat]
  have hf2 : ((kv.erase e.AlarmRef).erase e.ContextRef).faults = [] := hf
  have hroot' : ((kv.erase e.AlarmRef).erase e.ContextRef).docs (r.kvLocatorRoot e.AlarmDue) =
      some (Doc.counter v, e.topCas) := by
    rw [hdue, KV.erase_docs_ne _ _ _ hne3, KV.erase_docs_ne _ _ _ hne2]; exact hroot
  rw [MustRemove_hit _ _ e.topCas _ e.topCas hf2 hroot' (Or.inr rfl)]
  simp only []
  refine ⟨trivial, ?_, hf⟩
  rw [hdue]
  exact KV.erase_docs_self _ _

/-- C9 (amended): on an error-free KV with no other writer, when an entry
obtained from a scan that occupies the last column of its bucket (so that it
carries a non-zero `topCas`) and whose `AlarmDue` is the bucket it was read in
is passed to `Delete`, `Delete` returns nil, the bucket's root counter is
removed, and no subsequent scan of the resulting KV yields an entry read in a
row at that bucket. -/
theorem C9_root_cleanup (r : TimerStore) (kv : KV) (t : Int) (clk : Nat → Int) (F : Nat)
    (hf : kv.faults = []) (p : Int × TimerEntry)
    (hmem : p ∈ (scanAll clk F (r.ScanDue t).1 (r.ScanDue t).2 kv).1)
    (htop : p.2.topCas ≠ 0) (hdue : p.2.AlarmDue = p.1)
    (r2 : TimerStore) (hu : r2.uid = r.uid) (hp : r2.partn = r.partn) :
    (r2.Delete kv p.2).1 = none ∧
    (r2.Delete kv p.2).2.2.docs (r.kvLocatorRoot p.1) = none ∧
    ∀ (r3 : TimerStore) (t' : Int) (clk' : Nat → Int) (F' : Nat),
      r3.uid = r.uid → r3.partn = r.partn →
      ∀ q ∈ (scanAll clk' F' (r3.ScanDue t').1 (r3.ScanDue t').2 (r2.Delete kv p.2).2.2).1,
        q.1 ≠ p.1 := by
  obtain ⟨_, hu0, hp0, _⟩ := ScanDue_iter r t
  have hy := scanAll_yielded clk F _ _ kv p hmem
  rw [Yielded_congr r _ hu0 hp0, ← Yielded_congr r r2 hu hp] at hy
  obtain ⟨v, cas, hroot, _, htc⟩ := scanAll_root clk F r kv t p hmem
  have hcas : p.2.topCas = cas := by
    rw [htc]; split
    · rfl
    · rename_i hne
      rw [htc, if_neg hne] at htop
      exact absurd rfl htop
  rw [← hcas, ← kvLocatorRoot_congr r r2 hu hp] at hroot
  obtain ⟨d1, d2, _⟩ := Delete_last_column r2 kv p.2 p.1 v hf hy hroot htop hdue
  rw [kvLocatorRoot_congr r r2 hu hp] at d2
  refine ⟨d1, d2, ?_⟩
  intro r3 t' clk' F' hu3 hp3 q hq heq
  obtain ⟨v', cas', hq', _⟩ := scanAll_root clk' F' r3 _ t' q hq
  rw [kvLocatorRoot_congr r r3 hu3 hp3, heq, d2] at hq'
  simp at hq'

/-- Witness for `C9_root_cleanup`: after `exSet1` the scan at time 1009 yields
`exEntry1`, the last column of bucket 1008. -/
theorem C9_root_cleanup_witness :
    (exSet1.2.1.Delete exSet1.2.2 exEntry1).1 = none ∧
    (exSet1.2.1.Delete exSet1.2.2 exEntry1).2.2.docs (exSet1.2.1.kvLocatorRoot 1008) = none ∧
    ∀ (r3 : TimerStore) (t' : Int) (clk' : Nat → Int) (F' : Nat),
      r3.uid = exSet1.2.1.uid → r3.partn = exSet1.2.1.partn →
      ∀ q ∈ (scanAll clk' F' (r3.ScanDue t').1 (r3.ScanDue t').2
          (exSet1.2.1.Delete exSet1.2.2 exEntry1).2.2).1,
        q.1 ≠ 1008 :=
  C9_root_cleanup exSet1.2.1 exSet1.2.2 1009 (fun _ => 1009) 10 (by decide) (1008, exEntry1)
    (by decide) (by decide) (by decide) exSet1.2.1 rfl rfl

/-- C9 (counterexample): bucket 1008 receives `r2` (sequence number 128) and
`r1` (129), and `r1` is cancelled. The scan at time 1009 yields the only alive
timer of the bucket, `r2`, with `topCas = 0` because it is not in the last
column; `Delete` of that entry returns nil and leaves the root counter in
place, and the next scan finds a row at bucket 1008. -/
theorem C9_counterexample :
    exRun21.1 = [(1008, exEntry2)] ∧ exRun21.2.1 = ScanEnd.exhausted ∧
    exDelete21.1 = none ∧
    exDelete21.2.2.docs (exStore.kvLocatorRoot 1008) = some (Doc.counter 129, 5) ∧
    (((exDelete21.2.1.ScanDue 1016).1.bind
        (fun it => it.nextRow 10 (exDelete21.2.1.ScanDue 1016).2 exDelete21.2.2)).map
      (fun x => (x.1, x.2.2.1.row.current))) = some (true, 1008) := by
  decide

/-- The column loop returns when given more fuel than columns are left. -/
theorem nextColumnLoop_total : ∀ (fuel : Nat) (it : TimerIter) (col : colIter)
    (alarm : AlarmRecord) (context : ContextRecord) (r : TimerStore) (kv : KV),
    InInt64 col.current → col.stop < MaxInt64 →
    (col.stop + 1 - col.current).toNat < fuel →
    ∃ x, TimerIter.nextColumnLoop fuel it col alarm context r kv = some x := by
  intro fuel
  induction fuel with
  | zero => intro it col alarm context r kv _ _ h; omega
  | succ n ih =>
    intro it col alarm context r kv h1 h2 h3
    rw [TimerIter.nextColumnLoop]
    simp only []
    by_cases hc : col.current ≤ col.stop
    · simp only [hc, if_true]
      have hw : wrap64 (col.current + 1) = col.current + 1 := by
        unfold InInt64 MinInt64 MaxInt64 at *
        exact wrap64_eq _ (by omega) (by omega)
      have hrec : ∀ a c r kv, ∃ x, TimerIter.nextColumnLoop n it
          { col with current := wrap64 (col.current + 1) } a c r kv = some x := by
        intro a c r kv
        apply ih
        · simp only [hw]
          unfold InInt64 MinInt64 MaxInt64 at *
          omega
        · exact h2
        · simp only [hw]; omega
      generalize MustGet Doc.asAlarm kv (r.kvLocatorAlarm it.row.current col.current) alarm = g1
      obtain ⟨cas1, absent1, err1, alarm1, kv1⟩ := g1
      simp only []
      rcases err1 with _ | e1
      · simp only []
        rcases absent1 with _ | _
        · simp only [Bool.false_eq_true, if_false]
          generalize MustGet Doc.asContext kv1 alarm1.ContextRef context = g2
          obtain ⟨cas2, absent2, err2, context2, kv2⟩ := g2
          simp only []
          rcases err2 with _ | e2
          · simp only []
            split
            · exact hrec _ _ _ _
            · exact ⟨_, rfl⟩
          · exact ⟨_, rfl⟩
        · simp only [if_true]
          exact hrec _ _ _ _
      · exact ⟨_, rfl⟩
    · simp only [hc, if_false]
      exact ⟨_, rfl⟩

/-- The row loop returns when given more fuel than the distance to the stop. -/
theorem nextRowLoop_total : ∀ (fuel : Nat) (it : TimerIter) (col : colIter)
    (r : TimerStore) (kv : KV),
    InInt64 it.row.current → it.row.stop ≤ MaxInt64 - Resolution →
    (it.row.stop - it.row.current).toNat < fuel →
    ∃ x, TimerIter.nextRowLoop fuel it col r kv = some x := by
  intro fuel
  induction fuel with
  | zero => intro it col r kv _ _ h; omega
  | succ n ih =>
    intro it col r kv h1 h2 h3
    rw [TimerIter.nextRowLoop]
    simp only []
    by_cases hc : it.row.current < it.row.stop
    · simp only [hc, if_true]
      have hw : wrap64 (it.row.current + Resolution) = it.row.current + Resolution := by
        unfold InInt64 MinInt64 MaxInt64 Resolution at *
        exact wrap64_eq _ (by omega) (by omega)
      generalize MustGet Doc.asCounter kv _ col.stop = g1
      obtain ⟨cas1, absent1, err1, stop1, kv1⟩ := g1
      simp only []
      rcases err1 with _ | e1
      · simp only []
        rcases absent1 with _ | _
        · exact ⟨_, rfl⟩
        · simp only [Bool.not_true, Bool.false_eq_true, if_false]
          apply ih
          · simp only [hw]
            unfold InInt64 MinInt64 MaxInt64 Resolution at *
            omega
          · exact h2
          · simp only [hw]
            unfold Resolution at *
            omega
      · exact ⟨_, rfl⟩
    · simp only [hc, if_false]
      exact ⟨_, rfl⟩

/-- The loop of `ScanNext` returns when its fuel exceeds the distance to the
row stop by more than the length of the longest column. -/
theorem scanLoop_total (now : Int) : ∀ (fuel : Nat) (it : TimerIter) (r : TimerStore) (kv : KV),
    NoWrapIt r kv.docs it →
    (it.row.stop - it.row.current).toNat + 18446744073709551616 < fuel →
    ∃ x, TimerIter.scanLoop now fuel it r kv = some x := by
  intro fuel
  induction fuel with
  | zero => intro it r kv _ h; omega
  | succ n ih =>
    intro it r kv hn hfuel
    obtain ⟨n1, n2, n3, n4⟩ := hn
    have hcolT : ∃ x, it.nextColumn n r kv = some x := by
      unfold TimerIter.nextColumn
      simp only []
      rcases hcol : it.col with _ | col
      · exact ⟨_, rfl⟩
      · simp only []
        obtain ⟨c1, c2⟩ := n3 col hcol
        apply nextColumnLoop_total _ _ _ _ _ _ _ c1 c2
        unfold InInt64 MinInt64 MaxInt64 at *
        omega
    obtain ⟨⟨found1, err1, it1, r1, kv1⟩, hnc⟩ := hcolT
    rw [TimerIter.scanLoop, hnc]
    simp only []
    have hcp := nextColumn_post it n r kv found1 err1 it1 r1 kv1 hnc
    have hframe : kv1.docs = kv.docs ∧ r1.uid = r.uid ∧
        r1.partn = r.partn ∧ it1.row = it.row := by
      rcases hcp with ⟨_, _, _, rfl, rfl, rfl⟩ | ⟨col, _, p1, p2, p3, p4, p5, p6, _⟩
      · exact ⟨rfl, rfl, rfl, rfl⟩
      · exact ⟨p1, p3, p4, p6⟩
    obtain ⟨f1, f3, f4, f6⟩ := hframe
    rcases err1 with _ | e1
    swap
    · exact ⟨_, rfl⟩
    simp only []
    rcases found1 with _ | _
    swap
    · simp only [if_true]
      split <;> exact ⟨_, rfl⟩
    simp only [Bool.false_eq_true, if_false]
    have hrowT : ∃ x, it1.nextRow n r1 kv1 = some x := by
      unfold TimerIter.nextRow
      simp only []
      apply nextRowLoop_total
      · simp only [f6]; exact n1
      · simp only [f6]; exact n2
      · simp only [f6]; omega
    obtain ⟨⟨found2, err2, it2, r2, kv2⟩, hnr⟩ := hrowT
    rw [hnr]
    simp only []
    by_cases hgo : found2 = true ∧ err2 = none
    · obtain ⟨rfl, rfl⟩ := hgo
      simp only [Bool.not_true, Option.isSome_none, Bool.or_self, Bool.false_eq_true, if_false]
      unfold TimerIter.nextRow at hnr
      simp only [] at hnr
      have hrp := nextRowLoop_post _ _ _ _ _ _ _ _ _ _ hnr
      obtain ⟨g1, g2, g3, g4, g5, g6, g7, g8, g9, g10, g11⟩ := hrp
      simp only [TimerStore.addStat_uid, TimerStore.addStat_partn, TimerStore.addStat_span,
        kvLocatorRoot_addStat] at g3 g4 g5 g6 g7 g8 g9 g10 g11
      rw [f6] at g5 g6 g8 g9 g10
      have hroot1 : ∀ d, r1.kvLocatorRoot d = r.kvLocatorRoot d := kvLocatorRoot_congr r r1 f3 f4
      obtain ⟨_, hsp, ⟨v, cas, hv, hc2⟩, hc0, hrows⟩ := g9 trivial
      rw [f1, hroot1] at hv
      obtain ⟨k, k1, k2, k3, k4⟩ := hrows n1 n2
      apply ih
      · rw [g1, f1, NoWrapIt_congr r r2 (by rw [g3, f3]) (by rw [g4, f4])]
        refine ⟨g8 n1, by rw [g5]; exact n2, ?_, n4⟩
        intro c hc
        rw [hc2] at hc
        simp only [Option.some.injEq] at hc
        subst hc
        refine ⟨?_, n4 _ _ _ hv⟩
        unfold InInt64 MinInt64 MaxInt64 init_seq; simp
      · rw [g5, k2]
        rw [k2] at k3
        unfold Resolution at *
        have : (1 : Int) ≤ (k : Int) := by exact_mod_cast k1
        omega
    · have hstop : (!found2 || err2.isSome) = true := by
        rcases found2 with _ | _
        · simp
        · rcases err2 with _ | e2
          · exact absurd ⟨rfl, rfl⟩ hgo
          · simp
      rw [hstop]
      exact ⟨_, rfl⟩

/-- One yielding call of `ScanNext` lowers the bound `scanNeed` and does not
raise the distance to the row stop. -/
theorem scanNeed_step (r : TimerStore) (kv : KV) (it it' : TimerIter) (e : TimerEntry)
    (err : Option Error) (r' : TimerStore) (kv' : KV)
    (hp : ScanPost r kv it (some e) err it' r' kv') (hn : NoWrapIt r kv.docs it) :
    scanNeed it' < scanNeed it ∧
    (it'.row.stop - it'.row.current).toNat ≤ (it.row.stop - it.row.current).toNat := by
  obtain ⟨_, _, _, _, p5, _, _, p8, _, _⟩ := hp
  obtain ⟨_, _, _, _, ⟨col', c1, c2, c3, _, _⟩, e6⟩ := p8 e rfl
  obtain ⟨f1, _, fp, fs, fc, _⟩ := e6 hn
  have hcur := fc col' c1
  obtain ⟨g1, g2⟩ := f1.2.2.1 col' c1
  have hcols : colsRem it' = (col'.stop - e.alarmSeq).toNat := by
    unfold colsRem; rw [c1]; simp only [hcur]; congr 1; ring
  rcases fp with ⟨hb, c, hc, hs1, hs2⟩ | ⟨k, k1, k2, k3, _⟩
  · obtain ⟨c0, c0', h0, h0', hst⟩ := fs hb
    rw [hc] at h0
    rw [c1] at h0'
    simp only [Option.some.injEq] at h0 h0'
    subst h0; subst h0'
    have hcols0 : colsRem it = (c.stop + 1 - c.current).toNat := by
      unfold colsRem; rw [hc]
    unfold scanNeed
    rw [hcols, hcols0, p5, hb, hst]
    omega
  · have hk : (1 : Int) ≤ (k : Int) := by exact_mod_cast k1
    have hbound : colsRem it' < 18446744073709551616 := by
      rw [hcols]
      unfold InInt64 MinInt64 MaxInt64 at *
      omega
    unfold scanNeed
    rw [p5]
    rw [k2] at k3
    unfold Resolution at *
    have h1 : (it.row.stop - it'.row.current).toNat + 1 ≤ (it.row.stop - it.row.current).toNat := by
      rw [k2]; omega
    have h2 : ((it.row.stop - it'.row.current).toNat + 1) * 18446744073709551616 ≤
        (it.row.stop - it.row.current).toNat * 18446744073709551616 :=
      Nat.mul_le_mul_right _ h1
    constructor
    · omega
    · omega

/-- The drain loop terminates and is complete: on an error-free KV whose
documents decode, with enough fuel and no wrap-around, the scan ends exhausted
and every alive timer at a position still to be probed has been listed. -/
theorem scanAll_complete (clk : Nat → Int) : ∀ (F : Nat) (it : TimerIter) (r : TimerStore)
    (kv : KV), NoWrapIt r kv.docs it → kv.faults = [] → ¬ BadDoc r kv.docs →
    scanNeed it + (it.row.stop - it.row.current).toNat + 18446744073709551618 ≤ F →
    (scanAll clk F (some it) r kv).2.1 = ScanEnd.exhausted ∧
    ∀ b s, Pending r kv.docs it b s → Alive r kv.docs b s →
      ∃ p ∈ (scanAll clk F (some it) r kv).1, p.1 = b ∧ p.2.alarmSeq = s := by
  intro F
  induction F with
  | zero => intro it r kv _ _ _ h; omega
  | succ n ih =>
    intro it r kv hn hf hbad hfuel
    obtain ⟨⟨res, err, it', r', kv'⟩, hsl⟩ :=
      scanLoop_total (clk n) n it r kv hn (by omega)
    have hsn : ScanNext (some it) n (clk n) r kv = some (res, err, some it', r', kv') := by
      unfold ScanNext; simp only [hsl]
    have hpost := scanLoop_post (clk n) n it r kv _ _ _ _ _ hsl
    rw [scanAll_succ, hsn]
    rcases res with _ | e
    · rcases err with _ | er
      · have p9 := hpost.2.2.2.2.2.2.2.2.1 rfl rfl
        refine ⟨rfl, ?_⟩
        intro b s hp ha
        exact absurd ha ((p9.2.2 hn).2 b s hp)
      · exact absurd ((hpost.2.2.2.2.2.2.2.2.2 er rfl).2 hf) hbad
    · simp only []
      have hstep := scanNeed_step r kv it it' e err r' kv' hpost hn
      obtain ⟨p1, p2, p3, p4, _, _, _, p8, _, _⟩ := hpost
      have hkv := p2 hf
      subst hkv
      obtain ⟨_, _, _, _, _, e6⟩ := p8 e rfl
      obtain ⟨f1, _, _, _, _, f6⟩ := e6 hn
      have hih := ih it' r' kv' ((NoWrapIt_congr r r' p3 p4 _ _).2 f1) hf
        (fun hb => hbad ((BadDoc_congr r r' p3 p4 _).1 hb)) (by omega)
      refine ⟨hih.1, ?_⟩
      intro b s hp ha
      rcases f6 b s hp ha with ⟨hb, hs⟩ | hp'
      · exact ⟨(rowOf (some it'), e), List.mem_cons_self _ _, hb.symm, hs.symm⟩
      · obtain ⟨p, hpm, hp1, hp2⟩ := hih.2 b s ((Pending_congr r r' p3 p4 _ _ _ _).2 hp')
          ((Alive_congr r r' p3 p4 _ _ _).2 ha)
        exact ⟨p, List.mem_cons_of_mem _ hpm, hp1, hp2⟩

theorem MustUpsert_nil (kv : KV) (key : String) (v : Doc) (hf : kv.faults = []) :
    MustUpsert kv key v = (kv.nextCas + 1, none, kv.write key v) := by
  unfold MustUpsert
  rw [KV.fault_of_nil kv hf, KV.advance_of_nil kv hf]
  simp

theorem KV.write_faults (kv : KV) (key : String) (v : Doc) :
    (kv.write key v).faults = kv.faults := rfl

/-- On an error-free KV whose root key of the target bucket is absent or holds
a counter, `Set` returns nil. -/
theorem Set_ok (r : TimerStore) (dg : Digest) (kv : KV) (now due : Int) (ref ctx : String)
    (hf : kv.faults = [])
    (hroot : ∀ doc cas, kv.docs (r.kvLocatorRoot (setDue now due)) = some (doc, cas) →
      ∃ v, doc = Doc.counter v) :
    (r.Set dg kv now due ref ctx).1 = none := by
  generalize hS : r.Set dg kv now due ref ctx = res
  unfold TimerStore.Set at hS
  have hD : setDue now due = roundUp (if (decide (wrap64 (due - now) ≤ Resolution)) = true
      then wrap64 (now + Resolution) else due) := by
    unfold setDue; simp
  simp only [] at hS
  rw [← hD] at hS
  generalize hr1 : (if decide (wrap64 (due - now) ≤ Resolution) = true then
      (r.addStat timerStats.addSetCounter).addStat timerStats.addTimerInPastCounter
      else r.addStat timerStats.addSetCounter) = r1 at hS
  have hu : r1.uid = r.uid := by subst hr1; split <;> rfl
  have hp : r1.partn = r.partn := by subst hr1; split <;> rfl
  rw [kvLocatorRoot_congr r r1 hu hp, kvLocatorContext_congr r r1 hu hp] at hS
  simp only [kvLocatorAlarm_congr r r1 hu hp] at hS
  have hC : ∃ seq c, MustCounter kv (r.kvLocatorRoot (setDue now due)) 1 init_seq =
      (seq, c, none, kv.write (r.kvLocatorRoot (setDue now due)) (Doc.counter seq)) := by
    unfold MustCounter
    rw [KV.fault_of_nil kv hf, KV.advance_of_nil kv hf]
    simp only [Bool.false_eq_true, if_false]
    rcases hd : kv.docs (r.kvLocatorRoot (setDue now due)) with _ | ⟨d, c⟩
    · exact ⟨_, _, rfl⟩
    · obtain ⟨v, rfl⟩ := hroot d c hd
      exact ⟨_, _, rfl⟩
  obtain ⟨seq, c, hC⟩ := hC
  rw [hC] at hS
  simp only [] at hS
  rw [MustUpsert_nil _ _ _ (by rw [KV.write_faults]; exact hf)] at hS
  simp only [] at hS
  rw [MustUpsert_nil _ _ _ (by rw [KV.write_faults, KV.write_faults]; exact hf)] at hS
  simp only [] at hS
  rw [← hS]

theorem ScanDue_some (r : TimerStore) (t : Int) (h : r.span.Start ≤ roundDown t) :
    ∃ stop, (r.ScanDue t).1 = some ⟨⟨r.span.Start, stop, r.span.Start⟩, none, none⟩ ∧
      (stop = roundDown t ∨ stop = r.span.Stop) ∧ stop ≤ roundDown t := by
  unfold TimerStore.ScanDue TimerStore.readSpan
  simp only []
  rw [if_neg (not_lt.2 h)]
  refine ⟨_, rfl, ?_⟩
  split <;> omega

theorem expandSpan_span (r : TimerStore) (p : Int) :
    (r.expandSpan p).span.Start = (if r.span.Start > p then p else r.span.Start) ∧
    (r.expandSpan p).span.Stop = (if r.span.Stop < p then p else r.span.Stop) := by
  unfold TimerStore.expandSpan
  simp only []
  by_cases h1 : r.span.Start > p <;> by_cases h2 : r.span.Stop < p <;> simp [h1, h2]

/-- C1 (amended): on an error-free KV that respects the key schema (root keys
hold counters from `init_seq` up to below `MaxInt64 - 1`, alarm keys hold
alarm records pointing at context keys, context keys hold context records),
for every store whose `span.Start` is on the bucket grid, an `int64` and at
most `now`, every `now >= 0` with `now + Resolution <= MaxInt64`, every `due`
with `MinInt64 + now <= due <= MaxInt64`, every ref and ctx: `Set(due, ref,
ctx)` executed at time `now` returns nil, and an iterator created by `ScanDue`
at any time `t` with `D <= t <= MaxInt64 - Resolution`, where
`D = roundUp(max(due, now + Resolution))`, advanced with `ScanNext` until it
returns nil, does return nil without error (for every sufficient fuel) and
has yielded, in row `D`, an entry with `AlarmDue = D` and `Context = ctx`. -/
theorem C1_round_trip (r : TimerStore) (dg : Digest) (kv : KV) (now due : Int)
    (ref ctx : String) (t : Int) (clk : Nat → Int)
    (hf : kv.faults = []) (hsch : Schema r kv.docs (MaxInt64 - 1))
    (hstart : r.span.Start ≤ now) (hal : r.span.Start % Resolution = 0)
    (hs0 : MinInt64 ≤ r.span.Start)
    (hnow : 0 ≤ now) (hnow2 : now + Resolution ≤ MaxInt64)
    (hdue : MinInt64 + now ≤ due) (hdue2 : due ≤ MaxInt64)
    (ht : roundUp (max due (now + Resolution)) ≤ t) (ht2 : t ≤ MaxInt64 - Resolution) :
    (r.Set dg kv now due ref ctx).1 = none ∧
    ∃ F0 : Nat, ∀ F : Nat, F0 ≤ F →
      (scanAll clk F ((r.Set dg kv now due ref ctx).2.1.ScanDue t).1
        ((r.Set dg kv now due ref ctx).2.1.ScanDue t).2
        (r.Set dg kv now due ref ctx).2.2).2.1 = ScanEnd.exhausted ∧
      ∃ p ∈ (scanAll clk F ((r.Set dg kv now due ref ctx).2.1.ScanDue t).1
          ((r.Set dg kv now due ref ctx).2.1.ScanDue t).2
          (r.Set dg kv now due ref ctx).2.2).1,
        p.1 = roundUp (max due (now + Resolution)) ∧
        p.2.AlarmDue = roundUp (max due (now + Resolution)) ∧ p.2.Context = ctx ∧
        p.2.ContextRef = r.kvLocatorContext dg ref := by
  obtain ⟨hD, hm0, hm1⟩ := setDue_eq now due hnow hnow2 hdue hdue2
  have hmx : now + Resolution ≤ max due (now + Resolution) := le_max_right _ _
  generalize max due (now + Resolution) = m at *
  obtain ⟨hr1, hr2, hr3⟩ := roundUp_nonneg m hm0 (by unfold MaxInt64 at hm1; exact hm1)
  have hok : (r.Set dg kv now due ref ctx).1 = none := by
    apply Set_ok r dg kv now due ref ctx hf
    intro doc cas h
    obtain ⟨v, hv, _⟩ := hsch.1 _ _ _ h
    exact ⟨v, hv⟩
  refine ⟨hok, ?_⟩
  obtain ⟨seq, c1, c2, c3, hseq, hdocs, _, _, _, _, hu, hp, hspan⟩ :=
    Set_success r dg kv now due ref ctx hok
  have hsch2 := Set_schema r dg kv now due ref ctx (MaxInt64 - 1) hsch
    (by unfold init_seq MaxInt64; omega) (by omega) hok
  have hf2 := Set_faults_nil r dg kv now due ref ctx hf
  rw [hD] at hseq hdocs hspan
  generalize (r.Set dg kv now due ref ctx).2.1 = r2 at *
  generalize (r.Set dg kv now due ref ctx).2.2 = kv2 at *
  generalize hDD : roundUp m = D at *
  have hseq2 : init_seq ≤ seq := by
    rcases hseq with ⟨_, h⟩ | ⟨v, c, hv, h⟩
    · rw [h]
    · obtain ⟨v', hv', b1, b2⟩ := hsch.1 _ _ _ hv
      simp only [Doc.counter.injEq] at hv'
      subst hv'
      rw [h, wrap64_eq _ (by unfold init_seq at b1; omega) (by unfold MaxInt64 at b2; omega)]
      omega
  have hst : r2.span.Start = r.span.Start ∧ D ≤ r2.span.Stop := by
    have h1 : r2.span.Start = (r.expandSpan D).span.Start := congrArg Span.Start hspan
    have h2 : r2.span.Stop = (r.expandSpan D).span.Stop := congrArg Span.Stop hspan
    rw [h1, h2, (expandSpan_span r D).1, (expandSpan_span r D).2]
    unfold Resolution at *
    constructor
    · rw [if_neg (by omega)]
    · split <;> omega
  have ht0 : 0 ≤ t := by unfold Resolution at *; omega
  obtain ⟨hd1, hd2, hd3⟩ := roundDown_nonneg t ht0 (by unfold MaxInt64 Resolution at ht2; omega)
  obtain ⟨stop, hit, hstop, hstop2⟩ := ScanDue_some r2 t (by
    rw [hst.1]; unfold Resolution at *; omega)
  obtain ⟨_, hu3, hp3, _⟩ := ScanDue_iter r2 t
  have hu4 : (r2.ScanDue t).2.uid = r.uid := by rw [hu3, hu]
  have hp4 : (r2.ScanDue t).2.partn = r.partn := by rw [hp3, hp]
  have hInS : InInt64 r2.span.Start := by
    rw [hst.1]; unfold InInt64 MinInt64 MaxInt64 Resolution at *; omega
  have hroots := Schema_roots_bounded r kv2.docs _ hsch2 (by omega)
  have hnw := ScanDue_nowrap r2 kv2.docs t hInS
    (by unfold InInt64 MinInt64 MaxInt64 Resolution at *; omega) ht2
    (by intro d v cas h; rw [kvLocatorRoot_congr r r2 hu hp] at h; exact hroots d v cas h)
    _ hit
  rw [hit]
  have hbad : ¬ BadDoc (r2.ScanDue t).2 kv2.docs := by
    rw [BadDoc_congr r _ hu4 hp4]
    exact Schema_no_bad r kv2.docs _ hsch2
  have hroot : kv2.docs (r.kvLocatorRoot D) = some (Doc.counter seq, c1) := by
    rw [hdocs, if_neg (kvLocatorRoot_ne_context r dg _ ref),
      if_neg (kvLocatorRoot_ne_alarm r _ _ _), if_pos rfl]
  have halarm : kv2.docs (r.kvLocatorAlarm D seq) =
      some (Doc.alarm ⟨D, r.kvLocatorContext dg ref⟩, c2) := by
    rw [hdocs, if_neg (kvLocatorAlarm_ne_context r dg _ _ ref), if_pos rfl]
  have hctx : kv2.docs (r.kvLocatorContext dg ref) =
      some (Doc.context ⟨ctx, r.kvLocatorAlarm D seq⟩, c3) := by
    rw [hdocs, if_pos rfl]
  have hpend : Pending (r2.ScanDue t).2 kv2.docs
      ⟨⟨r2.span.Start, stop, r2.span.Start⟩, none, none⟩ D seq := by
    rw [Pending_congr r _ hu4 hp4]
    right
    refine ⟨((D - r.span.Start) / 7).toNat, ?_, ?_, ?_, seq, c1, hroot, hseq2, le_refl _⟩
    · unfold Resolution at *; omega
    · simp only [hst.1]
      unfold Resolution at *; omega
    · simp only []
      unfold Resolution at *
      rcases hstop with h | h <;> omega
  have halive : Alive (r2.ScanDue t).2 kv2.docs D seq := by
    rw [Alive_congr r _ hu4 hp4]
    exact ⟨_, _, _, _, halarm, hctx, rfl⟩
  refine ⟨scanNeed ⟨⟨r2.span.Start, stop, r2.span.Start⟩, none, none⟩ +
    (stop - r2.span.Start).toNat + 18446744073709551618, ?_⟩
  intro F hF
  obtain ⟨hend, hall⟩ := scanAll_complete clk F _ _ kv2 hnw hf2 hbad hF
  refine ⟨hend, ?_⟩
  obtain ⟨p, hpm, hp1, hp2⟩ := hall D seq hpend halive
  refine ⟨p, hpm, hp1, ?_⟩
  obtain ⟨⟨acas, y1⟩, y2, y3⟩ := scanAll_yielded clk F _ _ kv2 p hpm
  rw [hp1, hp2, kvLocatorAlarm_congr r _ hu4 hp4, halarm] at y1
  simp only [Option.some.injEq, Prod.mk.injEq, Doc.alarm.injEq] at y1
  have ha : p.2.AlarmDue = D := (congrArg AlarmRecord.AlarmDue y1.1).symm
  have hc : p.2.ContextRef = r.kvLocatorContext dg ref :=
    (congrArg AlarmRecord.ContextRef y1.1).symm
  rw [hc, hctx] at y2
  simp only [Option.some.injEq, Prod.mk.injEq, Doc.context.injEq] at y2
  exact ⟨ha, (congrArg ContextRecord.Context y2.1).symm, hc⟩

/-- Witness for `C1_round_trip`: `Set(due = 1001, "r1", "c1")` at time 1000 on
the empty KV and the store `exStore`, scanned at time 1009. -/
theorem C1_round_trip_witness :
    (exStore.Set exDigest exKV 1000 1001 "r1" "c1").1 = none ∧
    ∃ F0 : Nat, ∀ F : Nat, F0 ≤ F →
      (scanAll (fun _ => 1009) F
        ((exStore.Set exDigest exKV 1000 1001 "r1" "c1").2.1.ScanDue 1009).1
        ((exStore.Set exDigest exKV 1000 1001 "r1" "c1").2.1.ScanDue 1009).2
        (exStore.Set exDigest exKV 1000 1001 "r1" "c1").2.2).2.1 = ScanEnd.exhausted ∧
      ∃ p ∈ (scanAll (fun _ => 1009) F
          ((exStore.Set exDigest exKV 1000 1001 "r1" "c1").2.1.ScanDue 1009).1
          ((exStore.Set exDigest exKV 1000 1001 "r1" "c1").2.1.ScanDue 1009).2
          (exStore.Set exDigest exKV 1000 1001 "r1" "c1").2.2).1,
        p.1 = roundUp (max 1001 (1000 + Resolution)) ∧
        p.2.AlarmDue = roundUp (max 1001 (1000 + Resolution)) ∧ p.2.Context = "c1" ∧
        p.2.ContextRef = exStore.kvLocatorContext exDigest "r1" :=
  C1_round_trip exStore exDigest exKV 1000 1001 "r1" "c1" 1009 (fun _ => 1009) rfl
    (Schema_empty exStore _) (by decide) (by decide) (by decide) (by decide) (by decide)
    (by decide) (by decide) (by decide) (by decide)

/-- C1 (counterexample): three stores with `span.Start <= now = 1000` on an
error-free KV where the round trip fails. (1) `due = MinInt64`: `due - now`
wraps around, the timer is not promoted, `Set` records
`AlarmDue = MinInt64 + 1` although `roundUp(max(due, now + Resolution))` is
1008, and no scan at any time yields an entry with `AlarmDue = 1008`.
(2) `span.Start = 995`, off the bucket grid: the scan at time 1009 probes the
rows 1002 and 1009, misses bucket 1008 and returns nil without an entry.
(3) The root counter of bucket 1008 holds 5: `Set` files the timer under
sequence number 6, the column scan starts at 128 and yields nothing. -/
theorem C1_counterexample :
    (exStore.span.Start ≤ 1000 ∧ exSetMin.1 = none ∧
      roundUp (max MinInt64 (1000 + Resolution)) = 1008 ∧
      exSetMin.2.2.docs (exStore.kvLocatorAlarm (MinInt64 + 1) 128) =
        some (Doc.alarm ⟨MinInt64 + 1, exStore.kvLocatorContext exDigest "r1"⟩, 3) ∧
      ∀ (t : Int) (clk : Nat → Int) (F : Nat),
        ∀ p ∈ (scanAll clk F (exSetMin.2.1.ScanDue t).1 (exSetMin.2.1.ScanDue t).2
          exSetMin.2.2).1, p.2.AlarmDue ≠ 1008) ∧
    (exStoreOdd.span.Start ≤ 1000 ∧ exSetOdd.1 = none ∧
      roundUp (max 1001 (1000 + Resolution)) = 1008 ∧
      exSetOdd.2.2.docs (exStore.kvLocatorAlarm 1008 128) =
        some (Doc.alarm ⟨1008, exStore.kvLocatorContext exDigest "r1"⟩, 3) ∧
      (scanAll (fun _ => 1009) 10 (exSetOdd.2.1.ScanDue 1009).1 (exSetOdd.2.1.ScanDue 1009).2
        exSetOdd.2.2).1 = [] ∧
      (scanAll (fun _ => 1009) 10 (exSetOdd.2.1.ScanDue 1009).1 (exSetOdd.2.1.ScanDue 1009).2
        exSetOdd.2.2).2.1 = ScanEnd.exhausted) ∧
    (exSetLow.1 = none ∧
      exSetLow.2.2.docs (exStore.kvLocatorAlarm 1008 6) =
        some (Doc.alarm ⟨1008, exStore.kvLocatorContext exDigest "r1"⟩, 3) ∧
      (scanAll (fun _ => 1009) 10 (exSetLow.2.1.ScanDue 1009).1 (exSetLow.2.1.ScanDue 1009).2
        exSetLow.2.2).1 = [] ∧
      (scanAll (fun _ => 1009) 10 (exSetLow.2.1.ScanDue 1009).1 (exSetLow.2.1.ScanDue 1009).2
        exSetLow.2.2).2.1 = ScanEnd.exhausted) := by
  refine ⟨⟨by decide, by decide, by decide, by decide, ?_⟩, by decide, by decide⟩
  have hok : (exStore.Set exDigest exKV 1000 MinInt64 "r1" "c1").1 = none := by decide
  obtain ⟨seq, c1, c2, c3, _, hdocs, _⟩ :=
    Set_success exStore exDigest exKV 1000 MinInt64 "r1" "c1" hok
  intro t clk F p hp
  obtain ⟨⟨acas, y1⟩, _, _⟩ := scanAll_yielded clk F _ _ exSetMin.2.2 p hp
  unfold exSetMin at y1
  rw [hdocs] at y1
  split at y1
  · simp at y1
  · split at y1
    · simp only [Option.some.injEq, Prod.mk.injEq, Doc.alarm.injEq] at y1
      have ha : p.2.AlarmDue = setDue 1000 MinInt64 := (congrArg AlarmRecord.AlarmDue y1.1).symm
      rw [ha]
      decide
    · split at y1
      · simp at y1
      · simp [exKV] at y1

/-- C8 (failing input): on the store `exStoreLate` (span `[1015, 1015]`),
`Set(due = 1001, "r1", "c1")` at time 1000 files an alive timer in bucket 1008
under sequence number 128 and `expandSpan` lowers `span.Start` to 1008. The
iterator `ScanDue` then creates at time 1020 has the bucket-aligned row range
`[1008, 1015]`, but `nextRow` advances the row cursor before its first read:
the drain loop ends exhausted without yielding the timer of bucket
`1008 = span.Start`. -/
theorem C8_start_bucket_skipped :
    exSetLate.1 = none ∧
    exSetLate.2.1.span.toSpan = ⟨1008, 1015⟩ ∧
    exSetLate.2.2.docs (exStore.kvLocatorRoot 1008) = some (Doc.counter 128, 2) ∧
    exSetLate.2.2.docs (exStore.kvLocatorAlarm 1008 128) =
      some (Doc.alarm ⟨1008, exStore.kvLocatorContext exDigest "r1"⟩, 3) ∧
    exSetLate.2.2.docs (exStore.kvLocatorContext exDigest "r1") =
      some (Doc.context ⟨"c1", exStore.kvLocatorAlarm 1008 128⟩, 4) ∧
    (exSetLate.2.1.ScanDue 1020).1.map (fun it => it.row) = some ⟨1008, 1015, 1008⟩ ∧
    (scanAll (fun _ => 1020) 10 (exSetLate.2.1.ScanDue 1020).1 (exSetLate.2.1.ScanDue 1020).2
      exSetLate.2.2).1 = [] ∧
    (scanAll (fun _ => 1020) 10 (exSetLate.2.1.ScanDue 1020).1 (exSetLate.2.1.ScanDue 1020).2
      exSetLate.2.2).2.1 = ScanEnd.exhausted := by decide

/-- `Cancel` returns nil on every path. -/
theorem Cancel_nil (r : TimerStore) (dg : Digest) (kv : KV) (ref : String) :
    (r.Cancel dg kv ref).1 = none := by
  unfold TimerStore.Cancel
  simp only []
  generalize MustGet Doc.asContext kv _ _ = g
  obtain ⟨c1, ab1, err1, rec1, kv1⟩ := g
  simp only []
  rcases err1 with _ | e1
  · simp only []
    split
    · rfl
    · generalize MustRemove kv1 rec1.AlarmRef 0 = g2
      obtain ⟨c2, ab2, mm2, err2, kv2⟩ := g2
      simp only []
      rcases err2 with _ | e2
      · simp only []
        split
        · rfl
        · generalize MustRemove kv2 _ 0 = g3
          obtain ⟨c3, ab3, mm3, err3, kv3⟩ := g3
          simp only []
          rcases err3 with _ | e3 <;> rfl
      · rfl
  · rfl

/-- C11 (amended): for every ref and every outcome of the KV operations
performed by `Cancel` (the context read, the alarm removal, the context
removal), `Cancel` returns nil, also when one of them returns
`ErrRetryTimeout`; when the context read exhausts its retries `Cancel` stops
there: the KV documents and `cancelSuccessCounter` are as before. -/
theorem C11_cancel_swallows_errors (r : TimerStore) (dg : Digest) (kv : KV) (ref : String) :
    (r.Cancel dg kv ref).1 = none ∧
    ((MustGet Doc.asContext kv (r.kvLocatorContext dg ref) ⟨"", ""⟩).2.2.1 =
        some Error.ErrRetryTimeout →
      (r.Cancel dg kv ref).2.2 =
        (MustGet Doc.asContext kv (r.kvLocatorContext dg ref) ⟨"", ""⟩).2.2.2.2 ∧
      (r.Cancel dg kv ref).2.2.docs = kv.docs ∧
      (r.Cancel dg kv ref).2.1.stats.cancelSuccessCounter = r.stats.cancelSuccessCounter) := by
  refine ⟨Cancel_nil r dg kv ref, ?_⟩
  intro h
  unfold TimerStore.Cancel
  simp only [kvLocatorContext_addStat]
  rcases MustGet_cases Doc.asContext kv (r.kvLocatorContext dg ref) ⟨"", ""⟩ with
    ⟨_, hres⟩ | ⟨_, _, hres⟩ | ⟨_, d, cas, c, _, _, hres⟩ | ⟨_, d, cas, _, _, hres⟩
  · rw [hres]; simp only [KV.advance_docs]; exact ⟨trivial, trivial, rfl⟩
  · rw [hres] at h; simp at h
  · rw [hres] at h; simp at h
  · rw [hres]; simp only [KV.advance_docs]; exact ⟨trivial, trivial, rfl⟩

/-- C11 (counterexample): on the KV of `exSet1`, where `r1` is bound to an
alive timer, retry exhaustion is scheduled for the first, the second or the
third KV operation of `Cancel("r1")`. The operation hit returns
`ErrRetryTimeout` (the read at once; with the alarm removal failing the alarm
is still there, with the context removal failing the context is still there),
and `Cancel` returns nil each time. -/
theorem C11_counterexample :
    ((MustGet Doc.asContext exKVFault (exStore.kvLocatorContext exDigest "r1") ⟨"", ""⟩).2.2.1 =
        some Error.ErrRetryTimeout ∧
      (exStore.Cancel exDigest exKVFault "r1").1 = none) ∧
    ((MustRemove { exSet1.2.2 with faults := [true] } (exStore.kvLocatorAlarm 1008 128) 0).2.2.2.1 =
        some Error.ErrRetryTimeout ∧
      (exStore.Cancel exDigest { exSet1.2.2 with faults := [false, true] } "r1").1 = none ∧
      ((exStore.Cancel exDigest { exSet1.2.2 with faults := [false, true] } "r1").2.2.docs
        (exStore.kvLocatorAlarm 1008 128)).isSome = true ∧
      (exStore.Cancel exDigest { exSet1.2.2 with faults := [false, true] } "r1").2.2.faults = []) ∧
    ((exStore.Cancel exDigest { exSet1.2.2 with faults := [false, false, true] } "r1").1 = none ∧
      (exStore.Cancel exDigest { exSet1.2.2 with faults := [false, false, true] } "r1").2.2.docs
        (exStore.kvLocatorAlarm 1008 128) = none ∧
      ((exStore.Cancel exDigest { exSet1.2.2 with faults := [false, false, true] } "r1").2.2.docs
        (exStore.kvLocatorContext exDigest "r1")).isSome = true ∧
      (exStore.Cancel exDigest { exSet1.2.2 with faults := [false, false, true] } "r1").2.2.faults
        = []) := by
  decide

/-- C12 (amended): on an error-free KV, for every ref whose context record
exists, `Cancel(ref)` returns nil; when the alarm record named by
`context.AlarmRef` is present, afterwards the context record at
`kvLocatorContext(ref)` and the alarm record are absent and
`cancelSuccessCounter` has been incremented by one; when the alarm record was
already absent, `cancelAlarmMissingCounter` is incremented by one and `Cancel`
returns at once: the KV, the context record included, and
`cancelSuccessCounter` are unchanged. -/
theorem C12_cancel_removes_context (r : TimerStore) (dg : Digest) (kv : KV) (ref : String)
    (c : ContextRecord) (ccas : Cas) (hf : kv.faults = [])
    (hctx : kv.docs (r.kvLocatorContext dg ref) = some (Doc.context c, ccas)) :
    (r.Cancel dg kv ref).1 = none ∧
    ((kv.docs c.AlarmRef).isSome = true →
      (r.Cancel dg kv ref).2.2.docs (r.kvLocatorContext dg ref) = none ∧
      (r.Cancel dg kv ref).2.2.docs c.AlarmRef = none ∧
      (r.Cancel dg kv ref).2.1.stats.cancelSuccessCounter =
        addUint64 r.stats.cancelSuccessCounter 1 ∧
      (r.Cancel dg kv ref).2.1.stats.cancelAlarmMissingCounter =
        r.stats.cancelAlarmMissingCounter) ∧
    (kv.docs c.AlarmRef = none →
      (r.Cancel dg kv ref).2.2 = kv ∧
      (r.Cancel dg kv ref).2.1.stats.cancelAlarmMissingCounter =
        addUint64 r.stats.cancelAlarmMissingCounter 1 ∧
      (r.Cancel dg kv ref).2.1.stats.cancelSuccessCounter = r.stats.cancelSuccessCounter) := by
  refine ⟨Cancel_nil r dg kv ref, ?_, ?_⟩
  · intro hal
    unfold TimerStore.Cancel
    simp only [kvLocatorContext_addStat]
    rcases MustGet_cases Doc.asContext kv (r.kvLocatorContext dg ref) ⟨"", ""⟩ with
      ⟨hft, _⟩ | ⟨_, hdoc, _⟩ | ⟨_, d, cas, c', hdoc, hdec, hres⟩ | ⟨_, d, cas, hdoc, hdec, _⟩
    · exact absurd hf (KV.fault_eq_true_faults kv hft)
    · rw [hctx] at hdoc; simp at hdoc
    · rw [hctx] at hdoc
      simp only [Option.some.injEq, Prod.mk.injEq] at hdoc
      obtain ⟨rfl, rfl⟩ := hdoc
      simp only [Doc.asContext, Option.some.injEq] at hdec
      subst hdec
      rw [hres, KV.advance_of_nil kv hf]
      simp only [Bool.false_eq_true, if_false]
      rcases MustRemove_nocas kv c.AlarmRef hf with ⟨ha, _⟩ | ⟨d1, c1, ha, hr1⟩
      · rw [ha] at hal; simp at hal
      · rw [hr1]
        simp only [Bool.false_eq_true, if_false]
        have hf2 : (kv.erase c.AlarmRef).faults = [] := hf
        rcases MustRemove_nocas (kv.erase c.AlarmRef) (r.kvLocatorContext dg ref) hf2 with
          ⟨hb, hr2⟩ | ⟨d2, c2, hb, hr2⟩
        · rw [hr2]
          exact ⟨hb, KV.erase_docs_self _ _, rfl, rfl⟩
        · rw [hr2]
          refine ⟨KV.erase_docs_self _ _, ?_, rfl, rfl⟩
          exact KV.erase_docs_none _ _ _ (KV.erase_docs_self _ _)
    · rw [hctx] at hdoc
      simp only [Option.some.injEq, Prod.mk.injEq] at hdoc
      obtain ⟨rfl, rfl⟩ := hdoc
      simp [Doc.asContext] at hdec
  · intro hal
    unfold TimerStore.Cancel
    simp only [kvLocatorContext_addStat]
    rcases MustGet_cases Doc.asContext kv (r.kvLocatorContext dg ref) ⟨"", ""⟩ with
      ⟨hft, _⟩ | ⟨_, hdoc, _⟩ | ⟨_, d, cas, c', hdoc, hdec, hres⟩ | ⟨_, d, cas, hdoc, hdec, _⟩
    · exact absurd hf (KV.fault_eq_true_faults kv hft)
    · rw [hctx] at hdoc; simp at hdoc
    · rw [hctx] at hdoc
      simp only [Option.some.injEq, Prod.mk.injEq] at hdoc
      obtain ⟨rfl, rfl⟩ := hdoc
      simp only [Doc.asContext, Option.some.injEq] at hdec
      subst hdec
      rw [hres, KV.advance_of_nil kv hf]
      simp only [Bool.false_eq_true, if_false]
      rcases MustRemove_nocas kv c.AlarmRef hf with ⟨ha, hr1⟩ | ⟨d1, c1, ha, _⟩
      · rw [hr1]
        simp only [if_true]
        exact ⟨trivial, rfl, rfl⟩
      · rw [hal] at ha; simp at ha
    · rw [hctx] at hdoc
      simp only [Option.some.injEq, Prod.mk.injEq] at hdoc
      obtain ⟨rfl, rfl⟩ := hdoc
      simp [Doc.asContext] at hdec

/-- Witness for `C12_cancel_removes_context`: `Cancel("r1")` on the KV of
`exSet1`, where the context of `r1` and its alarm are present. -/
theorem C12_cancel_removes_context_witness :
    (exStore.Cancel exDigest exSet1.2.2 "r1").1 = none ∧
    ((exSet1.2.2.docs (exStore.kvLocatorAlarm 1008 128)).isSome = true →
      (exStore.Cancel exDigest exSet1.2.2 "r1").2.2.docs
        (exStore.kvLocatorContext exDigest "r1") = none ∧
      (exStore.Cancel exDigest exSet1.2.2 "r1").2.2.docs (exStore.kvLocatorAlarm 1008 128)
        = none ∧
      (exStore.Cancel exDigest exSet1.2.2 "r1").2.1.stats.cancelSuccessCounter =
        addUint64 exStore.stats.cancelSuccessCounter 1 ∧
      (exStore.Cancel exDigest exSet1.2.2 "r1").2.1.stats.cancelAlarmMissingCounter =
        exStore.stats.cancelAlarmMissingCounter) ∧
    (exSet1.2.2.docs (exStore.kvLocatorAlarm 1008 128) = none →
      (exStore.Cancel exDigest exSet1.2.2 "r1").2.2 = exSet1.2.2 ∧
      (exStore.Cancel exDigest exSet1.2.2 "r1").2.1.stats.cancelAlarmMissingCounter =
        addUint64 exStore.stats.cancelAlarmMissingCounter 1 ∧
      (exStore.Cancel exDigest exSet1.2.2 "r1").2.1.stats.cancelSuccessCounter =
        exStore.stats.cancelSuccessCounter) :=
  C12_cancel_removes_context exStore exDigest exSet1.2.2 "r1"
    ⟨"c1", exStore.kvLocatorAlarm 1008 128⟩ 4 (by decide) (by decide)

/-- C12 (counterexample): the KV `exKVOrphan` holds the context record of `r1`
while the alarm it names is absent. `Cancel("r1")` returns nil, counts a
missing alarm, leaves the context record in place and does not increment
`cancelSuccessCounter`. -/
theorem C12_counterexample :
    exKVOrphan.faults = [] ∧
    exKVOrphan.docs (exStore.kvLocatorContext exDigest "r1") =
      some (Doc.context ⟨"c1", exStore.kvLocatorAlarm 1008 128⟩, 1) ∧
    exKVOrphan.docs (exStore.kvLocatorAlarm 1008 128) = none ∧
    (exStore.Cancel exDigest exKVOrphan "r1").1 = none ∧
    (exStore.Cancel exDigest exKVOrphan "r1").2.2.docs (exStore.kvLocatorContext exDigest "r1") =
      some (Doc.context ⟨"c1", exStore.kvLocatorAlarm 1008 128⟩, 1) ∧
    (exStore.Cancel exDigest exKVOrphan "r1").2.1.stats.cancelSuccessCounter = 0 ∧
    (exStore.Cancel exDigest exKVOrphan "r1").2.1.stats.cancelAlarmMissingCounter = 1 := by
  decide

theorem MustCounter_err_docs (kv : KV) (key : String) (delta init : Int) (e : Error)
    (h : (MustCounter kv key delta init).2.2.1 = some e) :
    (MustCounter kv key delta init).2.2.2.docs = kv.docs := by
  unfold MustCounter at h ⊢
  by_cases hf : kv.fault = true
  · simp only [hf, if_true, KV.advance_docs]
  · simp only [hf, if_false] at h ⊢
    rcases hd : kv.docs key with _ | ⟨d, c⟩
    · rw [hd] at h; simp at h
    · cases d with
      | counter v => rw [hd] at h; simp at h
      | alarm a => simp [hd]
      | context a => simp [hd]
      | span a => simp [hd]

theorem MustCounter_ok_docs (kv : KV) (key : String) (delta init : Int)
    (h : (MustCounter kv key delta init).2.2.1 = none) (k : String) (hk : k ≠ key) :
    (MustCounter kv key delta init).2.2.2.docs k = kv.docs k := by
  obtain ⟨seq, hC, _⟩ := MustCounter_ok kv key delta init h
  rw [hC]
  simp [KV.write, hk]

theorem MustUpsert_err_docs (kv : KV) (key : String) (v : Doc) (e : Error)
    (h : (MustUpsert kv key v).2.1 = some e) : (MustUpsert kv key v).2.2.docs = kv.docs := by
  unfold MustUpsert at h ⊢
  split
  · simp only [KV.advance_docs]
  · rename_i hf; simp [hf] at h

theorem MustUpsert_ok_docs (kv : KV) (key : String) (v : Doc)
    (h : (MustUpsert kv key v).2.1 = none) (k : String) (hk : k ≠ key) :
    (MustUpsert kv key v).2.2.docs k = kv.docs k := by
  rw [MustUpsert_ok kv key v h]
  simp [KV.write, hk]

/-- C13: if the counter operation, the alarm upsert or the context upsert of
`Set` returns an error, `Set` returns that same error and the KV is the one
the failing operation left (no further KV operation is performed): after a
failed counter operation the documents are as before `Set`; after a failed
alarm upsert only the root counter was written, which leaves a hole in the
bucket's column sequence; after a failed context upsert only the root
counter and the alarm record were written. In each case the span is
unchanged, `setSuccessCounter` is not incremented and the context record of
`ref` is untouched. -/
theorem C13_set_fails_atomically (r : TimerStore) (dg : Digest) (kv : KV) (now due : Int)
    (ref ctx : String) (e : Error) :
    ((MustCounter kv (r.kvLocatorRoot (setDue now due)) 1 init_seq).2.2.1 = some e →
      (r.Set dg kv now due ref ctx).1 = some e ∧
      (r.Set dg kv now due ref ctx).2.2 =
        (MustCounter kv (r.kvLocatorRoot (setDue now due)) 1 init_seq).2.2.2 ∧
      (r.Set dg kv now due ref ctx).2.2.docs = kv.docs ∧
      (r.Set dg kv now due ref ctx).2.1.span = r.span ∧
      (r.Set dg kv now due ref ctx).2.1.stats.setSuccessCounter = r.stats.setSuccessCounter) ∧
    ((MustCounter kv (r.kvLocatorRoot (setDue now due)) 1 init_seq).2.2.1 = none →
      (MustUpsert (MustCounter kv (r.kvLocatorRoot (setDue now due)) 1 init_seq).2.2.2
        (r.kvLocatorAlarm (setDue now due)
          (MustCounter kv (r.kvLocatorRoot (setDue now due)) 1 init_seq).1)
        (Doc.alarm ⟨setDue now due, r.kvLocatorContext dg ref⟩)).2.1 = some e →
      (r.Set dg kv now due ref ctx).1 = some e ∧
      (r.Set dg kv now due ref ctx).2.2 =
        (MustUpsert (MustCounter kv (r.kvLocatorRoot (setDue now due)) 1 init_seq).2.2.2
          (r.kvLocatorAlarm (setDue now due)
            (MustCounter kv (r.kvLocatorRoot (setDue now due)) 1 init_seq).1)
          (Doc.alarm ⟨setDue now due, r.kvLocatorContext dg ref⟩)).2.2 ∧
      (∀ k, k ≠ r.kvLocatorRoot (setDue now due) →
        (r.Set dg kv now due ref ctx).2.2.docs k = kv.docs k) ∧
      (r.Set dg kv now due ref ctx).2.1.span = r.span ∧
      (r.Set dg kv now due ref ctx).2.1.stats.setSuccessCounter = r.stats.setSuccessCounter) ∧
    ((MustCounter kv (r.kvLocatorRoot (setDue now due)) 1 init_seq).2.2.1 = none →
      (MustUpsert (MustCounter kv (r.kvLocatorRoot (setDue now due)) 1 init_seq).2.2.2
        (r.kvLocatorAlarm (setDue now due)
          (MustCounter kv (r.kvLocatorRoot (setDue now due)) 1 init_seq).1)
        (Doc.alarm ⟨setDue now due, r.kvLocatorContext dg ref⟩)).2.1 = none →
      (MustUpsert
        (MustUpsert (MustCounter kv (r.kvLocatorRoot (setDue now due)) 1 init_seq).2.2.2
          (r.kvLocatorAlarm (setDue now due)
            (MustCounter kv (r.kvLocatorRoot (setDue now due)) 1 init_seq).1)
          (Doc.alarm ⟨setDue now due, r.kvLocatorContext dg ref⟩)).2.2
        (r.kvLocatorContext dg ref)
        (Doc.context ⟨ctx, r.kvLocatorAlarm (setDue now due)
          (MustCounter kv (r.kvLocatorRoot (setDue now due)) 1 init_seq).1⟩)).2.1 = some e →
      (r.Set dg kv now due ref ctx).1 = some e ∧
      (r.Set dg kv now due ref ctx).2.2 =
        (MustUpsert
          (MustUpsert (MustCounter kv (r.kvLocatorRoot (setDue now due)) 1 init_seq).2.2.2
            (r.kvLocatorAlarm (setDue now due)
              (MustCounter kv (r.kvLocatorRoot (setDue now due)) 1 init_seq).1)
            (Doc.alarm ⟨setDue now due, r.kvLocatorContext dg ref⟩)).2.2
          (r.kvLocatorContext dg ref)
          (Doc.context ⟨ctx, r.kvLocatorAlarm (setDue now due)
            (MustCounter kv (r.kvLocatorRoot (setDue now due)) 1 init_seq).1⟩)).2.2 ∧
      (∀ k, k ≠ r.kvLocatorRoot (setDue now due) →
        k ≠ r.kvLocatorAlarm (setDue now due)
          (MustCounter kv (r.kvLocatorRoot (setDue now due)) 1 init_seq).1 →
        (r.Set dg kv now due ref ctx).2.2.docs k = kv.docs k) ∧
      (r.Set dg kv now due ref ctx).2.1.span = r.span ∧
      (r.Set dg kv now due ref ctx).2.1.stats.setSuccessCounter = r.stats.setSuccessCounter) ∧
    (∀ e', (r.Set dg kv now due ref ctx).1 = some e' →
      (r.Set dg kv now due ref ctx).2.2.docs (r.kvLocatorContext dg ref) =
        kv.docs (r.kvLocatorContext dg ref)) := by
  generalize hS : r.Set dg kv now due ref ctx = res
  unfold TimerStore.Set at hS
  have hD : setDue now due = roundUp (if (decide (wrap64 (due - now) ≤ Resolution)) = true
      then wrap64 (now + Resolution) else due) := by
    unfold setDue; simp
  simp only [] at hS
  rw [← hD] at hS
  generalize hr1 : (if decide (wrap64 (due - now) ≤ Resolution) = true then
      (r.addStat timerStats.addSetCounter).addStat timerStats.addTimerInPastCounter
      else r.addStat timerStats.addSetCounter) = r1 at hS
  have hu : r1.uid = r.uid := by subst hr1; split <;> rfl
  have hp : r1.partn = r.partn := by subst hr1; split <;> rfl
  have hsp : r1.span = r.span := by subst hr1; split <;> rfl
  have hst : r1.stats.setSuccessCounter = r.stats.setSuccessCounter := by
    subst hr1; split <;> rfl
  rw [kvLocatorRoot_congr r r1 hu hp, kvLocatorContext_congr r r1 hu hp] at hS
  simp only [kvLocatorAlarm_congr r r1 hu hp] at hS
  generalize hc : MustCounter kv (r.kvLocatorRoot (setDue now due)) 1 init_seq = c at hS ⊢
  have hcd := MustCounter_err_docs kv (r.kvLocatorRoot (setDue now due)) 1 init_seq
  have hcd2 := MustCounter_ok_docs kv (r.kvLocatorRoot (setDue now due)) 1 init_seq
  rw [hc] at hcd hcd2
  obtain ⟨seq, c1, cerr, kvc⟩ := c
  simp only [] at hS hcd hcd2 ⊢
  rcases cerr with _ | ce
  swap
  · simp only [] at hS
    subst hS
    simp only [Option.some.injEq]
    refine ⟨fun he => ?_, fun h => by simp at h, fun h => by simp at h, fun e' _ => ?_⟩
    · exact ⟨trivial, trivial, hcd ce rfl, hsp, hst⟩
    · rw [hcd ce rfl]
  simp only [] at hS
  generalize ha : MustUpsert kvc (r.kvLocatorAlarm (setDue now due) seq)
    (Doc.alarm ⟨setDue now due, r.kvLocatorContext dg ref⟩) = a at hS ⊢
  have had := MustUpsert_err_docs kvc (r.kvLocatorAlarm (setDue now due) seq)
    (Doc.alarm ⟨setDue now due, r.kvLocatorContext dg ref⟩)
  have had2 := MustUpsert_ok_docs kvc (r.kvLocatorAlarm (setDue now due) seq)
    (Doc.alarm ⟨setDue now due, r.kvLocatorContext dg ref⟩)
  rw [ha] at had had2
  obtain ⟨a1, aerr, kva⟩ := a
  simp only [] at hS had had2 ⊢
  rcases aerr with _ | ae
  swap
  · simp only [] at hS
    subst hS
    simp only [Option.some.injEq]
    refine ⟨fun h => by simp at h, fun _ he => ?_, fun _ h => by simp at h, fun e' _ => ?_⟩
    · refine ⟨trivial, trivial, fun k hk => ?_, hsp, hst⟩
      rw [had ae rfl]; exact hcd2 rfl k hk
    · rw [had ae rfl]
      exact hcd2 rfl _ (fun h => kvLocatorRoot_ne_context r dg _ ref h.symm)
  simp only [] at hS
  generalize hx : MustUpsert kva (r.kvLocatorContext dg ref)
    (Doc.context ⟨ctx, r.kvLocatorAlarm (setDue now due) seq⟩) = x at hS ⊢
  have hxd := MustUpsert_err_docs kva (r.kvLocatorContext dg ref)
    (Doc.context ⟨ctx, r.kvLocatorAlarm (setDue now due) seq⟩)
  rw [hx] at hxd
  obtain ⟨x1, xerr, kvx⟩ := x
  simp only [] at hS hxd ⊢
  rcases xerr with _ | xe
  · simp only [] at hS
    subst hS
    refine ⟨fun h => by simp at h, fun _ h => by simp at h, fun _ _ h => by simp at h,
      fun e' h => by simp at h⟩
  · simp only [] at hS
    subst hS
    simp only [Option.some.injEq]
    have hdocs : ∀ k, k ≠ r.kvLocatorRoot (setDue now due) →
        k ≠ r.kvLocatorAlarm (setDue now due) seq → kvx.docs k = kv.docs k := by
      intro k hk1 hk2
      rw [hxd xe rfl, had2 rfl k hk2]
      exact hcd2 rfl k hk1
    refine ⟨fun h => by simp at h, fun _ h => by simp at h, fun _ _ he => ?_, fun e' _ => ?_⟩
    · exact ⟨trivial, trivial, hdocs, hsp, hst⟩
    · exact hdocs _ (fun h => kvLocatorRoot_ne_context r dg _ ref h.symm)
        (fun h => kvLocatorAlarm_ne_context r dg _ _ ref h.symm)

/-- Witness for `C13_set_fails_atomically`: on the KV of `exSet2` the counter
operation of `Set(due = 1001, "r1", "c1")` succeeds and the alarm upsert
exhausts its retries; `Set` returns `ErrRetryTimeout`, only the root counter
of bucket 1008 was written, the span and `setSuccessCounter` are as before. -/
theorem C13_set_fails_atomically_witness :
    (MustCounter exKVFault2 (exStore.kvLocatorRoot (setDue 1000 1001)) 1 init_seq).2.2.1 = none ∧
    (MustUpsert (MustCounter exKVFault2 (exStore.kvLocatorRoot (setDue 1000 1001)) 1
        init_seq).2.2.2
      (exStore.kvLocatorAlarm (setDue 1000 1001)
        (MustCounter exKVFault2 (exStore.kvLocatorRoot (setDue 1000 1001)) 1 init_seq).1)
      (Doc.alarm ⟨setDue 1000 1001, exStore.kvLocatorContext exDigest "r1"⟩)).2.1 =
        some Error.ErrRetryTimeout ∧
    (exStore.Set exDigest exKVFault2 1000 1001 "r1" "c1").1 = some Error.ErrRetryTimeout ∧
    (∀ k, k ≠ exStore.kvLocatorRoot (setDue 1000 1001) →
      (exStore.Set exDigest exKVFault2 1000 1001 "r1" "c1").2.2.docs k = exKVFault2.docs k) ∧
    (exStore.Set exDigest exKVFault2 1000 1001 "r1" "c1").2.1.span = exStore.span ∧
    (exStore.Set exDigest exKVFault2 1000 1001 "r1" "c1").2.1.stats.setSuccessCounter =
      exStore.stats.setSuccessCounter ∧
    (exStore.Set exDigest exKVFault2 1000 1001 "r1" "c1").2.2.docs
      (exStore.kvLocatorRoot 1008) = some (Doc.counter 129, 5) :=
  ⟨by decide, by decide,
    ((C13_set_fails_atomically exStore exDigest exKVFault2 1000 1001 "r1" "c1"
      Error.ErrRetryTimeout).2.1 (by decide) (by decide)).1,
    ((C13_set_fails_atomically exStore exDigest exKVFault2 1000 1001 "r1" "c1"
      Error.ErrRetryTimeout).2.1 (by decide) (by decide)).2.2.1,
    ((C13_set_fails_atomically exStore exDigest exKVFault2 1000 1001 "r1" "c1"
      Error.ErrRetryTimeout).2.1 (by decide) (by decide)).2.2.2.1,
    ((C13_set_fails_atomically exStore exDigest exKVFault2 1000 1001 "r1" "c1"
      Error.ErrRetryTimeout).2.1 (by decide) (by decide)).2.2.2.2,
    by decide⟩

theorem roundUp_neg (x : Int) (h0 : x < 0) (h1 : MinInt64 ≤ x) :
    x ≤ roundUp x ∧ roundUp x < x + 7 ∧ roundUp x % 7 = 0 ∧ roundUp x ≤ 0 := by
  unfold MinInt64 at h1
  obtain ⟨y, rfl⟩ : ∃ y, x = -y := ⟨-x, by omega⟩
  unfold roundUp
  simp only [Resolution]
  rw [Int.tmod_def, Int.neg_tdiv, Int.tdiv_eq_ediv (by omega) (by decide)]
  rw [if_neg (by omega), wrap64_eq _ (by omega) (by omega)]
  omega

theorem roundDown_neg (x : Int) (h0 : x < 0) (h1 : MinInt64 ≤ x) :
    roundDown x = roundUp x := by
  unfold MinInt64 at h1
  obtain ⟨y, rfl⟩ : ∃ y, x = -y := ⟨-x, by omega⟩
  unfold roundUp roundDown
  simp only [Resolution]
  rw [Int.tmod_def, Int.neg_tdiv, Int.tdiv_eq_ediv (by omega) (by decide)]
  rw [if_neg (by omega)]

/-- C18: for every `int64` value `t`, negative values and values up to the
largest `int64` included, `roundUp(t)` computed with 64-bit wrap-around
arithmetic is the ceiling of `t` on the bucket grid: it is a multiple of
`Resolution`, `roundUp(t) >= t` and `roundUp(t) - t < Resolution` (and it is
itself an `int64`, so no wrap-around takes place). -/
theorem C18_roundUp_ceiling (t : Int) (ht : InInt64 t) :
    roundUp t % Resolution = 0 ∧ roundUp t ≥ t ∧ roundUp t - t < Resolution ∧
    InInt64 (roundUp t) := by
  unfold InInt64 at *
  unfold Resolution
  by_cases h0 : 0 ≤ t
  · obtain ⟨h1, h2, h3⟩ := roundUp_nonneg t h0 (by unfold MaxInt64 at ht; exact ht.2)
    unfold MinInt64 MaxInt64 at *
    omega
  · obtain ⟨h1, h2, h3, h4⟩ := roundUp_neg t (by omega) ht.1
    unfold MinInt64 MaxInt64 at *
    omega

/-- Witness for `C18_roundUp_ceiling` at the smallest `int64`. -/
theorem C18_roundUp_ceiling_witness :
    roundUp MinInt64 % Resolution = 0 ∧ roundUp MinInt64 ≥ MinInt64 ∧
    roundUp MinInt64 - MinInt64 < Resolution ∧ InInt64 (roundUp MinInt64) :=
  C18_roundUp_ceiling MinInt64 (by decide)

/-- C19 (amended): for every `int64` value `t >= 0`, `roundDown(t)` is the
floor of `t` on the bucket grid: `roundDown(t) = floor(t / Resolution) *
Resolution`, `roundDown(t) <= t`, `t - roundDown(t) < Resolution` and
`roundDown(t) mod Resolution = 0`. For `t < 0` the truncated division rounds
toward zero: `roundDown(t)` equals `roundUp(t)`, the ceiling of `t` on the
grid. -/
theorem C19_roundDown_floor (t : Int) (ht : InInt64 t) :
    (0 ≤ t → roundDown t = t / Resolution * Resolution ∧ roundDown t ≤ t ∧
      t - roundDown t < Resolution ∧ roundDown t % Resolution = 0) ∧
    (t < 0 → roundDown t = roundUp t ∧ t ≤ roundDown t ∧ roundDown t - t < Resolution ∧
      roundDown t % Resolution = 0) := by
  unfold InInt64 at ht
  constructor
  · intro h0
    obtain ⟨h1, h2, h3⟩ := roundDown_nonneg t h0 (by unfold MaxInt64 at ht; exact ht.2)
    unfold Resolution
    refine ⟨?_, h1, by omega, h3⟩
    omega
  · intro h0
    obtain ⟨h1, h2, h3, h4⟩ := roundUp_neg t h0 ht.1
    rw [roundDown_neg t h0 ht.1]
    unfold Resolution
    exact ⟨rfl, h1, by omega, h3⟩

/-- Witness for `C19_roundDown_floor` at `t = 1009`. -/
theorem C19_roundDown_floor_witness :
    (0 ≤ (1009 : Int) → roundDown 1009 = 1009 / Resolution * Resolution ∧ roundDown 1009 ≤ 1009 ∧
      1009 - roundDown 1009 < Resolution ∧ roundDown 1009 % Resolution = 0) ∧
    ((1009 : Int) < 0 → roundDown 1009 = roundUp 1009 ∧ 1009 ≤ roundDown 1009 ∧
      roundDown 1009 - 1009 < Resolution ∧ roundDown 1009 % Resolution = 0) :=
  C19_roundDown_floor 1009 (by decide)

/-- C19 (counterexample): `roundDown(-1)` is 0, while the floor of -1 on the
bucket grid is -7; so `roundDown(-1) <= -1` fails. -/
theorem C19_counterexample :
    InInt64 (-1) ∧ roundDown (-1) = 0 ∧ (-1 : Int) / Resolution * Resolution = -7 ∧
    ¬ (roundDown (-1) = (-1 : Int) / Resolution * Resolution) ∧ ¬ (roundDown (-1) ≤ -1) := by
  decide

theorem MustGet_hit {α : Type} (dec : Doc → Option α) (kv : KV) (key : String) (out : α)
    (d : Doc) (cas : Cas) (v : α) (hf : kv.fault = false) (hd : kv.docs key = some (d, cas))
    (hv : dec d = some v) : MustGet dec kv key out = (cas, false, none, v, kv.advance) := by
  unfold MustGet
  simp [hf, hd, hv]

theorem MustGet_miss {α : Type} (dec : Doc → Option α) (kv : KV) (key : String) (out : α)
    (hf : kv.fault = false) (hd : kv.docs key = none) :
    MustGet dec kv key out = (0, true, none, out, kv.advance) := by
  unfold MustGet
  simp [hf, hd]

/-- The CAS-mismatch case of `syncSpan`: the local span is merged with the
persisted one, the counters are advanced, and the outcome of the final replace
decides the return. -/
theorem syncSpan_merge (r : TimerStore) (kv : KV) (now : Int) (mid : KV → KV) (ext : Span)
    (rcas : Cas) (hdirty : r.span.dirty = true) (hne : r.span.empty = false)
    (hfault : kv.fault = false)
    (hdoc : kv.docs r.kvLocatorSpan = some (Doc.span ext, rcas))
    (hcas : r.span.spanCas ≠ rcas) :
    ∃ rm : TimerStore,
      rm.span.toSpan = mergeSpan r.span.toSpan ext ∧ rm.span.dirty = false ∧
      rm.span.empty = false ∧ rm.span.spanCas = r.span.spanCas ∧
      rm.uid = r.uid ∧ rm.partn = r.partn ∧
      rm.stats.spanCasMismatchCounter = addUint64 r.stats.spanCasMismatchCounter 1 ∧
      rm.stats.spanStartChangeCounter =
        (if ext.Start < r.span.Start then addUint64 r.stats.spanStartChangeCounter 1
          else r.stats.spanStartChangeCounter) ∧
      rm.stats.spanStopChangeCounter =
        (if ext.Stop > r.span.Stop then addUint64 r.stats.spanStopChangeCounter 1
          else r.stats.spanStopChangeCounter) ∧
      r.syncSpan kv now mid =
        (if ((MustReplace (mid kv.advance) r.kvLocatorSpan
              (Doc.span (mergeSpan r.span.toSpan ext)) rcas).2.2.2.1.isSome ||
            (MustReplace (mid kv.advance) r.kvLocatorSpan
              (Doc.span (mergeSpan r.span.toSpan ext)) rcas).2.1 ||
            (MustReplace (mid kv.advance) r.kvLocatorSpan
              (Doc.span (mergeSpan r.span.toSpan ext)) rcas).2.2.1) = true then
          ((MustReplace (mid kv.advance) r.kvLocatorSpan
              (Doc.span (mergeSpan r.span.toSpan ext)) rcas).2.2.2.1, rm,
            (MustReplace (mid kv.advance) r.kvLocatorSpan
              (Doc.span (mergeSpan r.span.toSpan ext)) rcas).2.2.2.2)
        else
          (none, { rm with span := { rm.span with spanCas :=
              (MustReplace (mid kv.advance) r.kvLocatorSpan
                (Doc.span (mergeSpan r.span.toSpan ext)) rcas).1 } },
            (MustReplace (mid kv.advance) r.kvLocatorSpan
              (Doc.span (mergeSpan r.span.toSpan ext)) rcas).2.2.2.2)) := by
  obtain ⟨connstr, bucket, uid, partn, ⟨⟨S, T⟩, empty, dirty, scas⟩, stats⟩ := r
  obtain ⟨eS, eT⟩ := ext
  simp only [] at hdirty hne hcas
  subst hdirty; subst hne
  simp only [TimerStore.kvLocatorSpan] at hdoc ⊢
  have hg := MustGet_hit Doc.asSpan kv _ { Start := 0, Stop := 0 } (Doc.span ⟨eS, eT⟩) rcas
    ⟨eS, eT⟩ hfault hdoc rfl
  have hmin : min S eS = if S > eS then eS else S := by
    split
    · exact min_eq_right (by omega)
    · exact min_eq_left (by omega)
  have hmax : max T eT = if T < eT then eT else T := by
    split
    · exact max_eq_right (by omega)
    · exact max_eq_left (by omega)
  unfold TimerStore.syncSpan
  by_cases h1 : S > eS <;> by_cases h2 : T < eT
  all_goals
    have h1' : eS < S ↔ S > eS := Iff.rfl
    have h2' : eT > T ↔ T < eT := Iff.rfl
    simp only [TimerStore.addStat, TimerStore.kvLocatorSpan, Bool.not_true, Bool.not_false,
      Bool.false_and, Bool.and_false, Bool.false_eq_true, if_false, hg, hcas, false_and,
      mergeSpan, hmin, hmax, h1, h2, h1', h2', if_true]
    exact ⟨_, rfl, rfl, rfl, rfl, rfl, rfl, rfl, rfl, rfl, rfl⟩

theorem MustReplace_success (kv : KV) (key : String) (v : Doc) (cas : Cas)
    (h1 : (MustReplace kv key v cas).2.2.2.1 = none)
    (h2 : (MustReplace kv key v cas).2.1 = false)
    (h3 : (MustReplace kv key v cas).2.2.1 = false) :
    (MustReplace kv key v cas).2.2.2.2.docs key = some (v, (MustReplace kv key v cas).1) := by
  unfold MustReplace at h1 h2 h3 ⊢
  by_cases hf : kv.fault = true
  · simp [hf] at h1
  · simp only [hf, if_false] at h1 h2 h3 ⊢
    rcases hd : kv.docs key with _ | ⟨d, c⟩
    · rw [hd] at h2; simp at h2
    · rw [hd] at h3
      simp only [] at h3 ⊢
      by_cases hc : cas = 0 ∨ cas = c
      · simp [hc, KV.write]
      · simp [hc] at h3

/-- C14: when the persisted span exists, the local span is non-empty and
dirty, and the CAS read differs from the recorded `spanCas`, then on a
successful replace `syncSpan` returns nil, the local span and the persisted
span both are `{min(local.Start, external.Start), max(local.Stop,
external.Stop)}`, `spanCas` is the CAS returned by the replace,
`spanCasMismatchCounter` is incremented, and `spanStartChangeCounter` /
`spanStopChangeCounter` are incremented exactly when
`external.Start < local.Start` / `external.Stop > local.Stop`. -/
theorem C14_merge_policy (r : TimerStore) (kv : KV) (now : Int) (mid : KV → KV) (ext : Span)
    (rcas : Cas) (hdirty : r.span.dirty = true) (hne : r.span.empty = false)
    (hfault : kv.fault = false)
    (hdoc : kv.docs r.kvLocatorSpan = some (Doc.span ext, rcas))
    (hcas : r.span.spanCas ≠ rcas)
    (herr : (MustReplace (mid kv.advance) r.kvLocatorSpan
      (Doc.span (mergeSpan r.span.toSpan ext)) rcas).2.2.2.1 = none)
    (habs : (MustReplace (mid kv.advance) r.kvLocatorSpan
      (Doc.span (mergeSpan r.span.toSpan ext)) rcas).2.1 = false)
    (hmis : (MustReplace (mid kv.advance) r.kvLocatorSpan
      (Doc.span (mergeSpan r.span.toSpan ext)) rcas).2.2.1 = false) :
    (r.syncSpan kv now mid).1 = none ∧
    (r.syncSpan kv now mid).2.1.span.toSpan = mergeSpan r.span.toSpan ext ∧
    (r.syncSpan kv now mid).2.2.docs r.kvLocatorSpan =
      some (Doc.span (mergeSpan r.span.toSpan ext),
        (MustReplace (mid kv.advance) r.kvLocatorSpan
          (Doc.span (mergeSpan r.span.toSpan ext)) rcas).1) ∧
    (r.syncSpan kv now mid).2.1.span.spanCas =
      (MustReplace (mid kv.advance) r.kvLocatorSpan
        (Doc.span (mergeSpan r.span.toSpan ext)) rcas).1 ∧
    (r.syncSpan kv now mid).2.1.stats.spanCasMismatchCounter =
      addUint64 r.stats.spanCasMismatchCounter 1 ∧
    (r.syncSpan kv now mid).2.1.stats.spanStartChangeCounter =
      (if ext.Start < r.span.Start then addUint64 r.stats.spanStartChangeCounter 1
        else r.stats.spanStartChangeCounter) ∧
    (r.syncSpan kv now mid).2.1.stats.spanStopChangeCounter =
      (if ext.Stop > r.span.Stop then addUint64 r.stats.spanStopChangeCounter 1
        else r.stats.spanStopChangeCounter) ∧
    (r.syncSpan kv now mid).2.1.span.dirty = false ∧
    (r.syncSpan kv now mid).2.1.span.empty = false := by
  obtain ⟨rm, m1, m2, m3, m4, m5, m6, m7, m8, m9, heq⟩ :=
    syncSpan_merge r kv now mid ext rcas hdirty hne hfault hdoc hcas
  have hdocs := MustReplace_success _ _ _ _ herr habs hmis
  rw [heq, herr, habs, hmis]
  simp only [Option.isSome_none, Bool.or_self, Bool.false_eq_true, if_false]
  exact ⟨trivial, m1, hdocs, trivial, m7, m8, m9, m2, m3⟩

/-- Witness for `C14_merge_policy`: the local span `{500, 1400}` recorded
under CAS 1 against the persisted span `{700, 1800}` under CAS 2, on a
sequential KV, gives `{500, 1800}` on both sides; only the stop moved. -/
theorem C14_merge_policy_witness :
    ((exStoreSync.syncSpan exKVSpan 1000 id).1 = none ∧
    (exStoreSync.syncSpan exKVSpan 1000 id).2.1.span.toSpan =
      mergeSpan exStoreSync.span.toSpan ⟨700, 1800⟩ ∧
    (exStoreSync.syncSpan exKVSpan 1000 id).2.2.docs exStoreSync.kvLocatorSpan =
      some (Doc.span (mergeSpan exStoreSync.span.toSpan ⟨700, 1800⟩),
        (MustReplace (id exKVSpan.advance) exStoreSync.kvLocatorSpan
          (Doc.span (mergeSpan exStoreSync.span.toSpan ⟨700, 1800⟩)) 2).1) ∧
    (exStoreSync.syncSpan exKVSpan 1000 id).2.1.span.spanCas =
      (MustReplace (id exKVSpan.advance) exStoreSync.kvLocatorSpan
        (Doc.span (mergeSpan exStoreSync.span.toSpan ⟨700, 1800⟩)) 2).1 ∧
    (exStoreSync.syncSpan exKVSpan 1000 id).2.1.stats.spanCasMismatchCounter =
      addUint64 exStoreSync.stats.spanCasMismatchCounter 1 ∧
    (exStoreSync.syncSpan exKVSpan 1000 id).2.1.stats.spanStartChangeCounter =
      (if (700 : Int) < exStoreSync.span.Start then
        addUint64 exStoreSync.stats.spanStartChangeCounter 1
        else exStoreSync.stats.spanStartChangeCounter) ∧
    (exStoreSync.syncSpan exKVSpan 1000 id).2.1.stats.spanStopChangeCounter =
      (if (1800 : Int) > exStoreSync.span.Stop then
        addUint64 exStoreSync.stats.spanStopChangeCounter 1
        else exStoreSync.stats.spanStopChangeCounter) ∧
    (exStoreSync.syncSpan exKVSpan 1000 id).2.1.span.dirty = false ∧
    (exStoreSync.syncSpan exKVSpan 1000 id).2.1.span.empty = false) ∧
    mergeSpan exStoreSync.span.toSpan ⟨700, 1800⟩ = ⟨500, 1800⟩ ∧
    (exStoreSync.syncSpan exKVSpan 1000 id).2.1.stats.spanStartChangeCounter = 0 ∧
    (exStoreSync.syncSpan exKVSpan 1000 id).2.1.stats.spanStopChangeCounter = 1 :=
  ⟨C14_merge_policy exStoreSync exKVSpan 1000 id ⟨700, 1800⟩ 2 (by decide) (by decide)
      (by decide) (by decide) (by decide) (by decide) (by decide) (by decide),
    by decide, by decide, by decide⟩

theorem MustInsert_miss (kv : KV) (key : String) (v : Doc) (hf : kv.faults = [])
    (hd : kv.docs key = none) :
    MustInsert kv key v = (kv.nextCas + 1, false, none, kv.write key v) := by
  unfold MustInsert
  rw [KV.fault_of_nil kv hf, KV.advance_of_nil kv hf]
  simp [hd]

/-- A `syncSpan` call on a span that is neither dirty nor empty only counts
the call. -/
theorem syncSpan_clean (r : TimerStore) (kv : KV) (now : Int) (mid : KV → KV)
    (hd : r.span.dirty = false) (he : r.span.empty = false) :
    r.syncSpan kv now mid = (none, r.addStat timerStats.addSyncSpanCounter, kv) := by
  unfold TimerStore.syncSpan
  simp [hd, he]

/-- On a sequential, error-free KV a `syncSpan` call that returns nil leaves
the local span neither dirty nor empty. -/
theorem syncSpan_settled (r : TimerStore) (kv : KV) (now : Int) (hf : kv.faults = [])
    (hok : (r.syncSpan kv now id).1 = none) :
    (r.syncSpan kv now id).2.1.span.dirty = false ∧
    (r.syncSpan kv now id).2.1.span.empty = false := by
  obtain ⟨connstr, bucket, uid, partn, ⟨⟨S, T⟩, empty, dirty, scas⟩, stats⟩ := r
  unfold TimerStore.syncSpan at hok ⊢
  simp only [TimerStore.addStat, TimerStore.kvLocatorSpan, id] at hok ⊢
  by_cases hclean : (!dirty && !empty) = true
  · simp only [hclean, if_true] at hok ⊢
    simp only [Bool.and_eq_true, Bool.not_eq_true'] at hclean
    exact hclean
  · simp only [hclean, if_false, Bool.false_eq_true] at hok ⊢
    rcases MustGet_cases Doc.asSpan kv (uid ++ ":tm:" ++ FormatInt partn 10 ++ ":sp")
        { Start := 0, Stop := 0 } with
      ⟨hft, _⟩ | ⟨_, hdoc, hres⟩ | ⟨_, d, cas, ext, hdoc, hdec, hres⟩ | ⟨_, d, cas, hdoc, hdec, hres⟩
    · exact absurd hf (KV.fault_eq_true_faults kv hft)
    · rw [hres, KV.advance_of_nil kv hf] at hok ⊢
      simp only [Bool.true_and] at hok ⊢
      cases empty
      · simp only [Bool.false_eq_true, if_false, Bool.not_false, if_true] at hok ⊢
        split <;> exact ⟨rfl, rfl⟩
      · simp only [if_true] at hok ⊢
        rw [MustInsert_miss kv _ _ hf hdoc]
        simp
    · rw [hres] at hok ⊢
      simp only [Bool.false_and, Bool.false_eq_true, if_false] at hok ⊢
      cases empty
      · simp only [Bool.false_eq_true, if_false] at hok ⊢
        split
        · exact ⟨rfl, rfl⟩
        · split
          · split <;> exact ⟨rfl, rfl⟩
          · split <;> split <;> split <;> exact ⟨rfl, rfl⟩
      · simp only [if_true]
        exact ⟨trivial, trivial⟩
    · rw [hres] at hok
      simp at hok

/-- C15: on a sequential, error-free KV, for every local span state and every
KV state, if `syncSpan` returns nil then a second `syncSpan` call right after
it returns nil and leaves the local span (`Start`, `Stop`, `empty`, `dirty`,
`spanCas`) and the KV, the persisted span record included, unchanged. -/
theorem C15_syncSpan_idempotent (r : TimerStore) (kv : KV) (now now2 : Int)
    (hf : kv.faults = []) (hok : (r.syncSpan kv now id).1 = none) :
    ((r.syncSpan kv now id).2.1.syncSpan (r.syncSpan kv now id).2.2 now2 id).1 = none ∧
    ((r.syncSpan kv now id).2.1.syncSpan (r.syncSpan kv now id).2.2 now2 id).2.1.span =
      (r.syncSpan kv now id).2.1.span ∧
    ((r.syncSpan kv now id).2.1.syncSpan (r.syncSpan kv now id).2.2 now2 id).2.2 =
      (r.syncSpan kv now id).2.2 := by
  obtain ⟨h1, h2⟩ := syncSpan_settled r kv now hf hok
  rw [syncSpan_clean _ _ now2 id h1 h2]
  exact ⟨rfl, rfl, rfl⟩

/-- Witness for `C15_syncSpan_idempotent`: the merge of `exStoreSync` against
`exKVSpan`, synced a second time. -/
theorem C15_syncSpan_idempotent_witness :
    ((exStoreSync.syncSpan exKVSpan 1000 id).2.1.syncSpan
      (exStoreSync.syncSpan exKVSpan 1000 id).2.2 1007 id).1 = none ∧
    ((exStoreSync.syncSpan exKVSpan 1000 id).2.1.syncSpan
      (exStoreSync.syncSpan exKVSpan 1000 id).2.2 1007 id).2.1.span =
      (exStoreSync.syncSpan exKVSpan 1000 id).2.1.span ∧
    ((exStoreSync.syncSpan exKVSpan 1000 id).2.1.syncSpan
      (exStoreSync.syncSpan exKVSpan 1000 id).2.2 1007 id).2.2 =
      (exStoreSync.syncSpan exKVSpan 1000 id).2.2 :=
  C15_syncSpan_idempotent exStoreSync exKVSpan 1000 1007 (by decide) (by decide)

/-- The fresh initialisation of `syncSpan`: persisted span absent, local span
empty. -/
theorem syncSpan_fresh (r : TimerStore) (kv : KV) (now : Int) (mid : KV → KV)
    (he : r.span.empty = true) (hfault : kv.fault = false)
    (hdoc : kv.docs r.kvLocatorSpan = none) :
    (r.syncSpan kv now mid).2.1.span.toSpan = ⟨roundDown now, roundUp now⟩ := by
  obtain ⟨connstr, bucket, uid, partn, ⟨⟨S, T⟩, empty, dirty, scas⟩, stats⟩ := r
  simp only [] at he
  subst he
  simp only [TimerStore.kvLocatorSpan] at hdoc
  unfold TimerStore.syncSpan
  simp only [TimerStore.addStat, TimerStore.kvLocatorSpan, Bool.not_true, Bool.and_false,
    Bool.false_eq_true, if_false, MustGet_miss Doc.asSpan kv _ _ hfault hdoc, Bool.and_self,
    if_true]
  split <;> rfl

theorem roundDown_le_roundUp (t : Int) (ht : InInt64 t) :
    roundDown t ≤ roundUp t ∧ roundDown t % Resolution = 0 ∧ roundUp t % Resolution = 0 := by
  unfold InInt64 at ht
  unfold Resolution
  by_cases h0 : 0 ≤ t
  · obtain ⟨a1, a2, a3⟩ := roundDown_nonneg t h0 (by unfold MaxInt64 at ht; exact ht.2)
    obtain ⟨b1, b2, b3⟩ := roundUp_nonneg t h0 (by unfold MaxInt64 at ht; exact ht.2)
    omega
  · obtain ⟨b1, b2, b3, _⟩ := roundUp_neg t (by omega) ht.1
    rw [roundDown_neg t (by omega) ht.1]
    omega

/-- C17 (amended): the predicate `span.Start <= span.Stop` and both multiples
of `Resolution` is established by the fresh initialisation of `syncSpan`
(`Start = roundDown(now)`, `Stop = roundUp(now)`, for every `int64` time), and
it is preserved by `expandSpan(p)` for every bucket-aligned `p`, by
`shrinkSpan(s)` for every bucket-aligned `s <= span.Stop`, and by the merge of
`syncSpan` against a persisted span that satisfies the same predicate. -/
theorem C17_span_invariant (r : TimerStore) (kv : KV) (now : Int) (mid : KV → KV)
    (p s : Int) (ext : Span) (rcas : Cas) :
    (InInt64 now → r.span.empty = true → kv.fault = false →
      kv.docs r.kvLocatorSpan = none →
      (r.syncSpan kv now mid).2.1.span.toSpan = ⟨roundDown now, roundUp now⟩ ∧
      SpanInv (r.syncSpan kv now mid).2.1.span.toSpan) ∧
    (SpanInv r.span.toSpan → p % Resolution = 0 → SpanInv (r.expandSpan p).span.toSpan) ∧
    (SpanInv r.span.toSpan → s % Resolution = 0 → s ≤ r.span.Stop →
      SpanInv (r.shrinkSpan s).span.toSpan) ∧
    (SpanInv r.span.toSpan → SpanInv ext → r.span.dirty = true → r.span.empty = false →
      kv.fault = false → kv.docs r.kvLocatorSpan = some (Doc.span ext, rcas) →
      r.span.spanCas ≠ rcas → SpanInv (r.syncSpan kv now mid).2.1.span.toSpan) := by
  refine ⟨?_, ?_, ?_, ?_⟩
  · intro hn he hf hd
    have h := syncSpan_fresh r kv now mid he hf hd
    refine ⟨h, ?_⟩
    rw [h]
    exact roundDown_le_roundUp now hn
  · intro ⟨h1, h2, h3⟩ hp
    obtain ⟨e1, e2⟩ := expandSpan_span r p
    unfold SpanInv
    show (r.expandSpan p).span.Start ≤ (r.expandSpan p).span.Stop ∧
      (r.expandSpan p).span.Start % Resolution = 0 ∧ (r.expandSpan p).span.Stop % Resolution = 0
    rw [e1, e2]
    have h1' : r.span.Start ≤ r.span.Stop := h1
    have h2' : r.span.Start % Resolution = 0 := h2
    have h3' : r.span.Stop % Resolution = 0 := h3
    unfold Resolution at *
    split <;> split <;> omega
  · intro ⟨h1, h2, h3⟩ hs hle
    have h1' : r.span.Start ≤ r.span.Stop := h1
    have h2' : r.span.Start % Resolution = 0 := h2
    have h3' : r.span.Stop % Resolution = 0 := h3
    unfold TimerStore.shrinkSpan
    split
    · exact ⟨hle, hs, h3'⟩
    · exact ⟨h1', h2', h3'⟩
  · intro ⟨h1, h2, h3⟩ ⟨g1, g2, g3⟩ hdirty hne hf hd hcas
    obtain ⟨rm, m1, _, _, _, _, _, _, _, _, heq⟩ :=
      syncSpan_merge r kv now mid ext rcas hdirty hne hf hd hcas
    have hm : SpanInv (mergeSpan r.span.toSpan ext) := by
      have h1' : r.span.Start ≤ r.span.Stop := h1
      have h2' : r.span.Start % Resolution = 0 := h2
      have h3' : r.span.Stop % Resolution = 0 := h3
      unfold SpanInv mergeSpan
      simp only []
      refine ⟨le_trans (min_le_left _ _) (le_trans h1' (le_max_left _ _)), ?_, ?_⟩
      · rcases min_choice r.span.Start ext.Start with h | h <;> rw [h] <;> assumption
      · rcases max_choice r.span.Stop ext.Stop with h | h <;> rw [h] <;> assumption
    rw [heq]
    split
    · simp only []; rw [m1]; exact hm
    · simp only []; show SpanInv rm.span.toSpan; rw [m1]; exact hm

/-- Witness for `C17_span_invariant`: on the span `{7, 14}`, `expandSpan(21)`
and `shrinkSpan(14)` keep the invariant. -/
theorem C17_span_invariant_witness :
    SpanInv exStoreSmall.span.toSpan ∧ (21 : Int) % Resolution = 0 ∧
    SpanInv (exStoreSmall.expandSpan 21).span.toSpan ∧
    (14 : Int) % Resolution = 0 ∧ (14 : Int) ≤ exStoreSmall.span.Stop ∧
    SpanInv (exStoreSmall.shrinkSpan 14).span.toSpan :=
  ⟨by decide, by decide,
    (C17_span_invariant exStoreSmall exKV 1000 id 21 14 ⟨0, 0⟩ 0).2.1 (by decide) (by decide),
    by decide, by decide,
    (C17_span_invariant exStoreSmall exKV 1000 id 21 14 ⟨0, 0⟩ 0).2.2.1 (by decide) (by decide)
      (by decide)⟩

/-- C17 (counterexample): the span `{7, 14}` satisfies the predicate and 21 is
bucket-aligned, but `shrinkSpan(21)` gives `{21, 14}`, whose start lies after
its stop. -/
theorem C17_counterexample :
    SpanInv exStoreSmall.span.toSpan ∧ (21 : Int) % Resolution = 0 ∧
    (exStoreSmall.shrinkSpan 21).span.toSpan = ⟨21, 14⟩ ∧
    ¬ SpanInv (exStoreSmall.shrinkSpan 21).span.toSpan := by
  decide

theorem bitAt_le (sum : List Nat) (pos : Nat) : bitAt sum pos ≤ 1 := by
  unfold bitAt; exact Nat.and_le_right

theorem accBits_lt (sum : List Nat) (start : Nat) : ∀ k, accBits sum start k < 2 ^ k := by
  intro k
  induction k with
  | zero => simp [accBits]
  | succ n ih =>
    have := bitAt_le sum (start + n)
    rw [accBits, pow_succ]
    omega

theorem shift_or_bit : ∀ x, x < 64 → ∀ b, b < 2 → ((x <<< 1) % 256 ||| b) = x * 2 + b := by
  decide

theorem getD_mem_dict (u : Nat) (h : u < 64) : dict.getD u 'A' ∈ dict := by
  revert u; decide

/-- One pass of the bit loop keeps the loop invariant. -/
theorem hashStep_inv (sum : List Nat) (n : Nat) (st : List Char × Nat) (hn : n < 160)
    (h : HashInv sum n st) : HashInv sum (n + 1) (hashStep sum st n) := by
  obtain ⟨h1, h2, h3⟩ := h
  have hlt : st.2 < 64 := by
    rw [h2]
    have := accBits_lt sum (6 * (n / 6)) (n % 6)
    have h6 : n % 6 < 6 := Nat.mod_lt _ (by decide)
    have : 2 ^ (n % 6) ≤ 2 ^ 5 := Nat.pow_le_pow_right (by decide) (by omega)
    omega
  have hbit : bitAt sum n < 2 := by have := bitAt_le sum n; omega
  have hchar : ((st.2 <<< 1) % 256 ||| bitAt sum n) = st.2 * 2 + bitAt sum n :=
    shift_or_bit st.2 hlt _ hbit
  have hpos : 6 * (n / 6) + n % 6 = n := Nat.div_add_mod n 6
  unfold hashStep
  simp only []
  have hb : ((sum.getD (n / 8) 0) >>> (n % 8)) &&& 1 = bitAt sum n := rfl
  rw [hb, hchar]
  by_cases h5 : n % 6 = 5
  · simp only [h5, if_true]
    have hd : (n + 1) / 6 = n / 6 + 1 := by omega
    have hm : (n + 1) % 6 = 0 := by omega
    refine ⟨by simp [h1], by rw [hm]; rfl, ?_⟩
    intro i hi
    rw [hd] at hi
    by_cases hin : i = n / 6
    · subst hin
      rw [List.getElem?_set_self (by rw [h1]; omega)]
      have : accBits sum (6 * (n / 6)) 6 = st.2 * 2 + bitAt sum n := by
        rw [accBits, h2, h5]
        congr 2
        omega
      rw [this]
    · rw [List.getElem?_set_ne (fun h => hin h.symm)]
      exact h3 i (by omega)
  · simp only [h5, if_false]
    have hd : (n + 1) / 6 = n / 6 := by omega
    have hm : (n + 1) % 6 = n % 6 + 1 := by omega
    refine ⟨h1, ?_, ?_⟩
    · rw [hd, hm, accBits, h2, hpos]
    · intro i hi
      rw [hd] at hi
      exact h3 i hi

theorem hash_fold_inv (sum : List Nat) : ∀ n, n ≤ 160 →
    HashInv sum n ((List.range n).foldl (hashStep sum) (List.replicate 27 (Char.ofNat 0), 0)) := by
  intro n
  induction n with
  | zero =>
    intro _
    refine ⟨by simp, rfl, ?_⟩
    intro i hi
    simp at hi
  | succ k ih =>
    intro hk
    rw [List.range_succ, List.foldl_append]
    exact hashStep_inv sum k _ (by omega) (ih (by omega))

theorem String.length_eq_data_length (s : String) : s.length = s.data.length := rfl

/-- C20: for every input string (and digest function), `hash` returns a
string of exactly 27 characters; the first 26 are `dict[v]` for the number
`v < 64` encoded by six consecutive digest bits, the 27th is `dict[v]` for the
number `v < 16` encoded by the four bits left over; every index into `dict`
is below its length 64, so every character is a symbol of `dict`; and equal
inputs give equal outputs. -/
theorem C20_hash_shape (ripemd160 : Digest) (val : String) :
    (hash ripemd160 val).length = 27 ∧
    (∀ i, i < 26 → (hash ripemd160 val).data[i]? =
      some (dict.getD (accBits (ripemd160 val) (6 * i) 6) 'A') ∧
      accBits (ripemd160 val) (6 * i) 6 < 64) ∧
    ((hash ripemd160 val).data[26]? = some (dict.getD (accBits (ripemd160 val) 156 4) 'A') ∧
      accBits (ripemd160 val) 156 4 < 16) ∧
    dict.length = 64 ∧
    (∀ c ∈ (hash ripemd160 val).data, c ∈ dict) ∧
    (∀ val', val = val' → hash ripemd160 val = hash ripemd160 val') := by
  have h := hash_fold_inv (ripemd160 val) 160 (le_refl _)
  unfold HashInv at h
  obtain ⟨h1, h2, h3⟩ := h
  have e1 : 6 * (160 / 6) = 156 := by decide
  have e2 : 160 % 6 = 4 := by decide
  have e3 : 160 / 6 = 26 := by decide
  rw [e1, e2] at h2
  rw [e3] at h3
  have hdata : (hash ripemd160 val).data =
      ((List.range 160).foldl (hashStep (ripemd160 val))
        (List.replicate 27 (Char.ofNat 0), 0)).1.set 26
        (dict.getD ((List.range 160).foldl (hashStep (ripemd160 val))
          (List.replicate 27 (Char.ofNat 0), 0)).2 'A') := by
    simp only [hash]
  have hfirst : ∀ i, i < 26 → (hash ripemd160 val).data[i]? =
      some (dict.getD (accBits (ripemd160 val) (6 * i) 6) 'A') := by
    intro i hi
    rw [hdata, List.getElem?_set_ne (by omega)]
    exact h3 i hi
  have hlast : (hash ripemd160 val).data[26]? =
      some (dict.getD (accBits (ripemd160 val) 156 4) 'A') := by
    rw [hdata, List.getElem?_set_self (by rw [h1]; omega), h2]
  have hlen : (hash ripemd160 val).data.length = 27 := by
    rw [hdata, List.length_set, h1]
  have h64 : ∀ i, accBits (ripemd160 val) (6 * i) 6 < 64 := fun i => accBits_lt _ _ 6
  have h16 : accBits (ripemd160 val) 156 4 < 16 := accBits_lt _ _ 4
  refine ⟨by rw [String.length_eq_data_length, hlen], fun i hi => ⟨hfirst i hi, h64 i⟩,
    ⟨hlast, h16⟩, by decide, ?_,
    fun val' h => by rw [h]⟩
  intro c hc
  obtain ⟨i, hi, hci⟩ := List.getElem_of_mem hc
  have hget : (hash ripemd160 val).data[i]? = some c := by
    rw [List.getElem?_eq_getElem hi, hci]
  rw [hlen] at hi
  by_cases h26 : i < 26
  · rw [hfirst i h26] at hget
    simp only [Option.some.injEq] at hget
    rw [← hget]
    exact getD_mem_dict _ (h64 i)
  · have : i = 26 := by omega
    subst this
    rw [hlast] at hget
    simp only [Option.some.injEq] at hget
    rw [← hget]
    exact getD_mem_dict _ (by omega)

/-! ## Key encoding, sequence allocation and span maintenance -/

theorem parseDigits36_formatBits (u : Nat) :
    parseDigits36 (formatBits (u + 1) 36 u []) = some u := by
  unfold parseDigits36
  have hne : (formatBits (u + 1) 36 u []).isEmpty = false := by
    have := formatBits_ne_nil u 36 u
    cases h : formatBits (u + 1) 36 u [] with
    | nil => exact absurd h this
    | cons a t => rfl
  have hall : (formatBits (u + 1) 36 u []).all (fun c => digitChars.contains c) = true := by
    rw [List.all_eq_true]
    intro c hc
    rcases formatBits_mem _ _ _ _ _ hc with h | h
    · simpa using h
    · simp at h
  have hval : digitsVal 36 0 (formatBits (u + 1) 36 u []) = u := by
    rw [digitsVal_formatBits 36 (by omega) (by omega) (u + 1) u []
      (lt_of_lt_of_le (Nat.lt_pow_self (by omega) u) (Nat.pow_le_pow_right (by omega) (by omega)))]
    rfl
  rw [hne, hall, hval]
  rfl

theorem formatBits_head (u : Nat) :
    ∃ a t, formatBits (u + 1) 36 u [] = a :: t ∧ a ∈ digitChars := by
  cases h : formatBits (u + 1) 36 u [] with
  | nil => exact absurd h (formatBits_ne_nil u 36 u)
  | cons a t =>
    refine ⟨a, t, rfl, ?_⟩
    have hm : a ∈ formatBits (u + 1) 36 u [] := by rw [h]; exact List.mem_cons_self _ _
    rcases formatBits_mem _ _ _ _ _ hm with h1 | h1
    · exact h1
    · simp at h1

/-- C21: for every `int64` value `x`, parsing `formatInt(x)` as a base-36
integer returns `x`, so `formatInt` is injective; `formatInt(x)` is a
non-empty string of the digits `0-9` and lowercase `a-z`, preceded by a `-`
exactly when `x < 0`. -/
theorem C21_formatInt_lossless (x : Int) (hx : InInt64 x) :
    parseBase36 (formatInt x) = some x ∧
    (∀ y, InInt64 y → formatInt x = formatInt y → x = y) ∧
    (∃ ds, ds ≠ [] ∧ (∀ c ∈ ds, c ∈ digitChars) ∧
      (formatInt x).data = (if x < 0 then '-' :: ds else ds)) ∧
    digitChars = "0123456789abcdefghijklmnopqrstuvwxyz".toList := by
  refine ⟨?_, ?_, ?_, rfl⟩
  · unfold parseBase36 formatInt FormatInt encode_base
    by_cases h0 : x < 0
    · simp only [h0, if_true]
      show ((parseDigits36 (formatBits (x.natAbs + 1) 36 x.natAbs [])).map
        (fun n => -(n : Int))).bind (fun v => if InInt64 v then some v else none) = some x
      rw [parseDigits36_formatBits]
      show (if InInt64 (-((x.natAbs : Nat) : Int)) then some (-((x.natAbs : Nat) : Int)) else none)
        = some x
      have : -((x.natAbs : Nat) : Int) = x := by omega
      rw [this, if_pos hx]
    · simp only [h0, if_false]
      obtain ⟨a, t, hat, ha⟩ := formatBits_head x.natAbs
      have hne : a ≠ '-' := by
        intro h
        rw [h] at ha
        exact absurd ha (by decide)
      have hp := parseDigits36_formatBits x.natAbs
      rw [hat] at hp
      show (match formatBits (x.natAbs + 1) 36 x.natAbs [] with
          | '-' :: ds => (parseDigits36 ds).map (fun n => -(n : Int))
          | ds => (parseDigits36 ds).map (fun n => (n : Int))).bind
        (fun v => if InInt64 v then some v else none) = some x
      rw [hat]
      have hm : (match a :: t with
          | '-' :: ds => (parseDigits36 ds).map (fun n => -(n : Int))
          | ds => (parseDigits36 ds).map (fun n => (n : Int))) =
          (parseDigits36 (a :: t)).map (fun n => (n : Int)) := by
        split
        · rename_i ds heq
          simp only [List.cons.injEq] at heq
          exact absurd heq.1 hne
        · rfl
      rw [hm, hp]
      show (if InInt64 ((x.natAbs : Nat) : Int) then some ((x.natAbs : Nat) : Int) else none)
        = some x
      have : ((x.natAbs : Nat) : Int) = x := by omega
      rw [this, if_pos hx]
  · intro y _ h
    exact FormatInt_inj 36 (by omega) (by omega) x y h
  · refine ⟨formatBits (x.natAbs + 1) 36 x.natAbs [], formatBits_ne_nil _ _ _, ?_, ?_⟩
    · intro c hc
      rcases formatBits_mem _ _ _ _ _ hc with h | h
      · exact h
      · simp at h
    · unfold formatInt FormatInt encode_base
      split <;> rfl

/-- Witness for `C21_formatInt_lossless` at the smallest `int64`. -/
theorem C21_formatInt_lossless_witness :
    parseBase36 (formatInt MinInt64) = some MinInt64 ∧
    (∀ y, InInt64 y → formatInt MinInt64 = formatInt y → MinInt64 = y) ∧
    (∃ ds, ds ≠ [] ∧ (∀ c ∈ ds, c ∈ digitChars) ∧
      (formatInt MinInt64).data = (if MinInt64 < 0 then '-' :: ds else ds)) ∧
    digitChars = "0123456789abcdefghijklmnopqrstuvwxyz".toList :=
  C21_formatInt_lossless MinInt64 (by decide)

theorem strip_last (a b x y : List Char) (hx : ':' ∉ x) (hy : ':' ∉ y)
    (h : a ++ ':' :: x = b ++ ':' :: y) : a = b ∧ x = y := by
  have h2 := congrArg List.reverse h
  simp only [List.reverse_append, List.reverse_cons, List.append_assoc, List.singleton_append]
    at h2
  have h3 := append_sep_inj ':' x.reverse y.reverse a.reverse b.reverse
    (by simpa using hx) (by simpa using hy) h2
  exact ⟨List.reverse_injective h3.2, List.reverse_injective h3.1⟩

theorem glueR_strip (u u' : List Char) (c c' : List Char) (rs rs' : List (List Char))
    (hc : ':' ∉ c) (hc' : ':' ∉ c') (h : glueR u (c :: rs) = glueR u' (c' :: rs')) :
    c = c' ∧ glueR u rs = glueR u' rs' := by
  have := strip_last _ _ _ _ hc hc' h
  exact ⟨this.2, this.1⟩

theorem kvLocatorRoot_glue (r : TimerStore) (d : Int) :
    (r.kvLocatorRoot d).data =
      glueR r.uid.data [(formatInt d).data, "rt".data, (FormatInt r.partn 10).data, "tm".data] := by
  simp only [TimerStore.kvLocatorRoot, glueR, String.data_append, List.append_assoc]
  rfl

theorem kvLocatorAlarm_glue (r : TimerStore) (d s : Int) :
    (r.kvLocatorAlarm d s).data =
      glueR r.uid.data [(FormatInt s 10).data, (formatInt d).data, "al".data,
        (FormatInt r.partn 10).data, "tm".data] := by
  simp only [TimerStore.kvLocatorAlarm, glueR, String.data_append, List.append_assoc]
  rfl

theorem kvLocatorContext_glue (r : TimerStore) (dg : Digest) (ref : String) :
    (r.kvLocatorContext dg ref).data =
      glueR r.uid.data [(hash dg ref).data, "cx".data, (FormatInt r.partn 10).data, "tm".data] := by
  simp only [TimerStore.kvLocatorContext, glueR, String.data_append, List.append_assoc]
  rfl

theorem kvLocatorSpan_glue (r : TimerStore) :
    r.kvLocatorSpan.data =
      glueR r.uid.data ["sp".data, (FormatInt r.partn 10).data, "tm".data] := by
  simp only [TimerStore.kvLocatorSpan, glueR, String.data_append, List.append_assoc]
  rfl

theorem formatBits_mem_lt (fuel base : Nat) : ∀ (u : Nat) (acc : List Char) (c : Char),
    0 < base → c ∈ formatBits fuel base u acc →
    (∃ k, k < base ∧ c = digitChars.getD k '0') ∨ c ∈ acc := by
  induction fuel with
  | zero => intro u acc c _ h; exact Or.inr h
  | succ n ih =>
    intro u acc c hb h
    unfold formatBits at h
    split_ifs at h with hu
    · rcases List.mem_cons.1 h with h | h
      · left; exact ⟨u, hu, h⟩
      · exact Or.inr h
    · rcases ih _ _ _ hb h with h | h
      · exact Or.inl h
      · rcases List.mem_cons.1 h with h | h
        · left; exact ⟨u % base, Nat.mod_lt _ hb, h⟩
        · exact Or.inr h

theorem decimal_chars (i : Int) : ∀ c ∈ (FormatInt i 10).data, c ∈ "-0123456789".toList := by
  have hd : ∀ k, k < 10 → digitChars.getD k '0' ∈ "-0123456789".toList := by decide
  intro c hc
  unfold FormatInt at hc
  split_ifs at hc
  · rcases List.mem_cons.1 hc with h | h
    · rw [h]; decide
    · rcases formatBits_mem_lt _ _ _ _ _ (by decide) h with ⟨k, hk, h1⟩ | h1
      · rw [h1]; exact hd k hk
      · simp at h1
  · rcases formatBits_mem_lt _ _ _ _ _ (by decide) hc with ⟨k, hk, h1⟩ | h1
    · rw [h1]; exact hd k hk
    · simp at h1

theorem hash_data_mem_dict (dg : Digest) (val : String) : ∀ c ∈ (hash dg val).data, c ∈ dict := by
  have h := hash_fold_inv (dg val) 160 (le_refl _)
  unfold HashInv at h
  obtain ⟨h1, h2, h3⟩ := h
  have e1 : 6 * (160 / 6) = 156 := by decide
  have e2 : 160 % 6 = 4 := by decide
  have e3 : 160 / 6 = 26 := by decide
  rw [e1, e2] at h2
  rw [e3] at h3
  have hdata : (hash dg val).data =
      ((List.range 160).foldl (hashStep (dg val))
        (List.replicate 27 (Char.ofNat 0), 0)).1.set 26
        (dict.getD ((List.range 160).foldl (hashStep (dg val))
          (List.replicate 27 (Char.ofNat 0), 0)).2 'A') := by
    simp only [hash]
  have hlen : (hash dg val).data.length = 27 := by
    rw [hdata, List.length_set, h1]
  intro c hc
  obtain ⟨i, hi, hci⟩ := List.getElem_of_mem hc
  have hget : (hash dg val).data[i]? = some c := by
    rw [List.getElem?_eq_getElem hi, hci]
  rw [hlen] at hi
  rw [hdata] at hget
  by_cases h26 : i < 26
  · rw [List.getElem?_set_ne (by omega), h3 i h26] at hget
    simp only [Option.some.injEq] at hget
    rw [← hget]
    exact getD_mem_dict _ (accBits_lt _ _ 6)
  · have : i = 26 := by omega
    subst this
    rw [List.getElem?_set_self (by rw [h1]; omega), h2] at hget
    simp only [Option.some.injEq] at hget
    rw [← hget]
    exact getD_mem_dict _ (by have := accBits_lt (dg val) 156 4; omega)

theorem hash_no_colon (dg : Digest) (val : String) : ':' ∉ (hash dg val).data := by
  intro h
  exact absurd (hash_data_mem_dict dg val _ h) (by decide)

theorem decimal_ne (i : Int) (w : List Char) (a : Char) (ha : a ∈ w)
    (hna : a ∉ "-0123456789".toList) : (FormatInt i 10).data ≠ w := by
  intro h
  rw [← h] at ha
  exact hna (decimal_chars i a ha)

/-- Keys of two stores agree only for the same store. -/
theorem glueR_store (r r' : TimerStore)
    (h : glueR r.uid.data [(FormatInt r.partn 10).data, "tm".data] =
      glueR r'.uid.data [(FormatInt r'.partn 10).data, "tm".data]) :
    r.uid = r'.uid ∧ r.partn = r'.partn := by
  obtain ⟨h1, h2⟩ := glueR_strip _ _ _ _ _ _ (FormatInt_no_colon _ _) (FormatInt_no_colon _ _) h
  obtain ⟨_, h3⟩ := glueR_strip _ _ _ _ _ _ (by decide) (by decide) h2
  exact ⟨String.ext h3, FormatInt_inj 10 (by omega) (by omega) _ _ (String.ext h1)⟩

/-- C22: for every two stores, with arbitrary `uid` strings that may contain
`:`, a key produced by `kvLocatorRoot`, `kvLocatorAlarm`, `kvLocatorContext`
or `kvLocatorSpan` of one store equals a key of the other only if the two
stores have the same `uid` and `partn`, the keys are of the same kind and
their arguments agree (same due for root, same due and seq for alarm, same
hash for context). -/
theorem C22_key_isolation (r r' : TimerStore) (dg : Digest) (k k' : KeyArg)
    (h : r.keyOf dg k = r'.keyOf dg k') :
    r.uid = r'.uid ∧ r.partn = r'.partn ∧ KeyArg.agree dg k k' := by
  have hd := congrArg String.data h
  have nf := fun i => FormatInt_no_colon 36 i
  have nd := fun i => FormatInt_no_colon 10 i
  have nh := fun ref => hash_no_colon dg ref
  have c2 : ':' ∉ "rt".data := by decide
  have c3 : ':' ∉ "al".data := by decide
  have c4 : ':' ∉ "cx".data := by decide
  have c5 : ':' ∉ "sp".data := by decide
  cases k with
  | root d =>
    cases k' with
    | root d' =>
      simp only [TimerStore.keyOf, kvLocatorRoot_glue] at hd
      obtain ⟨e1, h1⟩ := glueR_strip _ _ _ _ _ _ (nf d) (nf d') hd
      obtain ⟨_, h2⟩ := glueR_strip _ _ _ _ _ _ c2 c2 h1
      obtain ⟨hu, hp⟩ := glueR_store r r' h2
      exact ⟨hu, hp, FormatInt_inj 36 (by omega) (by omega) _ _ (String.ext e1)⟩
    | alarm d' s' =>
      exfalso
      simp only [TimerStore.keyOf, kvLocatorRoot_glue, kvLocatorAlarm_glue] at hd
      obtain ⟨_, h1⟩ := glueR_strip _ _ _ _ _ _ (nf d) (nd s') hd
      obtain ⟨_, h2⟩ := glueR_strip _ _ _ _ _ _ c2 (nf d') h1
      obtain ⟨e3, _⟩ := glueR_strip _ _ _ _ _ _ (nd r.partn) c3 h2
      exact decimal_ne r.partn "al".data 'a' (by decide) (by decide) e3
    | context ref' =>
      exfalso
      simp only [TimerStore.keyOf, kvLocatorRoot_glue, kvLocatorContext_glue] at hd
      obtain ⟨_, h1⟩ := glueR_strip _ _ _ _ _ _ (nf d) (nh ref') hd
      obtain ⟨e2, _⟩ := glueR_strip _ _ _ _ _ _ c2 c4 h1
      exact absurd e2 (by decide)
    | span =>
      exfalso
      simp only [TimerStore.keyOf, kvLocatorRoot_glue, kvLocatorSpan_glue] at hd
      obtain ⟨_, h1⟩ := glueR_strip _ _ _ _ _ _ (nf d) c5 hd
      obtain ⟨e2, _⟩ := glueR_strip _ _ _ _ _ _ c2 (nd r'.partn) h1
      exact decimal_ne r'.partn "rt".data 'r' (by decide) (by decide) e2.symm
  | alarm d s =>
    cases k' with
    | root d' =>
      exfalso
      simp only [TimerStore.keyOf, kvLocatorRoot_glue, kvLocatorAlarm_glue] at hd
      obtain ⟨_, h1⟩ := glueR_strip _ _ _ _ _ _ (nd s) (nf d') hd
      obtain ⟨_, h2⟩ := glueR_strip _ _ _ _ _ _ (nf d) c2 h1
      obtain ⟨e3, _⟩ := glueR_strip _ _ _ _ _ _ c3 (nd r'.partn) h2
      exact decimal_ne r'.partn "al".data 'a' (by decide) (by decide) e3.symm
    | alarm d' s' =>
      simp only [TimerStore.keyOf, kvLocatorAlarm_glue] at hd
      obtain ⟨e1, h1⟩ := glueR_strip _ _ _ _ _ _ (nd s) (nd s') hd
      obtain ⟨e2, h2⟩ := glueR_strip _ _ _ _ _ _ (nf d) (nf d') h1
      obtain ⟨_, h3⟩ := glueR_strip _ _ _ _ _ _ c3 c3 h2
      obtain ⟨hu, hp⟩ := glueR_store r r' h3
      exact ⟨hu, hp, FormatInt_inj 36 (by omega) (by omega) _ _ (String.ext e2),
        FormatInt_inj 10 (by omega) (by omega) _ _ (String.ext e1)⟩
    | context ref' =>
      exfalso
      simp only [TimerStore.keyOf, kvLocatorAlarm_glue, kvLocatorContext_glue] at hd
      obtain ⟨_, h1⟩ := glueR_strip _ _ _ _ _ _ (nd s) (nh ref') hd
      obtain ⟨_, h2⟩ := glueR_strip _ _ _ _ _ _ (nf d) c4 h1
      obtain ⟨e3, _⟩ := glueR_strip _ _ _ _ _ _ c3 (nd r'.partn) h2
      exact decimal_ne r'.partn "al".data 'a' (by decide) (by decide) e3.symm
    | span =>
      exfalso
      simp only [TimerStore.keyOf, kvLocatorAlarm_glue, kvLocatorSpan_glue] at hd
      obtain ⟨e1, _⟩ := glueR_strip _ _ _ _ _ _ (nd s) c5 hd
      exact decimal_ne s "sp".data 's' (by decide) (by decide) e1
  | context ref =>
    cases k' with
    | root d' =>
      exfalso
      simp only [TimerStore.keyOf, kvLocatorRoot_glue, kvLocatorContext_glue] at hd
      obtain ⟨_, h1⟩ := glueR_strip _ _ _ _ _ _ (nh ref) (nf d') hd
      obtain ⟨e2, _⟩ := glueR_strip _ _ _ _ _ _ c4 c2 h1
      exact absurd e2 (by decide)
    | alarm d' s' =>
      exfalso
      simp only [TimerStore.keyOf, kvLocatorAlarm_glue, kvLocatorContext_glue] at hd
      obtain ⟨_, h1⟩ := glueR_strip _ _ _ _ _ _ (nh ref) (nd s') hd
      obtain ⟨_, h2⟩ := glueR_strip _ _ _ _ _ _ c4 (nf d') h1
      obtain ⟨e3, _⟩ := glueR_strip _ _ _ _ _ _ (nd r.partn) c3 h2
      exact decimal_ne r.partn "al".data 'a' (by decide) (by decide) e3
    | context ref' =>
      simp only [TimerStore.keyOf, kvLocatorContext_glue] at hd
      obtain ⟨e1, h1⟩ := glueR_strip _ _ _ _ _ _ (nh ref) (nh ref') hd
      obtain ⟨_, h2⟩ := glueR_strip _ _ _ _ _ _ c4 c4 h1
      obtain ⟨hu, hp⟩ := glueR_store r r' h2
      exact ⟨hu, hp, String.ext e1⟩
    | span =>
      exfalso
      simp only [TimerStore.keyOf, kvLocatorContext_glue, kvLocatorSpan_glue] at hd
      obtain ⟨_, h1⟩ := glueR_strip _ _ _ _ _ _ (nh ref) c5 hd
      obtain ⟨e2, _⟩ := glueR_strip _ _ _ _ _ _ c4 (nd r'.partn) h1
      exact decimal_ne r'.partn "cx".data 'c' (by decide) (by decide) e2.symm
  | span =>
    cases k' with
    | root d' =>
      exfalso
      simp only [TimerStore.keyOf, kvLocatorRoot_glue, kvLocatorSpan_glue] at hd
      obtain ⟨_, h1⟩ := glueR_strip _ _ _ _ _ _ c5 (nf d') hd
      obtain ⟨e2, _⟩ := glueR_strip _ _ _ _ _ _ (nd r.partn) c2 h1
      exact decimal_ne r.partn "rt".data 'r' (by decide) (by decide) e2
    | alarm d' s' =>
      exfalso
      simp only [TimerStore.keyOf, kvLocatorAlarm_glue, kvLocatorSpan_glue] at hd
      obtain ⟨e1, _⟩ := glueR_strip _ _ _ _ _ _ c5 (nd s') hd
      exact decimal_ne s' "sp".data 's' (by decide) (by decide) e1.symm
    | context ref' =>
      exfalso
      simp only [TimerStore.keyOf, kvLocatorContext_glue, kvLocatorSpan_glue] at hd
      obtain ⟨_, h1⟩ := glueR_strip _ _ _ _ _ _ c5 (nh ref') hd
      obtain ⟨e2, _⟩ := glueR_strip _ _ _ _ _ _ (nd r.partn) c4 h1
      exact decimal_ne r.partn "cx".data 'c' (by decide) (by decide) e2
    | span =>
      simp only [TimerStore.keyOf, kvLocatorSpan_glue] at hd
      obtain ⟨_, h1⟩ := glueR_strip _ _ _ _ _ _ c5 c5 hd
      obtain ⟨hu, hp⟩ := glueR_store r r' h1
      exact ⟨hu, hp, trivial⟩

/-- Witness for `C22_key_isolation`: the root key of bucket 1008 of the store
`exStore` and of `exStoreLate`, two stores with the same `uid` and partition. -/
theorem C22_key_isolation_witness :
    exStore.uid = exStoreLate.uid ∧ exStore.partn = exStoreLate.partn ∧
    KeyArg.agree exDigest (KeyArg.root 1008) (KeyArg.root 1008) :=
  C22_key_isolation exStore exStoreLate exDigest (KeyArg.root 1008) (KeyArg.root 1008) rfl

/-- On an error-free KV a `Set` that returns an error has written nothing. -/
theorem Set_err_docs (r : TimerStore) (dg : Digest) (kv : KV) (now due : Int) (ref ctx : String)
    (hf : kv.faults = []) (h : (r.Set dg kv now due ref ctx).1 ≠ none) :
    (r.Set dg kv now due ref ctx).2.2.docs = kv.docs := by
  by_cases hroot : ∀ doc cas, kv.docs (r.kvLocatorRoot (setDue now due)) = some (doc, cas) →
      ∃ v, doc = Doc.counter v
  · exact absurd (Set_ok r dg kv now due ref ctx hf hroot) h
  · push_neg at hroot
    obtain ⟨doc, cas, hd, hnc⟩ := hroot
    generalize hS : r.Set dg kv now due ref ctx = res
    unfold TimerStore.Set at hS
    have hD : setDue now due = roundUp (if (decide (wrap64 (due - now) ≤ Resolution)) = true
        then wrap64 (now + Resolution) else due) := by
      unfold setDue; simp
    simp only [] at hS
    rw [← hD] at hS
    generalize hr1 : (if decide (wrap64 (due - now) ≤ Resolution) = true then
        (r.addStat timerStats.addSetCounter).addStat timerStats.addTimerInPastCounter
        else r.addStat timerStats.addSetCounter) = r1 at hS
    have hu : r1.uid = r.uid := by subst hr1; split <;> rfl
    have hp : r1.partn = r.partn := by subst hr1; split <;> rfl
    rw [kvLocatorRoot_congr r r1 hu hp, kvLocatorContext_congr r r1 hu hp] at hS
    simp only [kvLocatorAlarm_congr r r1 hu hp] at hS
    have hC : MustCounter kv (r.kvLocatorRoot (setDue now due)) 1 init_seq =
        (0, 0, some Error.ErrRetryTimeout, kv) := by
      unfold MustCounter
      rw [KV.fault_of_nil kv hf, KV.advance_of_nil kv hf, hd]
      cases doc with
      | counter v => exact absurd rfl (hnc v)
      | alarm a => rfl
      | context c => rfl
      | span s => rfl
    rw [hC] at hS
    simp only [] at hS
    rw [← hS]

/-- The store keeps its `uid` and partition through `Set`. -/
theorem Set_ident (r : TimerStore) (dg : Digest) (kv : KV) (now due : Int) (ref ctx : String) :
    (r.Set dg kv now due ref ctx).2.1.uid = r.uid ∧
    (r.Set dg kv now due ref ctx).2.1.partn = r.partn := by
  unfold TimerStore.Set
  simp only []
  repeat' split
  all_goals first
    | exact ⟨rfl, rfl⟩
    | exact ⟨by simp, by simp⟩

theorem runSets_cons (dg : Digest) (q : SetReq) (qs : List SetReq) (r : TimerStore) (kv : KV) :
    runSets dg (q :: qs) r kv =
      ((r.Set dg kv q.now q.due q.ref q.context).1 ::
          (runSets dg qs (r.Set dg kv q.now q.due q.ref q.context).2.1
            (r.Set dg kv q.now q.due q.ref q.context).2.2).1,
        (runSets dg qs (r.Set dg kv q.now q.due q.ref q.context).2.1
          (r.Set dg kv q.now q.due q.ref q.context).2.2).2) := by
  rw [runSets]

theorem bucketCount_cons (D : Int) (q : SetReq) (qs : List SetReq) :
    bucketCount D (q :: qs) = (if setDue q.now q.due = D then 1 else 0) + bucketCount D qs := by
  unfold bucketCount
  by_cases h : setDue q.now q.due = D
  · simp [List.filter_cons, h]; omega
  · simp [List.filter_cons, h]

/-- On an error-free KV `Set` touches only the root key and an alarm key of
its bucket and the context key of its reference. -/
theorem Set_frame (r : TimerStore) (dg : Digest) (kv : KV) (now due : Int) (ref ctx : String)
    (hf : kv.faults = []) (k : String) (h1 : k ≠ r.kvLocatorContext dg ref)
    (h2 : k ≠ r.kvLocatorRoot (setDue now due))
    (h3 : ∀ s, k ≠ r.kvLocatorAlarm (setDue now due) s) :
    (r.Set dg kv now due ref ctx).2.2.docs k = kv.docs k := by
  by_cases hok : (r.Set dg kv now due ref ctx).1 = none
  · obtain ⟨seq, c1, c2, c3, _, hdocs, _⟩ := Set_success r dg kv now due ref ctx hok
    rw [hdocs, if_neg h1, if_neg (h3 seq), if_neg h2]
  · rw [Set_err_docs r dg kv now due ref ctx hf hok]

/-- Sequence allocation along a run of `Set` calls on an error-free KV whose
root counter of bucket `D` is absent (`n = 0`) or holds `127 + n`. -/
theorem runSets_seq (dg : Digest) (D : Int) : ∀ (reqs : List SetReq) (r : TimerStore) (kv : KV)
    (n : Nat), kv.faults = [] →
    (n = 0 → kv.docs (r.kvLocatorRoot D) = none) →
    (0 < n → ∃ cas, kv.docs (r.kvLocatorRoot D) = some (Doc.counter (127 + (n : Int)), cas)) →
    127 + (n : Int) + (bucketCount D reqs : Int) ≤ MaxInt64 →
    (runSets dg reqs r kv).2.2.faults = [] ∧
    (runSets dg reqs r kv).2.1.uid = r.uid ∧ (runSets dg reqs r kv).2.1.partn = r.partn ∧
    (n + bucketCount D reqs = 0 → (runSets dg reqs r kv).2.2.docs (r.kvLocatorRoot D) = none) ∧
    (0 < n + bucketCount D reqs → ∃ cas, (runSets dg reqs r kv).2.2.docs (r.kvLocatorRoot D) =
      some (Doc.counter (127 + (n : Int) + (bucketCount D reqs : Int)), cas)) ∧
    (∀ s : Int, s < 128 + (n : Int) ∨ 128 + (n : Int) + (bucketCount D reqs : Int) ≤ s →
      (runSets dg reqs r kv).2.2.docs (r.kvLocatorAlarm D s) = kv.docs (r.kvLocatorAlarm D s)) ∧
    ∀ pre q post, reqs = pre ++ q :: post → setDue q.now q.due = D →
      (runSets dg reqs r kv).1[pre.length]? = some none ∧
      ∃ cas, (runSets dg reqs r kv).2.2.docs
          (r.kvLocatorAlarm D (128 + (n : Int) + (bucketCount D pre : Int))) =
        some (Doc.alarm ⟨D, r.kvLocatorContext dg q.ref⟩, cas) := by
  intro reqs
  induction reqs with
  | nil =>
    intro r kv n hf h0 h1 _
    refine ⟨hf, rfl, rfl, ?_, ?_, fun s _ => rfl, ?_⟩
    · intro h; exact h0 (by simp [bucketCount] at h; exact h)
    · intro h
      obtain ⟨cas, hc⟩ := h1 (by simp [bucketCount] at h; exact h)
      exact ⟨cas, by simp [bucketCount, runSets, hc]⟩
    · intro pre q post h; simp at h
  | cons q0 qs ih =>
    intro r kv n hf h0 h1 hb
    rw [runSets_cons]
    simp only []
    obtain ⟨hu, hp⟩ := Set_ident r dg kv q0.now q0.due q0.ref q0.context
    have hf2 := Set_faults_nil r dg kv q0.now q0.due q0.ref q0.context hf
    rw [bucketCount_cons] at hb ⊢
    by_cases hq : setDue q0.now q0.due = D
    · rw [if_pos hq] at hb ⊢
      have hok : (r.Set dg kv q0.now q0.due q0.ref q0.context).1 = none := by
        apply Set_ok r dg kv q0.now q0.due q0.ref q0.context hf
        rw [hq]
        intro doc cas h
        rcases Nat.eq_zero_or_pos n with hn | hn
        · rw [h0 hn] at h; cases h
        · obtain ⟨cas', h'⟩ := h1 hn
          rw [h'] at h
          simp only [Option.some.injEq, Prod.mk.injEq] at h
          exact ⟨_, h.1.symm⟩
      obtain ⟨seq, c1, c2, c3, hseq, hdocs, _⟩ :=
        Set_success r dg kv q0.now q0.due q0.ref q0.context hok
      rw [hq] at hseq hdocs
      have hseqv : seq = 128 + (n : Int) := by
        rcases hseq with ⟨hnone, h⟩ | ⟨v, c, hv, h⟩
        · rcases Nat.eq_zero_or_pos n with hn | hn
          · rw [h, hn]; rfl
          · obtain ⟨cas', h'⟩ := h1 hn
            rw [h'] at hnone; cases hnone
        · rcases Nat.eq_zero_or_pos n with hn | hn
          · rw [h0 hn] at hv; cases hv
          · obtain ⟨cas', h'⟩ := h1 hn
            rw [h'] at hv
            simp only [Option.some.injEq, Prod.mk.injEq, Doc.counter.injEq] at hv
            rw [h, ← hv.1, wrap64_eq _ (by omega)
              (by unfold MaxInt64 at hb; push_cast at hb; omega)]
            omega
      subst hseqv
      generalize hr1 : (r.Set dg kv q0.now q0.due q0.ref q0.context).2.1 = r1 at *
      generalize hkv1 : (r.Set dg kv q0.now q0.due q0.ref q0.context).2.2 = kv1 at *
      have hroot1 : kv1.docs (r.kvLocatorRoot D) = some (Doc.counter (128 + (n : Int)), c1) := by
        rw [hdocs, if_neg (kvLocatorRoot_ne_context r dg _ _),
          if_neg (kvLocatorRoot_ne_alarm r _ _ _), if_pos rfl]
      have halarm1 : kv1.docs (r.kvLocatorAlarm D (128 + (n : Int))) =
          some (Doc.alarm ⟨D, r.kvLocatorContext dg q0.ref⟩, c2) := by
        rw [hdocs, if_neg (kvLocatorAlarm_ne_context r dg _ _ _), if_pos rfl]
      have IH := ih r1 kv1 (n + 1) hf2 (by omega)
        (fun _ => ⟨c1, by
          rw [kvLocatorRoot_congr r r1 hu hp, hroot1]
          push_cast
          congr 3
          ring⟩)
        (by push_cast; omega)
      simp only [kvLocatorRoot_congr r r1 hu hp, kvLocatorAlarm_congr r r1 hu hp,
        kvLocatorContext_congr r r1 hu hp] at IH
      obtain ⟨i1, i2, i3, i4, i5, i6, i7⟩ := IH
      refine ⟨i1, i2.trans hu, i3.trans hp, ?_, ?_, ?_, ?_⟩
      · intro h; omega
      · intro _
        obtain ⟨cas, hc⟩ := i5 (by omega)
        refine ⟨cas, ?_⟩
        rw [hc]
        push_cast
        congr 3
        ring
      · intro s hs
        rw [i6 s (by push_cast at hs ⊢; omega), hdocs,
          if_neg (kvLocatorAlarm_ne_context r dg _ _ _),
          if_neg (fun h => by have := (kvLocatorAlarm_inj r _ _ _ _ h).2; push_cast at hs; omega),
          if_neg (fun h => kvLocatorRoot_ne_alarm r _ _ _ h.symm)]
      · intro pre q post hsplit hqD
        rcases pre with _ | ⟨p, pre'⟩
        · simp only [List.nil_append, List.cons.injEq] at hsplit
          obtain ⟨rfl, rfl⟩ := hsplit
          refine ⟨by simp [hok], c2, ?_⟩
          rw [i6 _ (by left; simp [bucketCount])]
          simp only [bucketCount, List.filter_nil, List.length_nil, Nat.cast_zero, add_zero]
          exact halarm1
        · simp only [List.cons_append, List.cons.injEq] at hsplit
          obtain ⟨rfl, rfl⟩ := hsplit
          obtain ⟨j1, cas, j2⟩ := i7 pre' q post rfl hqD
          refine ⟨by simpa using j1, cas, ?_⟩
          rw [bucketCount_cons, if_pos hq, ← j2]
          congr 2
          push_cast
          ring
    · rw [if_neg hq] at hb ⊢
      have hframe := Set_frame r dg kv q0.now q0.due q0.ref q0.context hf
      generalize hr1 : (r.Set dg kv q0.now q0.due q0.ref q0.context).2.1 = r1 at *
      generalize hkv1 : (r.Set dg kv q0.now q0.due q0.ref q0.context).2.2 = kv1 at *
      have hroot1 : kv1.docs (r.kvLocatorRoot D) = kv.docs (r.kvLocatorRoot D) :=
        hframe _ (kvLocatorRoot_ne_context r dg _ _)
          (fun h => hq (kvLocatorRoot_inj r _ _ h).symm)
          (fun s => kvLocatorRoot_ne_alarm r _ _ _)
      have halarm1 : ∀ s, kv1.docs (r.kvLocatorAlarm D s) = kv.docs (r.kvLocatorAlarm D s) :=
        fun s => hframe _ (kvLocatorAlarm_ne_context r dg _ _ _)
          (fun h => kvLocatorRoot_ne_alarm r _ _ _ h.symm)
          (fun s' h => hq (kvLocatorAlarm_inj r _ _ _ _ h).1.symm)
      have IH := ih r1 kv1 n hf2
        (fun hn => by rw [kvLocatorRoot_congr r r1 hu hp, hroot1]; exact h0 hn)
        (fun hn => by rw [kvLocatorRoot_congr r r1 hu hp, hroot1]; exact h1 hn)
        (by push_cast at hb ⊢; omega)
      simp only [kvLocatorRoot_congr r r1 hu hp, kvLocatorAlarm_congr r r1 hu hp,
        kvLocatorContext_congr r r1 hu hp] at IH
      obtain ⟨i1, i2, i3, i4, i5, i6, i7⟩ := IH
      refine ⟨i1, i2.trans hu, i3.trans hp, ?_, ?_, ?_, ?_⟩
      · intro h; exact i4 (by omega)
      · intro h
        obtain ⟨cas, hc⟩ := i5 (by omega)
        refine ⟨cas, ?_⟩
        rw [hc]
        push_cast
        congr 3
        ring
      · intro s hs
        rw [i6 s (by push_cast at hs ⊢; omega), halarm1]
      · intro pre q post hsplit hqD
        rcases pre with _ | ⟨p, pre'⟩
        · simp only [List.nil_append, List.cons.injEq] at hsplit
          obtain ⟨rfl, rfl⟩ := hsplit
          exact absurd hqD hq
        · simp only [List.cons_append, List.cons.injEq] at hsplit
          obtain ⟨rfl, rfl⟩ := hsplit
          obtain ⟨j1, cas, j2⟩ := i7 pre' q post rfl hqD
          refine ⟨by simpa using j1, cas, ?_⟩
          rw [bucketCount_cons, if_neg hq, ← j2]
          congr 2
          push_cast
          ring

theorem bucketCount_append (D : Int) (a b : List SetReq) :
    bucketCount D (a ++ b) = bucketCount D a + bucketCount D b := by
  unfold bucketCount
  rw [List.filter_append, List.length_append]

/-- C23: on a sequential, error-free KV whose counter operation creates an
absent key with the initial value, for every run of `Set` calls on a store
whose root counter of bucket `D` is absent at the start (calls into other
buckets may be interleaved; the number of calls into `D` stays within the
`int64` range above 127): the k-th call that lands in `D` returns nil and
receives `seq = 128 + (k - 1)`, that is, the alarm key of that sequence number
is untouched before the call and holds the call's alarm record right after it
and at the end of the run; right after the call the root counter's value is
that `seq`, the highest allocated so far; at the end the root counter holds
`127 +` the number of calls into `D` (and is absent when there were none),
no alarm key of the bucket above the root value was written, every allocated
`seq` lies in `[128, root value]`, and alarm keys of different sequence
numbers are distinct. -/
theorem C23_sequence_allocation (r : TimerStore) (dg : Digest) (kv : KV) (D : Int)
    (reqs : List SetReq) (hf : kv.faults = []) (habs : kv.docs (r.kvLocatorRoot D) = none)
    (hb : 127 + (bucketCount D reqs : Int) ≤ MaxInt64) :
    (∀ pre q post, reqs = pre ++ q :: post → setDue q.now q.due = D →
      (runSets dg reqs r kv).1[pre.length]? = some none ∧
      (runSets dg pre r kv).2.2.docs (r.kvLocatorAlarm D (128 + (bucketCount D pre : Int))) =
        kv.docs (r.kvLocatorAlarm D (128 + (bucketCount D pre : Int))) ∧
      (∃ cas, (runSets dg (pre ++ [q]) r kv).2.2.docs
          (r.kvLocatorAlarm D (128 + (bucketCount D pre : Int))) =
        some (Doc.alarm ⟨D, r.kvLocatorContext dg q.ref⟩, cas)) ∧
      (∃ cas, (runSets dg (pre ++ [q]) r kv).2.2.docs (r.kvLocatorRoot D) =
        some (Doc.counter (128 + (bucketCount D pre : Int)), cas)) ∧
      (∃ cas, (runSets dg reqs r kv).2.2.docs
          (r.kvLocatorAlarm D (128 + (bucketCount D pre : Int))) =
        some (Doc.alarm ⟨D, r.kvLocatorContext dg q.ref⟩, cas)) ∧
      init_seq ≤ 128 + (bucketCount D pre : Int) ∧
      128 + (bucketCount D pre : Int) ≤ 127 + (bucketCount D reqs : Int)) ∧
    (0 < bucketCount D reqs → ∃ cas, (runSets dg reqs r kv).2.2.docs (r.kvLocatorRoot D) =
      some (Doc.counter (127 + (bucketCount D reqs : Int)), cas)) ∧
    (bucketCount D reqs = 0 → (runSets dg reqs r kv).2.2.docs (r.kvLocatorRoot D) = none) ∧
    (∀ s : Int, 128 + (bucketCount D reqs : Int) ≤ s →
      (runSets dg reqs r kv).2.2.docs (r.kvLocatorAlarm D s) = kv.docs (r.kvLocatorAlarm D s)) ∧
    ∀ s s' : Int, r.kvLocatorAlarm D s = r.kvLocatorAlarm D s' → s = s' := by
  obtain ⟨_, _, _, a4, a5, a6, a7⟩ := runSets_seq dg D reqs r kv 0 hf (fun _ => habs)
    (fun h => absurd h (lt_irrefl 0)) (by push_cast; omega)
  simp only [Nat.cast_zero, add_zero, zero_add] at a4 a5 a6 a7
  refine ⟨?_, a5, a4, fun s hs => a6 s (Or.inr hs),
    fun s s' h => (kvLocatorAlarm_inj r _ _ _ _ h).2⟩
  intro pre q post hsplit hq
  have hcnt : bucketCount D reqs = bucketCount D pre + 1 + bucketCount D post := by
    rw [hsplit, bucketCount_append, bucketCount_cons, if_pos hq]; omega
  have hone : bucketCount D (pre ++ [q]) = bucketCount D pre + 1 := by
    rw [bucketCount_append, bucketCount_cons, if_pos hq]; rfl
  have hb2 : 127 + (bucketCount D pre : Int) + 1 + (bucketCount D post : Int) ≤ MaxInt64 := by
    rw [hcnt] at hb; push_cast at hb; omega
  obtain ⟨e1, e2⟩ := a7 pre q post hsplit hq
  obtain ⟨_, _, _, _, _, b6, _⟩ := runSets_seq dg D pre r kv 0 hf (fun _ => habs)
    (fun h => absurd h (lt_irrefl 0)) (by push_cast; omega)
  obtain ⟨_, _, _, _, c5, _, c7⟩ := runSets_seq dg D (pre ++ [q]) r kv 0 hf (fun _ => habs)
    (fun h => absurd h (lt_irrefl 0)) (by rw [hone]; push_cast; omega)
  simp only [Nat.cast_zero, add_zero, zero_add] at b6 c5 c7
  refine ⟨e1, b6 _ (Or.inr (le_refl _)), (c7 pre q [] rfl hq).2, ?_, e2, ?_, ?_⟩
  · obtain ⟨cas, hc⟩ := c5 (by rw [hone]; omega)
    refine ⟨cas, ?_⟩
    rw [hc, hone]
    push_cast
    congr 3
    ring
  · unfold init_seq; omega
  · rw [hcnt]; push_cast; omega

/-- Witness for `C23_sequence_allocation`: the three `Set` calls of `exReqs3`
into bucket 1008 on the empty KV; they receive 128, 129 and 130, and after
`Cancel` of the middle one a scan yields the sequence numbers 128 and 130. -/
theorem C23_sequence_allocation_witness :
    ((∀ pre q post, exReqs3 = pre ++ q :: post → setDue q.now q.due = 1008 →
      (runSets exDigest exReqs3 exStore exKV).1[pre.length]? = some none ∧
      (runSets exDigest pre exStore exKV).2.2.docs
          (exStore.kvLocatorAlarm 1008 (128 + (bucketCount 1008 pre : Int))) =
        exKV.docs (exStore.kvLocatorAlarm 1008 (128 + (bucketCount 1008 pre : Int))) ∧
      (∃ cas, (runSets exDigest (pre ++ [q]) exStore exKV).2.2.docs
          (exStore.kvLocatorAlarm 1008 (128 + (bucketCount 1008 pre : Int))) =
        some (Doc.alarm ⟨1008, exStore.kvLocatorContext exDigest q.ref⟩, cas)) ∧
      (∃ cas, (runSets exDigest (pre ++ [q]) exStore exKV).2.2.docs (exStore.kvLocatorRoot 1008) =
        some (Doc.counter (128 + (bucketCount 1008 pre : Int)), cas)) ∧
      (∃ cas, (runSets exDigest exReqs3 exStore exKV).2.2.docs
          (exStore.kvLocatorAlarm 1008 (128 + (bucketCount 1008 pre : Int))) =
        some (Doc.alarm ⟨1008, exStore.kvLocatorContext exDigest q.ref⟩, cas)) ∧
      init_seq ≤ 128 + (bucketCount 1008 pre : Int) ∧
      128 + (bucketCount 1008 pre : Int) ≤ 127 + (bucketCount 1008 exReqs3 : Int)) ∧
    (0 < bucketCount 1008 exReqs3 →
      ∃ cas, (runSets exDigest exReqs3 exStore exKV).2.2.docs (exStore.kvLocatorRoot 1008) =
        some (Doc.counter (127 + (bucketCount 1008 exReqs3 : Int)), cas)) ∧
    (bucketCount 1008 exReqs3 = 0 →
      (runSets exDigest exReqs3 exStore exKV).2.2.docs (exStore.kvLocatorRoot 1008) = none) ∧
    (∀ s : Int, 128 + (bucketCount 1008 exReqs3 : Int) ≤ s →
      (runSets exDigest exReqs3 exStore exKV).2.2.docs (exStore.kvLocatorAlarm 1008 s) =
        exKV.docs (exStore.kvLocatorAlarm 1008 s)) ∧
    ∀ s s' : Int, exStore.kvLocatorAlarm 1008 s = exStore.kvLocatorAlarm 1008 s' → s = s') ∧
    (runSets exDigest exReqs3 exStore exKV).1 = [none, none, none] ∧
    (runSets exDigest exReqs3 exStore exKV).2.2.docs (exStore.kvLocatorRoot 1008) =
      some (Doc.counter 130, 8) ∧
    [128, 129, 130].map (fun s =>
        (runSets exDigest exReqs3 exStore exKV).2.2.docs (exStore.kvLocatorAlarm 1008 s)) =
      [some (Doc.alarm ⟨1008, exStore.kvLocatorContext exDigest "r1"⟩, 3),
        some (Doc.alarm ⟨1008, exStore.kvLocatorContext exDigest "r2"⟩, 6),
        some (Doc.alarm ⟨1008, exStore.kvLocatorContext exDigest "r3"⟩, 9)] ∧
    exCancel3.1 = none ∧
    exCancel3.2.2.docs (exStore.kvLocatorAlarm 1008 129) = none ∧
    exRun3.1.map (fun p => (p.1, p.2.alarmSeq, p.2.Context)) =
      [(1008, 128, "c1"), (1008, 130, "c3")] ∧
    exRun3.2.1 = ScanEnd.exhausted :=
  ⟨C23_sequence_allocation exStore exDigest exKV 1008 exReqs3 rfl rfl (by decide),
    by decide, by decide, by decide, by decide, by decide, by decide, by decide⟩

/-- C24: for every store and time `t` with `span.Start > roundDown(t)`,
`ScanDue` returns the nil iterator, `ScanNext` on it returns `(nil, nil)`
whatever fuel it is given, the KV (its fault schedule included) is exactly as
before, so no KV operation took place, and the span is unchanged. -/
theorem C24_future_span_empty_scan (r : TimerStore) (kv : KV) (t now : Int) (fuel : Nat)
    (h : r.span.Start > roundDown t) :
    (r.ScanDue t).1 = none ∧ (r.ScanDue t).2.span = r.span ∧
    ScanNext (r.ScanDue t).1 fuel now (r.ScanDue t).2 kv =
      some (none, none, none, (r.ScanDue t).2, kv) := by
  have h1 : (r.ScanDue t).1 = none := by
    unfold TimerStore.ScanDue TimerStore.readSpan
    simp only []
    rw [if_pos h]
  have h2 : (r.ScanDue t).2.span = r.span := (ScanDue_iter r t).2.2.2
  refine ⟨h1, h2, ?_⟩
  rw [h1]
  rfl

/-- Witness for `C24_future_span_empty_scan`: the store `exStoreLate`, whose
span starts at 1015, scanned at time 1000. -/
theorem C24_future_span_empty_scan_witness :
    (exStoreLate.ScanDue 1000).1 = none ∧ (exStoreLate.ScanDue 1000).2.span = exStoreLate.span ∧
    ScanNext (exStoreLate.ScanDue 1000).1 5 1000 (exStoreLate.ScanDue 1000).2 exKV =
      some (none, none, none, (exStoreLate.ScanDue 1000).2, exKV) :=
  C24_future_span_empty_scan exStoreLate exKV 1000 1000 5 (by decide)

/-- On an error-free KV, for every entry with `topCas != 0` whose context
removal reports no mismatch, `Delete` reaches the root-counter removal and
applies `shrinkSpan(entry.AlarmDue)` whatever that removal reports, absent and
mismatch included. -/
theorem Delete_shrinks_span (r : TimerStore) (kv : KV) (entry : TimerEntry)
    (hf : kv.faults = []) (htop : entry.topCas ≠ 0)
    (hmm : (MustRemove (MustRemove kv entry.AlarmRef 0).2.2.2.2 entry.ContextRef
      entry.ctxCas).2.2.1 = false) :
    (r.Delete kv entry).1 = none ∧
    (r.Delete kv entry).2.1.span = (r.shrinkSpan entry.AlarmDue).span ∧
    (r.Delete kv entry).2.1.span.Start = max r.span.Start entry.AlarmDue ∧
    (r.Delete kv entry).2.1.span.Stop = r.span.Stop ∧
    (r.Delete kv entry).2.1.span.dirty =
      (if r.span.Start < entry.AlarmDue then true else r.span.dirty) := by
  have hspan : (r.Delete kv entry).1 = none ∧
      (r.Delete kv entry).2.1.span = (r.shrinkSpan entry.AlarmDue).span := by
    unfold TimerStore.Delete
    simp only []
    obtain ⟨c1, ab1, mm1, kv1, h1, hf1, _⟩ := MustRemove_any kv entry.AlarmRef 0 hf
    rw [h1] at hmm ⊢
    simp only [] at hmm ⊢
    obtain ⟨c2, ab2, mm2, kv2, h2, hf2, _⟩ := MustRemove_any kv1 entry.ContextRef entry.ctxCas hf1
    rw [h2] at hmm ⊢
    simp only [] at hmm ⊢
    subst hmm
    simp only [Bool.false_eq_true, if_false, htop]
    generalize hr2 : (if ab2 = true then
        (r.addStat timerStats.addDelCounter).addStat timerStats.addContextMissingCounter
      else r.addStat timerStats.addDelCounter) = r2
    have hs2 : r2.span = r.span := by subst hr2; split <;> rfl
    obtain ⟨c3, ab3, mm3, kv3, h3, _, _⟩ :=
      MustRemove_any kv2 (r2.kvLocatorRoot entry.AlarmDue) entry.topCas hf2
    rw [h3]
    simp only [TimerStore.addStat_span]
    refine ⟨trivial, ?_⟩
    have : ∀ x : TimerStore, x.span = r.span →
        (x.shrinkSpan entry.AlarmDue).span = (r.shrinkSpan entry.AlarmDue).span := by
      intro x hx
      unfold TimerStore.shrinkSpan
      rw [hx]
      split <;> simp only [hx]
    apply this
    split
    · simp only [TimerStore.addStat_span]; exact hs2
    · exact hs2
  obtain ⟨h0, h1⟩ := hspan
  refine ⟨h0, h1, ?_, ?_, ?_⟩
  · rw [h1]
    unfold TimerStore.shrinkSpan
    split
    · show entry.AlarmDue = max r.span.Start entry.AlarmDue
      exact (max_eq_right (by omega)).symm
    · exact (max_eq_left (by omega)).symm
  · rw [h1]
    unfold TimerStore.shrinkSpan
    split <;> rfl
  · rw [h1]
    unfold TimerStore.shrinkSpan
    split <;> rfl

/-- C26 (failing input): the KV `exKVOrphan` holds the context record of `r1`
but not the alarm record `exEntryOrphan.AlarmRef`. `Delete(exEntryOrphan)`
finds the alarm absent, goes on to remove the context record and returns nil,
and `alarmMissingCounter` is still 0. The same holds with a non-zero `topCas`
that matches a present root counter (`exSet1` after the alarm was removed):
the root is removed and `alarmMissingCounter` is still 0. -/
theorem C26_missing_alarm_not_counted :
    (exKVOrphan.docs exEntryOrphan.AlarmRef = none ∧
      (MustRemove exKVOrphan exEntryOrphan.AlarmRef 0).2.1 = true ∧
      (exStore.Delete exKVOrphan exEntryOrphan).1 = none ∧
      (exStore.Delete exKVOrphan exEntryOrphan).2.2.docs exEntryOrphan.ContextRef = none ∧
      exStore.stats.alarmMissingCounter = 0 ∧
      (exStore.Delete exKVOrphan exEntryOrphan).2.1.stats.alarmMissingCounter = 0 ∧
      (exStore.Delete exKVOrphan exEntryOrphan).2.1.stats.delCounter = 1) ∧
    ((exSet1.2.2.erase exEntry1.AlarmRef).docs exEntry1.AlarmRef = none ∧
      (exSet1.2.1.Delete (exSet1.2.2.erase exEntry1.AlarmRef) exEntry1).1 = none ∧
      (exSet1.2.1.Delete (exSet1.2.2.erase exEntry1.AlarmRef) exEntry1).2.2.docs
        (exStore.kvLocatorRoot 1008) = none ∧
      (exSet1.2.1.Delete (exSet1.2.2.erase exEntry1.AlarmRef) exEntry1).2.1.stats.alarmMissingCounter
        = 0 ∧
      (exSet1.2.1.Delete (exSet1.2.2.erase exEntry1.AlarmRef) exEntry1).2.1.stats.delSuccessCounter
        = 1) := by
  decide

/-- A `syncSpan` call on a dirty span returns with the dirty flag cleared,
whatever the KV does. -/
theorem syncSpan_clears_dirty (r : TimerStore) (kv : KV) (now : Int) (mid : KV → KV)
    (hd : r.span.dirty = true) : (r.syncSpan kv now mid).2.1.span.dirty = false := by
  obtain ⟨connstr, bucket, uid, partn, ⟨⟨S, T⟩, empty, dirty, scas⟩, stats⟩ := r
  simp only [] at hd
  subst hd
  unfold TimerStore.syncSpan
  simp only [TimerStore.addStat, Bool.not_true, Bool.false_and, Bool.false_eq_true, if_false]
  generalize MustGet Doc.asSpan kv _ _ = g
  obtain ⟨rcas, absent, err, ext, kv1⟩ := g
  simp only []
  rcases err with _ | e
  · simp only []
    split
    · split <;> rfl
    · split
      · split <;> rfl
      · split
        · rfl
        · split
          · rfl
          · split
            · split <;> rfl
            · split <;> split <;> split <;> rfl
  · rfl

/-- C27 (failing input): the dirty store `exStoreSync` syncs against
`exKVSpan`. When the read exhausts its retries, or the replace does, `syncSpan`
returns `ErrRetryTimeout`; when another node's write makes the replace report
a mismatch or absent, it returns nil. In all four runs nothing of the local
span was persisted under the store's CAS and the dirty flag is false on
return; and so it is after every `syncSpan` call on a dirty span. -/
theorem C27_failed_sync_not_pending :
    exStoreSync.span.dirty = true ∧
    ((exStoreSync.syncSpan { exKVSpan with faults := [true] } 1000 id).1 =
        some Error.ErrRetryTimeout ∧
      (exStoreSync.syncSpan { exKVSpan with faults := [true] } 1000 id).2.1.span.dirty = false ∧
      (exStoreSync.syncSpan { exKVSpan with faults := [true] } 1000 id).2.2.docs
        exStoreSync.kvLocatorSpan = some (Doc.span ⟨700, 1800⟩, 2)) ∧
    ((exStoreSync.syncSpan { exKVSpan with faults := [false, true] } 1000 id).1 =
        some Error.ErrRetryTimeout ∧
      (exStoreSync.syncSpan { exKVSpan with faults := [false, true] } 1000 id).2.1.span.dirty
        = false ∧
      (exStoreSync.syncSpan { exKVSpan with faults := [false, true] } 1000 id).2.2.docs
        exStoreSync.kvLocatorSpan = some (Doc.span ⟨700, 1800⟩, 2)) ∧
    ((exStoreSync.syncSpan exKVSpan 1000 exMidWrite).1 = none ∧
      (exStoreSync.syncSpan exKVSpan 1000 exMidWrite).2.1.span.dirty = false ∧
      (exStoreSync.syncSpan exKVSpan 1000 exMidWrite).2.2.docs exStoreSync.kvLocatorSpan =
        some (Doc.span ⟨0, 2100⟩, 3)) ∧
    ((exStoreSync.syncSpan exKVSpan 1000 exMidErase).1 = none ∧
      (exStoreSync.syncSpan exKVSpan 1000 exMidErase).2.1.span.dirty = false ∧
      (exStoreSync.syncSpan exKVSpan 1000 exMidErase).2.2.docs exStoreSync.kvLocatorSpan =
        none) ∧
    (∀ (r : TimerStore) (kv : KV) (now : Int) (mid : KV → KV), r.span.dirty = true →
      (r.syncSpan kv now mid).2.1.span.dirty = false) :=
  ⟨by decide, by decide, by decide, by decide, by decide, syncSpan_clears_dirty⟩

/-- A drain loop that ends exhausted has applied exactly one `shrinkSpan`, with
the argument `row.stop - Resolution`, to the span. -/
theorem scanAll_span (clk : Nat → Int) : ∀ (F : Nat) (it : TimerIter) (r : TimerStore) (kv : KV),
    (scanAll clk F (some it) r kv).2.1 = ScanEnd.exhausted →
    (scanAll clk F (some it) r kv).2.2.2.1.span =
      (r.shrinkSpan (wrap64 (it.row.stop - Resolution))).span := by
  intro F
  induction F with
  | zero => intro it r kv h; simp [scanAll] at h
  | succ n ih =>
    intro it r kv h
    rw [scanAll_succ] at h ⊢
    rcases hs : ScanNext (some it) n (clk n) r kv with _ | ⟨res, err, it', r', kv'⟩
    · rw [hs] at h; simp at h
    · rw [hs] at h
      obtain ⟨i', rfl, _, hpost⟩ := ScanNext_some it n (clk n) r kv _ _ _ _ _ hs
      rcases res with _ | e
      · rcases err with _ | er
        · simp only []
          exact (hpost.2.2.2.2.2.2.2.2.1 rfl rfl).2.1
        · simp at h
      · simp only [] at h ⊢
        obtain ⟨_, _, _, _, p5, _, _, p8, _, _⟩ := hpost
        obtain ⟨_, _, _, hsp, _⟩ := p8 e rfl
        rw [ih i' r' kv' h, p5]
        exact shrinkSpan_span_congr r r' hsp _

/-- The state after the two calls of `exReqs2` respects the key schema. -/
theorem exSets2_schema : Schema exStore exSets2.2.2.docs (MaxInt64 - 1) := by
  have h1 : Schema exStore exSet1.2.2.docs (init_seq + 1) :=
    Set_schema exStore exDigest exKV 1000 1001 "r1" "c1" init_seq (Schema_empty exStore _)
      (le_refl _) (by decide) (by decide)
  have h2 := Set_schema exStore exDigest exSet1.2.2 1000 1020 "r2" "c2" (init_seq + 1) h1
    (by decide) (by decide) (by decide)
  have h3 : Schema exStore exSets2.2.2.docs (init_seq + 1 + 1) := h2
  obtain ⟨s1, s2, s3⟩ := h3
  refine ⟨?_, s2, s3⟩
  intro d doc cas h
  obtain ⟨v, hv, hlo, hhi⟩ := s1 d doc cas h
  exact ⟨v, hv, hlo, by unfold init_seq at hhi; unfold MaxInt64; omega⟩

/-- C28 (amended): on an error-free KV whose documents decode, without
`int64` wrap-around and with enough fuel, a scan drained until `ScanNext`
returns nil ends exhausted, its final `nextRow` applied
`shrinkSpan(row.stop - Resolution)` to the span the scan started with (so
`Start` becomes the larger of the old `Start` and `row.stop - Resolution`,
`Stop` is unchanged), and every position that was still to be probed (a column
of the current row, or a column between `init_seq` and the root counter of a
later row up to `row.stop`) and held an alive timer was yielded by this scan:
a row the scan examined either had no root counter or had the alive timers of
its column range yielded. -/
theorem C28_end_of_scan_shrink (clk : Nat → Int) (F : Nat) (it : TimerIter) (r : TimerStore)
    (kv : KV) (hn : NoWrapIt r kv.docs it) (hf : kv.faults = []) (hbad : ¬ BadDoc r kv.docs)
    (hF : scanNeed it + (it.row.stop - it.row.current).toNat + 18446744073709551618 ≤ F) :
    (scanAll clk F (some it) r kv).2.1 = ScanEnd.exhausted ∧
    (scanAll clk F (some it) r kv).2.2.2.1.span.Start =
      max r.span.Start (wrap64 (it.row.stop - Resolution)) ∧
    (scanAll clk F (some it) r kv).2.2.2.1.span.Stop = r.span.Stop ∧
    (∀ b s, Pending r kv.docs it b s → Alive r kv.docs b s →
      ∃ p ∈ (scanAll clk F (some it) r kv).1, p.1 = b ∧ p.2.alarmSeq = s) ∧
    ∀ p ∈ (scanAll clk F (some it) r kv).1, Yielded r kv.docs p.1 p.2 := by
  obtain ⟨hend, hall⟩ := scanAll_complete clk F it r kv hn hf hbad hF
  have hspan := scanAll_span clk F it r kv hend
  refine ⟨hend, ?_, ?_, hall, scanAll_yielded clk F _ r kv⟩
  · rw [hspan]
    unfold TimerStore.shrinkSpan
    split_ifs with h
    · exact (max_eq_right (le_of_lt h)).symm
    · exact (max_eq_left (not_lt.1 h)).symm
  · rw [hspan]
    unfold TimerStore.shrinkSpan
    split_ifs <;> rfl

/-- Witness for `C28_end_of_scan_shrink`: the scan of rows 994 to 1022 after
the two `Set` calls of `exReqs2`. -/
theorem C28_end_of_scan_shrink_witness :
    (scanAll (fun _ => 1030) 534955578137576996894
      (some ⟨⟨994, 1022, 994⟩, none, none⟩) exStore exSets2.2.2).2.1 = ScanEnd.exhausted ∧
    (scanAll (fun _ => 1030) 534955578137576996894
      (some ⟨⟨994, 1022, 994⟩, none, none⟩) exStore exSets2.2.2).2.2.2.1.span.Start =
      max exStore.span.Start (wrap64 ((1022 : Int) - Resolution)) ∧
    (scanAll (fun _ => 1030) 534955578137576996894
      (some ⟨⟨994, 1022, 994⟩, none, none⟩) exStore exSets2.2.2).2.2.2.1.span.Stop =
      exStore.span.Stop ∧
    (∀ b s, Pending exStore exSets2.2.2.docs ⟨⟨994, 1022, 994⟩, none, none⟩ b s →
      Alive exStore exSets2.2.2.docs b s →
      ∃ p ∈ (scanAll (fun _ => 1030) 534955578137576996894
        (some ⟨⟨994, 1022, 994⟩, none, none⟩) exStore exSets2.2.2).1,
        p.1 = b ∧ p.2.alarmSeq = s) ∧
    ∀ p ∈ (scanAll (fun _ => 1030) 534955578137576996894
        (some ⟨⟨994, 1022, 994⟩, none, none⟩) exStore exSets2.2.2).1,
      Yielded exStore exSets2.2.2.docs p.1 p.2 :=
  C28_end_of_scan_shrink (fun _ => 1030) 534955578137576996894 ⟨⟨994, 1022, 994⟩, none, none⟩
    exStore exSets2.2.2
    ⟨by decide, by decide, (by intro c h; cases h),
      Schema_roots_bounded exStore _ _ exSets2_schema (by decide)⟩
    (by decide) (Schema_no_bad exStore _ _ exSets2_schema) (by decide)

/-- C28 (counterexample): after `Set` calls that land in the buckets 1008 and
1022, the scan created at time 1030 over the span `[994, 1022]` yields the
timer of row 1008 and then the timer of row 1022 and ends exhausted; its final
`nextRow` advances `span.Start` from 994 to `row.stop - Resolution = 1015`.
The bucket-aligned row 1008 lies inside the iterator's range and strictly below
the new `Start`, yet it had a root counter when the scan examined it, and the
alive timer the scan yielded from it, which nobody deleted, lies below the new
`span.Start`. -/
theorem C28_counterexample :
    exSets2.1 = [none, none] ∧
    (exSets2.2.1.ScanDue 1030).1 = some ⟨⟨994, 1022, 994⟩, none, none⟩ ∧
    (exSets2.2.1.ScanDue 1030).2.span.Start = 994 ∧
    exRun2.1.map (fun p => (p.1, p.2.alarmSeq, p.2.Context)) =
      [(1008, 128, "c1"), (1022, 128, "c2")] ∧
    exRun2.2.1 = ScanEnd.exhausted ∧
    exRun2.2.2.2.1.span.Start = 1015 ∧
    (1008 : Int) % Resolution = 0 ∧ (994 : Int) < 1008 ∧ (1008 : Int) < 1015 ∧
    exRun2.2.2.2.2.docs (exStore.kvLocatorRoot 1008) = some (Doc.counter 128, 2) ∧
    exRun2.2.2.2.2.docs (exStore.kvLocatorAlarm 1008 128) =
      some (Doc.alarm ⟨1008, exStore.kvLocatorContext exDigest "r1"⟩, 3) ∧
    exRun2.2.2.2.2.docs (exStore.kvLocatorContext exDigest "r1") =
      some (Doc.context ⟨"c1", exStore.kvLocatorAlarm 1008 128⟩, 4) := by
  decide

/-- The span a store holds after `expandSpan`. -/
theorem expandSpan_post (r : TimerStore) (p : Int) :
    (r.expandSpan p).span.Start = min r.span.Start p ∧
    (r.expandSpan p).span.Stop = max r.span.Stop p ∧
    (r.expandSpan p).span.dirty =
      (if r.span.Start > p ∨ r.span.Stop < p then true else r.span.dirty) ∧
    (r.expandSpan p).span.empty = r.span.empty ∧
    (r.expandSpan p).span.spanCas = r.span.spanCas := by
  unfold TimerStore.expandSpan
  simp only []
  by_cases h1 : r.span.Start > p <;> by_cases h2 : r.span.Stop < p
  · simp only [h1, h2, if_true, true_or]
    exact ⟨(min_eq_right (by omega)).symm, (max_eq_right (by omega)).symm, trivial, trivial, trivial⟩
  · simp only [h1, h2, if_true, if_false, true_or]
    exact ⟨(min_eq_right (by omega)).symm, (max_eq_left (by omega)).symm, trivial, trivial, trivial⟩
  · simp only [h1, h2, if_true, if_false, or_true]
    exact ⟨(min_eq_left (by omega)).symm, (max_eq_right (by omega)).symm, trivial, trivial, trivial⟩
  · simp only [h1, h2, if_false, or_self]
    exact ⟨(min_eq_left (by omega)).symm, (max_eq_left (by omega)).symm, trivial, trivial, trivial⟩

/-- C29: for every span and point `p`, after `expandSpan(p)`
`Start' = min(Start, p)` and `Stop' = max(Stop, p)`, hence
`Start' <= p <= Stop'`; the dirty flag is set when `Start` or `Stop` changed
and keeps its value otherwise; `empty` and `spanCas` are unchanged.
Consequently after every successful `Set` the `AlarmDue` it stored lies within
`[span.Start, span.Stop]`. -/
theorem C29_expandSpan_post (r : TimerStore) (p : Int) (dg : Digest) (kv : KV) (now due : Int)
    (ref ctx : String) :
    (r.expandSpan p).span.Start = min r.span.Start p ∧
    (r.expandSpan p).span.Stop = max r.span.Stop p ∧
    (r.expandSpan p).span.Start ≤ p ∧ p ≤ (r.expandSpan p).span.Stop ∧
    (r.expandSpan p).span.dirty =
      (if (r.expandSpan p).span.Start ≠ r.span.Start ∨ (r.expandSpan p).span.Stop ≠ r.span.Stop
        then true else r.span.dirty) ∧
    (r.expandSpan p).span.empty = r.span.empty ∧
    (r.expandSpan p).span.spanCas = r.span.spanCas ∧
    ((r.Set dg kv now due ref ctx).1 = none →
      ∃ seq acas, (r.Set dg kv now due ref ctx).2.2.docs (r.kvLocatorAlarm (setDue now due) seq) =
          some (Doc.alarm ⟨setDue now due, r.kvLocatorContext dg ref⟩, acas) ∧
        (r.Set dg kv now due ref ctx).2.1.span.Start ≤ setDue now due ∧
        setDue now due ≤ (r.Set dg kv now due ref ctx).2.1.span.Stop) := by
  obtain ⟨e1, e2, e3, e4, e5⟩ := expandSpan_post r p
  refine ⟨e1, e2, by rw [e1]; exact min_le_right _ _, by rw [e2]; exact le_max_right _ _, ?_,
    e4, e5, ?_⟩
  · rw [e3, e1, e2]
    congr 1
    apply propext
    constructor
    · rintro (h | h)
      · left; rw [min_eq_right (by omega)]; omega
      · right; rw [max_eq_right (by omega)]; omega
    · rintro (h | h)
      · left
        by_contra hc
        exact h (min_eq_left (by omega))
      · right
        by_contra hc
        exact h (max_eq_left (by omega))
  · intro hok
    obtain ⟨seq, c1, c2, c3, _, hdocs, _, _, _, _, _, _, hspan⟩ :=
      Set_success r dg kv now due ref ctx hok
    obtain ⟨f1, f2, _⟩ := expandSpan_post r (setDue now due)
    refine ⟨seq, c2, ?_, ?_, ?_⟩
    · rw [hdocs, if_neg (kvLocatorAlarm_ne_context r dg _ _ ref), if_pos rfl]
    · have : (r.Set dg kv now due ref ctx).2.1.span.Start = (r.expandSpan (setDue now due)).span.Start :=
        congrArg Span.Start hspan
      rw [this, f1]; exact min_le_right _ _
    · have : (r.Set dg kv now due ref ctx).2.1.span.Stop = (r.expandSpan (setDue now due)).span.Stop :=
        congrArg Span.Stop hspan
      rw [this, f2]; exact le_max_right _ _

/-- C30: for every span and value `s`, after `shrinkSpan(s)`
`Start' = max(Start, s)`, `Stop` is unchanged, the dirty flag is set exactly
when `Start < s` held and keeps its value otherwise, `empty` and `spanCas` are
unchanged; `Start` never decreases and `shrinkSpan` is idempotent. -/
theorem C30_shrinkSpan_post (r : TimerStore) (s : Int) :
    (r.shrinkSpan s).span.Start = max r.span.Start s ∧
    (r.shrinkSpan s).span.Stop = r.span.Stop ∧
    (r.shrinkSpan s).span.dirty = (if r.span.Start < s then true else r.span.dirty) ∧
    (r.shrinkSpan s).span.empty = r.span.empty ∧
    (r.shrinkSpan s).span.spanCas = r.span.spanCas ∧
    r.span.Start ≤ (r.shrinkSpan s).span.Start ∧
    (r.shrinkSpan s).shrinkSpan s = r.shrinkSpan s := by
  unfold TimerStore.shrinkSpan
  by_cases h : r.span.Start < s
  · simp only [h, if_true, lt_self_iff_false, if_false]
    exact ⟨(max_eq_right (by omega)).symm, trivial, trivial, trivial, trivial, by omega, trivial⟩
  · simp only [h, if_false]
    exact ⟨(max_eq_left (by omega)).symm, trivial, trivial, trivial, trivial, le_refl _, trivial⟩

/-! ## Termination of the scan and the digest encoding -/

/-- On a drained iterator `ScanNext` performs no KV operation and returns nil:
`nextColumn` finds no column, the loop of `nextRow` is not entered and
`shrinkSpan` is applied once more. -/
theorem scanLoop_drained (it : TimerIter) (hd : Drained it) (now : Int) (fuel : Nat)
    (r : TimerStore) (kv : KV) :
    it.scanLoop now (fuel + 2) r kv =
      some (none, none, { it with col := none, entry := none },
        ((r.addStat timerStats.addScanColumnCounter).addStat
          timerStats.addScanRowCounter).shrinkSpan (wrap64 (it.row.stop - Resolution)), kv) := by
  obtain ⟨row, col, entry⟩ := it
  obtain ⟨h1, h2⟩ := hd
  simp only [] at h1 h2
  subst h1
  simp [TimerIter.scanLoop, TimerIter.nextColumn, TimerIter.nextRow, TimerIter.nextRowLoop,
    not_lt.2 h2]

/-- C31: for every iterator whose row cursor is an `int64` and whose
`row.stop` is at most `MaxInt64 - Resolution`, with every column bound (the one
the iterator holds and those stored in root counters) below `MaxInt64`, and
for every KV state, fault schedule included, a call of `ScanNext` returns
(given fuel beyond the distance to `row.stop` plus the longest column). When
it yields an entry, the number of positions left to probe has strictly
decreased and the conditions hold again for the next call; when it returns
nil without error the iterator is drained (no column, row cursor at or past
`row.stop`), and on a drained iterator every further call returns nil without
error, performs no KV operation and leaves the iterator drained. -/
theorem C31_scanNext_terminates (now : Int) (fuel : Nat) (it : TimerIter) (r : TimerStore)
    (kv : KV) (hn : NoWrapIt r kv.docs it)
    (hfuel : (it.row.stop - it.row.current).toNat + 18446744073709551616 < fuel) :
    (∃ res err it' r' kv',
      ScanNext (some it) fuel now r kv = some (res, err, some it', r', kv') ∧
      (∀ e, res = some e → scanNeed it' < scanNeed it ∧
        (it'.row.stop - it'.row.current).toNat ≤ (it.row.stop - it.row.current).toNat ∧
        NoWrapIt r' kv'.docs it') ∧
      (res = none → err = none → Drained it')) ∧
    ∀ it1, Drained it1 → ∀ (fuel2 : Nat) (now2 : Int) (r2 : TimerStore) (kv2 : KV),
      2 ≤ fuel2 → ∃ it2 r3,
        ScanNext (some it1) fuel2 now2 r2 kv2 = some (none, none, some it2, r3, kv2) ∧
        Drained it2 ∧ it2.row = it1.row := by
  constructor
  · obtain ⟨⟨res, err, it', r', kv'⟩, hsl⟩ := scanLoop_total now fuel it r kv hn hfuel
    have hpost := scanLoop_post now fuel it r kv _ _ _ _ _ hsl
    refine ⟨res, err, it', r', kv', by unfold ScanNext; simp only [hsl], ?_, ?_⟩
    · intro e he
      subst he
      obtain ⟨h1, h2⟩ := scanNeed_step r kv it it' e err r' kv' hpost hn
      obtain ⟨p1, _, p3, p4, _, _, _, p8, _, _⟩ := hpost
      obtain ⟨_, _, _, _, _, e6⟩ := p8 e rfl
      refine ⟨h1, h2, ?_⟩
      rw [p1, NoWrapIt_congr r r' p3 p4]
      exact (e6 hn).1
    · intro h1 h2
      obtain ⟨_, _, _, _, p5, _, _, _, p9, _⟩ := hpost
      obtain ⟨c1, _, c3⟩ := p9 h1 h2
      exact ⟨c1, by rw [p5]; exact (c3 hn).1⟩
  · intro it1 hd fuel2 now2 r2 kv2 hf
    obtain ⟨n, rfl⟩ : ∃ n, fuel2 = n + 2 := ⟨fuel2 - 2, by omega⟩
    refine ⟨{ it1 with col := none, entry := none },
      ((r2.addStat timerStats.addScanColumnCounter).addStat
        timerStats.addScanRowCounter).shrinkSpan (wrap64 (it1.row.stop - Resolution)),
      ?_, ⟨rfl, hd.2⟩, rfl⟩
    unfold ScanNext
    simp only [scanLoop_drained it1 hd now2 n r2 kv2]

/-- Witness for `C31_scanNext_terminates`: the iterator over the rows 994 to
1022 after the two `Set` calls of `exReqs2`. -/
theorem C31_scanNext_terminates_witness :
    (∃ res err it' r' kv',
      ScanNext (some ⟨⟨994, 1022, 994⟩, none, none⟩) 18446744073709551645 1030 exStore
        exSets2.2.2 = some (res, err, some it', r', kv') ∧
      (∀ e, res = some e → scanNeed it' < scanNeed ⟨⟨994, 1022, 994⟩, none, none⟩ ∧
        (it'.row.stop - it'.row.current).toNat ≤
          ((⟨⟨994, 1022, 994⟩, none, none⟩ : TimerIter).row.stop -
            (⟨⟨994, 1022, 994⟩, none, none⟩ : TimerIter).row.current).toNat ∧
        NoWrapIt r' kv'.docs it') ∧
      (res = none → err = none → Drained it')) ∧
    ∀ it1, Drained it1 → ∀ (fuel2 : Nat) (now2 : Int) (r2 : TimerStore) (kv2 : KV),
      2 ≤ fuel2 → ∃ it2 r3,
        ScanNext (some it1) fuel2 now2 r2 kv2 = some (none, none, some it2, r3, kv2) ∧
        Drained it2 ∧ it2.row = it1.row :=
  C31_scanNext_terminates 1030 18446744073709551645 ⟨⟨994, 1022, 994⟩, none, none⟩ exStore
    exSets2.2.2
    ⟨by decide, by decide, (by intro c h; cases h),
      Schema_roots_bounded exStore _ _ exSets2_schema (by decide)⟩
    (by decide)

/-- The symbols of `hash`: the first 26 encode the groups of six digest bits,
the last one the four remaining bits. -/
theorem hash_data_get (dg : Digest) (val : String) :
    (hash dg val).data.length = 27 ∧
    (∀ i, i < 26 →
      (hash dg val).data[i]? = some (dict.getD (accBits (dg val) (6 * i) 6) 'A')) ∧
    (hash dg val).data[26]? = some (dict.getD (accBits (dg val) 156 4) 'A') := by
  have h := hash_fold_inv (dg val) 160 (le_refl _)
  unfold HashInv at h
  obtain ⟨h1, h2, h3⟩ := h
  have e1 : 6 * (160 / 6) = 156 := by decide
  have e2 : 160 % 6 = 4 := by decide
  have e3 : 160 / 6 = 26 := by decide
  rw [e1, e2] at h2
  rw [e3] at h3
  have hdata : (hash dg val).data =
      ((List.range 160).foldl (hashStep (dg val))
        (List.replicate 27 (Char.ofNat 0), 0)).1.set 26
        (dict.getD ((List.range 160).foldl (hashStep (dg val))
          (List.replicate 27 (Char.ofNat 0), 0)).2 'A') := by
    simp only [hash]
  refine ⟨by rw [hdata, List.length_set, h1], ?_, ?_⟩
  · intro i hi
    rw [hdata, List.getElem?_set_ne (by omega), h3 i hi]
  · rw [hdata, List.getElem?_set_self (by rw [h1]; omega), h2]

theorem dict_inj : ∀ a, a < 64 → ∀ b, b < 64 → dict.getD a 'A' = dict.getD b 'A' → a = b := by
  decide

theorem accBits_inj (s s' : List Nat) (start : Nat) : ∀ k,
    accBits s start k = accBits s' start k →
    ∀ j, j < k → bitAt s (start + j) = bitAt s' (start + j) := by
  intro k
  induction k with
  | zero => intro _ j hj; omega
  | succ n ih =>
    intro h j hj
    rw [accBits, accBits] at h
    have b1 := bitAt_le s (start + n)
    have b2 := bitAt_le s' (start + n)
    have hacc : accBits s start n = accBits s' start n := by omega
    have hbit : bitAt s (start + n) = bitAt s' (start + n) := by omega
    rcases Nat.lt_succ_iff_lt_or_eq.1 hj with hlt | heq
    · exact ih hacc j hlt
    · rw [heq]; exact hbit

theorem byte_eq_of_bits (x y : Nat) (hx : x < 256) (hy : y < 256)
    (h : ∀ k, k < 8 → (x >>> k) &&& 1 = (y >>> k) &&& 1) : x = y := by
  have h0 := h 0 (by decide)
  have h1 := h 1 (by decide)
  have h2 := h 2 (by decide)
  have h3 := h 3 (by decide)
  have h4 := h 4 (by decide)
  have h5 := h 5 (by decide)
  have h6 := h 6 (by decide)
  have h7 := h 7 (by decide)
  simp only [Nat.shiftRight_eq_div_pow, Nat.and_one_is_mod] at h0 h1 h2 h3 h4 h5 h6 h7
  norm_num at h0 h1 h2 h3 h4 h5 h6 h7
  omega

/-- Two 20-byte digests with the same 160 bits are equal. -/
theorem digest_eq_of_bits (s s' : List Nat) (hs : IsDigest s) (hs' : IsDigest s')
    (h : ∀ pos, pos < 160 → bitAt s pos = bitAt s' pos) : s = s' := by
  obtain ⟨l1, b1⟩ := hs
  obtain ⟨l2, b2⟩ := hs'
  apply List.ext_getElem (by rw [l1, l2])
  intro i hi hi'
  apply byte_eq_of_bits _ _ (b1 _ (List.getElem_mem _)) (b2 _ (List.getElem_mem _))
  intro k hk
  have hb := h (8 * i + k) (by omega)
  unfold bitAt at hb
  have e1 : (8 * i + k) / 8 = i := by omega
  have e2 : (8 * i + k) % 8 = k := by omega
  rw [e1, e2, List.getD_eq_getElem _ _ hi, List.getD_eq_getElem _ _ hi'] at hb
  exact hb

/-- Equal `hash` strings come from digests with the same 160 bits. -/
theorem hash_bits (dg dg' : Digest) (val val' : String) (h : hash dg val = hash dg' val') :
    ∀ pos, pos < 160 → bitAt (dg val) pos = bitAt (dg' val') pos := by
  obtain ⟨_, g1, g2⟩ := hash_data_get dg val
  obtain ⟨_, g1', g2'⟩ := hash_data_get dg' val'
  rw [h] at g1 g2
  intro pos hpos
  by_cases hlt : pos / 6 < 26
  · have e := (g1 (pos / 6) hlt).symm.trans (g1' (pos / 6) hlt)
    simp only [Option.some.injEq] at e
    have := accBits_inj (dg val) (dg' val') (6 * (pos / 6)) 6
      (dict_inj _ (accBits_lt _ _ 6) _ (accBits_lt _ _ 6) e) (pos % 6)
      (Nat.mod_lt _ (by decide))
    have e2 : 6 * (pos / 6) + pos % 6 = pos := Nat.div_add_mod pos 6
    rw [e2] at this
    exact this
  · have e := g2.symm.trans g2'
    simp only [Option.some.injEq] at e
    have l1 := accBits_lt (dg val) 156 4
    have l2 := accBits_lt (dg' val') 156 4
    have := accBits_inj (dg val) (dg' val') 156 4
      (dict_inj _ (by omega) _ (by omega) e) (pos - 156) (by omega)
    have e2 : 156 + (pos - 156) = pos := by omega
    rw [e2] at this
    exact this

/-- C32: the re-encoding of a 20-byte digest into the 27 symbols of `hash` is
injective: for every two digests of 20 bytes, the `hash` strings are equal
exactly when the digests are equal, so digests that differ in one of their 160
bits give different strings; and two refs get the same context key, in one
store or in two, only if their digests are equal. -/
theorem C32_digest_encoding_injective (dg dg' : Digest) (val val' : String)
    (r r' : TimerStore) (hd : IsDigest (dg val)) (hd' : IsDigest (dg' val')) :
    (hash dg val = hash dg' val' ↔ dg val = dg' val') ∧
    ((∃ pos, pos < 160 ∧ bitAt (dg val) pos ≠ bitAt (dg' val') pos) →
      hash dg val ≠ hash dg' val') ∧
    (IsDigest (dg val') → r.kvLocatorContext dg val = r'.kvLocatorContext dg val' →
      dg val = dg val') := by
  have hinj : ∀ (d1 d2 : Digest) (v1 v2 : String), IsDigest (d1 v1) → IsDigest (d2 v2) →
      hash d1 v1 = hash d2 v2 → d1 v1 = d2 v2 := fun d1 d2 v1 v2 i1 i2 h =>
    digest_eq_of_bits _ _ i1 i2 (hash_bits d1 d2 v1 v2 h)
  refine ⟨⟨hinj dg dg' val val' hd hd', ?_⟩, ?_, ?_⟩
  · intro h
    unfold hash
    simp only [h]
  · rintro ⟨pos, hpos, hne⟩ h
    exact hne (hash_bits dg dg' val val' h pos hpos)
  · intro hv hk
    have hk2 := congrArg String.data hk
    rw [kvLocatorContext_glue, kvLocatorContext_glue] at hk2
    obtain ⟨e, _⟩ := glueR_strip _ _ _ _ _ _ (hash_no_colon dg val) (hash_no_colon dg val') hk2
    exact hinj dg dg val val' hd hv (String.ext e)

/-- Witness for `C32_digest_encoding_injective`: the digests of `"r1"` and
`"r2"` under `exDigest20` differ, and so do the `hash` strings. -/
theorem C32_digest_encoding_injective_witness :
    ((hash exDigest20 "r1" = hash exDigest20 "r2" ↔ exDigest20 "r1" = exDigest20 "r2") ∧
    ((∃ pos, pos < 160 ∧ bitAt (exDigest20 "r1") pos ≠ bitAt (exDigest20 "r2") pos) →
      hash exDigest20 "r1" ≠ hash exDigest20 "r2") ∧
    (IsDigest (exDigest20 "r2") →
      exStore.kvLocatorContext exDigest20 "r1" = exStoreLate.kvLocatorContext exDigest20 "r2" →
      exDigest20 "r1" = exDigest20 "r2")) ∧
    exDigest20 "r1" ≠ exDigest20 "r2" ∧ hash exDigest20 "r1" ≠ hash exDigest20 "r2" :=
  ⟨C32_digest_encoding_injective exDigest20 exDigest20 "r1" "r2" exStore exStoreLate
    ⟨by decide, by decide⟩ ⟨by decide, by decide⟩, by decide, by decide⟩

/-! ## Later KV states after a cancellation, and Delete after a late Set -/

theorem Quiet_refl (key : String) (docs : String → Option (Doc × Cas)) : Quiet key docs docs :=
  fun _ => Or.inl rfl

theorem Quiet_advance (key : String) (d : String → Option (Doc × Cas)) (kv : KV)
    (h : Quiet key d kv.docs) : Quiet key d kv.advance.docs := by
  rw [KV.advance_docs]; exact h

theorem Quiet_erase (key : String) (d : String → Option (Doc × Cas)) (kv : KV) (k0 : String)
    (h : Quiet key d kv.docs) : Quiet key d (kv.erase k0).docs := by
  intro k
  by_cases hk : k = k0
  · right; left; simp [KV.erase, hk]
  · have : (kv.erase k0).docs k = kv.docs k := by simp [KV.erase, hk]
    rw [this]; exact h k

theorem Quiet_write (key : String) (d : String → Option (Doc × Cas)) (kv : KV) (k0 : String)
    (v : Doc) (h : Quiet key d kv.docs) (h1 : k0 = key → ∀ x, v ≠ Doc.context x)
    (h2 : ∀ a, v = Doc.alarm a → a.ContextRef ≠ key) : Quiet key d (kv.write k0 v).docs := by
  intro k
  by_cases hk : k = k0
  · right; right
    exact ⟨v, kv.nextCas + 1, by simp [KV.write, hk], fun e => h1 (hk ▸ e), h2⟩
  · have : (kv.write k0 v).docs k = kv.docs k := by simp [KV.write, hk]
    rw [this]; exact h k

theorem MustGet_quiet {α : Type} (key : String) (d : String → Option (Doc × Cas))
    (dec : Doc → Option α) (kv : KV) (k0 : String) (out : α) (h : Quiet key d kv.docs) :
    Quiet key d (MustGet dec kv k0 out).2.2.2.2.docs := by
  rcases MustGet_cases dec kv k0 out with ⟨_, e⟩ | ⟨_, _, e⟩ | ⟨_, _, _, _, _, _, e⟩ |
    ⟨_, _, _, _, _, e⟩ <;> rw [e] <;> exact Quiet_advance key d kv h

theorem MustRemove_quiet (key : String) (d : String → Option (Doc × Cas)) (kv : KV)
    (k0 : String) (cas : Cas) (h : Quiet key d kv.docs) :
    Quiet key d (MustRemove kv k0 cas).2.2.2.2.docs := by
  unfold MustRemove
  split
  · exact Quiet_advance key d kv h
  · split
    · exact Quiet_advance key d kv h
    · split
      · exact Quiet_erase key d _ _ (Quiet_advance key d kv h)
      · exact Quiet_advance key d kv h

theorem MustCounter_quiet (key : String) (d : String → Option (Doc × Cas)) (kv : KV)
    (k0 : String) (delta init : Int) (h : Quiet key d kv.docs) :
    Quiet key d (MustCounter kv k0 delta init).2.2.2.docs := by
  have hw : ∀ v, Quiet key d (kv.advance.write k0 (Doc.counter v)).docs := fun v =>
    Quiet_write key d _ _ _ (Quiet_advance key d kv h) (fun _ x e => by cases e)
      (fun a e => by cases e)
  unfold MustCounter
  split
  · exact Quiet_advance key d kv h
  · split
    · exact hw _
    · exact hw _
    · exact Quiet_advance key d kv h

theorem MustUpsert_quiet (key : String) (d : String → Option (Doc × Cas)) (kv : KV)
    (k0 : String) (v : Doc) (h : Quiet key d kv.docs) (h1 : k0 = key → ∀ x, v ≠ Doc.context x)
    (h2 : ∀ a, v = Doc.alarm a → a.ContextRef ≠ key) :
    Quiet key d (MustUpsert kv k0 v).2.2.docs := by
  unfold MustUpsert
  split
  · exact Quiet_advance key d kv h
  · exact Quiet_write key d _ _ _ (Quiet_advance key d kv h) h1 h2

theorem MustInsert_quiet (key : String) (d : String → Option (Doc × Cas)) (kv : KV)
    (k0 : String) (v : Doc) (h : Quiet key d kv.docs) (h1 : k0 = key → ∀ x, v ≠ Doc.context x)
    (h2 : ∀ a, v = Doc.alarm a → a.ContextRef ≠ key) :
    Quiet key d (MustInsert kv k0 v).2.2.2.docs := by
  unfold MustInsert
  split
  · exact Quiet_advance key d kv h
  · split
    · exact Quiet_write key d _ _ _ (Quiet_advance key d kv h) h1 h2
    · exact Quiet_advance key d kv h

theorem MustReplace_quiet (key : String) (d : String → Option (Doc × Cas)) (kv : KV)
    (k0 : String) (v : Doc) (cas : Cas) (h : Quiet key d kv.docs)
    (h1 : k0 = key → ∀ x, v ≠ Doc.context x)
    (h2 : ∀ a, v = Doc.alarm a → a.ContextRef ≠ key) :
    Quiet key d (MustReplace kv k0 v cas).2.2.2.2.docs := by
  unfold MustReplace
  split
  · exact Quiet_advance key d kv h
  · split
    · exact Quiet_advance key d kv h
    · split
      · exact Quiet_write key d _ _ _ (Quiet_advance key d kv h) h1 h2
      · exact Quiet_advance key d kv h

/-- `Set` of a ref whose context key is not `key` is quiet about `key`,
whatever KV operation of it fails. -/
theorem Set_quiet (key : String) (d : String → Option (Doc × Cas)) (r : TimerStore)
    (dg : Digest) (kv : KV) (now due : Int) (ref ctx : String)
    (hne : r.kvLocatorContext dg ref ≠ key) (h : Quiet key d kv.docs) :
    Quiet key d (r.Set dg kv now due ref ctx).2.2.docs := by
  generalize hS : r.Set dg kv now due ref ctx = res
  unfold TimerStore.Set at hS
  simp only [] at hS
  generalize hr1 : (if decide (wrap64 (due - now) ≤ Resolution) = true then
      (r.addStat timerStats.addSetCounter).addStat timerStats.addTimerInPastCounter
      else r.addStat timerStats.addSetCounter) = r1 at hS
  have hu : r1.uid = r.uid := by subst hr1; split <;> rfl
  have hp : r1.partn = r.partn := by subst hr1; split <;> rfl
  rw [kvLocatorContext_congr r r1 hu hp] at hS
  generalize hC : MustCounter kv _ 1 init_seq = g at hS
  have q1 : Quiet key d g.2.2.2.docs := by rw [← hC]; exact MustCounter_quiet key d kv _ _ _ h
  obtain ⟨seq, c, err, kv1⟩ := g
  simp only [] at hS q1
  rcases err with _ | e
  · simp only [] at hS
    generalize hU : MustUpsert kv1 _ _ = g2 at hS
    have q2 : Quiet key d g2.2.2.docs := by
      rw [← hU]
      refine MustUpsert_quiet key d kv1 _ _ q1 (fun _ x e => by cases e) ?_
      intro a e
      simp only [Doc.alarm.injEq] at e
      rw [← e]
      exact hne
    obtain ⟨c2, err2, kv2⟩ := g2
    simp only [] at hS q2
    rcases err2 with _ | e2
    · simp only [] at hS
      generalize hV : MustUpsert kv2 _ _ = g3 at hS
      have q3 : Quiet key d g3.2.2.docs := by
        rw [← hV]
        exact MustUpsert_quiet key d kv2 _ _ q2 (fun e => absurd e hne) (fun a e => by cases e)
      obtain ⟨c3, err3, kv3⟩ := g3
      simp only [] at hS q3
      rcases err3 with _ | e3
      · simp only [] at hS; rw [← hS]; exact q3
      · simp only [] at hS; rw [← hS]; exact q3
    · simp only [] at hS; rw [← hS]; exact q2
  · simp only [] at hS; rw [← hS]; exact q1

/-- `Cancel` only removes documents. -/
theorem Cancel_quiet (key : String) (d : String → Option (Doc × Cas)) (r : TimerStore)
    (dg : Digest) (kv : KV) (ref : String) (h : Quiet key d kv.docs) :
    Quiet key d (r.Cancel dg kv ref).2.2.docs := by
  generalize hS : r.Cancel dg kv ref = res
  unfold TimerStore.Cancel at hS
  simp only [] at hS
  generalize hG : MustGet Doc.asContext kv _ _ = g at hS
  have q1 : Quiet key d g.2.2.2.2.docs := by rw [← hG]; exact MustGet_quiet key d _ kv _ _ h
  obtain ⟨c1, ab1, err1, rec1, kv1⟩ := g
  simp only [] at hS q1
  rcases err1 with _ | e1
  · simp only [] at hS
    split at hS
    · rw [← hS]; exact q1
    · generalize hR : MustRemove kv1 _ _ = g2 at hS
      have q2 : Quiet key d g2.2.2.2.2.docs := by
        rw [← hR]; exact MustRemove_quiet key d kv1 _ _ q1
      obtain ⟨c2, ab2, mm2, err2, kv2⟩ := g2
      simp only [] at hS q2
      rcases err2 with _ | e2
      · simp only [] at hS
        split at hS
        · rw [← hS]; exact q2
        · generalize hR3 : MustRemove kv2 _ _ = g3 at hS
          have q3 : Quiet key d g3.2.2.2.2.docs := by
            rw [← hR3]; exact MustRemove_quiet key d kv2 _ _ q2
          obtain ⟨c3, ab3, mm3, err3, kv3⟩ := g3
          simp only [] at hS q3
          rcases err3 with _ | e3
          · simp only [] at hS; rw [← hS]; exact q3
          · simp only [] at hS; rw [← hS]; exact q3
      · simp only [] at hS; rw [← hS]; exact q2
  · simp only [] at hS; rw [← hS]; exact q1

/-- `Delete` only removes documents. -/
theorem Delete_quiet (key : String) (d : String → Option (Doc × Cas)) (r : TimerStore)
    (kv : KV) (entry : TimerEntry) (h : Quiet key d kv.docs) :
    Quiet key d (r.Delete kv entry).2.2.docs := by
  generalize hS : r.Delete kv entry = res
  unfold TimerStore.Delete at hS
  simp only [] at hS
  generalize hR1 : MustRemove kv _ _ = g1 at hS
  have q1 : Quiet key d g1.2.2.2.2.docs := by
    rw [← hR1]; exact MustRemove_quiet key d kv _ _ h
  obtain ⟨c1, ab1, mm1, err1, kv1⟩ := g1
  simp only [] at hS q1
  rcases err1 with _ | e1
  · simp only [] at hS
    generalize hR2 : MustRemove kv1 _ _ = g2 at hS
    have q2 : Quiet key d g2.2.2.2.2.docs := by
      rw [← hR2]; exact MustRemove_quiet key d kv1 _ _ q1
    obtain ⟨c2, ab2, mm2, err2, kv2⟩ := g2
    simp only [] at hS q2
    rcases err2 with _ | e2
    · simp only [] at hS
      split at hS
      · rw [← hS]; exact q2
      · split at hS
        · rw [← hS]; exact q2
        · generalize hR3 : MustRemove kv2 _ _ = g3 at hS
          have q3 : Quiet key d g3.2.2.2.2.docs := by
            rw [← hR3]; exact MustRemove_quiet key d kv2 _ _ q2
          obtain ⟨c3, ab3, mm3, err3, kv3⟩ := g3
          simp only [] at hS q3
          rcases err3 with _ | e3
          · simp only [] at hS; rw [← hS]; exact q3
          · simp only [] at hS; rw [← hS]; exact q3
    · simp only [] at hS; rw [← hS]; exact q2
  · simp only [] at hS; rw [← hS]; exact q1

/-- `syncSpan` on a sequential KV writes nothing but a span record. -/
theorem syncSpan_quiet (key : String) (d : String → Option (Doc × Cas)) (r : TimerStore)
    (kv : KV) (now : Int) (h : Quiet key d kv.docs) :
    Quiet key d (r.syncSpan kv now id).2.2.docs := by
  have hi : ∀ (k : KV) (k0 : String) (s : Span), Quiet key d k.docs →
      Quiet key d (MustInsert (id k) k0 (Doc.span s)).2.2.2.docs := fun k k0 s hk =>
    MustInsert_quiet key d k k0 _ hk (fun _ x e => by cases e) (fun a e => by cases e)
  have hr : ∀ (k : KV) (k0 : String) (s : Span) (c : Cas), Quiet key d k.docs →
      Quiet key d (MustReplace (id k) k0 (Doc.span s) c).2.2.2.2.docs := fun k k0 s c hk =>
    MustReplace_quiet key d k k0 _ c hk (fun _ x e => by cases e) (fun a e => by cases e)
  obtain ⟨connstr, bucket, uid, partn, ⟨⟨S, T⟩, empty, dirty, scas⟩, stats⟩ := r
  unfold TimerStore.syncSpan
  cases dirty <;> cases empty
  · simp only [TimerStore.addStat, Bool.not_true, Bool.not_false, Bool.false_and, Bool.true_and,
      Bool.and_true, Bool.and_false, Bool.false_eq_true, if_false, if_true]
    exact h
  · simp only [TimerStore.addStat, Bool.not_true, Bool.not_false, Bool.false_and, Bool.true_and,
      Bool.and_true, Bool.and_false, Bool.false_eq_true, if_false, if_true]
    generalize hG : MustGet Doc.asSpan kv _ _ = g
    have q1 : Quiet key d g.2.2.2.2.docs := by rw [← hG]; exact MustGet_quiet key d _ kv _ _ h
    obtain ⟨rcas, absent, err, ext, kv1⟩ := g
    simp only [] at q1 ⊢
    rcases err with _ | e
    · simp only []
      repeat' split
      all_goals first
        | exact q1
        | exact hi kv1 _ _ q1
    · exact q1
  · simp only [TimerStore.addStat, Bool.not_true, Bool.not_false, Bool.false_and, Bool.true_and,
      Bool.and_true, Bool.and_false, Bool.false_eq_true, if_false, if_true]
    generalize hG : MustGet Doc.asSpan kv _ _ = g
    have q1 : Quiet key d g.2.2.2.2.docs := by rw [← hG]; exact MustGet_quiet key d _ kv _ _ h
    obtain ⟨rcas, absent, err, ext, kv1⟩ := g
    simp only [] at q1 ⊢
    rcases err with _ | e
    · simp only []
      repeat' split
      all_goals first
        | exact q1
        | exact hi kv1 _ _ q1
        | exact hr kv1 _ _ _ q1
    · exact q1
  · simp only [TimerStore.addStat, Bool.not_true, Bool.not_false, Bool.false_and, Bool.true_and,
      Bool.and_true, Bool.and_false, Bool.false_eq_true, if_false, if_true]
    generalize hG : MustGet Doc.asSpan kv _ _ = g
    have q1 : Quiet key d g.2.2.2.2.docs := by rw [← hG]; exact MustGet_quiet key d _ kv _ _ h
    obtain ⟨rcas, absent, err, ext, kv1⟩ := g
    simp only [] at q1 ⊢
    rcases err with _ | e
    · simp only []
      repeat' split
      all_goals first
        | exact q1
        | exact hi kv1 _ _ q1
    · exact q1

/-- A drained scan leaves the documents as they were. -/
theorem scanAll_docs (clk : Nat → Int) : ∀ (F : Nat) (it : Option TimerIter) (r : TimerStore)
    (kv : KV), (scanAll clk F it r kv).2.2.2.2.docs = kv.docs := by
  intro F
  induction F with
  | zero => intro it r kv; rfl
  | succ n ih =>
    intro it r kv
    rw [scanAll_succ]
    rcases hs : ScanNext it n (clk n) r kv with _ | ⟨res, err, it', r', kv'⟩
    · rfl
    · have hd : kv'.docs = kv.docs := by
        rcases it with _ | i
        · obtain ⟨_, _, _, _, e⟩ := ScanNext_nil n (clk n) r kv _ _ _ _ _ hs
          rw [e]
        · obtain ⟨_, _, _, hp⟩ := ScanNext_some i n (clk n) r kv _ _ _ _ _ hs
          exact hp.1
      rcases res with _ | e
      · rcases err with _ | er <;> exact hd
      · simp only []
        rw [ih it' r' kv', hd]

/-- Every later KV state differs from the first one only by removals and by
writes that do not bind `key`. -/
theorem Later_quiet (dg : Digest) (key : String) (kv kv' : KV) (h : Later dg key kv kv') :
    Quiet key kv.docs kv'.docs := by
  induction h with
  | start => exact Quiet_refl key kv.docs
  | set r now due ref ctx _ hne ih => exact Set_quiet key _ r dg _ now due ref ctx hne ih
  | cancel r ref _ ih => exact Cancel_quiet key _ r dg _ ref ih
  | delete r entry _ ih => exact Delete_quiet key _ r _ entry ih
  | sync r now _ ih => exact syncSpan_quiet key _ r _ now ih
  | scan r t clk fuel _ ih => rw [scanAll_docs]; exact ih
  | faults fs _ ih => exact ih

/-- Quiet changes do not bind a key that was not bound. -/
theorem Linked_of_quiet (key : String) (d d' : String → Option (Doc × Cas))
    (hq : Quiet key d d') (hl : Linked key d') : Linked key d := by
  obtain ⟨c, ccas, a, acas, h1, h2, h3⟩ := hl
  have e1 : d key = some (Doc.context c, ccas) := by
    rcases hq key with e | e | ⟨x, cx, e, hx, _⟩
    · rw [← e]; exact h1
    · rw [e] at h1; cases h1
    · rw [e] at h1
      simp only [Option.some.injEq, Prod.mk.injEq] at h1
      exact absurd h1.1 (hx rfl c)
  have e2 : d c.AlarmRef = some (Doc.alarm a, acas) := by
    rcases hq c.AlarmRef with e | e | ⟨x, cx, e, _, hx⟩
    · rw [← e]; exact h2
    · rw [e] at h2; cases h2
    · rw [e] at h2
      simp only [Option.some.injEq, Prod.mk.injEq] at h2
      exact absurd h3 (hx a h2.1)
  exact ⟨c, ccas, a, acas, e1, e2, h3⟩

/-- C2: on a sequential KV, after `Set(due, ref, ctx)` followed by an
error-free `Cancel(ref)`, in every later KV state (reached by any sequence of
`Set` of refs with another context key, `Cancel`, `Delete`, `syncSpan` and
drained scans, by any store, failing or not, so `ref` is not set again) no
scan started by `ScanDue` at any time on a store in any span state and
drained with `ScanNext` yields an entry whose `ContextRef` is
`kvLocatorContext(ref)`. -/
theorem C2_cancel_hides (r : TimerStore) (dg : Digest) (kv : KV) (now due : Int)
    (ref ctx : String) (hf : kv.faults = [])
    (r3 : TimerStore) (kv3 : KV) (t : Int) (clk : Nat → Int) (F : Nat)
    (hlater : Later dg (r.kvLocatorContext dg ref)
      ((r.Set dg kv now due ref ctx).2.1.Cancel dg (r.Set dg kv now due ref ctx).2.2 ref).2.2
      kv3)
    (p : Int × TimerEntry)
    (hmem : p ∈ (scanAll clk F (r3.ScanDue t).1 (r3.ScanDue t).2 kv3).1) :
    p.2.ContextRef ≠ r.kvLocatorContext dg ref := by
  intro hcx
  obtain ⟨⟨acas, h1⟩, h2, h3⟩ := scanAll_yielded clk F _ _ kv3 p hmem
  obtain ⟨hu, hp⟩ := Set_ident r dg kv now due ref ctx
  obtain ⟨_, _, _, heff⟩ := Cancel_effect (r.Set dg kv now due ref ctx).2.1 dg
    (r.Set dg kv now due ref ctx).2.2 ref (Set_faults_nil r dg kv now due ref ctx hf)
  rw [kvLocatorContext_congr r _ hu hp] at heff
  have hl3 : Linked (r.kvLocatorContext dg ref) kv3.docs := by
    unfold Linked
    refine ⟨p.2.toContextRecord, p.2.ctxCas, p.2.toAlarmRecord, acas, ?_, ?_, hcx⟩
    · rw [← hcx]; exact h2
    · have : p.2.toContextRecord.AlarmRef = p.2.AlarmRef := rfl
      rw [this, h3]; exact h1
  obtain ⟨c, ccas, a, acas', l1, l2, _⟩ :=
    Linked_of_quiet _ _ _ (Later_quiet dg _ _ kv3 hlater) hl3
  rcases heff with h | ⟨c', ccas', hc1, hc2⟩ | ⟨d, cas, hd1, hd2⟩
  · rw [h] at l1; cases l1
  · rw [hc1] at l1
    simp only [Option.some.injEq, Prod.mk.injEq, Doc.context.injEq] at l1
    rw [l1.1] at hc2
    rw [hc2] at l2; cases l2
  · rw [hd1] at l1
    simp only [Option.some.injEq, Prod.mk.injEq] at l1
    rw [l1.1] at hd2
    simp [Doc.asContext] at hd2

/-- Witness for `C2_cancel_hides`: with the timer `r2` in bucket 1008, `r1` is
set into the same bucket and cancelled, then `r3` is set into the bucket and
the span is synced; the scan at time 1009 yields the entry of `r2`, whose
`ContextRef` is not the context key of `r1`. -/
theorem C2_cancel_hides_witness :
    exEntry2.ContextRef ≠ exSet2.2.1.kvLocatorContext exDigest "r1" :=
  C2_cancel_hides exSet2.2.1 exDigest exSet2.2.2 1000 1001 "r1" "c1" (by decide)
    exLater21.2.1 exLater21.2.2 1009 (fun _ => 1009) 10
    (Later.sync _ 1010 (Later.set exCancel21.2.1 1000 1001 "r3" "c3" Later.start (by decide)))
    (1008, exEntry2) (by decide)

/-- C25 (failing input): after `Set("r1")` into bucket 1008 the scan at time
1009 yields the entry of `r1` with `topCas = 2`, the CAS of the root counter,
and its end-of-scan shrink leaves the span at `[1001, 1008]`. A `Set("r2")`
into the same bucket then advances the root counter to 129 under CAS 5.
`Delete` of the yielded entry removes the alarm and the context of `r1`; its
root removal meets the CAS mismatch (`alarmMissingCounter` becomes 1) and the
root counter stays, yet `span.Start` moves from 1001 to 1008. The timer of
`r2` is alive in row 1008, and the drained scans at times 1016 and 2000 yield
nothing, while the same scan from the span as it was before the `Delete`
yields it. -/
theorem C25_shrink_after_root_mismatch :
    exRun1.1 = [(1008, exEntry1)] ∧ exEntry1.topCas = 2 ∧
    exRun1.2.2.2.2.docs (exStore.kvLocatorRoot 1008) = some (Doc.counter 128, 2) ∧
    exLateSet.1 = none ∧
    exLateSet.2.2.docs (exStore.kvLocatorRoot 1008) = some (Doc.counter 129, 5) ∧
    exLateSet.2.1.span = ⟨⟨1001, 1008⟩, false, true, 1⟩ ∧
    exLateSet.2.1.stats.alarmMissingCounter = 0 ∧
    exLateDelete.1 = none ∧
    exLateDelete.2.1.stats.alarmMissingCounter = 1 ∧
    exLateDelete.2.2.docs (exStore.kvLocatorRoot 1008) = some (Doc.counter 129, 5) ∧
    exLateDelete.2.1.span = ⟨⟨1008, 1008⟩, false, true, 1⟩ ∧
    exLateDelete.2.2.docs (exStore.kvLocatorAlarm 1008 129) =
      some (Doc.alarm ⟨1008, exStore.kvLocatorContext exDigest "r2"⟩, 6) ∧
    exLateDelete.2.2.docs (exStore.kvLocatorContext exDigest "r2") =
      some (Doc.context ⟨"c2", exStore.kvLocatorAlarm 1008 129⟩, 7) ∧
    (exLateScan 1016).1 = [] ∧ (exLateScan 1016).2.1 = ScanEnd.exhausted ∧
    (exLateScan 2000).1 = [] ∧ (exLateScan 2000).2.1 = ScanEnd.exhausted ∧
    exLateScanKept.1.map (fun p => (p.1, p.2.alarmSeq, p.2.Context)) = [(1008, 129, "c2")] := by
  decide

end Timers
